import Mathlib

/-!
# Service simulator (ss.cpp): shallow embedding and verified properties

The development embeds the parts of `ss.cpp` that the verified properties talk about:

* `Message` with its wire format (`Serialize` / `Deserialize`);
* the configuration model (`ExecutionStep`, `Service`, `ServiceMethod`, `Client`,
  `ServiceConfiguration`) with the structural validator `CheckServiceConfiguration`;
* the random scenario generator `ServiceConfigurationRandomGenerator`;
* the discrete-event scheduler interface and the client endpoint state machine
  `UdpClientMessageEndpoint`;
* the reply logic of `ServiceRequestTask`.

Conventions: `uint32_t` values are natural numbers, reduced modulo `2 ^ 32` where the
source can overflow; `std::map` is a key-sorted association list whose `insert` never
overwrites; objects held through `Ptr<>` and shared between owners live in an arena and
are referred to by index; `NS_ASSERT` failures, null dereferences and the dereference of
the `end ()` iterator of a map (a lookup of an absent key through `find (key)->second`)
have no defined result and are `none`.
-/

namespace SS

/-! ## Messaging layer: `Message` -/

/-- Two to the power 32, the modulus of `uint32_t`. -/
def U32 : Nat := 4294967296

/-- The class `Message`: ten `uint32_t` fields. -/
structure Message where
  m_messageType : Nat
  m_messageId : Nat
  m_relatedToMessageId : Nat
  m_conversationId : Nat
  m_srcNode : Nat
  m_srcService : Nat
  m_destNode : Nat
  m_destService : Nat
  m_destMethod : Nat
  m_size : Nat
  deriving DecidableEq, Repr

namespace Message

/-- Enumerator `MTRequest = 1`. -/
def MTRequest : Nat := 1
/-- Enumerator `MTResponse = 2`. -/
def MTResponse : Nat := 2
/-- Enumerator `MTResponseException = 3`. -/
def MTResponseException : Nat := 3
/-- Enumerator `MTACK = 4`. -/
def MTACK : Nat := 4

/-- Constant `ACK_MESSAGE_SIZE`. -/
def ACK_MESSAGE_SIZE : Nat := 100
/-- Constant `RESPONSE_EXCEPTION_MESSAGE_SIZE`. -/
def RESPONSE_EXCEPTION_MESSAGE_SIZE : Nat := 100

/-- The default constructor `Message ()`. -/
def new : Message :=
  { m_messageType := MTRequest, m_messageId := 0, m_relatedToMessageId := 0,
    m_conversationId := 0, m_srcNode := 0, m_srcService := 0, m_destNode := 0,
    m_destService := 0, m_destMethod := 0, m_size := 0 }

/-- Every field is a value of `uint32_t`. -/
def InRange (m : Message) : Prop :=
  m.m_messageType < U32 ∧ m.m_messageId < U32 ∧ m.m_relatedToMessageId < U32 ∧
  m.m_conversationId < U32 ∧ m.m_srcNode < U32 ∧ m.m_srcService < U32 ∧
  m.m_destNode < U32 ∧ m.m_destService < U32 ∧ m.m_destMethod < U32 ∧ m.m_size < U32

instance (m : Message) : Decidable m.InRange := by
  unfold InRange; infer_instance

end Message

/-- The ns-3 `Buffer::Iterator::WriteU32`: appends the four bytes of `data`, least
significant byte first, at the write position (the end of what was written so far). -/
def WriteU32 (start : List Nat) (data : Nat) : List Nat :=
  start ++ [data % 256, data / 256 % 256, data / 65536 % 256, data / 16777216 % 256]

/-- The ns-3 `Buffer::Iterator::ReadU32`: reads four bytes, least significant first, and
advances the iterator; `none` when fewer than four bytes are left. -/
def ReadU32 : List Nat → Option (Nat × List Nat)
  | b0 :: b1 :: b2 :: b3 :: rest =>
      some (b0 % 256 + 256 * (b1 % 256) + 65536 * (b2 % 256) + 16777216 * (b3 % 256), rest)
  | _ => none

namespace Message

/-- The method `Message::Serialize`: ten `WriteU32` calls in field order. -/
def Serialize (m : Message) (start : List Nat) : List Nat :=
  let start := WriteU32 start m.m_messageType
  let start := WriteU32 start m.m_messageId
  let start := WriteU32 start m.m_relatedToMessageId
  let start := WriteU32 start m.m_conversationId
  let start := WriteU32 start m.m_srcNode
  let start := WriteU32 start m.m_srcService
  let start := WriteU32 start m.m_destNode
  let start := WriteU32 start m.m_destService
  let start := WriteU32 start m.m_destMethod
  WriteU32 start m.m_size

/-- The method `Message::Deserialize`: ten `ReadU32` calls overwrite the ten fields of the
receiver; the return value is the constant 40. -/
def Deserialize (_self : Message) (start : List Nat) : Option (Message × Nat) := do
  let (messageType, start) ← ReadU32 start
  let (messageId, start) ← ReadU32 start
  let (relatedToMessageId, start) ← ReadU32 start
  let (conversationId, start) ← ReadU32 start
  let (srcNode, start) ← ReadU32 start
  let (srcService, start) ← ReadU32 start
  let (destNode, start) ← ReadU32 start
  let (destService, start) ← ReadU32 start
  let (destMethod, start) ← ReadU32 start
  let (size, _) ← ReadU32 start
  pure ({ m_messageType := messageType, m_messageId := messageId,
          m_relatedToMessageId := relatedToMessageId, m_conversationId := conversationId,
          m_srcNode := srcNode, m_srcService := srcService, m_destNode := destNode,
          m_destService := destService, m_destMethod := destMethod, m_size := size }, 40)

end Message

/-! ## Basic types of the configuration model -/

/-- The ns-3 `Time`: a signed number of nanoseconds. -/
abbrev Time := Int

/-- The ns-3 `MilliSeconds (n)`. -/
def MilliSeconds (n : Int) : Time := n * 1000000

/-- The ns-3 `Time::GetMilliSeconds`: integer division truncating towards zero. -/
def Time.GetMilliSeconds (t : Time) : Int := Int.tdiv t 1000000

/-- A C++ `double`. Only the order and the test against zero of such values are used by the
embedded code, so they are kept exactly, as fixed-point numbers counted in millionths. -/
abbrev Double := Int

/-- The double `1.0`. -/
def Double.one : Double := 1000000

/-- The double with the integral value `n` (for literals such as `100` and `0`). -/
def Double.ofNat (n : Nat) : Double := (n : Int) * 1000000

/-- The ns-3 `RandomVariable`, reduced to a descriptor: the values it yields are taken from
the stream of draws `Rng`, so that every outcome of the draws is covered. -/
structure RandomVariable where
  tag : Nat
  deriving DecidableEq, Repr

/-- The outcomes of the random draws still to come: `values` for `GetValue ()` calls,
`integers` for `GetInteger ()` calls, each in call order. An exhausted stream yields 0. -/
structure Rng where
  values : List Double
  integers : List Nat
  deriving DecidableEq, Repr

/-- The call `RandomVariable::GetValue ()`: the next draw of a double. -/
def RandomVariable.GetValue (_rv : RandomVariable) (rng : Rng) : Double × Rng :=
  (rng.values.headD 0, { rng with values := rng.values.tail })

/-- The call `RandomVariable::GetInteger ()`: the next draw of a `uint32_t`. -/
def RandomVariable.GetInteger (_rv : RandomVariable) (rng : Rng) : Nat × Rng :=
  (rng.integers.headD 0 % U32, { rng with integers := rng.integers.tail })

/-- The container `std::map<uint32_t, T>` as an association list in key order:
`find`, giving `none` for `end ()`. -/
def mapFind {α : Type} : List (Nat × α) → Nat → Option α
  | [], _ => none
  | (k, v) :: rest, key => if k = key then some v else mapFind rest key

/-- The call `std::map::insert (pair (key, value))`: keeps the key order and leaves the map
as it is when the key is already present. -/
def mapInsert {α : Type} : List (Nat × α) → Nat → α → List (Nat × α)
  | [], key, value => [(key, value)]
  | (k, v) :: rest, key, value =>
      if key < k then (key, value) :: (k, v) :: rest
      else if key = k then (k, v) :: rest
      else (k, v) :: mapInsert rest key value

/-- Overwrites the value stored under an existing key (a write through the pointer that
the map holds); a map without the key is left as it is. -/
def mapUpdate {α : Type} : List (Nat × α) → Nat → α → List (Nat × α)
  | [], _, _ => []
  | (k, v) :: rest, key, value =>
      if k = key then (k, value) :: rest else (k, v) :: mapUpdate rest key value

/-! ## Fault models (configuration data) -/

/-- The class hierarchy below `FaultModel`, as a closed variant type holding the member
variables of each class. -/
inductive FaultModel where
  | CompositeFaultModel (m_isEnabled : Bool) (m_faultModels : List FaultModel)
  | SingleRateFaultModel (m_isEnabled m_isGeneratingException : Bool) (m_rate : Double)
      (m_ranvar : RandomVariable)
  | AbsoluteTimeFaultModel (m_isEnabled m_isGeneratingException : Bool) (m_from m_to : Time)
  | OnOffTimeFaultModel (m_isEnabled m_isGeneratingException : Bool) (m_state : Bool)
      (m_offRanvar m_onRanvar : RandomVariable)
  | OnOffRateFaultModel (m_isEnabled m_isGeneratingException : Bool) (m_state : Bool)
      (m_offRate : Double) (m_offRanvar : RandomVariable) (m_onRate : Double)
      (m_onRanvar : RandomVariable)

namespace FaultModel

/-- The method `FaultModel::IsEnabled`. -/
def IsEnabled : FaultModel → Bool
  | CompositeFaultModel m_isEnabled _ => m_isEnabled
  | SingleRateFaultModel m_isEnabled _ _ _ => m_isEnabled
  | AbsoluteTimeFaultModel m_isEnabled _ _ _ => m_isEnabled
  | OnOffTimeFaultModel m_isEnabled _ _ _ _ => m_isEnabled
  | OnOffRateFaultModel m_isEnabled _ _ _ _ _ _ => m_isEnabled

mutual

/-- The virtual method `IsCorruptQuery` of the five classes. The argument
`isGeneratingException` is the value of the caller's variable passed by reference, `now` is
`Simulator::Now ()`; the result holds the return value, the new value of the caller's
variable, the fault model with its member variables after the call, and the draws left. -/
def IsCorruptQuery (self : FaultModel) (now : Time) (rng : Rng)
    (isGeneratingException : Bool) : Bool × Bool × FaultModel × Rng :=
  match self with
  | CompositeFaultModel m_isEnabled m_faultModels =>
      let (isCorrupt, isGeneratingException, m_faultModels, rng) :=
        IsCorruptQuery.loop m_faultModels now rng isGeneratingException
      (isCorrupt, isGeneratingException, CompositeFaultModel m_isEnabled m_faultModels, rng)
  | SingleRateFaultModel m_isEnabled m_isGeneratingException m_rate m_ranvar =>
      let (value, rng) := m_ranvar.GetValue rng
      (decide (value < m_rate), m_isGeneratingException,
        SingleRateFaultModel m_isEnabled m_isGeneratingException m_rate m_ranvar, rng)
  | AbsoluteTimeFaultModel m_isEnabled m_isGeneratingException m_from m_to =>
      (decide (m_from ≥ now) && decide (m_to ≤ now), m_isGeneratingException,
        AbsoluteTimeFaultModel m_isEnabled m_isGeneratingException m_from m_to, rng)
  | OnOffTimeFaultModel m_isEnabled m_isGeneratingException m_state m_offRanvar m_onRanvar =>
      (m_state, m_isGeneratingException,
        OnOffTimeFaultModel m_isEnabled m_isGeneratingException m_state m_offRanvar m_onRanvar,
        rng)
  | OnOffRateFaultModel m_isEnabled m_isGeneratingException m_state m_offRate m_offRanvar
      m_onRate m_onRanvar =>
      let (changeState, rng) :=
        if m_state then
          let (value, rng) := m_onRanvar.GetValue rng
          (decide (value < m_onRate), rng)
        else
          let (value, rng) := m_offRanvar.GetValue rng
          (decide (value < m_offRate), rng)
      let m_state := if changeState then !m_state else m_state
      (m_state, m_isGeneratingException,
        OnOffRateFaultModel m_isEnabled m_isGeneratingException m_state m_offRate m_offRanvar
          m_onRate m_onRanvar, rng)

/-- The loop of `CompositeFaultModel::IsCorruptQuery` over the rest of `m_faultModels`. The
call `faultModel->IsCorrupt (isGeneratingException)` on an enabled sub-model is its
`IsCorruptQuery`. -/
def IsCorruptQuery.loop (m_faultModels : List FaultModel) (now : Time) (rng : Rng)
    (isGeneratingException : Bool) : Bool × Bool × List FaultModel × Rng :=
  match m_faultModels with
  | [] => (false, false, [], rng)
  | faultModel :: rest =>
      if faultModel.IsEnabled then
        let (isCorrupt, isGeneratingException, faultModel, rng) :=
          IsCorruptQuery faultModel now rng isGeneratingException
        if isCorrupt then (true, isGeneratingException, faultModel :: rest, rng)
        else
          let (isCorrupt, isGeneratingException, rest, rng) :=
            IsCorruptQuery.loop rest now rng isGeneratingException
          (isCorrupt, isGeneratingException, faultModel :: rest, rng)
      else
        let (isCorrupt, isGeneratingException, rest, rng) :=
          IsCorruptQuery.loop rest now rng isGeneratingException
        (isCorrupt, isGeneratingException, faultModel :: rest, rng)

end

/-- The method `FaultModel::IsCorrupt`. -/
def IsCorrupt (self : FaultModel) (now : Time) (rng : Rng) (isGeneratingException : Bool) :
    Bool × Bool × FaultModel × Rng :=
  if !self.IsEnabled then (false, isGeneratingException, self, rng)
  else self.IsCorruptQuery now rng isGeneratingException

end FaultModel

/-- The claim about `CompositeFaultModel::IsCorruptQuery` in its own words: the sub-models
are gone through in insertion order, starting with the draws `rng` and the flag
`isGeneratingException`; a disabled sub-model is not queried; an enabled one is queried, and
the first that reports corrupt ends the run with the flag it set, the sub-models after it
not being queried. The outcome is `some flag` for such a first positive sub-model and `none`
when no enabled sub-model reports corrupt. -/
inductive CompositeFaultModel.QueriedInOrder (now : Time) :
    List FaultModel → Rng → Bool → List FaultModel → Rng → Option Bool → Prop where
  | nonePositive (rng : Rng) (isGeneratingException : Bool) :
      QueriedInOrder now [] rng isGeneratingException [] rng none
  | disabledNotQueried (faultModel : FaultModel) (rest rest2 : List FaultModel)
      (rng rng2 : Rng) (isGeneratingException : Bool) (outcome : Option Bool) :
      faultModel.IsEnabled = false →
      QueriedInOrder now rest rng isGeneratingException rest2 rng2 outcome →
      QueriedInOrder now (faultModel :: rest) rng isGeneratingException
        (faultModel :: rest2) rng2 outcome
  | negative (faultModel faultModel1 : FaultModel) (rest rest2 : List FaultModel)
      (rng rng1 rng2 : Rng) (isGeneratingException flag1 : Bool) (outcome : Option Bool) :
      faultModel.IsEnabled = true →
      faultModel.IsCorrupt now rng isGeneratingException = (false, flag1, faultModel1, rng1) →
      QueriedInOrder now rest rng1 flag1 rest2 rng2 outcome →
      QueriedInOrder now (faultModel :: rest) rng isGeneratingException
        (faultModel1 :: rest2) rng2 outcome
  | firstPositive (faultModel faultModel1 : FaultModel) (rest : List FaultModel)
      (rng rng1 : Rng) (isGeneratingException flag1 : Bool) :
      faultModel.IsEnabled = true →
      faultModel.IsCorrupt now rng isGeneratingException = (true, flag1, faultModel1, rng1) →
      QueriedInOrder now (faultModel :: rest) rng isGeneratingException
        (faultModel1 :: rest) rng1 (some flag1)

/-! ## Configuration model -/

/-- The class `ExecutionStep`. -/
structure ExecutionStep where
  m_contractId : Nat
  m_contractMethodId : Nat
  m_requestSize : RandomVariable
  m_stepProbability : Double
  deriving DecidableEq, Repr

/-- The constructor `ExecutionStep::ExecutionStep` with its three assertions. -/
def ExecutionStep.new (contractId contractMethodId : Nat) (requestSize : RandomVariable)
    (stepProbability : Double) : Option ExecutionStep :=
  if contractId ≠ 0 ∧ contractMethodId ≠ 0 ∧ stepProbability ≠ 0 then
    some { m_contractId := contractId, m_contractMethodId := contractMethodId,
           m_requestSize := requestSize, m_stepProbability := stepProbability }
  else none

/-- The class `ExecutionPlan`: the vector of steps. -/
structure ExecutionPlan where
  m_executionSteps : List ExecutionStep
  deriving DecidableEq, Repr

/-- The method `ExecutionPlan::GetExecutionStepsCount`. -/
def ExecutionPlan.GetExecutionStepsCount (plan : ExecutionPlan) : Nat :=
  plan.m_executionSteps.length

/-- The method `ExecutionPlan::AddExecutionStep`: construct the step, `push_back`. -/
def ExecutionPlan.AddExecutionStep (plan : ExecutionPlan) (contractId contractMethodId : Nat)
    (requestSize : RandomVariable) (stepProbability : Double) : Option ExecutionPlan := do
  let executionStep ← ExecutionStep.new contractId contractMethodId requestSize stepProbability
  pure { m_executionSteps := plan.m_executionSteps ++ [executionStep] }

/-- The class `ServiceExecutionPlan`. -/
structure ServiceExecutionPlan extends ExecutionPlan where
  m_planPreExeDelay : RandomVariable
  m_planPostExeDelay : RandomVariable
  m_stepPostExeDelay : RandomVariable
  m_postPlanErrorDelay : RandomVariable
  deriving DecidableEq, Repr

/-- The class `ClientExecutionPlan`. -/
structure ClientExecutionPlan extends ExecutionPlan where
  m_requestRate : RandomVariable
  m_afterFailureWaitingPeriod : RandomVariable
  deriving DecidableEq, Repr

/-- The class `ServiceBase`. -/
structure ServiceBase where
  m_serviceId : Nat
  m_startTime : Time
  m_stopTime : Time
  m_responseTimeout : Time
  m_ACKTimeout : Time
  m_retransmissionLimit : Nat
  m_msgIdLifetime : Time
  deriving DecidableEq, Repr

/-- The constructor `ServiceBase::ServiceBase` with its seven assertions. -/
def ServiceBase.new (serviceId : Nat) (startTime stopTime responseTimeout ACKTimeout : Time)
    (retransmissionLimit : Nat) (msgIdLifetime : Time) : Option ServiceBase :=
  if serviceId ≠ 0 ∧ startTime.GetMilliSeconds ≠ 0 ∧ stopTime.GetMilliSeconds ≠ 0 ∧
      responseTimeout.GetMilliSeconds ≠ 0 ∧ ACKTimeout.GetMilliSeconds ≠ 0 ∧
      retransmissionLimit ≠ 0 ∧ msgIdLifetime.GetMilliSeconds ≠ 0 then
    some { m_serviceId := serviceId, m_startTime := startTime, m_stopTime := stopTime,
           m_responseTimeout := responseTimeout, m_ACKTimeout := ACKTimeout,
           m_retransmissionLimit := retransmissionLimit, m_msgIdLifetime := msgIdLifetime }
  else none

/-- The class `Client`. A client and its plan are created by `AddClient`, are held by the
map of clients only and are changed only through that map, so the plan is kept in place. -/
structure Client extends ServiceBase where
  m_executionPlan : ClientExecutionPlan
  deriving DecidableEq, Repr

/-- Address of a `Service` object: its index in the arena of the configuration. -/
abbrev ServiceRef := Nat

/-- Address of a `ServiceExecutionPlan` object: its index in the arena of plans. -/
abbrev PlanRef := Nat

/-- The class `ServiceMethod`: the owning service and the plan are pointers. -/
structure ServiceMethod where
  m_contractMethodId : Nat
  m_service : ServiceRef
  m_responseSize : RandomVariable
  m_faultModel : FaultModel
  m_executionPlan : PlanRef

/-- The constructor `ServiceMethod::ServiceMethod`; of its assertions only the one on the
method id can fail, the pointers being non-null by their type here. The fault model is
cloned, a copy by value. -/
def ServiceMethod.new (contractMethodId : Nat) (service : ServiceRef)
    (responseSize : RandomVariable) (faultModel : FaultModel) (executionPlan : PlanRef) :
    Option ServiceMethod :=
  if contractMethodId ≠ 0 then
    some { m_contractMethodId := contractMethodId, m_service := service,
           m_responseSize := responseSize, m_faultModel := faultModel,
           m_executionPlan := executionPlan }
  else none

/-- The method `ServiceMethod::CreateReplica`: same method id, response size, fault model
and plan pointer, new owning service. -/
def ServiceMethod.CreateReplica (self : ServiceMethod) (newService : ServiceRef) :
    Option ServiceMethod :=
  ServiceMethod.new self.m_contractMethodId newService self.m_responseSize self.m_faultModel
    self.m_executionPlan

/-- The class `Service`. -/
structure Service extends ServiceBase where
  m_contractId : Nat
  m_faultModel : FaultModel
  m_methods : List (Nat × ServiceMethod)
  m_postErrorDelay : RandomVariable

/-- The constructor `Service::Service`: the base constructor, then the assertion on the
contract id. -/
def Service.new (serviceId : Nat) (startTime stopTime responseTimeout ACKTimeout : Time)
    (retransmissionLimit : Nat) (msgIdLifetime : Time) (contractId : Nat)
    (faultModel : FaultModel) (postErrorDelay : RandomVariable) : Option Service := do
  let base ← ServiceBase.new serviceId startTime stopTime responseTimeout ACKTimeout
    retransmissionLimit msgIdLifetime
  if contractId ≠ 0 then
    pure { toServiceBase := base, m_contractId := contractId, m_faultModel := faultModel,
           m_methods := [], m_postErrorDelay := postErrorDelay }
  else none

/-- The method `Service::GetMethod`: `m_methods.find (id)->second`. The source does not test
the iterator for `end ()`, so that the lookup of an absent id is undefined: `none`. -/
def Service.GetMethod (self : Service) (methodContractId : Nat) : Option ServiceMethod :=
  mapFind self.m_methods methodContractId

/-- The loop of `Service::CreateReplica` over `m_methods`: each method is replicated for
the new service (at address `newRef`) and inserted into the map of the new service. -/
def Service.CreateReplica.loop (newRef : ServiceRef) :
    List (Nat × ServiceMethod) → Service → Option Service
  | [], service => some service
  | (_, method) :: rest, service => do
      let method ← method.CreateReplica newRef
      Service.CreateReplica.loop newRef rest
        { service with
          m_methods := mapInsert service.m_methods method.m_contractMethodId method }

/-- The method `Service::CreateReplica`; `newRef` is the address the new object gets. -/
def Service.CreateReplica (self : Service) (newServiceId : Nat) (newRef : ServiceRef) :
    Option Service := do
  let service ← Service.new newServiceId self.m_startTime self.m_stopTime
    self.m_responseTimeout self.m_ACKTimeout self.m_retransmissionLimit self.m_msgIdLifetime
    self.m_contractId self.m_faultModel self.m_postErrorDelay
  Service.CreateReplica.loop newRef self.m_methods service

/-- The method `Service::AddMethod`; `selfRef` is the address of the receiver. Returns the
changed receiver and the method object created. -/
def Service.AddMethod (self : Service) (selfRef : ServiceRef) (contractMethodId : Nat)
    (responseSize : RandomVariable) (faultModel : FaultModel) (executionPlan : PlanRef) :
    Option (Service × ServiceMethod) := do
  if contractMethodId = 0 then none
  let method ← ServiceMethod.new contractMethodId selfRef responseSize faultModel executionPlan
  pure ({ self with m_methods := mapInsert self.m_methods contractMethodId method }, method)

/-- The class `ServiceConfiguration`. The `Service` and `ServiceExecutionPlan` objects live in
two arenas (`serviceObjects`, `planObjects`); the maps `m_services` and `m_contracts` hold
addresses of services, as in the source, where both hold `Ptr<Service>`. -/
structure ServiceConfiguration where
  serviceObjects : List Service
  planObjects : List ServiceExecutionPlan
  m_services : List (Nat × ServiceRef)
  m_contracts : List (Nat × ServiceRef)
  m_clients : List (Nat × Client)
  m_deployClientsRandomly : Bool

namespace ServiceConfiguration

/-- The constructor `ServiceConfiguration::ServiceConfiguration`. -/
def new : ServiceConfiguration :=
  { serviceObjects := [], planObjects := [], m_services := [], m_contracts := [],
    m_clients := [], m_deployClientsRandomly := true }

/-- Dereference of a `Ptr<Service>`. -/
def service (cfg : ServiceConfiguration) (ref : ServiceRef) : Option Service :=
  cfg.serviceObjects[ref]?

/-- Dereference of a `Ptr<ServiceExecutionPlan>`. -/
def plan (cfg : ServiceConfiguration) (ref : PlanRef) : Option ServiceExecutionPlan :=
  cfg.planObjects[ref]?

/-- The method `GetService`: `m_services.find (serviceId)->second`. The source does not test
the iterator for `end ()`, so that the lookup of an absent id is undefined: `none`. -/
def GetService (cfg : ServiceConfiguration) (serviceId : Nat) : Option ServiceRef :=
  mapFind cfg.m_services serviceId

/-- The method `GetContract`: `m_contracts.find (contractId)->second`. The source does not
test the iterator for `end ()`, so that the lookup of an absent id is undefined: `none`. -/
def GetContract (cfg : ServiceConfiguration) (contractId : Nat) : Option ServiceRef :=
  mapFind cfg.m_contracts contractId

/-- The method `GetClient`: `m_clients.find (clientId)->second`. The source does not test
the iterator for `end ()`, so that the lookup of an absent id is undefined: `none`. -/
def GetClient (cfg : ServiceConfiguration) (clientId : Nat) : Option Client :=
  mapFind cfg.m_clients clientId

/-- The method `SetDeployClientsRandomly`. -/
def SetDeployClientsRandomly (cfg : ServiceConfiguration) (value : Bool) :
    ServiceConfiguration :=
  { cfg with m_deployClientsRandomly := value }

/-- The method `AddService`. -/
def AddService (cfg : ServiceConfiguration) (serviceId : Nat)
    (startTime stopTime responseTimeout ACKTimeout : Time) (retransmissionLimit : Nat)
    (msgIdLifetime : Time) (contractId : Nat) (faultModel : FaultModel)
    (postErrorDelay : RandomVariable) : Option ServiceConfiguration := do
  if serviceId = 0 ∨ contractId = 0 then none
  let service ← Service.new serviceId startTime stopTime responseTimeout ACKTimeout
    retransmissionLimit msgIdLifetime contractId faultModel postErrorDelay
  let ref := cfg.serviceObjects.length
  pure { cfg with
    serviceObjects := cfg.serviceObjects ++ [service]
    m_services := mapInsert cfg.m_services serviceId ref
    m_contracts := mapInsert cfg.m_contracts contractId ref }

/-- The method `AddServiceReplica`. -/
def AddServiceReplica (cfg : ServiceConfiguration) (serviceId newServiceId : Nat) :
    Option ServiceConfiguration := do
  if serviceId = 0 ∨ newServiceId = 0 then none
  let ref ← cfg.GetService serviceId
  let service ← cfg.service ref
  let newRef := cfg.serviceObjects.length
  let newService ← service.CreateReplica newServiceId newRef
  pure { cfg with
    serviceObjects := cfg.serviceObjects ++ [newService]
    m_services := mapInsert cfg.m_services newServiceId newRef
    m_contracts := mapInsert cfg.m_contracts newService.m_contractId newRef }

/-- The method `AddServiceMethod`; returns the method object as well. -/
def AddServiceMethod (cfg : ServiceConfiguration) (serviceId contractMethodId : Nat)
    (responseSize : RandomVariable) (faultModel : FaultModel)
    (planPreExeDelay planPostExeDelay stepPostExeDelay postPlanErrorDelay : RandomVariable) :
    Option (ServiceConfiguration × ServiceMethod) := do
  if serviceId = 0 ∨ contractMethodId = 0 then none
  let ref ← cfg.GetService serviceId
  let planRef := cfg.planObjects.length
  let plan : ServiceExecutionPlan :=
    { m_executionSteps := [], m_planPreExeDelay := planPreExeDelay,
      m_planPostExeDelay := planPostExeDelay, m_stepPostExeDelay := stepPostExeDelay,
      m_postPlanErrorDelay := postPlanErrorDelay }
  let service ← cfg.service ref
  let (service, method) ← service.AddMethod ref contractMethodId responseSize faultModel planRef
  pure ({ cfg with
    serviceObjects := cfg.serviceObjects.set ref service
    planObjects := cfg.planObjects ++ [plan] }, method)

/-- The method `AddServiceExecutionStep`. -/
def AddServiceExecutionStep (cfg : ServiceConfiguration) (serviceId contractMethodId
    destContractId destContractMethodId : Nat) (requestSize : RandomVariable)
    (stepProbability : Double) : Option ServiceConfiguration := do
  if serviceId = 0 ∨ contractMethodId = 0 ∨ destContractId = 0 ∨ destContractMethodId = 0 ∨
      stepProbability = 0 then none
  let ref ← cfg.GetService serviceId
  let service ← cfg.service ref
  let method ← service.GetMethod contractMethodId
  let plan ← cfg.plan method.m_executionPlan
  let steps ← plan.toExecutionPlan.AddExecutionStep destContractId destContractMethodId
    requestSize stepProbability
  pure { cfg with
    planObjects := cfg.planObjects.set method.m_executionPlan
      { plan with toExecutionPlan := steps } }

/-- The method `AddClient`. -/
def AddClient (cfg : ServiceConfiguration) (clientId : Nat)
    (startTime stopTime responseTimeout ACKTimeout : Time) (retransmissionLimit : Nat)
    (msgIdLifetime : Time) (planRequestRate afterFailureWaitingPeriod : RandomVariable) :
    Option ServiceConfiguration := do
  if clientId = 0 then none
  let plan : ClientExecutionPlan :=
    { m_executionSteps := [], m_requestRate := planRequestRate,
      m_afterFailureWaitingPeriod := afterFailureWaitingPeriod }
  let base ← ServiceBase.new clientId startTime stopTime responseTimeout ACKTimeout
    retransmissionLimit msgIdLifetime
  let client : Client := { toServiceBase := base, m_executionPlan := plan }
  pure { cfg with m_clients := mapInsert cfg.m_clients clientId client }

/-- The method `AddClientExecutionStep`. -/
def AddClientExecutionStep (cfg : ServiceConfiguration) (clientId destContractId
    destContractMethodId : Nat) (requestSize : RandomVariable) (stepProbability : Double) :
    Option ServiceConfiguration := do
  if clientId = 0 ∨ destContractId = 0 ∨ destContractMethodId = 0 then none
  let client ← cfg.GetClient clientId
  let steps ← client.m_executionPlan.toExecutionPlan.AddExecutionStep destContractId
    destContractMethodId requestSize stepProbability
  pure { cfg with
    m_clients := mapUpdate cfg.m_clients clientId
      { client with m_executionPlan := { client.m_executionPlan with toExecutionPlan := steps } } }

/-- The loop of `CheckExecutionPlan` over the steps of a plan; `none` when the check has no
defined result. The lookups `GetContract` and `GetMethod` are made before the tests
`contract == 0` and `GetMethod (...) == 0`, and they are undefined for an absent id. The maps
hold no null pointer (`AddService`, `AddServiceReplica` and `AddMethod` insert objects they
have just created), so that a lookup that has a value passes the test that follows it. -/
def CheckExecutionPlan.loop (cfg : ServiceConfiguration) : List ExecutionStep → Option Bool
  | [] => some true
  | step :: rest =>
      match cfg.GetContract step.m_contractId with
      | none => none
      | some ref =>
          match cfg.service ref with
          | none => none
          | some contract =>
              match contract.GetMethod step.m_contractMethodId with
              | none => none
              | some _ => CheckExecutionPlan.loop cfg rest

/-- The method `CheckExecutionPlan`. -/
def CheckExecutionPlan (cfg : ServiceConfiguration) (plan : ExecutionPlan) : Option Bool :=
  CheckExecutionPlan.loop cfg plan.m_executionSteps

/-- The loop of `CheckClients` over the map of clients. -/
def CheckClients.loop (cfg : ServiceConfiguration) : List (Nat × Client) → Option Bool
  | [] => some true
  | (_, client) :: rest =>
      let plan := client.m_executionPlan.toExecutionPlan
      if plan.GetExecutionStepsCount = 0 then some false
      else
        match cfg.CheckExecutionPlan plan with
        | none => none
        | some result => if !result then some false else CheckClients.loop cfg rest

/-- The method `CheckClients`. -/
def CheckClients (cfg : ServiceConfiguration) : Option Bool :=
  if cfg.m_clients.length = 0 then some false
  else CheckClients.loop cfg cfg.m_clients

/-- The loop of `CheckServiceExecutionPlans` over the methods of a service. A method whose
plan pointer does not resolve does not occur in the source; the check has no result then. -/
def CheckServiceExecutionPlans.loop (cfg : ServiceConfiguration) :
    List (Nat × ServiceMethod) → Option Bool
  | [] => some true
  | (_, serviceMethod) :: rest =>
      match cfg.plan serviceMethod.m_executionPlan with
      | none => none
      | some plan =>
          match cfg.CheckExecutionPlan plan.toExecutionPlan with
          | none => none
          | some result =>
              if !result then some false else CheckServiceExecutionPlans.loop cfg rest

/-- The method `CheckServiceExecutionPlans`. -/
def CheckServiceExecutionPlans (cfg : ServiceConfiguration) (service : Service) :
    Option Bool :=
  CheckServiceExecutionPlans.loop cfg service.m_methods

/-- The loop of `CheckServices` over the map of services. A service pointer that does not
resolve does not occur in the source; the check has no result then. -/
def CheckServices.loop (cfg : ServiceConfiguration) : List (Nat × ServiceRef) → Option Bool
  | [] => some true
  | (_, ref) :: rest =>
      match cfg.service ref with
      | none => none
      | some service =>
          if service.m_methods.length = 0 then some false
          else
            match cfg.CheckServiceExecutionPlans service with
            | none => none
            | some result => if !result then some false else CheckServices.loop cfg rest

/-- The method `CheckServices`. -/
def CheckServices (cfg : ServiceConfiguration) : Option Bool :=
  if cfg.m_services.length = 0 then some false
  else CheckServices.loop cfg cfg.m_services

/-- The method `CheckServiceConfiguration`: both checks are run, the result is their
conjunction; it has no defined result when one of them has none. -/
def CheckServiceConfiguration (cfg : ServiceConfiguration) : Option Bool :=
  let bPass := true
  match cfg.CheckClients with
  | none => none
  | some clients =>
      let bPass := if clients then bPass else false
      match cfg.CheckServices with
      | none => none
      | some services =>
          let bPass := if services then bPass else false
          some bPass

end ServiceConfiguration

/-! ## Scenario generator -/

/-- The class `ServiceConfigurationRandomGenerator`: the configuration under construction
and the map from method id to the method objects created by `AddServiceMethods`. -/
structure ServiceConfigurationRandomGenerator where
  m_serviceConfiguration : ServiceConfiguration
  m_serviceMethods : List (Nat × ServiceMethod)

namespace ServiceConfigurationRandomGenerator

/-- The constructor: a fresh, empty configuration. -/
def new : ServiceConfigurationRandomGenerator :=
  { m_serviceConfiguration := ServiceConfiguration.new, m_serviceMethods := [] }

/-- The method `ShouldDependencyBeCreated`: one draw of the static uniform variable on
`[0, 1)`, compared with the dependency probability. -/
def ShouldDependencyBeCreated (dependencyProbability : Double) (rng : Rng) :
    Option (Bool × Rng) :=
  if 0 < dependencyProbability then
    let (value, rng) := RandomVariable.GetValue { tag := 0 } rng
    some (decide (value < dependencyProbability), rng)
  else none

/-- The loop of `AddServices`; `n` iterations are left, `serviceId` and `contractId` are the
ids of the next service. -/
def AddServices.loop (startTime stopTime : RandomVariable)
    (responseTimeout ACKTimeout : Time) (retransmissionLimit : Nat) (msgIdLifetime : Time)
    (serviceFaultModel : FaultModel) (postErrorDelay : RandomVariable) :
    Nat → Nat → Nat → ServiceConfigurationRandomGenerator → Rng →
      Option (ServiceConfigurationRandomGenerator × Rng)
  | 0, _, _, gen, rng => some (gen, rng)
  | n + 1, serviceId, contractId, gen, rng => do
      let (startTimeInteger, rng) := startTime.GetInteger rng
      let (stopTimeInteger, rng) := stopTime.GetInteger rng
      let cfg ← gen.m_serviceConfiguration.AddService serviceId
        (MilliSeconds startTimeInteger) (MilliSeconds stopTimeInteger) responseTimeout
        ACKTimeout retransmissionLimit msgIdLifetime contractId serviceFaultModel
        postErrorDelay
      AddServices.loop startTime stopTime responseTimeout ACKTimeout retransmissionLimit
        msgIdLifetime serviceFaultModel postErrorDelay n ((serviceId + 1) % U32)
        ((contractId + 1) % U32) { gen with m_serviceConfiguration := cfg } rng

/-- The method `AddServices`. -/
def AddServices (gen : ServiceConfigurationRandomGenerator)
    (numberOfServices serviceBaseId contractBaseId : Nat) (startTime stopTime : RandomVariable)
    (responseTimeout ACKTimeout : Time) (retransmissionLimit : Nat) (msgIdLifetime : Time)
    (serviceFaultModel : FaultModel) (postErrorDelay : RandomVariable) (rng : Rng) :
    Option (ServiceConfigurationRandomGenerator × Rng) :=
  if numberOfServices ≠ 0 ∧ serviceBaseId ≠ 0 ∧ contractBaseId ≠ 0 then
    AddServices.loop startTime stopTime responseTimeout ACKTimeout retransmissionLimit
      msgIdLifetime serviceFaultModel postErrorDelay numberOfServices serviceBaseId
      contractBaseId gen rng
  else none

/-- The inner loop of `AddServiceMethods`: `m` methods are left to add to service
`serviceId`; `methodId` is the running method counter, which the loop returns. -/
def AddServiceMethods.inner (responseSize : RandomVariable) (methodFaultModel : FaultModel)
    (planPreExeDelay planPostExeDelay stepPostExeDelay postPlanErrorDelay : RandomVariable)
    (serviceId : Nat) :
    Nat → Nat → ServiceConfigurationRandomGenerator →
      Option (Nat × ServiceConfigurationRandomGenerator)
  | 0, methodId, gen => some (methodId, gen)
  | m + 1, methodId, gen => do
      let methodId := (methodId + 1) % U32
      let (cfg, serviceMethod) ← gen.m_serviceConfiguration.AddServiceMethod serviceId methodId
        responseSize methodFaultModel planPreExeDelay planPostExeDelay stepPostExeDelay
        postPlanErrorDelay
      AddServiceMethods.inner responseSize methodFaultModel planPreExeDelay planPostExeDelay
        stepPostExeDelay postPlanErrorDelay serviceId m methodId
        { m_serviceConfiguration := cfg,
          m_serviceMethods := mapInsert gen.m_serviceMethods methodId serviceMethod }

/-- The outer loop of `AddServiceMethods`: `n` services are left, `s` is the loop index. -/
def AddServiceMethods.loop (serviceBaseId : Nat) (numberOfServiceMethods : RandomVariable)
    (responseSize : RandomVariable) (methodFaultModel : FaultModel)
    (planPreExeDelay planPostExeDelay stepPostExeDelay postPlanErrorDelay : RandomVariable) :
    Nat → Nat → Nat → ServiceConfigurationRandomGenerator → Rng →
      Option (ServiceConfigurationRandomGenerator × Rng)
  | 0, _, _, gen, rng => some (gen, rng)
  | n + 1, s, methodId, gen, rng => do
      let serviceId := (serviceBaseId + s) % U32
      let (actualNumberOfServiceMethods, rng) := numberOfServiceMethods.GetInteger rng
      let (methodId, gen) ← AddServiceMethods.inner responseSize methodFaultModel
        planPreExeDelay planPostExeDelay stepPostExeDelay postPlanErrorDelay serviceId
        actualNumberOfServiceMethods methodId gen
      AddServiceMethods.loop serviceBaseId numberOfServiceMethods responseSize
        methodFaultModel planPreExeDelay planPostExeDelay stepPostExeDelay postPlanErrorDelay
        n (s + 1) methodId gen rng

/-- The method `AddServiceMethods`. -/
def AddServiceMethods (gen : ServiceConfigurationRandomGenerator)
    (numberOfServices serviceBaseId : Nat) (numberOfServiceMethods : RandomVariable)
    (responseSize : RandomVariable) (methodFaultModel : FaultModel)
    (planPreExeDelay planPostExeDelay stepPostExeDelay postPlanErrorDelay : RandomVariable)
    (rng : Rng) : Option (ServiceConfigurationRandomGenerator × Rng) :=
  AddServiceMethods.loop serviceBaseId numberOfServiceMethods responseSize methodFaultModel
    planPreExeDelay planPostExeDelay stepPostExeDelay postPlanErrorDelay numberOfServices 0 0
    gen rng

/-- The body of the inner loop of `AddServiceExecutionSteps` for one pair of methods. -/
def AddServiceExecutionSteps.body (dependencyProbability : Double)
    (requestSize stepProbability : RandomVariable) (dependent antecedent : ServiceMethod)
    (gen : ServiceConfigurationRandomGenerator) (rng : Rng) :
    Option (ServiceConfigurationRandomGenerator × Rng) := do
  let cfg := gen.m_serviceConfiguration
  let dependentService ← cfg.service dependent.m_service
  let antecedentService ← cfg.service antecedent.m_service
  -- no same contract dependency
  if dependentService.m_contractId = antecedentService.m_contractId then
    pure (gen, rng)
  -- only from the lower service id to the higher service id
  else if dependentService.m_serviceId ≥ antecedentService.m_serviceId then
    pure (gen, rng)
  else
    let (create, rng) ← ShouldDependencyBeCreated dependencyProbability rng
    if create then
      let (probability, rng) := stepProbability.GetValue rng
      let cfg ← cfg.AddServiceExecutionStep dependentService.m_serviceId
        dependent.m_contractMethodId antecedentService.m_contractId
        antecedent.m_contractMethodId requestSize probability
      pure ({ gen with m_serviceConfiguration := cfg }, rng)
    else
      pure (gen, rng)

/-- The inner loop of `AddServiceExecutionSteps` (variable `y`). -/
def AddServiceExecutionSteps.inner (dependencyProbability : Double)
    (requestSize stepProbability : RandomVariable) (dependent : ServiceMethod) :
    List (Nat × ServiceMethod) → ServiceConfigurationRandomGenerator → Rng →
      Option (ServiceConfigurationRandomGenerator × Rng)
  | [], gen, rng => some (gen, rng)
  | (_, antecedent) :: ys, gen, rng => do
      let (gen, rng) ← AddServiceExecutionSteps.body dependencyProbability requestSize
        stepProbability dependent antecedent gen rng
      AddServiceExecutionSteps.inner dependencyProbability requestSize stepProbability
        dependent ys gen rng

/-- The outer loop of `AddServiceExecutionSteps` (variable `x`); `all` is the whole map
`m_serviceMethods`, which the inner loop walks from its beginning. -/
def AddServiceExecutionSteps.outer (dependencyProbability : Double)
    (requestSize stepProbability : RandomVariable) (all : List (Nat × ServiceMethod)) :
    List (Nat × ServiceMethod) → ServiceConfigurationRandomGenerator → Rng →
      Option (ServiceConfigurationRandomGenerator × Rng)
  | [], gen, rng => some (gen, rng)
  | (_, dependent) :: xs, gen, rng => do
      let (gen, rng) ← AddServiceExecutionSteps.inner dependencyProbability requestSize
        stepProbability dependent all gen rng
      AddServiceExecutionSteps.outer dependencyProbability requestSize stepProbability all
        xs gen rng

/-- The method `AddServiceExecutionSteps`. -/
def AddServiceExecutionSteps (gen : ServiceConfigurationRandomGenerator)
    (dependencyProbability : Double) (_postExeDelay requestSize stepProbability : RandomVariable)
    (rng : Rng) : Option (ServiceConfigurationRandomGenerator × Rng) :=
  if 0 < dependencyProbability then
    AddServiceExecutionSteps.outer dependencyProbability requestSize stepProbability
      gen.m_serviceMethods gen.m_serviceMethods gen rng
  else none

/-- The loop of `AddServiceReplicas`: `k` replicas are left; returns the last id used. -/
def AddServiceReplicas.loop (serviceId : Nat) :
    Nat → Nat → ServiceConfigurationRandomGenerator →
      Option (Nat × ServiceConfigurationRandomGenerator)
  | 0, newServiceId, gen => some (newServiceId, gen)
  | k + 1, newServiceId, gen => do
      let newServiceId := (newServiceId + 1) % U32
      let cfg ← gen.m_serviceConfiguration.AddServiceReplica serviceId newServiceId
      AddServiceReplicas.loop serviceId k newServiceId { gen with m_serviceConfiguration := cfg }

/-- The method `AddServiceReplicas`. -/
def AddServiceReplicas (gen : ServiceConfigurationRandomGenerator)
    (serviceId newServiceId : Nat) (numberOfReplicas : RandomVariable) (rng : Rng) :
    Option (Nat × ServiceConfigurationRandomGenerator × Rng) := do
  if serviceId = 0 then none
  let (valueNumberOfReplicas, rng) := numberOfReplicas.GetInteger rng
  let (newServiceId, gen) ← AddServiceReplicas.loop serviceId valueNumberOfReplicas
    newServiceId gen
  pure (newServiceId, gen, rng)

/-- The loop of `AddServicesReplicas`: `n` services are left. -/
def AddServicesReplicas.loop (numberOfReplicas : RandomVariable) :
    Nat → Nat → Nat → ServiceConfigurationRandomGenerator → Rng →
      Option (ServiceConfigurationRandomGenerator × Rng)
  | 0, _, _, gen, rng => some (gen, rng)
  | n + 1, serviceId, newServiceId, gen, rng => do
      let (newServiceId, gen, rng) ← AddServiceReplicas gen serviceId newServiceId
        numberOfReplicas rng
      AddServicesReplicas.loop numberOfReplicas n ((serviceId + 1) % U32) newServiceId gen rng

/-- The method `AddServicesReplicas`. -/
def AddServicesReplicas (gen : ServiceConfigurationRandomGenerator)
    (numberOfServices serviceBaseId : Nat) (numberOfReplicas : RandomVariable) (rng : Rng) :
    Option (ServiceConfigurationRandomGenerator × Rng) :=
  if numberOfServices ≠ 0 ∧ serviceBaseId ≠ 0 then
    AddServicesReplicas.loop numberOfReplicas numberOfServices serviceBaseId
      ((serviceBaseId + numberOfServices - 1) % U32) gen rng
  else none

/-- The method `GenerateServices`. -/
def GenerateServices (gen : ServiceConfigurationRandomGenerator)
    (numberOfServices serviceBaseId contractBaseId : Nat)
    (numberOfReplicas startTime stopTime : RandomVariable)
    (responseTimeout ACKTimeout : Time) (retransmissionLimit : Nat) (msgIdLifetime : Time)
    (serviceFaultModel : FaultModel)
    (numberOfServiceMethods methodResponseSize : RandomVariable) (methodFaultModel : FaultModel)
    (methodPreExeDelay methodPostExeDelay methodPostPlanErrorDelay : RandomVariable)
    (executionStepDependencyProbability : Double)
    (executionStepPostExeDelay executionStepRequestSize stepProbability
      servicePostErrorDelay : RandomVariable) (rng : Rng) :
    Option (ServiceConfigurationRandomGenerator × Rng) := do
  if ¬ (numberOfServices ≠ 0 ∧ serviceBaseId ≠ 0 ∧ contractBaseId ≠ 0 ∧
      0 < executionStepDependencyProbability) then none
  let (gen, rng) ← gen.AddServices numberOfServices serviceBaseId contractBaseId startTime
    stopTime responseTimeout ACKTimeout retransmissionLimit msgIdLifetime serviceFaultModel
    servicePostErrorDelay rng
  let (gen, rng) ← gen.AddServiceMethods numberOfServices serviceBaseId numberOfServiceMethods
    methodResponseSize methodFaultModel methodPreExeDelay methodPostExeDelay
    executionStepPostExeDelay methodPostPlanErrorDelay rng
  let (gen, rng) ← gen.AddServiceExecutionSteps executionStepDependencyProbability
    executionStepPostExeDelay executionStepRequestSize stepProbability rng
  gen.AddServicesReplicas numberOfServices serviceBaseId numberOfReplicas rng

/-- The loop of `AddClients`: `n` clients are left, `i` is the loop index. -/
def AddClients.loop (clientBaseId : Nat) (startTime stopTime : RandomVariable)
    (responseTimeout ACKTimeout : Time) (retransmissionLimit : Nat) (msgIdLifetime : Time)
    (planRequestRate afterFailureWaitingPeriod : RandomVariable) :
    Nat → Nat → ServiceConfigurationRandomGenerator → Rng →
      Option (ServiceConfigurationRandomGenerator × Rng)
  | 0, _, gen, rng => some (gen, rng)
  | n + 1, i, gen, rng => do
      let clientId := (clientBaseId + i) % U32
      let (startTimeInteger, rng) := startTime.GetInteger rng
      let (stopTimeInteger, rng) := stopTime.GetInteger rng
      let cfg ← gen.m_serviceConfiguration.AddClient clientId (MilliSeconds startTimeInteger)
        (MilliSeconds stopTimeInteger) responseTimeout ACKTimeout retransmissionLimit
        msgIdLifetime planRequestRate afterFailureWaitingPeriod
      AddClients.loop clientBaseId startTime stopTime responseTimeout ACKTimeout
        retransmissionLimit msgIdLifetime planRequestRate afterFailureWaitingPeriod n (i + 1)
        { gen with m_serviceConfiguration := cfg } rng

/-- The method `AddClients`. -/
def AddClients (gen : ServiceConfigurationRandomGenerator) (numberOfClients clientBaseId : Nat)
    (startTime stopTime : RandomVariable) (responseTimeout ACKTimeout : Time)
    (retransmissionLimit : Nat) (msgIdLifetime : Time)
    (planRequestRate afterFailureWaitingPeriod : RandomVariable) (rng : Rng) :
    Option (ServiceConfigurationRandomGenerator × Rng) :=
  if numberOfClients ≠ 0 ∧ clientBaseId ≠ 0 then
    AddClients.loop clientBaseId startTime stopTime responseTimeout ACKTimeout
      retransmissionLimit msgIdLifetime planRequestRate afterFailureWaitingPeriod
      numberOfClients 0 gen rng
  else none

/-- The inner loop (variable `y`) of `AddClientExecutionStepsWithUniformDependenceProbability`
for the client `x` of the outer loop. It carries the local variable `client` (null before
its first assignment) and the flag `hasClientAtLeastOneDependency`. -/
def AddClientExecutionStepsWithUniformDependenceProbability.inner
    (dependencyProbability : Double) (requestSize : RandomVariable) (x : Client) :
    List (Nat × ServiceMethod) → Option Client → Bool → ServiceConfiguration → Rng →
      Option (Option Client × Bool × ServiceConfiguration × Rng)
  | [], client, hasClientAtLeastOneDependency, cfg, rng =>
      some (client, hasClientAtLeastOneDependency, cfg, rng)
  | (_, antecedent) :: ys, _, hasClientAtLeastOneDependency, cfg, rng => do
      let client := x
      let (create, rng) ← ShouldDependencyBeCreated dependencyProbability rng
      if create then
        let service ← cfg.service antecedent.m_service
        let cfg ← cfg.AddClientExecutionStep client.m_serviceId service.m_contractId
          antecedent.m_contractMethodId requestSize (Double.ofNat 100)
        AddClientExecutionStepsWithUniformDependenceProbability.inner dependencyProbability
          requestSize x ys (some client) true cfg rng
      else
        AddClientExecutionStepsWithUniformDependenceProbability.inner dependencyProbability
          requestSize x ys (some client) hasClientAtLeastOneDependency cfg rng

/-- The outer loop (variable `x`) of
`AddClientExecutionStepsWithUniformDependenceProbability`. For a client without any
dependency it draws a key of `m_serviceMethods` and adds one step with probability 0;
`m_serviceMethods[key]` is null for a key that is absent. -/
def AddClientExecutionStepsWithUniformDependenceProbability.outer
    (dependencyProbability : Double) (requestSize : RandomVariable) :
    List (Nat × Client) → Option Client → ServiceConfigurationRandomGenerator → Rng →
      Option (ServiceConfigurationRandomGenerator × Rng)
  | [], _, gen, rng => some (gen, rng)
  | (_, x) :: xs, client, gen, rng => do
      let (client, hasClientAtLeastOneDependency, cfg, rng) ←
        AddClientExecutionStepsWithUniformDependenceProbability.inner dependencyProbability
          requestSize x gen.m_serviceMethods client false gen.m_serviceConfiguration rng
      if !hasClientAtLeastOneDependency then
        let (singleDependency, rng) := RandomVariable.GetInteger { tag := 0 } rng
        let antecedent ← mapFind gen.m_serviceMethods singleDependency
        let client ← client
        let service ← cfg.service antecedent.m_service
        let cfg ← cfg.AddClientExecutionStep client.m_serviceId service.m_contractId
          antecedent.m_contractMethodId requestSize (Double.ofNat 0)
        AddClientExecutionStepsWithUniformDependenceProbability.outer dependencyProbability
          requestSize xs (some client) { gen with m_serviceConfiguration := cfg } rng
      else
        AddClientExecutionStepsWithUniformDependenceProbability.outer dependencyProbability
          requestSize xs client { gen with m_serviceConfiguration := cfg } rng

/-- The method `AddClientExecutionStepsWithUniformDependenceProbability`. -/
def AddClientExecutionStepsWithUniformDependenceProbability
    (gen : ServiceConfigurationRandomGenerator) (dependencyProbability : Double)
    (requestSize : RandomVariable) (rng : Rng) :
    Option (ServiceConfigurationRandomGenerator × Rng) :=
  if 0 < dependencyProbability then
    AddClientExecutionStepsWithUniformDependenceProbability.outer dependencyProbability
      requestSize gen.m_serviceConfiguration.m_clients none gen rng
  else none

/-- The method `GenerateClientsWithUniformDependenceProbability`. -/
def GenerateClientsWithUniformDependenceProbability (gen : ServiceConfigurationRandomGenerator)
    (deployClientsRandomly : Bool) (numberOfClients clientBaseId : Nat)
    (startTime stopTime : RandomVariable) (responseTimeout ACKTimeout : Time)
    (retransmissionLimit : Nat) (msgIdLifetime : Time) (planRequestRate : RandomVariable)
    (executionStepDependencyProbability : Double)
    (executionStepRequestSize afterFailureWaitingPeriod : RandomVariable) (rng : Rng) :
    Option (ServiceConfigurationRandomGenerator × Rng) := do
  if ¬ (numberOfClients ≠ 0 ∧ clientBaseId ≠ 0 ∧ 0 < executionStepDependencyProbability ∧
      retransmissionLimit ≠ 0) then none
  let gen := { gen with m_serviceConfiguration :=
    gen.m_serviceConfiguration.SetDeployClientsRandomly deployClientsRandomly }
  let (gen, rng) ← gen.AddClients numberOfClients clientBaseId startTime stopTime
    responseTimeout ACKTimeout retransmissionLimit msgIdLifetime planRequestRate
    afterFailureWaitingPeriod rng
  gen.AddClientExecutionStepsWithUniformDependenceProbability
    executionStepDependencyProbability executionStepRequestSize rng

/-- The innermost loop of
`AddClientExecutionStepsWithRandomFixedDependenceProbabilityToNServices`: looks for
`serviceId` in the array of services used by clients; on the first hit it adds a step with
a drawn probability and leaves the loop. -/
def AddClientExecutionStepsWithRandomFixedDependenceProbabilityToNServices.search
    (requestSize stepProbability : RandomVariable) (client : Client) (antecedent : ServiceMethod)
    (contractId serviceId : Nat) :
    List Nat → ServiceConfiguration → Rng → Option (ServiceConfiguration × Rng)
  | [], cfg, rng => some (cfg, rng)
  | used :: rest, cfg, rng =>
      if used = serviceId then do
        let (probability, rng) := stepProbability.GetValue rng
        let cfg ← cfg.AddClientExecutionStep client.m_serviceId contractId
          antecedent.m_contractMethodId requestSize probability
        pure (cfg, rng)
      else
        AddClientExecutionStepsWithRandomFixedDependenceProbabilityToNServices.search
          requestSize stepProbability client antecedent contractId serviceId rest cfg rng

/-- The loop over `m_serviceMethods` (variable `y`) of the same method. -/
def AddClientExecutionStepsWithRandomFixedDependenceProbabilityToNServices.inner
    (requestSize stepProbability : RandomVariable) (servicesToBeUsedByClients : List Nat)
    (x : Client) :
    List (Nat × ServiceMethod) → ServiceConfiguration → Rng →
      Option (ServiceConfiguration × Rng)
  | [], cfg, rng => some (cfg, rng)
  | (_, antecedent) :: ys, cfg, rng => do
      let service ← cfg.service antecedent.m_service
      let (cfg, rng) ←
        AddClientExecutionStepsWithRandomFixedDependenceProbabilityToNServices.search
          requestSize stepProbability x antecedent service.m_contractId service.m_serviceId
          servicesToBeUsedByClients cfg rng
      AddClientExecutionStepsWithRandomFixedDependenceProbabilityToNServices.inner
        requestSize stepProbability servicesToBeUsedByClients x ys cfg rng

/-- The loop over the clients (variable `x`) of the same method. -/
def AddClientExecutionStepsWithRandomFixedDependenceProbabilityToNServices.outer
    (requestSize stepProbability : RandomVariable) (servicesToBeUsedByClients : List Nat) :
    List (Nat × Client) → ServiceConfigurationRandomGenerator → Rng →
      Option (ServiceConfigurationRandomGenerator × Rng)
  | [], gen, rng => some (gen, rng)
  | (_, x) :: xs, gen, rng => do
      let (cfg, rng) ←
        AddClientExecutionStepsWithRandomFixedDependenceProbabilityToNServices.inner
          requestSize stepProbability servicesToBeUsedByClients x gen.m_serviceMethods
          gen.m_serviceConfiguration rng
      AddClientExecutionStepsWithRandomFixedDependenceProbabilityToNServices.outer
        requestSize stepProbability servicesToBeUsedByClients xs
        { gen with m_serviceConfiguration := cfg } rng

/-- The method `AddClientExecutionStepsWithRandomFixedDependenceProbabilityToNServices`;
the array and its length are one list here. -/
def AddClientExecutionStepsWithRandomFixedDependenceProbabilityToNServices
    (gen : ServiceConfigurationRandomGenerator) (requestSize stepProbability : RandomVariable)
    (servicesToBeUsedByClients : List Nat) (rng : Rng) :
    Option (ServiceConfigurationRandomGenerator × Rng) :=
  AddClientExecutionStepsWithRandomFixedDependenceProbabilityToNServices.outer requestSize
    stepProbability servicesToBeUsedByClients gen.m_serviceConfiguration.m_clients gen rng

/-- The method `GenerateClientsWithFrontEndBackEndServices`. -/
def GenerateClientsWithFrontEndBackEndServices (gen : ServiceConfigurationRandomGenerator)
    (deployClientsRandomly : Bool) (numberOfClients clientBaseId : Nat)
    (startTime stopTime : RandomVariable) (responseTimeout ACKTimeout : Time)
    (retransmissionLimit : Nat) (msgIdLifetime : Time)
    (planRequestRate executionStepRequestSize afterFailureWaitingPeriod : RandomVariable)
    (frontEndServices : List Nat) (stepProbability : RandomVariable) (rng : Rng) :
    Option (ServiceConfigurationRandomGenerator × Rng) := do
  if ¬ (numberOfClients ≠ 0 ∧ clientBaseId ≠ 0 ∧ retransmissionLimit ≠ 0) then none
  let gen := { gen with m_serviceConfiguration :=
    gen.m_serviceConfiguration.SetDeployClientsRandomly deployClientsRandomly }
  let (gen, rng) ← gen.AddClients numberOfClients clientBaseId startTime stopTime
    responseTimeout ACKTimeout retransmissionLimit msgIdLifetime planRequestRate
    afterFailureWaitingPeriod rng
  gen.AddClientExecutionStepsWithRandomFixedDependenceProbabilityToNServices
    executionStepRequestSize stepProbability frontEndServices rng

end ServiceConfigurationRandomGenerator

/-! ## Discrete-event scheduler (the ns-3 `Simulator`) as the endpoints use it -/

/-- The ns-3 `Address` of a peer, reduced to a number. -/
abbrev Address := Nat

/-- A packet waiting on a socket: its size, the `Message` header that `RemoveHeader` reads
from it, and the sender address that `RecvFrom` reports. -/
structure Packet where
  size : Nat
  header : Message
  sender : Address
  deriving DecidableEq, Repr

/-- The member functions that are scheduled as events, and the arrival of packets on the
client socket (scheduled by the network), which calls `ReceiveMessage`. -/
inductive EventKind where
  | Socket_TimeoutExpired
  | ACK_TimeoutExpired
  | Response_TimeoutExpired
  | RemoveOldRecords
  | ReceiveMessage (packets : List Packet)
  deriving DecidableEq, Repr

/-- An event in the queue of the simulator: time stamp, unique id, and what to call. -/
structure ScheduledEvent where
  ts : Time
  uid : Nat
  kind : EventKind
  deriving DecidableEq, Repr

/-- The ns-3 `EventId`: `none` for a default-constructed id, else the uid of the event. -/
abbrev EventId := Option Nat

/-- The ns-3 `Simulator`: current virtual time, next uid, and the pending events. A
cancelled event is taken out of the queue (ns-3 leaves it there and skips it when its turn
comes, which no code here can observe). -/
structure Simulator where
  now : Time
  nextUid : Nat
  events : List ScheduledEvent
  deriving DecidableEq, Repr

/-- Order of execution: by time stamp, and by uid (order of scheduling) at equal times. -/
def ScheduledEvent.before (a b : ScheduledEvent) : Bool :=
  decide (a.ts < b.ts) || (decide (a.ts = b.ts) && decide (a.uid ≤ b.uid))

namespace Simulator

/-- The event that runs next: the first one in the order of execution. -/
def earliest : List ScheduledEvent → Option ScheduledEvent
  | [] => none
  | e :: rest =>
      match earliest rest with
      | none => some e
      | some m => if e.before m then some e else some m

/-- The call `Simulator::Schedule (delay, ...)`; a negative delay is an assertion failure. -/
def Schedule (sim : Simulator) (delay : Time) (kind : EventKind) :
    Option (Simulator × EventId) :=
  if delay < 0 then none
  else some ({ sim with nextUid := sim.nextUid + 1
                        events := sim.events ++ [{ ts := sim.now + delay, uid := sim.nextUid,
                                                   kind := kind }] },
             some sim.nextUid)

/-- The call `EventId::Cancel ()`: no effect on a null id or an event no longer pending. -/
def Cancel (sim : Simulator) (id : EventId) : Simulator :=
  match id with
  | none => sim
  | some uid => { sim with events := sim.events.filter (fun e => e.uid ≠ uid) }

/-- The call `EventId::IsRunning ()`: the event is pending (not run, not cancelled). -/
def IsRunning (sim : Simulator) (id : EventId) : Bool :=
  match id with
  | none => false
  | some uid => sim.events.any (fun e => e.uid = uid)

end Simulator

/-! ## Messaging layer: the client endpoint `UdpClientMessageEndpoint` -/

/-- The struct `MessageEndpoint::MessageTypeCounter`. -/
structure MessageTypeCounter where
  msgSendAttemptCounter : Nat
  msgSendSuccessCounter : Nat
  msgSendUniqueCounter : Nat
  msgReceiveCounter : Nat
  msgReceiveUniqueCounter : Nat
  msgSendFailureCounter : Nat
  msgACKTimeoutCounter : Nat
  msgResponseTimeoutCounter : Nat
  deriving DecidableEq, Repr

/-- The constructor `MessageTypeCounter ()`. -/
def MessageTypeCounter.new : MessageTypeCounter :=
  { msgSendAttemptCounter := 0, msgSendSuccessCounter := 0, msgSendUniqueCounter := 0,
    msgReceiveCounter := 0, msgReceiveUniqueCounter := 0, msgSendFailureCounter := 0,
    msgACKTimeoutCounter := 0, msgResponseTimeoutCounter := 0 }

/-- The error types that the endpoint records. -/
inductive ErrorType where
  | ERROR_TYPE_SOCKET_FAILURE
  | ERROR_TYPE_SEND_FAILURE
  | ERROR_TYPE_ACK_TIMEOUT
  | ERROR_TYPE_RESPONSE_TIMEOUT
  deriving DecidableEq, Repr

/-- What the endpoint does to the outside: the socket call `SendTo` together with its record
(`RecordSendMessage`), the records of received messages and of errors written to the
simulation output, and the four callbacks into the owner of the endpoint. The callbacks are
recorded; what the owner does in them is not part of the endpoint. -/
inductive Output where
  | SendTo (msg : Message) (dest : Address) (retransmission : Nat) (sendSuccess : Bool)
  | RecordReceiveMessage (msg : Message) (sender : Address) (dropedDueToResend : Bool)
  | RecordError (serviceId : Nat) (errorType : ErrorType) (msgId : Nat)
  | OnSendSuccess
  | OnSendFailure
  | OnReceiveResponse (msg : Message)
  | OnResponseTimeout
  deriving DecidableEq, Repr

/-- The class `EndpointMessageIdCache`. -/
structure EndpointMessageIdCache where
  m_msgIdLifetime : Time
  m_ids : List (Nat × Time)
  m_removeOldRecordsEvent : EventId
  deriving DecidableEq, Repr

/-- The member variables of `UdpClientMessageEndpoint` (with `m_serviceBase` of its base
class); `m_socketOpen` says that `m_socket` is not null. -/
structure UdpClientMessageEndpoint where
  m_serviceBase : ServiceBase
  m_socketOpen : Bool
  m_ACKTimeoutEvent : EventId
  m_socketTimeoutEvent : EventId
  m_responseTimeoutEvent : EventId
  m_requestMessage : Option Message
  m_requestAddress : Address
  m_responseMessage : Option Message
  m_responseAddress : Address
  m_waitForResponse : Bool
  m_retransmissionCounter : Nat
  m_msgCache : EndpointMessageIdCache
  deriving DecidableEq, Repr

/-- The environment of the endpoint. `transport n` is the `int` that the `n`-th call of
`Socket::SendTo` returns (ns-3: the number of bytes sent, or -1 on error). `eraseOutcome`
is what the removal loop of the id cache leaves behind when it erases an entry: the source
erases from the map while it iterates over it and then advances the erased iterator, which
C++ leaves undefined, so the outcome is not fixed by the source. -/
structure Env where
  transport : Nat → Int
  eraseOutcome : List (Nat × Time) → Time → List (Nat × Time)

/-- One endpoint in its world: the simulator, the endpoint, the static counters
`Message::s_messageCounter` and `MessageEndpoint::s_msgCounters`, the number of `SendTo`
calls made so far, and the outputs so far, each with the virtual time of its occurrence. -/
structure World where
  sim : Simulator
  ep : UdpClientMessageEndpoint
  s_messageCounter : Nat
  s_msgCounters : List MessageTypeCounter
  nSendTo : Nat
  trace : List (Time × Output)
  deriving DecidableEq, Repr

namespace Message

/-- The method `Message::InitializeACK`; takes and returns `s_messageCounter`. -/
def InitializeACK (self sourceMsg : Message) (s_messageCounter : Nat) : Message × Nat :=
  let s_messageCounter := (s_messageCounter + 1) % U32
  ({ self with
      m_messageType := MTACK
      m_messageId := s_messageCounter
      m_relatedToMessageId := sourceMsg.m_messageId
      m_conversationId := sourceMsg.m_conversationId
      m_srcNode := sourceMsg.m_srcNode
      m_srcService := sourceMsg.m_srcService
      m_destNode := sourceMsg.m_destNode
      m_destService := sourceMsg.m_destService
      m_destMethod := sourceMsg.m_destMethod
      m_size := ACK_MESSAGE_SIZE }, s_messageCounter)

end Message

namespace World

/-- Appends an output, stamped with the current virtual time. -/
def emit (w : World) (o : Output) : World :=
  { w with trace := w.trace ++ [(w.sim.now, o)] }

/-- The access `s_msgCounters[msg->GetMessageType() - 1]` for an update; the subtraction is
in `uint32_t`, an index outside the array is `none`. -/
def counter (w : World) (messageType : Nat) (f : MessageTypeCounter → MessageTypeCounter) :
    Option World :=
  let index := (messageType + (U32 - 1)) % U32
  match w.s_msgCounters[index]? with
  | some c => some { w with s_msgCounters := w.s_msgCounters.set index (f c) }
  | none => none

/-- The scheduling of an event through `Simulator::Schedule`. -/
def schedule (w : World) (delay : Time) (kind : EventKind) : Option (World × EventId) := do
  let (sim, id) ← w.sim.Schedule delay kind
  pure ({ w with sim := sim }, id)

end World

namespace EndpointMessageIdCache

/-- The method `IsMessageInCache`: `m_ids.count (msgId) > 0`. -/
def IsMessageInCache (cache : EndpointMessageIdCache) (msg : Message) : Bool :=
  (mapFind cache.m_ids msg.m_messageId).isSome

/-- The method `AddMessage`: inserts the id with the expiry `m_msgIdLifetime + Now ()`. -/
def AddMessage (cache : EndpointMessageIdCache) (msg : Message) (now : Time) :
    EndpointMessageIdCache :=
  { cache with m_ids := mapInsert cache.m_ids msg.m_messageId (cache.m_msgIdLifetime + now) }

/-- The method `HaveMessageAlreadyArrived`. -/
def HaveMessageAlreadyArrived (cache : EndpointMessageIdCache) (msg : Message) (now : Time) :
    Bool × EndpointMessageIdCache :=
  let result := cache.IsMessageInCache msg
  if !result then (result, cache.AddMessage msg now) else (result, cache)

/-- The method `RemoveOldRecords` of the cache of the endpoint in `w`: the removal loop, and
the scheduling of the next run after 1000 ms. When no entry is older than the current time
the loop erases nothing; otherwise it leaves `env.eraseOutcome` behind. -/
def RemoveOldRecords (env : Env) (w : World) : Option World := do
  let cache := w.ep.m_msgCache
  let ids :=
    if cache.m_ids.any (fun e => decide (e.2 < w.sim.now)) then
      env.eraseOutcome cache.m_ids w.sim.now
    else cache.m_ids
  let (w, id) ← w.schedule (MilliSeconds 1000) EventKind.RemoveOldRecords
  pure { w with ep := { w.ep with
    m_msgCache := { cache with m_ids := ids, m_removeOldRecordsEvent := id } } }

end EndpointMessageIdCache

namespace MessageEndpoint

/-- The method `MessageEndpoint::RecordSendMessage`. -/
def RecordSendMessage (w : World) (msg : Message) (addressTo : Address) (retransmission : Nat)
    (success : Bool) : Option World := do
  let w ← w.counter msg.m_messageType
    (fun c => { c with msgSendAttemptCounter := (c.msgSendAttemptCounter + 1) % U32 })
  let w ← if success then
      w.counter msg.m_messageType
        (fun c => { c with msgSendSuccessCounter := (c.msgSendSuccessCounter + 1) % U32 })
    else some w
  let w ← if retransmission = 0 ∨ retransmission = 1 then
      w.counter msg.m_messageType
        (fun c => { c with msgSendUniqueCounter := (c.msgSendUniqueCounter + 1) % U32 })
    else some w
  let w := w.emit (Output.SendTo msg addressTo retransmission success)
  if !success then
    pure (w.emit (Output.RecordError w.ep.m_serviceBase.m_serviceId
      ErrorType.ERROR_TYPE_SOCKET_FAILURE msg.m_messageId))
  else pure w

/-- The method `MessageEndpoint::RecordReceiveMessage`. -/
def RecordReceiveMessage (w : World) (msg : Message) (addressFrom : Address)
    (dropedDueToResend : Bool) : Option World := do
  let w ← w.counter msg.m_messageType
    (fun c => { c with msgReceiveCounter := (c.msgReceiveCounter + 1) % U32 })
  let w ← if !dropedDueToResend then
      w.counter msg.m_messageType
        (fun c => { c with msgReceiveUniqueCounter := (c.msgReceiveUniqueCounter + 1) % U32 })
    else some w
  pure (w.emit (Output.RecordReceiveMessage msg addressFrom dropedDueToResend))

/-- The method `MessageEndpoint::RecordSendFailure`; a null message fails the assertion. -/
def RecordSendFailure (w : World) (msg : Option Message) : Option World := do
  let msg ← msg
  let w ← w.counter msg.m_messageType
    (fun c => { c with msgSendFailureCounter := (c.msgSendFailureCounter + 1) % U32 })
  pure (w.emit (Output.RecordError w.ep.m_serviceBase.m_serviceId
    ErrorType.ERROR_TYPE_SEND_FAILURE msg.m_messageId))

/-- The method `MessageEndpoint::RecordACKTimeout`. -/
def RecordACKTimeout (w : World) (msg : Option Message) : Option World := do
  let msg ← msg
  let w ← w.counter msg.m_messageType
    (fun c => { c with msgACKTimeoutCounter := (c.msgACKTimeoutCounter + 1) % U32 })
  pure (w.emit (Output.RecordError w.ep.m_serviceBase.m_serviceId
    ErrorType.ERROR_TYPE_ACK_TIMEOUT msg.m_messageId))

/-- The method `MessageEndpoint::RecordResponseTimeout`. -/
def RecordResponseTimeout (w : World) (msg : Option Message) : Option World := do
  let msg ← msg
  let w ← w.counter msg.m_messageType
    (fun c => { c with msgResponseTimeoutCounter := (c.msgResponseTimeoutCounter + 1) % U32 })
  pure (w.emit (Output.RecordError w.ep.m_serviceBase.m_serviceId
    ErrorType.ERROR_TYPE_RESPONSE_TIMEOUT msg.m_messageId))

end MessageEndpoint

namespace UdpClientMessageEndpoint

/-- The method `Socket_StartTimeout`. -/
def Socket_StartTimeout (w : World) : Option World := do
  let (w, id) ← w.schedule w.ep.m_serviceBase.m_ACKTimeout EventKind.Socket_TimeoutExpired
  pure { w with ep := { w.ep with m_socketTimeoutEvent := id } }

/-- The method `Socket_CancelTimeout`. -/
def Socket_CancelTimeout (w : World) : World :=
  { w with sim := w.sim.Cancel w.ep.m_socketTimeoutEvent }

/-- The method `ACK_StartTimeout`. -/
def ACK_StartTimeout (w : World) : Option World := do
  let (w, id) ← w.schedule w.ep.m_serviceBase.m_ACKTimeout EventKind.ACK_TimeoutExpired
  pure { w with ep := { w.ep with m_ACKTimeoutEvent := id } }

/-- The method `ACK_CancelTimeout`. -/
def ACK_CancelTimeout (w : World) : World :=
  { w with sim := w.sim.Cancel w.ep.m_ACKTimeoutEvent }

/-- The method `Response_CancelTimeout`. -/
def Response_CancelTimeout (w : World) : World :=
  { w with sim := w.sim.Cancel w.ep.m_responseTimeoutEvent }

/-- The method `Response_StartTimeout`. -/
def Response_StartTimeout (w : World) : Option World := do
  let w := Response_CancelTimeout w
  let (w, id) ← w.schedule w.ep.m_serviceBase.m_responseTimeout
    EventKind.Response_TimeoutExpired
  pure { w with ep := { w.ep with m_responseTimeoutEvent := id } }

/-- The method `Task_SendMessage (msg, to, retransmissionCounter)`. The `int` that `SendTo`
returns is stored in a `uint32_t`, and the send counts as successful when that is
positive. -/
def Task_SendMessage_msg (env : Env) (w : World) (msg : Option Message) (dest : Address)
    (retransmissionCounter : Nat) : Option (Bool × World) := do
  let msg ← msg
  if !w.ep.m_socketOpen then none
  let sendResult := (env.transport w.nSendTo % (U32 : Int)).toNat
  let sendSuccess := decide (sendResult > 0)
  let w := { w with nSendTo := w.nSendTo + 1 }
  let w ← MessageEndpoint.RecordSendMessage w msg dest retransmissionCounter sendSuccess
  pure (sendSuccess, w)

/-- The method `Task_SendMessage ()`: increments the retransmission counter and sends the
stored request. -/
def Task_SendMessage (env : Env) (w : World) : Option (Bool × World) :=
  let w := { w with ep := { w.ep with
    m_retransmissionCounter := (w.ep.m_retransmissionCounter + 1) % U32 } }
  Task_SendMessage_msg env w w.ep.m_requestMessage w.ep.m_requestAddress
    w.ep.m_retransmissionCounter

/-- The method `Task_SendACK`. -/
def Task_SendACK (env : Env) (w : World) : Option World := do
  let responseMessage ← w.ep.m_responseMessage
  let (ack, counter) := Message.new.InitializeACK responseMessage w.s_messageCounter
  let w := { w with s_messageCounter := counter }
  let (_, w) ← Task_SendMessage_msg env w (some ack) w.ep.m_responseAddress 0
  pure w

/-- The method `Transition_RetransmissionLimitReached`. -/
def Transition_RetransmissionLimitReached (w : World) : Option World := do
  let w := Socket_CancelTimeout w
  let w := ACK_CancelTimeout w
  let w := Response_CancelTimeout w
  let w ← MessageEndpoint.RecordSendFailure w w.ep.m_requestMessage
  pure (w.emit Output.OnSendFailure)

/-- The method `State_SocketResending`. -/
def State_SocketResending (w : World) : Option World :=
  if w.ep.m_retransmissionCounter ≥ w.ep.m_serviceBase.m_retransmissionLimit then
    Transition_RetransmissionLimitReached w
  else Socket_StartTimeout w

/-- The method `Transition_SocketSendFailed`. -/
def Transition_SocketSendFailed (w : World) : Option World :=
  State_SocketResending w

/-- The method `State_WaitForACK`. -/
def State_WaitForACK (w : World) : Option World :=
  ACK_StartTimeout w

/-- The method `Transition_RequestSentSuccessfully`. -/
def Transition_RequestSentSuccessfully (w : World) : Option World :=
  State_WaitForACK w

/-- The method `State_SendingRequest`. -/
def State_SendingRequest (env : Env) (w : World) : Option World := do
  let (sendSuccess, w) ← Task_SendMessage env w
  if sendSuccess then Transition_RequestSentSuccessfully w
  else Transition_SocketSendFailed w

/-- The method `Transition_SocketTimeout`. -/
def Transition_SocketTimeout (env : Env) (w : World) : Option World :=
  State_SendingRequest env w

/-- The method `Transition_ACKTimeout`. -/
def Transition_ACKTimeout (env : Env) (w : World) : Option World :=
  if w.ep.m_retransmissionCounter ≥ w.ep.m_serviceBase.m_retransmissionLimit then
    Transition_RetransmissionLimitReached w
  else State_SendingRequest env w

/-- The method `State_WaitingForResponse`: nothing to do, the response timer is running
since the start of the call. -/
def State_WaitingForResponse (w : World) : World := w

/-- The method `Transition_ReceivedACK`. -/
def Transition_ReceivedACK (w : World) : World :=
  if !w.sim.IsRunning w.ep.m_ACKTimeoutEvent then w
  else
    let w := Socket_CancelTimeout w
    let w := ACK_CancelTimeout w
    let w := w.emit Output.OnSendSuccess
    if w.ep.m_waitForResponse then State_WaitingForResponse w else w

/-- The method `State_HavingResponse`. -/
def State_HavingResponse (env : Env) (w : World) : Option World := do
  let w := Socket_CancelTimeout w
  let w := ACK_CancelTimeout w
  let w := Response_CancelTimeout w
  let w ← Task_SendACK env w
  let responseMessage ← w.ep.m_responseMessage
  pure (w.emit (Output.OnReceiveResponse responseMessage))

/-- The method `Transition_ReceivedResponse`. -/
def Transition_ReceivedResponse (env : Env) (w : World) : Option World :=
  let w := Socket_CancelTimeout w
  let w := ACK_CancelTimeout w
  let w := Response_CancelTimeout w
  State_HavingResponse env w

/-- The method `Transition_ResponseTimeout`. -/
def Transition_ResponseTimeout (w : World) : World :=
  let w := Socket_CancelTimeout w
  let w := ACK_CancelTimeout w
  let w := Response_CancelTimeout w
  w.emit Output.OnResponseTimeout

/-- The method `Task_ProcessReceivedMessage`. -/
def Task_ProcessReceivedMessage (env : Env) (w : World) (msg : Message) (sender : Address) :
    Option World :=
  if msg.m_messageType = Message.MTACK then some (Transition_ReceivedACK w)
  else
    let w := { w with ep := { w.ep with m_responseMessage := some msg,
                                        m_responseAddress := sender } }
    Transition_ReceivedResponse env w

/-- The method `Transition_StartSendMessage`. -/
def Transition_StartSendMessage (env : Env) (w : World) : Option World := do
  let w := Socket_CancelTimeout w
  let w := ACK_CancelTimeout w
  let w := Response_CancelTimeout w
  let w := { w with ep := { w.ep with m_retransmissionCounter := 0 } }
  let w ← Response_StartTimeout w
  State_SendingRequest env w

/-- The method `SendMessage`; the message is not null by its type here, a closed endpoint
(`m_socket` null) fails the assertion. -/
def SendMessage (env : Env) (w : World) (msg : Message) (dest : Address) (waitForResponse : Bool) :
    Option World := do
  if !w.ep.m_socketOpen then none
  let w := { w with ep := { w.ep with
    m_requestMessage := some msg
    m_requestAddress := dest
    m_waitForResponse := waitForResponse
    m_responseMessage := none } }
  Transition_StartSendMessage env w

/-- The loop that empties the socket after a response: every packet that is left is read
and dropped. `RemoveHeader` reads the header into the local message object, to which
`m_responseMessage` points since the response was stored. -/
def ReceiveMessage.drain : List Packet → World → World
  | [], w => w
  | packet :: rest, w =>
      if packet.size > 0 then
        ReceiveMessage.drain rest
          { w with ep := { w.ep with m_responseMessage := some packet.header } }
      else ReceiveMessage.drain rest w

/-- The receive loop of `ReceiveMessage` over the packets that `RecvFrom` returns. The flag
`aliased` says that `m_responseMessage` points to the local message object `msg` of this
call (after a message was stored as the response), so that `RemoveHeader` changes it too. -/
def ReceiveMessage.loop (env : Env) : List Packet → Bool → World → Option World
  | [], _, w => some w
  | packet :: rest, aliased, w =>
      if packet.size > 0 then
        let msg := packet.header
        let w :=
          if aliased then { w with ep := { w.ep with m_responseMessage := some msg } } else w
        -- the message is dropped unless it is related to the current request
        if w.ep.m_requestMessage.isNone ∨
            some msg.m_relatedToMessageId ≠ w.ep.m_requestMessage.map (fun r => r.m_messageId)
        then ReceiveMessage.loop env rest aliased w
        else do
          let (haveMsgAlreadyArrived, cache) :=
            w.ep.m_msgCache.HaveMessageAlreadyArrived msg w.sim.now
          let w := { w with ep := { w.ep with m_msgCache := cache } }
          let w ← MessageEndpoint.RecordReceiveMessage w msg packet.sender haveMsgAlreadyArrived
          if !haveMsgAlreadyArrived then
            let w ← Task_ProcessReceivedMessage env w msg packet.sender
            if msg.m_messageType = Message.MTACK then
              ReceiveMessage.loop env rest aliased w
            else if msg.m_messageType = Message.MTResponse ∨
                msg.m_messageType = Message.MTResponseException then
              pure (ReceiveMessage.drain rest w)
            else
              ReceiveMessage.loop env rest true w
          else ReceiveMessage.loop env rest aliased w
      else ReceiveMessage.loop env rest aliased w

/-- The method `ReceiveMessage`, called with the packets that wait on the socket. -/
def ReceiveMessage (env : Env) (w : World) (packets : List Packet) : Option World :=
  ReceiveMessage.loop env packets false w

/-- The method `Socket_TimeoutExpired`. -/
def Socket_TimeoutExpired (env : Env) (w : World) : Option World :=
  let w := Socket_CancelTimeout w
  Transition_SocketTimeout env w

/-- The method `ACK_TimeoutExpired`. -/
def ACK_TimeoutExpired (env : Env) (w : World) : Option World := do
  let w := ACK_CancelTimeout w
  let w ← MessageEndpoint.RecordACKTimeout w w.ep.m_requestMessage
  Transition_ACKTimeout env w

/-- The method `Response_TimeoutExpired`. -/
def Response_TimeoutExpired (w : World) : Option World := do
  let w := Response_CancelTimeout w
  let w ← MessageEndpoint.RecordResponseTimeout w w.ep.m_requestMessage
  pure (Transition_ResponseTimeout w)

end UdpClientMessageEndpoint

namespace World

/-- The creation of a `UdpClientMessageEndpoint` at virtual time `now` in an otherwise
empty simulation, followed by `Open ()`. The constructor creates the id cache, whose
constructor calls `RemoveOldRecords` and so schedules the first removal. The constructor
leaves `m_waitForResponse` and `m_retransmissionCounter` without a value; whatever they hold
is passed in. -/
def create (now : Time) (serviceBase : ServiceBase) (waitForResponse : Bool)
    (retransmissionCounter : Nat) : World :=
  { sim := { now := now, nextUid := 1,
             events := [{ ts := now + MilliSeconds 1000, uid := 0,
                          kind := EventKind.RemoveOldRecords }] }
    ep := { m_serviceBase := serviceBase, m_socketOpen := true, m_ACKTimeoutEvent := none,
            m_socketTimeoutEvent := none, m_responseTimeoutEvent := none,
            m_requestMessage := none, m_requestAddress := 0, m_responseMessage := none,
            m_responseAddress := 0, m_waitForResponse := waitForResponse,
            m_retransmissionCounter := retransmissionCounter,
            m_msgCache := { m_msgIdLifetime := serviceBase.m_msgIdLifetime, m_ids := [],
                            m_removeOldRecordsEvent := some 0 } }
    s_messageCounter := 0
    s_msgCounters := [MessageTypeCounter.new, MessageTypeCounter.new, MessageTypeCounter.new,
                      MessageTypeCounter.new]
    nSendTo := 0
    trace := [] }

/-- The call of the member function that an event stands for. Packets that arrive while the
endpoint does not hold the socket are not passed to it (`UdpClientSocket::ReceiveMessage`
tests `m_isInUse`). -/
def dispatch (env : Env) (w : World) : EventKind → Option World
  | EventKind.Socket_TimeoutExpired => UdpClientMessageEndpoint.Socket_TimeoutExpired env w
  | EventKind.ACK_TimeoutExpired => UdpClientMessageEndpoint.ACK_TimeoutExpired env w
  | EventKind.Response_TimeoutExpired => UdpClientMessageEndpoint.Response_TimeoutExpired w
  | EventKind.RemoveOldRecords => EndpointMessageIdCache.RemoveOldRecords env w
  | EventKind.ReceiveMessage packets =>
      if w.ep.m_socketOpen then UdpClientMessageEndpoint.ReceiveMessage env w packets
      else some w

/-- One step of `Simulator::Run`: the earliest pending event is taken from the queue, the
virtual time becomes its time stamp, and its member function is called. With an empty queue
nothing happens. -/
def fire (env : Env) (w : World) : Option World :=
  match Simulator.earliest w.sim.events with
  | none => some w
  | some e =>
      dispatch env
        { w with sim := { w.sim with now := e.ts
                                     events := w.sim.events.filter (fun x => x.uid ≠ e.uid) } }
        e.kind

/-- The first `n` steps of `Simulator::Run`. -/
def fires (env : Env) : Nat → World → Option World
  | 0, w => some w
  | n + 1, w => (fire env w).bind (fires env n)

/-- The network schedules the arrival of packets on the socket of the endpoint. -/
def deliver (w : World) (delay : Time) (packets : List Packet) : Option World := do
  let (w, _) ← w.schedule delay (EventKind.ReceiveMessage packets)
  pure w

end World

/-- What happens next in a run of one call: the simulator runs its next event, or the
network schedules the arrival of packets after some delay. -/
inductive Input where
  | fire
  | deliver (delay : Time) (packets : List Packet)
  deriving DecidableEq, Repr

namespace World

/-- The effect of one input. -/
def input (env : Env) (w : World) : Input → Option World
  | Input.fire => w.fire env
  | Input.deliver delay packets => w.deliver delay packets

/-- The effect of a sequence of inputs. -/
def run (env : Env) : List Input → World → Option World
  | [], w => some w
  | i :: rest, w => (w.input env i).bind (run env rest)

/-- The transmission attempts of the request in a trace: the `SendTo` records with a
non-zero retransmission number (the acknowledgement of a response is sent with number 0),
each with its time and message. -/
def requestAttempts : List (Time × Output) → List (Time × Message)
  | [] => []
  | (t, Output.SendTo msg _ retransmission _) :: rest =>
      if retransmission ≠ 0 then (t, msg) :: requestAttempts rest else requestAttempts rest
  | _ :: rest => requestAttempts rest

/-- The outcome callbacks in a trace, each with its time. -/
def outcomes : List (Time × Output) → List (Time × Output)
  | [] => []
  | (t, Output.OnSendSuccess) :: rest => (t, Output.OnSendSuccess) :: outcomes rest
  | (t, Output.OnSendFailure) :: rest => (t, Output.OnSendFailure) :: outcomes rest
  | (t, Output.OnReceiveResponse msg) :: rest =>
      (t, Output.OnReceiveResponse msg) :: outcomes rest
  | (t, Output.OnResponseTimeout) :: rest => (t, Output.OnResponseTimeout) :: outcomes rest
  | _ :: rest => outcomes rest

end World

/-! ### Predicates on generated configurations -/

namespace ServiceConfiguration

/-- The claimed ordering of service ids for the service at address `ref`: each step of each
of its method plans targets a contract all of whose serving services (the services in
`m_services` with that contract id) have a service id strictly greater than its own. -/
def StepsTargetHigherServiceIds (cfg : ServiceConfiguration) (ref : ServiceRef) : Prop :=
  ∀ s ∈ cfg.service ref, ∀ km ∈ s.m_methods, ∀ plan ∈ cfg.plan km.2.m_executionPlan,
    ∀ step ∈ plan.m_executionSteps, ∀ e ∈ cfg.m_services, ∀ s2 ∈ cfg.service e.2,
      s2.m_contractId = step.m_contractId → s.m_serviceId < s2.m_serviceId

instance (cfg : ServiceConfiguration) (ref : ServiceRef) :
    Decidable (cfg.StepsTargetHigherServiceIds ref) := by
  unfold StepsTargetHigherServiceIds; infer_instance

/-- The plan of a method resolves and all its steps target contract ids above `contract`. -/
def MethodOK (cfg : ServiceConfiguration) (contract : Nat) (method : ServiceMethod) : Prop :=
  ∃ plan, cfg.plan method.m_executionPlan = some plan ∧
    ∀ step ∈ plan.m_executionSteps, contract < step.m_contractId

/-- The entry `(id, ref)` of `m_services` points to a service object with that id; a service
with an id below `base + n` (one created by `AddServices`) has the contract id at the same
offset from `cbase`; and all its methods are `MethodOK` for its contract id. -/
def ServiceOK (base cbase n : Nat) (cfg : ServiceConfiguration) (id : Nat) (ref : ServiceRef) :
    Prop :=
  ∃ s, cfg.service ref = some s ∧ s.m_serviceId = id ∧ base ≤ id ∧
    (id < base + n → s.m_contractId + base = cbase + id) ∧
    ∀ km ∈ s.m_methods, cfg.MethodOK s.m_contractId km.2

/-- The structural invariant of the generator: every entry of `m_services` is `ServiceOK`. -/
def GenInv (base cbase n : Nat) (cfg : ServiceConfiguration) : Prop :=
  ∀ e ∈ cfg.m_services, cfg.ServiceOK base cbase n e.1 e.2

/-- Two methods that share a plan belong to services with the same contract id. -/
def PlanContractUnique (cfg : ServiceConfiguration) : Prop :=
  ∀ e ∈ cfg.m_services, ∀ e2 ∈ cfg.m_services, ∀ s ∈ cfg.service e.2,
    ∀ s2 ∈ cfg.service e2.2, ∀ km ∈ s.m_methods, ∀ km2 ∈ s2.m_methods,
      km.2.m_executionPlan = km2.2.m_executionPlan → s.m_contractId = s2.m_contractId

/-- The owning-service pointer of every method in the map `methods` of the generator
resolves to a service that `m_services` holds under its own id. -/
def MethodOwnersIndexed (cfg : ServiceConfiguration) (methods : List (Nat × ServiceMethod)) :
    Prop :=
  ∀ km ∈ methods, ∃ s, cfg.service km.2.m_service = some s ∧
    (s.m_serviceId, km.2.m_service) ∈ cfg.m_services

/-- The invariant that holds while the original services, their methods and their steps
are generated, before any replica exists. -/
structure PreReplicaInv (base cbase n : Nat) (cfg : ServiceConfiguration)
    (methods : List (Nat × ServiceMethod)) : Prop where
  inv : cfg.GenInv base cbase n
  original : ∀ e ∈ cfg.m_services, e.1 < base + n
  unique : cfg.PlanContractUnique
  owners : cfg.MethodOwnersIndexed methods

end ServiceConfiguration

/-- An execution step is resolvable: its contract id is indexed in `m_contracts` and the
service indexed there has a method with the step's method id. -/
def ServiceConfiguration.Resolvable (cfg : ServiceConfiguration) (step : ExecutionStep) : Prop :=
  ∃ ref contract method, cfg.GetContract step.m_contractId = some ref ∧
    cfg.service ref = some contract ∧
    contract.GetMethod step.m_contractMethodId = some method

/-- Every lookup that the validation of the configuration makes has a value: every step of
every client plan is resolvable, every pointer to a service and to a plan of a method
resolves, and every step of every plan of a method is resolvable. -/
def ServiceConfiguration.LookupsDefined (cfg : ServiceConfiguration) : Prop :=
  (∀ kc ∈ cfg.m_clients, ∀ step ∈ kc.2.m_executionPlan.m_executionSteps,
    cfg.Resolvable step) ∧
  (∀ ks ∈ cfg.m_services, ∃ s, cfg.service ks.2 = some s ∧ ∀ km ∈ s.m_methods,
    ∃ plan, cfg.plan km.2.m_executionPlan = some plan ∧
      ∀ step ∈ plan.m_executionSteps, cfg.Resolvable step)

/-- Soundness of the contract index: the service indexed under a contract id is a service
object of the configuration that has this contract id. -/
def ServiceConfiguration.ContractIndexSound (cfg : ServiceConfiguration) : Prop :=
  ∀ e ∈ cfg.m_contracts, (cfg.service e.2).map (fun s => s.m_contractId) = some e.1

instance (cfg : ServiceConfiguration) : Decidable cfg.ContractIndexSound := by
  unfold ServiceConfiguration.ContractIndexSound; infer_instance

/-- A fault model that is switched off, for the example configurations. -/
def exampleFaultModel : FaultModel :=
  FaultModel.SingleRateFaultModel false false 0 { tag := 0 }

/-- Example configuration: service 1 (contract 1) with method 1, and client 10 whose only
step targets method 1 of contract 2, a contract id that no service has. -/
def exampleConfigMissingContract : ServiceConfiguration :=
  (do
    let cfg ← ServiceConfiguration.new.AddService 1 (MilliSeconds 1) (MilliSeconds 100)
      (MilliSeconds 10) (MilliSeconds 2) 3 (MilliSeconds 50) 1 exampleFaultModel { tag := 1 }
    let (cfg, _) ← cfg.AddServiceMethod 1 1 { tag := 2 } exampleFaultModel { tag := 3 }
      { tag := 4 } { tag := 5 } { tag := 6 }
    let cfg ← cfg.AddClient 10 (MilliSeconds 1) (MilliSeconds 100) (MilliSeconds 10)
      (MilliSeconds 2) 3 (MilliSeconds 50) { tag := 7 } { tag := 8 }
    cfg.AddClientExecutionStep 10 2 1 { tag := 9 } (Double.ofNat 100)).getD
  ServiceConfiguration.new

/-- Example configuration: as before, but the step of client 10 targets method 1 of
contract 1, which exists. -/
def exampleConfigValid : ServiceConfiguration :=
  (do
    let cfg ← ServiceConfiguration.new.AddService 1 (MilliSeconds 1) (MilliSeconds 100)
      (MilliSeconds 10) (MilliSeconds 2) 3 (MilliSeconds 50) 1 exampleFaultModel { tag := 1 }
    let (cfg, _) ← cfg.AddServiceMethod 1 1 { tag := 2 } exampleFaultModel { tag := 3 }
      { tag := 4 } { tag := 5 } { tag := 6 }
    let cfg ← cfg.AddClient 10 (MilliSeconds 1) (MilliSeconds 100) (MilliSeconds 10)
      (MilliSeconds 2) 3 (MilliSeconds 50) { tag := 7 } { tag := 8 }
    cfg.AddClientExecutionStep 10 1 1 { tag := 9 } (Double.ofNat 100)).getD
  ServiceConfiguration.new

/-- Example run of `GenerateServices` on a fresh generator: two services (ids 1 and 2,
contracts 1 and 2) with one method each; the dependency draw 0.0 is below the dependency
probability 0.5, so method 1 of service 1 gets a step to contract 2; service 1 gets one
replica (id 3), service 2 none. -/
def exampleGenerateServices : Option (ServiceConfigurationRandomGenerator × Rng) :=
  ServiceConfigurationRandomGenerator.new.GenerateServices 2 1 1 { tag := 1 } { tag := 2 }
    { tag := 3 } (MilliSeconds 10) (MilliSeconds 2) 3 (MilliSeconds 50) exampleFaultModel
    { tag := 4 } { tag := 5 } exampleFaultModel { tag := 6 } { tag := 7 } { tag := 8 } 500000
    { tag := 9 } { tag := 10 } { tag := 11 } { tag := 12 }
    { values := [0, 50000000], integers := [1, 100, 1, 100, 1, 1, 1, 0] }

/-- The configuration produced by `exampleGenerateServices`. -/
def exampleGeneratedConfig : ServiceConfiguration :=
  (exampleGenerateServices.map (fun r => r.1.m_serviceConfiguration)).getD
    ServiceConfiguration.new

/-- The generator after `exampleGenerateServices`: services 1, 2 and 3 with the methods 1
(of services 1 and 3) and 2 (of service 2). -/
def exampleGenerator : ServiceConfigurationRandomGenerator :=
  (exampleGenerateServices.map (fun r => r.1)).getD ServiceConfigurationRandomGenerator.new

/-- Example run of `GenerateClientsWithUniformDependenceProbability` on `exampleGenerator`:
one client (id 100), dependency probability 0.5; `values` are the dependency draws for the
two methods, the third entry of `integers` is the draw of the synthetic dependency. -/
def exampleUniformClients (values : List Double) (integers : List Nat) :
    Option (ServiceConfigurationRandomGenerator × Rng) :=
  exampleGenerator.GenerateClientsWithUniformDependenceProbability true 1 100 { tag := 20 }
    { tag := 21 } (MilliSeconds 10) (MilliSeconds 2) 3 (MilliSeconds 50) { tag := 22 } 500000
    { tag := 23 } { tag := 24 } { values := values, integers := integers }

/-- Example run of `GenerateClientsWithFrontEndBackEndServices` on `exampleGenerator`: one
client (id 100) and the given array of front-end service ids. -/
def exampleFrontEndClients (frontEndServices : List Nat) :
    Option (ServiceConfigurationRandomGenerator × Rng) :=
  exampleGenerator.GenerateClientsWithFrontEndBackEndServices true 1 100 { tag := 20 }
    { tag := 21 } (MilliSeconds 10) (MilliSeconds 2) 3 (MilliSeconds 50) { tag := 22 }
    { tag := 23 } { tag := 24 } frontEndServices { tag := 25 }
    { values := [5, 5], integers := [1, 100] }

/-- The event is one of the two timers that lead to a retransmission of the request. -/
def ScheduledEvent.isRetryTimer (e : ScheduledEvent) : Bool :=
  decide (e.kind = EventKind.Socket_TimeoutExpired ∨ e.kind = EventKind.ACK_TimeoutExpired)

namespace World

/-- The step from `w` to `w2` leaves the stored request, the retransmission counter, the
service data, the socket and the size of the counter array as they are, adds no
transmission attempt of the request to the trace, and adds no retry timer to the queue. -/
structure Quiet (w w2 : World) : Prop where
  request : w2.ep.m_requestMessage = w.ep.m_requestMessage
  counter : w2.ep.m_retransmissionCounter = w.ep.m_retransmissionCounter
  serviceBase : w2.ep.m_serviceBase = w.ep.m_serviceBase
  socketOpen : w2.ep.m_socketOpen = w.ep.m_socketOpen
  counters : w2.s_msgCounters.length = w.s_msgCounters.length
  trace : ∃ ext, w2.trace = w.trace ++ ext ∧ requestAttempts ext = []
  timers : (w2.sim.events.filter ScheduledEvent.isRetryTimer).Sublist
    (w.sim.events.filter ScheduledEvent.isRetryTimer)

/-- The invariant of one call of the endpoint for the request `req`, the trace being `base`
when the call started: the request is stored, the retransmission counter is at most the
limit and counts the transmission attempts made since the start, each of which carries
`req`; at most one retry timer is pending, and while a socket timer is pending the counter
is below the limit. -/
structure CallInv (base : List (Time × Output)) (req : Message) (w : World) : Prop where
  request : w.ep.m_requestMessage = some req
  limit : w.ep.m_serviceBase.m_retransmissionLimit < U32
  counter : w.ep.m_retransmissionCounter ≤ w.ep.m_serviceBase.m_retransmissionLimit
  trace : ∃ new, w.trace = base ++ new ∧
    (requestAttempts new).length = w.ep.m_retransmissionCounter ∧
    ∀ a ∈ requestAttempts new, a.2 = req
  timers : (w.sim.events.filter ScheduledEvent.isRetryTimer).length ≤ 1
  socket : ∀ e ∈ w.sim.events, e.kind = EventKind.Socket_TimeoutExpired →
    w.ep.m_retransmissionCounter < w.ep.m_serviceBase.m_retransmissionLimit

end World

/-- What is kept by every function that neither schedules nor cancels an event nor changes
the endpoint: simulator and endpoint stay, the trace grows by `ext`. -/
structure World.Logs (w w2 : World) (ext : List (Time × Output)) : Prop where
  sim : w2.sim = w.sim
  ep : w2.ep = w.ep
  trace : w2.trace = w.trace ++ ext
  nSendTo : w2.nSendTo = w.nSendTo
  s_messageCounter : w2.s_messageCounter = w.s_messageCounter
  counters : w2.s_msgCounters.length = w.s_msgCounters.length

/-- The step from `w` to `w2` keeps the service data, the socket and the size of the
counter array. -/
structure World.Kept (w w2 : World) : Prop where
  serviceBase : w2.ep.m_serviceBase = w.ep.m_serviceBase
  socketOpen : w2.ep.m_socketOpen = w.ep.m_socketOpen
  counters : w2.s_msgCounters.length = w.s_msgCounters.length
  request : w2.ep.m_requestMessage = w.ep.m_requestMessage

/-- Only removal runs of the id cache are pending: the call is over. -/
def World.Quiescent (w : World) : Prop :=
  ∀ x ∈ w.sim.events, x.kind = EventKind.RemoveOldRecords

/-- The state of a call started at `T0` whose `k` transmissions so far were all rejected by
the transport: the removal run `S` of the id cache, the response timer (uid 1, due at
`T0 + responseTimeout`) and the socket timer (uid `u`, due at `T0 + k * ACKTimeout`) are
pending; the `k` transmissions were made at `T0 + j * ACKTimeout` for `j < k`, and no
outcome has been reported. -/
structure World.Resending (T0 : Time) (sb : ServiceBase) (req : Message) (dest : Address)
    (k : Nat) (S : ScheduledEvent) (u : Nat) (w : World) : Prop where
  sweep : S.kind = EventKind.RemoveOldRecords
  mem : ∀ x, x ∈ w.sim.events ↔ x = S ∨
    x = { ts := T0 + sb.m_responseTimeout, uid := 1,
          kind := EventKind.Response_TimeoutExpired } ∨
    x = { ts := T0 + (k : Int) * sb.m_ACKTimeout, uid := u,
          kind := EventKind.Socket_TimeoutExpired }
  suid : S.uid < w.sim.nextUid ∧ S.uid ≠ 1 ∧ S.uid ≠ u
  uuid : u < w.sim.nextUid ∧ u ≠ 1 ∧ 1 < w.sim.nextUid
  request : w.ep.m_requestMessage = some req
  address : w.ep.m_requestAddress = dest
  serviceBase : w.ep.m_serviceBase = sb
  socketOpen : w.ep.m_socketOpen = true
  counter : w.ep.m_retransmissionCounter = k
  ackEvent : w.ep.m_ACKTimeoutEvent = none
  responseEvent : w.ep.m_responseTimeoutEvent = some 1
  socketEvent : w.ep.m_socketTimeoutEvent = some u
  counters : w.s_msgCounters.length = 4
  attempts : World.requestAttempts w.trace =
    (List.range k).map (fun (j : Nat) => (T0 + (j : Int) * sb.m_ACKTimeout, req))
  outcomes : World.outcomes w.trace = []

/-- The state of a call started at `T0` that has failed after `m_retransmissionLimit`
rejected transmissions: only removal runs of the id cache are pending, the transmissions
were made at `T0 + j * ACKTimeout`, and `OnSendFailure` was reported once, at the time of
the last transmission. -/
structure World.SendFailed (T0 : Time) (sb : ServiceBase) (req : Message) (w : World) :
    Prop where
  quiescent : w.Quiescent
  attempts : World.requestAttempts w.trace =
    (List.range sb.m_retransmissionLimit).map
      (fun (j : Nat) => (T0 + (j : Int) * sb.m_ACKTimeout, req))
  outcomes : World.outcomes w.trace =
    [(T0 + ((sb.m_retransmissionLimit : Int) - 1) * sb.m_ACKTimeout, Output.OnSendFailure)]

/-- The invariant of a call started at `T0` over a transport that rejects every message: the
call is in the state `Resending` after some number of transmissions below the limit, or it
has failed. -/
def World.FailingInv (T0 : Time) (sb : ServiceBase) (req : Message) (dest : Address)
    (w : World) : Prop :=
  (∃ k S u, 1 ≤ k ∧ k < sb.m_retransmissionLimit ∧ w.Resending T0 sb req dest k S u) ∨
    w.SendFailed T0 sb req

/-- The state in which `SendMessage` on an endpoint newly created at `T0` enters
`State_SendingRequest`: the response timer is pending with uid 1 beside the first removal
run of the id cache, and the retransmission counter is 0. -/
def World.started (T0 : Time) (sb : ServiceBase) (req : Message) (dest : Address)
    (waitForResponse : Bool) : World :=
  { sim := { now := T0, nextUid := 2,
             events := [{ ts := T0 + MilliSeconds 1000, uid := 0,
                          kind := EventKind.RemoveOldRecords },
                        { ts := T0 + sb.m_responseTimeout, uid := 1,
                          kind := EventKind.Response_TimeoutExpired }] }
    ep := { m_serviceBase := sb, m_socketOpen := true, m_ACKTimeoutEvent := none,
            m_socketTimeoutEvent := none, m_responseTimeoutEvent := some 1,
            m_requestMessage := some req, m_requestAddress := dest,
            m_responseMessage := none, m_responseAddress := 0,
            m_waitForResponse := waitForResponse, m_retransmissionCounter := 0,
            m_msgCache := { m_msgIdLifetime := sb.m_msgIdLifetime, m_ids := [],
                            m_removeOldRecordsEvent := some 0 } }
    s_messageCounter := 0
    s_msgCounters := [MessageTypeCounter.new, MessageTypeCounter.new,
                      MessageTypeCounter.new, MessageTypeCounter.new]
    nSendTo := 0
    trace := [] }

/-- The message is related to the outstanding request of the endpoint: there is a stored
request and its message id is the `relatedToMessageId` of the message. -/
def UdpClientMessageEndpoint.IsRelated (ep : UdpClientMessageEndpoint) (msg : Message) : Prop :=
  ep.m_requestMessage.map (fun r => r.m_messageId) = some msg.m_relatedToMessageId

instance (ep : UdpClientMessageEndpoint) (msg : Message) : Decidable (ep.IsRelated msg) := by
  unfold UdpClientMessageEndpoint.IsRelated; infer_instance

/-- Example service data for the endpoint examples: retransmission limit 3, ACK timeout
10 ms, response timeout 100 ms. -/
def exampleServiceBase : ServiceBase :=
  { m_serviceId := 7, m_startTime := MilliSeconds 1, m_stopTime := MilliSeconds 1000,
    m_responseTimeout := MilliSeconds 100, m_ACKTimeout := MilliSeconds 10,
    m_retransmissionLimit := 3, m_msgIdLifetime := MilliSeconds 50 }

/-- Example request with message id 5. -/
def exampleRequest : Message :=
  { Message.new with m_messageId := 5, m_conversationId := 1, m_size := 100 }

/-- Example environment in which every `SendTo` returns 0, so that the endpoint sees every
send fail; the removal loop leaves the entries that are not older than the current time. -/
def exampleEnvFailing : Env :=
  { transport := fun _ => 0
    eraseOutcome := fun ids now => ids.filter (fun e => decide (¬ e.2 < now)) }

/-- Example environment in which every `SendTo` returns 140 bytes sent. -/
def exampleEnvSending : Env :=
  { transport := fun _ => 140
    eraseOutcome := fun ids now => ids.filter (fun e => decide (¬ e.2 < now)) }

/-- Example world: an endpoint created at time 0 that has sent `exampleRequest` with
`waitForResponse` set, the send having succeeded. -/
def exampleWorldWaiting : World :=
  (UdpClientMessageEndpoint.SendMessage exampleEnvSending
    (World.create 0 exampleServiceBase false 0) exampleRequest 3 true).getD
    (World.create 0 exampleServiceBase false 0)

/-- Example packet: a response related to message 6, not to the outstanding request 5. -/
def examplePacketUnrelated : Packet :=
  { size := 140, sender := 3
    header := { Message.new with m_messageType := Message.MTResponse, m_messageId := 20,
                                 m_relatedToMessageId := 6 } }

/-- Example service data with a response timeout (5 ms) shorter than the ACK timeout
(10 ms); retransmission limit 3. -/
def exampleServiceBaseShortResponse : ServiceBase :=
  { m_serviceId := 7, m_startTime := MilliSeconds 1, m_stopTime := MilliSeconds 1000,
    m_responseTimeout := MilliSeconds 5, m_ACKTimeout := MilliSeconds 10,
    m_retransmissionLimit := 3, m_msgIdLifetime := MilliSeconds 50 }

/-- Example cache. -/
def exampleCacheEmpty : EndpointMessageIdCache :=
  { m_msgIdLifetime := MilliSeconds 50, m_ids := [], m_removeOldRecordsEvent := none }

/-- Example environment in which the removal loop of the id cache, once it erases an entry,
leaves nothing behind (one of the outcomes that the undefined iteration allows). -/
def exampleEnvErasingAll : Env :=
  { transport := fun _ => 140
    eraseOutcome := fun _ _ => [] }

/-- Example world at 50 ms whose id cache holds the id 5 with expiry 10 ms and the id 6 with
expiry 100 ms. -/
def exampleWorldCached : World :=
  { sim := { now := MilliSeconds 50, nextUid := 1, events := [] }
    ep := { m_serviceBase := exampleServiceBase, m_socketOpen := true,
            m_ACKTimeoutEvent := none, m_socketTimeoutEvent := none,
            m_responseTimeoutEvent := none, m_requestMessage := none, m_requestAddress := 0,
            m_responseMessage := none, m_responseAddress := 0, m_waitForResponse := false,
            m_retransmissionCounter := 0,
            m_msgCache := { m_msgIdLifetime := MilliSeconds 50,
                            m_ids := [(5, MilliSeconds 10), (6, MilliSeconds 100)],
                            m_removeOldRecordsEvent := none } }
    s_messageCounter := 0
    s_msgCounters := [MessageTypeCounter.new, MessageTypeCounter.new, MessageTypeCounter.new,
                      MessageTypeCounter.new]
    nSendTo := 0
    trace := [] }

/-- Some method of some service of the configuration has an execution plan without
steps. -/
def ServiceConfiguration.HasEmptyServiceMethodPlan (cfg : ServiceConfiguration) : Bool :=
  cfg.m_services.any (fun ks =>
    match cfg.service ks.2 with
    | some s => s.m_methods.any (fun km =>
        match cfg.plan km.2.m_executionPlan with
        | some plan => plan.m_executionSteps.isEmpty
        | none => false)
    | none => false)

/-- Example configuration: service 1 (contract 1) with method 1, and client 10 without any
execution step. -/
def exampleConfigEmptyClient : ServiceConfiguration :=
  (do
    let cfg ← ServiceConfiguration.new.AddService 1 (MilliSeconds 1) (MilliSeconds 100)
      (MilliSeconds 10) (MilliSeconds 2) 3 (MilliSeconds 50) 1 exampleFaultModel { tag := 1 }
    let (cfg, _) ← cfg.AddServiceMethod 1 1 { tag := 2 } exampleFaultModel { tag := 3 }
      { tag := 4 } { tag := 5 } { tag := 6 }
    cfg.AddClient 10 (MilliSeconds 1) (MilliSeconds 100) (MilliSeconds 10)
      (MilliSeconds 2) 3 (MilliSeconds 50) { tag := 7 } { tag := 8 }).getD
  ServiceConfiguration.new

namespace Message

/-- The method `Message::InitializeNew`; takes and returns `s_messageCounter` and
`s_conversationCounter`. -/
def InitializeNew (self : Message)
    (srcNode srcService destNode destService destMethod size : Nat)
    (s_messageCounter s_conversationCounter : Nat) : Message × Nat × Nat :=
  let s_messageCounter := (s_messageCounter + 1) % U32
  let s_conversationCounter := (s_conversationCounter + 1) % U32
  ({ self with
      m_messageType := MTRequest
      m_messageId := s_messageCounter
      m_relatedToMessageId := 0
      m_conversationId := s_conversationCounter
      m_srcNode := srcNode
      m_srcService := srcService
      m_destNode := destNode
      m_destService := destService
      m_destMethod := destMethod
      m_size := size }, s_messageCounter, s_conversationCounter)

/-- The method `Message::InitializeResponse`; takes and returns `s_messageCounter`. -/
def InitializeResponse (self sourceMsg : Message) (size : Nat) (s_messageCounter : Nat) :
    Message × Nat :=
  let s_messageCounter := (s_messageCounter + 1) % U32
  ({ self with
      m_messageType := MTResponse
      m_messageId := s_messageCounter
      m_relatedToMessageId := sourceMsg.m_messageId
      m_conversationId := sourceMsg.m_conversationId
      m_srcNode := sourceMsg.m_srcNode
      m_srcService := sourceMsg.m_srcService
      m_destNode := sourceMsg.m_destNode
      m_destService := sourceMsg.m_destService
      m_destMethod := sourceMsg.m_destMethod
      m_size := size }, s_messageCounter)

/-- The method `Message::InitializeResponseException`; takes and returns
`s_messageCounter`. -/
def InitializeResponseException (self sourceMsg : Message) (s_messageCounter : Nat) :
    Message × Nat :=
  let s_messageCounter := (s_messageCounter + 1) % U32
  ({ self with
      m_messageType := MTResponseException
      m_messageId := s_messageCounter
      m_relatedToMessageId := sourceMsg.m_messageId
      m_conversationId := sourceMsg.m_conversationId
      m_srcNode := sourceMsg.m_srcNode
      m_srcService := sourceMsg.m_srcService
      m_destNode := sourceMsg.m_destNode
      m_destService := sourceMsg.m_destService
      m_destMethod := sourceMsg.m_destMethod
      m_size := RESPONSE_EXCEPTION_MESSAGE_SIZE }, s_messageCounter)

/-- The method `Message::InitializeNext`; takes and returns `s_messageCounter`. -/
def InitializeNext (self sourceMsg : Message) (destNode destService destMethod size : Nat)
    (s_messageCounter : Nat) : Message × Nat :=
  let s_messageCounter := (s_messageCounter + 1) % U32
  ({ self with
      m_messageType := MTRequest
      m_messageId := s_messageCounter
      m_relatedToMessageId := 0
      m_conversationId := sourceMsg.m_conversationId
      m_srcNode := sourceMsg.m_destNode
      m_srcService := sourceMsg.m_destService
      m_destNode := destNode
      m_destService := destService
      m_destMethod := destMethod
      m_size := size }, s_messageCounter)

end Message

/-- One call of an initialiser of `Message` on a newly created message object, with its
arguments. -/
inductive Initialization where
  | New (srcNode srcService destNode destService destMethod size : Nat)
  | Response (sourceMsg : Message) (size : Nat)
  | ACK (sourceMsg : Message)
  | ResponseException (sourceMsg : Message)
  | Next (sourceMsg : Message) (destNode destService destMethod size : Nat)
  deriving DecidableEq, Repr

namespace Initialization

/-- The source message of the call, if it has one. -/
def sourceMsg : Initialization → Option Message
  | New _ _ _ _ _ _ => none
  | Response sourceMsg _ => some sourceMsg
  | ACK sourceMsg => some sourceMsg
  | ResponseException sourceMsg => some sourceMsg
  | Next sourceMsg _ _ _ _ => some sourceMsg

/-- The call is `InitializeNew`. -/
def isNew : Initialization → Bool
  | New _ _ _ _ _ _ => true
  | _ => false

/-- The call on a message object made by `Message ()`, with the static counters passed
through. -/
def apply (call : Initialization) (s_messageCounter s_conversationCounter : Nat) :
    Message × Nat × Nat :=
  match call with
  | New srcNode srcService destNode destService destMethod size =>
      Message.new.InitializeNew srcNode srcService destNode destService destMethod size
        s_messageCounter s_conversationCounter
  | Response sourceMsg size =>
      let (msg, s_messageCounter) :=
        Message.new.InitializeResponse sourceMsg size s_messageCounter
      (msg, s_messageCounter, s_conversationCounter)
  | ACK sourceMsg =>
      let (msg, s_messageCounter) := Message.new.InitializeACK sourceMsg s_messageCounter
      (msg, s_messageCounter, s_conversationCounter)
  | ResponseException sourceMsg =>
      let (msg, s_messageCounter) :=
        Message.new.InitializeResponseException sourceMsg s_messageCounter
      (msg, s_messageCounter, s_conversationCounter)
  | Next sourceMsg destNode destService destMethod size =>
      let (msg, s_messageCounter) :=
        Message.new.InitializeNext sourceMsg destNode destService destMethod size
          s_messageCounter
      (msg, s_messageCounter, s_conversationCounter)

/-- The messages that a sequence of calls initialises, each with its call, in call order. -/
def applyAll : List Initialization → Nat → Nat → List (Initialization × Message)
  | [], _, _ => []
  | call :: rest, s_messageCounter, s_conversationCounter =>
      (call, (call.apply s_messageCounter s_conversationCounter).1) ::
        applyAll rest (call.apply s_messageCounter s_conversationCounter).2.1
          (call.apply s_messageCounter s_conversationCounter).2.2

/-- Every source message of the calls is one of the messages `known` or a message that an
earlier call of the sequence initialised. -/
def SourcesKnown : List Message → List Initialization → Nat → Nat → Prop
  | _, [], _, _ => True
  | known, call :: rest, s_messageCounter, s_conversationCounter =>
      (∀ s ∈ call.sourceMsg, s ∈ known) ∧
      SourcesKnown (known ++ [(call.apply s_messageCounter s_conversationCounter).1]) rest
        (call.apply s_messageCounter s_conversationCounter).2.1
        (call.apply s_messageCounter s_conversationCounter).2.2

end Initialization

/-- Example sequence of calls: a new request, its ACK, a continuation request, a response
to the first request and a second new request. -/
def exampleInitializations : List Initialization :=
  [Initialization.New 1 10 2 20 1 100,
   Initialization.ACK
     (Message.new.InitializeNew 1 10 2 20 1 100 0 0).1,
   Initialization.Next
     (Message.new.InitializeNew 1 10 2 20 1 100 0 0).1 3 30 1 50,
   Initialization.Response
     (Message.new.InitializeNew 1 10 2 20 1 100 0 0).1 70,
   Initialization.New 1 10 2 20 1 100]

/-- The struct `Arc`. -/
structure Arc where
  head : Nat
  tail : Nat
  deriving DecidableEq, Repr

/-- The function `operator<` on `Arc`. -/
def Arc.lt (a b : Arc) : Bool :=
  if a.head < b.head then true
  else if a.tail < b.tail then true
  else false

/-- A service with the contract id `c` that the configuration holds has a method whose plan
has a step that targets the contract id `d`: a call can pass from contract `c` to contract
`d`. -/
def ServiceConfiguration.ContractCalls (cfg : ServiceConfiguration) (c d : Nat) : Prop :=
  ∃ e ∈ cfg.m_services, ∃ s, cfg.service e.2 = some s ∧ s.m_contractId = c ∧
    ∃ km ∈ s.m_methods, ∃ plan, cfg.plan km.2.m_executionPlan = some plan ∧
      ∃ step ∈ plan.m_executionSteps, step.m_contractId = d

/-! ## Service registry: selection by hop distance -/

/-- The class `ServiceRegistryRecord`. -/
structure ServiceRegistryRecord where
  m_service : ServiceRef
  m_serviceAddress : Address
  m_nodeId : Nat
  deriving DecidableEq, Repr

/-- One entry of the routing table of a node, as far as the selector reads it. -/
structure RoutingTableEntry where
  destAddr : Address
  distance : Nat
  deriving DecidableEq, Repr

namespace ServiceRegistryServiceSelectorHopDistance

/-- The method `GetHopDistanceOfNode`, on the routing table of the source node: the distance
of the first entry for the address, 0 when there is none. The result is stored in the
`uint32_t recordDistance`. -/
def GetHopDistanceOfNode : List RoutingTableEntry → Address → Nat
  | [], _ => 0
  | it :: rest, destServiceAddress =>
    if it.destAddr = destServiceAddress then it.distance % U32
    else GetHopDistanceOfNode rest destServiceAddress

/-- The loop of `SelectService` over the records in the iteration order of the set. -/
def SelectService.loop (entry : List RoutingTableEntry) :
    List ServiceRegistryRecord → ServiceRegistryRecord → Nat → ServiceRegistryRecord
  | [], nearestRecord, _ => nearestRecord
  | record :: rest, nearestRecord, nearestRecordDistance =>
    let recordDistance := GetHopDistanceOfNode entry record.m_serviceAddress
    if recordDistance > 0 ∧ recordDistance < nearestRecordDistance then
      SelectService.loop entry rest record recordDistance
    else
      SelectService.loop entry rest nearestRecord nearestRecordDistance

/-- The method `ServiceRegistryServiceSelectorHopDistance::SelectService`. The set
`destRecords` is given as the list of its elements in iteration order; `*destRecords.begin ()`
of an empty set has no value. -/
def SelectService (entry : List RoutingTableEntry) (_destContractId : Nat)
    (destRecords : List ServiceRegistryRecord) : Option ServiceRegistryRecord :=
  match destRecords with
  | [] => none
  | first :: _ => some (SelectService.loop entry destRecords first 1000)

end ServiceRegistryServiceSelectorHopDistance

/-- A routing table in which the second candidate is 1000 hops away and the first candidate
is not listed. -/
def exampleRoutingFar : List RoutingTableEntry :=
  [{ destAddr := 2, distance := 1000 }]

/-- Two candidates, at the addresses 1 and 2. -/
def exampleCandidates : List ServiceRegistryRecord :=
  [{ m_service := 0, m_serviceAddress := 1, m_nodeId := 1 },
   { m_service := 1, m_serviceAddress := 2, m_nodeId := 2 }]

/-! ## Execution plan executers -/

/-- What one call of `ExecuteNextStep` of the service executer does to the outside: schedule
itself again after a delay drawn from a variable of the plan, send the request of the step
with the given index (`ExecuteSendMessage`), or end the execution (`PlanFinished`). -/
inductive ExecuterAction where
  | Delay (delay : RandomVariable)
  | Send (index : Nat)
  | Finished (success : Bool)
  deriving DecidableEq, Repr

/-- The member variables of `ServiceExecutionPlanExecuter` that the selection of the steps
reads and writes; `m_currentStep` is an `int`. -/
structure ServiceExecutionPlanExecuter where
  m_servicePlan : ServiceExecutionPlan
  m_stepSelector : RandomVariable
  m_currentStep : Int
  deriving DecidableEq, Repr

namespace ServiceExecutionPlanExecuter

/-- The loop of `FindStepToExecute`; the list holds the steps from index `step` on, so that
it is empty exactly when `step < stepsCount` fails. -/
def FindStepToExecute.loop (m_stepSelector : RandomVariable) (stepsCount : Nat) :
    List ExecutionStep → Nat → Rng → Nat × Rng
  | [], _, rng => (stepsCount, rng)
  | executionStep :: rest, step, rng =>
    let stepProbability := executionStep.m_stepProbability
    let (value, rng) := m_stepSelector.GetValue rng
    if value ≤ stepProbability then (step, rng)
    else FindStepToExecute.loop m_stepSelector stepsCount rest (step + 1) rng

/-- The method `ServiceExecutionPlanExecuter::FindStepToExecute`; `step = m_currentStep`
converts the `int` to `uint32_t`. -/
def FindStepToExecute (self : ServiceExecutionPlanExecuter) (rng : Rng) : Nat × Rng :=
  let stepsCount := self.m_servicePlan.GetExecutionStepsCount
  let step := (self.m_currentStep % (U32 : Int)).toNat
  FindStepToExecute.loop self.m_stepSelector stepsCount
    (self.m_servicePlan.m_executionSteps.drop step) step rng

/-- The method `ServiceExecutionPlanExecuter::OnStart`, before its call of
`ExecuteNextStep`. -/
def OnStart (self : ServiceExecutionPlanExecuter) : ServiceExecutionPlanExecuter :=
  { self with m_currentStep := -1 }

/-- The last two tests of `ExecuteNextStep`, on the value `m_currentStep` has by then. -/
def ExecuteNextStep.last (self : ServiceExecutionPlanExecuter) (m_currentStep : Int)
    (rng : Rng) : Option ExecuterAction × ServiceExecutionPlanExecuter × Rng :=
  let stepsCount : Int := (self.m_servicePlan.GetExecutionStepsCount : Int)
  if m_currentStep = stepsCount then
    (some (ExecuterAction.Delay self.m_servicePlan.m_planPostExeDelay),
      { self with m_currentStep := m_currentStep + 1 }, rng)
  else if m_currentStep > stepsCount then
    (some (ExecuterAction.Finished true), { self with m_currentStep := m_currentStep }, rng)
  else
    (none, { self with m_currentStep := m_currentStep }, rng)

/-- The method `ServiceExecutionPlanExecuter::ExecuteNextStep`: what it does (nothing when
none of its tests holds), the executer and the draws after it. The draws of integers made
inside `ExecuteNextStepWithDelay` and `ExecuteSendMessage` are left to the action. The
plan holds fewer than 2^31 steps, so that `(int)` of the count and of the index returned
by `FindStepToExecute` keeps the value. -/
def ExecuteNextStep (self : ServiceExecutionPlanExecuter) (rng : Rng) :
    Option ExecuterAction × ServiceExecutionPlanExecuter × Rng :=
  let stepsCount : Int := (self.m_servicePlan.GetExecutionStepsCount : Int)
  if self.m_currentStep = -1 then
    (some (ExecuterAction.Delay self.m_servicePlan.m_planPreExeDelay),
      { self with m_currentStep := self.m_currentStep + 1 }, rng)
  else if self.m_currentStep < stepsCount then
    let (step, rng) := self.FindStepToExecute rng
    let m_currentStep : Int := (step : Int)
    if m_currentStep < stepsCount then
      (some (ExecuterAction.Send m_currentStep.toNat),
        { self with m_currentStep := m_currentStep + 1 }, rng)
    else
      ExecuteNextStep.last self m_currentStep rng
  else
    ExecuteNextStep.last self self.m_currentStep rng

/-- The indices of the steps sent by successive calls of `ExecuteNextStep`, one call for
each element of the list, which gives the draws that are still to come at that call. -/
def sentSteps : List Rng → ServiceExecutionPlanExecuter → List Nat
  | [], _ => []
  | rng :: rest, self =>
    match self.ExecuteNextStep rng with
    | (some (ExecuterAction.Send index), self, _) => index :: sentSteps rest self
    | (_, self, _) => sentSteps rest self

end ServiceExecutionPlanExecuter

/-- A plan with one step of probability 50. -/
def examplePlanOneStep : ServiceExecutionPlan :=
  { m_executionSteps :=
      [{ m_contractId := 2, m_contractMethodId := 1, m_requestSize := { tag := 0 },
         m_stepProbability := Double.ofNat 50 }],
    m_planPreExeDelay := { tag := 1 }, m_planPostExeDelay := { tag := 2 },
    m_stepPostExeDelay := { tag := 3 }, m_postPlanErrorDelay := { tag := 4 } }

/-- The event `m_executeTaskEvent` of an executer: the delay after which `ExecuteNextStep`
is called, and the variable of the plan that the delay was drawn from. -/
structure ExecuteTaskEvent where
  delayValue : Time
  delay : RandomVariable
  deriving DecidableEq, Repr

/-- The member variables of `ClientExecutionPlanExecuter` that its callbacks read and write:
the plan, the id of `m_serviceBase`, the pending `m_executeTaskEvent`, and the messages
recorded by `RecordError (serviceId, ERROR_TYPE_RECEIVED_EXCEPTION, msg)`. -/
structure ClientExecutionPlanExecuter where
  m_clientPlan : ClientExecutionPlan
  m_serviceId : Nat
  m_executeTaskEvent : Option ExecuteTaskEvent
  receivedExceptions : List (Nat × Message)
  deriving DecidableEq, Repr

/-- How a call of the client endpoint ends for its owner: the callback that is called. -/
inductive CallOutcome where
  | SendFailure
  | ReceiveResponse (msg : Message)
  | ResponseTimeout
  deriving DecidableEq, Repr

namespace ClientExecutionPlanExecuter

/-- The method `ExecutionPlanExecuter::ExecuteNextStepWithDelay`. -/
def ExecuteNextStepWithDelay (self : ClientExecutionPlanExecuter) (delay : RandomVariable)
    (rng : Rng) : ClientExecutionPlanExecuter × Rng :=
  let (value, rng) := delay.GetInteger rng
  let delayValue := MilliSeconds (value : Int)
  ({ self with m_executeTaskEvent := some { delayValue := delayValue, delay := delay } }, rng)

/-- The method `ClientExecutionPlanExecuter::WaitBeforeNextStep`. -/
def WaitBeforeNextStep (self : ClientExecutionPlanExecuter) (rng : Rng) :
    ClientExecutionPlanExecuter × Rng :=
  self.ExecuteNextStepWithDelay self.m_clientPlan.m_requestRate rng

/-- The method `ClientExecutionPlanExecuter::WaitAfterFailure`. -/
def WaitAfterFailure (self : ClientExecutionPlanExecuter) (rng : Rng) :
    ClientExecutionPlanExecuter × Rng :=
  self.ExecuteNextStepWithDelay self.m_clientPlan.m_afterFailureWaitingPeriod rng

/-- The method `ClientExecutionPlanExecuter::Request_onSendFailureCallback`. -/
def Request_onSendFailureCallback (self : ClientExecutionPlanExecuter) (rng : Rng) :
    ClientExecutionPlanExecuter × Rng :=
  self.WaitBeforeNextStep rng

/-- The method `ClientExecutionPlanExecuter::Request_onReceiveResponseCallback`. -/
def Request_onReceiveResponseCallback (self : ClientExecutionPlanExecuter) (msg : Message)
    (rng : Rng) : ClientExecutionPlanExecuter × Rng :=
  if msg.m_messageType = Message.MTResponseException then
    let self := { self with
      receivedExceptions := self.receivedExceptions ++ [(self.m_serviceId, msg)] }
    self.WaitAfterFailure rng
  else
    self.WaitBeforeNextStep rng

/-- The method `ClientExecutionPlanExecuter::Request_onResponseTimeoutCallback`. -/
def Request_onResponseTimeoutCallback (self : ClientExecutionPlanExecuter) (rng : Rng) :
    ClientExecutionPlanExecuter × Rng :=
  self.WaitAfterFailure rng

/-- The callback that the endpoint calls for the outcome of a call. -/
def onOutcome (self : ClientExecutionPlanExecuter) (rng : Rng) :
    CallOutcome → ClientExecutionPlanExecuter × Rng
  | CallOutcome.SendFailure => self.Request_onSendFailureCallback rng
  | CallOutcome.ReceiveResponse msg => self.Request_onReceiveResponseCallback msg rng
  | CallOutcome.ResponseTimeout => self.Request_onResponseTimeoutCallback rng

end ClientExecutionPlanExecuter

/-- The outcome is a received ResponseException or a response timeout. -/
def CallOutcome.isExceptionOrTimeout : CallOutcome → Bool
  | CallOutcome.SendFailure => false
  | CallOutcome.ReceiveResponse msg => decide (msg.m_messageType = Message.MTResponseException)
  | CallOutcome.ResponseTimeout => true

namespace ServiceConfigurationRandomGenerator

/-- The inner loop of `SelectServicesToBeUsedByClients`: `count` more selections in bin `b`;
the writes `servicesToBeUsedByClients[i] = sid` are recorded in order. -/
def SelectServicesToBeUsedByClients.inner (sizeOfBin : Nat) (serviceSelector : RandomVariable)
    (b : Nat) : Nat → Nat → Rng → List (Nat × Nat) → Nat × Rng × List (Nat × Nat)
  | 0, i, rng, writes => (i, rng, writes)
  | count + 1, i, rng, writes =>
    let (value, rng) := serviceSelector.GetInteger rng
    let sid := ((b * sizeOfBin) % U32 + value) % U32
    SelectServicesToBeUsedByClients.inner sizeOfBin serviceSelector b count ((i + 1) % U32) rng
      (writes ++ [(i, sid)])

/-- The outer loop of `SelectServicesToBeUsedByClients`: `count` more bins from bin `b`. -/
def SelectServicesToBeUsedByClients.outer (sizeOfBin numberOfServicesToSelectInBin : Nat)
    (serviceSelector : RandomVariable) :
    Nat → Nat → Nat → Rng → List (Nat × Nat) → Nat × Rng × List (Nat × Nat)
  | 0, _, i, rng, writes => (i, rng, writes)
  | count + 1, b, i, rng, writes =>
    let (i, rng, writes) := SelectServicesToBeUsedByClients.inner sizeOfBin serviceSelector b
      numberOfServicesToSelectInBin i rng writes
    SelectServicesToBeUsedByClients.outer sizeOfBin numberOfServicesToSelectInBin
      serviceSelector count (b + 1) i rng writes

/-- The method `SelectServicesToBeUsedByClients`, on the number of services of the
configuration: the writes to the array `servicesToBeUsedByClients` as pairs of index and
value, in order, and the draws left. The division by `numberOfBins` has no value when
`numberOfBins` is 0. -/
def SelectServicesToBeUsedByClients (numberOfServices numberOfServicesToBeUsedByClients : Nat)
    (rng : Rng) : Option (List (Nat × Nat) × Rng) :=
  let sizeOfBin := 6
  let numberOfBins := numberOfServices / sizeOfBin
  if numberOfBins = 0 then none
  else
    let numberOfServicesToSelectInBin := numberOfServicesToBeUsedByClients / numberOfBins
    let serviceSelector : RandomVariable := { tag := 0 }
    let (_, rng, writes) := SelectServicesToBeUsedByClients.outer sizeOfBin
      numberOfServicesToSelectInBin serviceSelector numberOfBins 0 0 rng []
    some (writes, rng)

/-- The write of the value `kv.2` at the index `kv.1` belongs to a bin `b`: the index is one
of the `perBin` indices of the bin and the value lies in `[6b, 6b + 5]`. -/
def SelectServicesToBeUsedByClients.InBin (numberOfBins perBin : Nat) (kv : Nat × Nat) : Prop :=
  ∃ b, b < numberOfBins ∧ b * perBin ≤ kv.1 ∧ kv.1 < (b + 1) * perBin ∧
    6 * b ≤ kv.2 ∧ kv.2 ≤ 6 * b + 5

end ServiceConfigurationRandomGenerator

/-- The object was made by the constructor `ServiceBase::ServiceBase`: its fields pass the
assertions of the constructor. -/
def ServiceBase.Constructed (b : ServiceBase) : Prop :=
  ServiceBase.new b.m_serviceId b.m_startTime b.m_stopTime b.m_responseTimeout b.m_ACKTimeout
    b.m_retransmissionLimit b.m_msgIdLifetime = some b

/-- A `Service` object as the constructor and `AddMethod` leave it: the fields pass the
assertions of the constructors, the keys of the map of methods ascend (it is a `std::map`),
and every method is stored under its method id, which is not 0. -/
def Service.WellFormed (s : Service) : Prop :=
  s.toServiceBase.Constructed ∧ s.m_contractId ≠ 0 ∧
  (s.m_methods.map Prod.fst).Pairwise (fun a b => a < b) ∧
  ∀ km ∈ s.m_methods, km.2.m_contractMethodId = km.1 ∧ km.1 ≠ 0

/-- The service object of `exampleConfigValid`: service 1 with its method 1, whose plan is
the plan object 0. -/
def exampleService : Service :=
  { m_serviceId := 1, m_startTime := MilliSeconds 1, m_stopTime := MilliSeconds 100,
    m_responseTimeout := MilliSeconds 10, m_ACKTimeout := MilliSeconds 2,
    m_retransmissionLimit := 3, m_msgIdLifetime := MilliSeconds 50, m_contractId := 1,
    m_faultModel := exampleFaultModel,
    m_methods := [(1, { m_contractMethodId := 1, m_service := 0, m_responseSize := { tag := 2 },
                        m_faultModel := exampleFaultModel, m_executionPlan := 0 })],
    m_postErrorDelay := { tag := 1 } }

/-- Example packet: the ACK (message id 20) of the peer for `exampleRequest`. -/
def examplePacketACK : Packet :=
  { size := 140, sender := 3
    header := { Message.new with m_messageType := Message.MTACK, m_messageId := 20,
                                 m_relatedToMessageId := 5 } }

/-- Example packet: the response (message id 21) of the peer to `exampleRequest`. -/
def examplePacketResponse : Packet :=
  { size := 140, sender := 3
    header := { Message.new with m_messageType := Message.MTResponse, m_messageId := 21,
                                 m_relatedToMessageId := 5 } }

/-! ## Server endpoint -/

/-- What the server endpoint does to the outside: the socket call `SendTo` with its record,
the records of received messages and of errors, and the callback `OnReceiveRequest` into the
application layer. -/
inductive ServerOutput where
  | SendTo (msg : Message) (dest : Address) (retransmission : Nat) (sendSuccess : Bool)
  | RecordReceiveMessage (msg : Message) (sender : Address) (dropedDueToResend : Bool)
  | RecordError (serviceId : Nat) (errorType : ErrorType) (msgId : Nat)
  | OnReceiveRequest (msg : Message) (sender : Address)
  deriving DecidableEq, Repr

/-- The member variables of `UdpServerMessageEndpoint` (with `m_serviceBase` of its base
class); `m_socketOpen` says that `m_socket` is not null. -/
structure UdpServerMessageEndpoint where
  m_serviceBase : ServiceBase
  m_socketOpen : Bool
  m_msgCache : EndpointMessageIdCache
  deriving DecidableEq, Repr

/-- One server endpoint in its world: the virtual time, the endpoint, the static counters,
the number of `SendTo` calls made so far, and the outputs so far. -/
structure ServerWorld where
  now : Time
  ep : UdpServerMessageEndpoint
  s_messageCounter : Nat
  s_msgCounters : List MessageTypeCounter
  nSendTo : Nat
  trace : List (Time × ServerOutput)
  deriving DecidableEq, Repr

namespace ServerWorld

/-- Appends an output, stamped with the current virtual time. -/
def emit (w : ServerWorld) (o : ServerOutput) : ServerWorld :=
  { w with trace := w.trace ++ [(w.now, o)] }

/-- The access `s_msgCounters[msg->GetMessageType() - 1]` for an update; the subtraction is
in `uint32_t`, an index outside the array is `none`. -/
def counter (w : ServerWorld) (messageType : Nat)
    (f : MessageTypeCounter → MessageTypeCounter) : Option ServerWorld :=
  let index := (messageType + (U32 - 1)) % U32
  match w.s_msgCounters[index]? with
  | some c => some { w with s_msgCounters := w.s_msgCounters.set index (f c) }
  | none => none

/-- The ACKs handed to the socket in a trace: the messages of the `SendTo` calls, each with
its destination. -/
def acks : List (Time × ServerOutput) → List (Message × Address)
  | [] => []
  | (_, ServerOutput.SendTo msg dest _ _) :: rest => (msg, dest) :: acks rest
  | _ :: rest => acks rest

/-- The messages handed to the application layer in a trace, each with its sender. -/
def deliveries : List (Time × ServerOutput) → List (Message × Address)
  | [] => []
  | (_, ServerOutput.OnReceiveRequest msg sender) :: rest => (msg, sender) :: deliveries rest
  | _ :: rest => deliveries rest

/-- The packets of a sequence of arrivals whose message id is neither among the ids `ids`
held at the start nor the id of an earlier packet of the sequence. -/
def firstArrivals : List Nat → List Packet → List Packet
  | _, [] => []
  | ids, p :: rest =>
    if p.header.m_messageId ∈ ids then firstArrivals ids rest
    else p :: firstArrivals (p.header.m_messageId :: ids) rest

end ServerWorld

namespace UdpServerMessageEndpoint

/-- The method `MessageEndpoint::RecordSendMessage`, called by the server endpoint. -/
def RecordSendMessage (w : ServerWorld) (msg : Message) (addressTo : Address)
    (retransmission : Nat) (success : Bool) : Option ServerWorld := do
  let w ← w.counter msg.m_messageType
    (fun c => { c with msgSendAttemptCounter := (c.msgSendAttemptCounter + 1) % U32 })
  let w ← if success then
      w.counter msg.m_messageType
        (fun c => { c with msgSendSuccessCounter := (c.msgSendSuccessCounter + 1) % U32 })
    else some w
  let w ← if retransmission = 0 ∨ retransmission = 1 then
      w.counter msg.m_messageType
        (fun c => { c with msgSendUniqueCounter := (c.msgSendUniqueCounter + 1) % U32 })
    else some w
  let w := w.emit (ServerOutput.SendTo msg addressTo retransmission success)
  if !success then
    pure (w.emit (ServerOutput.RecordError w.ep.m_serviceBase.m_serviceId
      ErrorType.ERROR_TYPE_SOCKET_FAILURE msg.m_messageId))
  else pure w

/-- The method `MessageEndpoint::RecordReceiveMessage`, called by the server endpoint. -/
def RecordReceiveMessage (w : ServerWorld) (msg : Message) (addressFrom : Address)
    (dropedDueToResend : Bool) : Option ServerWorld := do
  let w ← w.counter msg.m_messageType
    (fun c => { c with msgReceiveCounter := (c.msgReceiveCounter + 1) % U32 })
  let w ← if !dropedDueToResend then
      w.counter msg.m_messageType
        (fun c => { c with msgReceiveUniqueCounter := (c.msgReceiveUniqueCounter + 1) % U32 })
    else some w
  pure (w.emit (ServerOutput.RecordReceiveMessage msg addressFrom dropedDueToResend))

/-- The method `UdpServerMessageEndpoint::SendACK`; a null socket fails the assertion. -/
def SendACK (env : Env) (w : ServerWorld) (msg : Message) (dest : Address) :
    Option ServerWorld := do
  if !w.ep.m_socketOpen then none
  let (msgACK, counter) := Message.new.InitializeACK msg w.s_messageCounter
  let w := { w with s_messageCounter := counter }
  let sendResult := (env.transport w.nSendTo % (U32 : Int)).toNat
  let sendSuccess := decide (sendResult > 0)
  let w := { w with nSendTo := w.nSendTo + 1 }
  RecordSendMessage w msgACK dest 0 sendSuccess

/-- The body of the loop of `ReceiveRequest` for one packet read from the socket. -/
def ReceiveRequest.body (env : Env) (w : ServerWorld) (packet : Packet) :
    Option ServerWorld :=
  if packet.size > 0 then do
    let msg := packet.header
    let sender := packet.sender
    let (haveMsgAlreadyArrived, cache) := w.ep.m_msgCache.HaveMessageAlreadyArrived msg w.now
    let w := { w with ep := { w.ep with m_msgCache := cache } }
    let w ← RecordReceiveMessage w msg sender haveMsgAlreadyArrived
    let w ← SendACK env w msg sender
    if !haveMsgAlreadyArrived then
      pure (w.emit (ServerOutput.OnReceiveRequest msg sender))
    else pure w
  else some w

/-- The method `UdpServerMessageEndpoint::ReceiveRequest` on the packets that wait on the
socket, in the order in which `RecvFrom` returns them. -/
def ReceiveRequest (env : Env) : ServerWorld → List Packet → Option ServerWorld
  | w, [] => some w
  | w, packet :: rest => (ReceiveRequest.body env w packet).bind
      (fun w => ReceiveRequest env w rest)

end UdpServerMessageEndpoint

/-- Example server world at 5 ms: open endpoint, empty id cache. -/
def exampleServerWorld : ServerWorld :=
  { now := MilliSeconds 5
    ep := { m_serviceBase := exampleServiceBase, m_socketOpen := true,
            m_msgCache := exampleCacheEmpty }
    s_messageCounter := 30
    s_msgCounters := [MessageTypeCounter.new, MessageTypeCounter.new, MessageTypeCounter.new,
                      MessageTypeCounter.new]
    nSendTo := 0
    trace := [] }

/-- Example packet: `exampleRequest` (message id 5, of type MTRequest) sent by address 9. -/
def examplePacketRequest : Packet :=
  { size := 140, sender := 9
    header := { exampleRequest with m_messageType := Message.MTRequest } }

/-! ## Processing of one request in a service -/

/-- The error types recorded by `ServiceRequestTask` and by the plan executer. -/
inductive ProcessingErrorType where
  | ERROR_TYPE_SERVICE_PROCESSING
  | ERROR_TYPE_METHOD_PROCESSING
  | ERROR_TYPE_RECEIVED_EXCEPTION
  deriving DecidableEq, Repr

/-- The member functions that a task and its plan executer schedule as events. -/
inductive TaskEvent where
  | OnExecutionStop (success isGeneratingException : Bool)
  | PlanFinished (success : Bool)
  deriving DecidableEq, Repr

/-- What a task does to the outside: the errors it records, the start and the stop of its
plan executer, the next step of the plan scheduled by the executer, and the message it hands
to its response endpoint (`m_responseEndpoint->SendMessage`). -/
inductive TaskOutput where
  | RecordError (serviceId : Nat) (errorType : ProcessingErrorType) (msg : Message)
  | PlanExecuterStart
  | PlanExecuterStop
  | ExecuteNextStepWithDelay (delay : RandomVariable)
  | SendMessage (msg : Message) (dest : Address) (waitForResponse : Bool)
  deriving DecidableEq, Repr

/-- One `ServiceRequestTask` with the objects it points to (the service, the requested
method and its plan, held in place), its two pending events, the draws to come, the static
counters, and the outputs so far. -/
structure TaskWorld where
  now : Time
  rng : Rng
  m_service : Service
  m_requestMethod : ServiceMethod
  m_servicePlan : ServiceExecutionPlan
  m_conversationMsg : Message
  m_requestAddress : Address
  m_errorStopEvent : Option (Time × TaskEvent)
  m_finishedWithErrorDelay : Option (Time × TaskEvent)
  s_messageCounter : Nat
  s_numberOfStartedMethods : Nat
  s_numberOfFailedMethods : Nat
  s_numberOfFailedExecutions : Nat
  s_numberOfServiceFailures : Nat
  s_numberOfIssuedExceptionMessages : Nat
  trace : List (Time × TaskOutput)

namespace TaskWorld

/-- Appends an output, stamped with the current virtual time. -/
def emit (w : TaskWorld) (o : TaskOutput) : TaskWorld :=
  { w with trace := w.trace ++ [(w.now, o)] }

/-- The messages handed to the response endpoint in a trace, each with its time. -/
def sent : List (Time × TaskOutput) → List (Time × Message × Address × Bool)
  | [] => []
  | (t, TaskOutput.SendMessage msg dest waitForResponse) :: rest =>
      (t, msg, dest, waitForResponse) :: sent rest
  | _ :: rest => sent rest

end TaskWorld

namespace ServiceRequestTask

/-- The method `IsServiceProcessingError`: the fault model of the service is queried, the
variable of the caller is passed by reference. -/
def IsServiceProcessingError (w : TaskWorld) (isGeneratingException : Bool) :
    Bool × Bool × TaskWorld :=
  let (isCorrupt, isGeneratingException, faultModel, rng) :=
    w.m_service.m_faultModel.IsCorrupt w.now w.rng isGeneratingException
  (isCorrupt, isGeneratingException,
    { w with rng := rng, m_service := { w.m_service with m_faultModel := faultModel } })

/-- The method `IsMethodProcessingError`: the fault model of the requested method. -/
def IsMethodProcessingError (w : TaskWorld) (isGeneratingException : Bool) :
    Bool × Bool × TaskWorld :=
  let (isCorrupt, isGeneratingException, faultModel, rng) :=
    w.m_requestMethod.m_faultModel.IsCorrupt w.now w.rng isGeneratingException
  (isCorrupt, isGeneratingException,
    { w with rng := rng, m_requestMethod := { w.m_requestMethod with m_faultModel := faultModel } })

/-- The method `ExecutionStopWithErrorDelay`: schedules `OnExecutionStop (false,
isGeneratingException)` after the post-error delay of the service. -/
def ExecutionStopWithErrorDelay (w : TaskWorld) (isGeneratingException : Bool) : TaskWorld :=
  let (value, rng) := w.m_service.m_postErrorDelay.GetInteger w.rng
  let delayValue := MilliSeconds (value : Int)
  { w with
    rng := rng
    m_errorStopEvent :=
      some (w.now + delayValue, TaskEvent.OnExecutionStop false isGeneratingException) }

/-- The method `ServiceRequestTask::Start`. -/
def Start (w : TaskWorld) : TaskWorld :=
  let isGeneratingException := false
  let (isCorrupt, isGeneratingException, w) := IsServiceProcessingError w isGeneratingException
  if isCorrupt then
    let w := w.emit (TaskOutput.RecordError w.m_service.m_serviceId
      ProcessingErrorType.ERROR_TYPE_SERVICE_PROCESSING w.m_conversationMsg)
    let w := { w with s_numberOfServiceFailures := (w.s_numberOfServiceFailures + 1) % U32 }
    ExecutionStopWithErrorDelay w isGeneratingException
  else
    let w := { w with s_numberOfStartedMethods := (w.s_numberOfStartedMethods + 1) % U32 }
    let (isCorrupt, isGeneratingException, w) := IsMethodProcessingError w isGeneratingException
    if isCorrupt then
      let w := w.emit (TaskOutput.RecordError w.m_service.m_serviceId
        ProcessingErrorType.ERROR_TYPE_METHOD_PROCESSING w.m_conversationMsg)
      let w := { w with s_numberOfFailedMethods := (w.s_numberOfFailedMethods + 1) % U32 }
      ExecutionStopWithErrorDelay w isGeneratingException
    else
      w.emit TaskOutput.PlanExecuterStart

/-- The method `ServiceRequestTask::OnExecutionStop`. -/
def OnExecutionStop (w : TaskWorld) (success isGeneratingException : Bool) : TaskWorld :=
  let msg := Message.new
  let (size, rng) := w.m_requestMethod.m_responseSize.GetInteger w.rng
  let w := { w with rng := rng }
  let (msg, w) :=
    if success then
      let (msg, counter) := msg.InitializeResponse w.m_conversationMsg size w.s_messageCounter
      (msg, { w with s_messageCounter := counter })
    else
      let w := { w with s_numberOfFailedExecutions := (w.s_numberOfFailedExecutions + 1) % U32 }
      if isGeneratingException then
        let (msg, counter) := msg.InitializeResponseException w.m_conversationMsg
          w.s_messageCounter
        (msg, { w with
          s_messageCounter := counter
          s_numberOfIssuedExceptionMessages := (w.s_numberOfIssuedExceptionMessages + 1) % U32 })
      else (msg, w)
  if success ∨ isGeneratingException then
    w.emit (TaskOutput.SendMessage msg w.m_requestAddress false)
  else w

/-- The method `ServiceRequestTask::OnExecutionStopCallback`, the callback given to the plan
executer. -/
def OnExecutionStopCallback (w : TaskWorld) (success : Bool) : TaskWorld :=
  OnExecutionStop w success true

end ServiceRequestTask

namespace ServiceExecutionPlanExecuter

/-- The method `ExecutePlanFinishedWithErrorDelay` of the executer of the task: schedules
`PlanFinished (false)` after the post-plan-error delay of the plan. -/
def ExecutePlanFinishedWithErrorDelay (w : TaskWorld) : TaskWorld :=
  let (value, rng) := w.m_servicePlan.m_postPlanErrorDelay.GetInteger w.rng
  let delayValue := MilliSeconds (value : Int)
  { w with
    rng := rng
    m_finishedWithErrorDelay := some (w.now + delayValue, TaskEvent.PlanFinished false) }

/-- The method `ServiceExecutionPlanExecuter::PlanFinished`: `Stop ()`, then the callback
`m_onExecutionStop`, which is `ServiceRequestTask::OnExecutionStopCallback`. -/
def PlanFinished (w : TaskWorld) (success : Bool) : TaskWorld :=
  let w := w.emit TaskOutput.PlanExecuterStop
  ServiceRequestTask.OnExecutionStopCallback w success

/-- The method `ServiceExecutionPlanExecuter::Request_onSendFailureCallback`. -/
def Request_onSendFailureCallback (w : TaskWorld) : TaskWorld :=
  ExecutePlanFinishedWithErrorDelay w

/-- The method `ServiceExecutionPlanExecuter::Request_onReceiveResponseCallback`. -/
def Request_onReceiveResponseCallback (w : TaskWorld) (msg : Message) : TaskWorld :=
  let delay := w.m_servicePlan.m_stepPostExeDelay
  if msg.m_messageType = Message.MTResponseException then
    let w := w.emit (TaskOutput.RecordError w.m_service.m_serviceId
      ProcessingErrorType.ERROR_TYPE_RECEIVED_EXCEPTION msg)
    ExecutePlanFinishedWithErrorDelay w
  else
    w.emit (TaskOutput.ExecuteNextStepWithDelay delay)

/-- The method `ServiceExecutionPlanExecuter::Request_onResponseTimeoutCallback`. -/
def Request_onResponseTimeoutCallback (w : TaskWorld) : TaskWorld :=
  ExecutePlanFinishedWithErrorDelay w

end ServiceExecutionPlanExecuter

namespace TaskWorld

/-- The simulator runs the pending event `m_errorStopEvent` of the task. -/
def fireErrorStop (w : TaskWorld) : TaskWorld :=
  match w.m_errorStopEvent with
  | some (ts, TaskEvent.OnExecutionStop success isGeneratingException) =>
      ServiceRequestTask.OnExecutionStop { w with now := ts, m_errorStopEvent := none }
        success isGeneratingException
  | _ => w

/-- The simulator runs the pending event `m_finishedWithErrorDelay` of the executer. -/
def fireFinishedWithError (w : TaskWorld) : TaskWorld :=
  match w.m_finishedWithErrorDelay with
  | some (ts, TaskEvent.PlanFinished success) =>
      ServiceExecutionPlanExecuter.PlanFinished
        { w with now := ts, m_finishedWithErrorDelay := none } success
  | _ => w

end TaskWorld

/-- Example task at 7 ms: service 1 of the example configuration processes
`exampleRequest`, received from address 9; the next integer drawn is 4. -/
def exampleTaskWorld : TaskWorld :=
  { now := MilliSeconds 7
    rng := { values := [], integers := [4, 100] }
    m_service := exampleService
    m_requestMethod := { m_contractMethodId := 1, m_service := 0, m_responseSize := { tag := 2 },
                         m_faultModel := exampleFaultModel, m_executionPlan := 0 }
    m_servicePlan := examplePlanOneStep
    m_conversationMsg := exampleRequest
    m_requestAddress := 9
    m_errorStopEvent := none
    m_finishedWithErrorDelay := none
    s_messageCounter := 40
    s_numberOfStartedMethods := 1
    s_numberOfFailedMethods := 0
    s_numberOfFailedExecutions := 0
    s_numberOfServiceFailures := 0
    s_numberOfIssuedExceptionMessages := 0
    trace := [(MilliSeconds 1, TaskOutput.PlanExecuterStart)] }

/-- The response timer of a call started at `T0` on a newly created endpoint: uid 1. -/
def responseTimer (T0 : Time) (sb : ServiceBase) : ScheduledEvent :=
  { ts := T0 + sb.m_responseTimeout, uid := 1, kind := EventKind.Response_TimeoutExpired }

/-- The ACK timer started after the first transmission of such a call: uid 2. -/
def ackTimer (T0 : Time) (sb : ServiceBase) : ScheduledEvent :=
  { ts := T0 + sb.m_ACKTimeout, uid := 2, kind := EventKind.ACK_TimeoutExpired }

/-- The arrival of `packets` on the socket at `T0 + d`, scheduled by the network right after
the start of the call: uid 3. -/
def arrivalEvent (T0 d : Time) (packets : List Packet) : ScheduledEvent :=
  { ts := T0 + d, uid := 3, kind := EventKind.ReceiveMessage packets }

/-- The state of a call started at `T0` on a newly created endpoint whose first transmission
was accepted by the transport: beside the removal run `S` of the id cache the events
`pending` are in the queue; the request was transmitted once, at `T0`; the outcomes
reported so far are `out`; with `fresh` set the id cache is still empty. -/
structure World.InCall (T0 : Time) (sb : ServiceBase) (req : Message) (S : ScheduledEvent)
    (pending : List ScheduledEvent) (fresh : Bool) (out : List (Time × Output)) (w : World) :
    Prop where
  sweep : S.kind = EventKind.RemoveOldRecords
  mem : ∀ x, x ∈ w.sim.events ↔ x = S ∨ x ∈ pending
  suid : S.uid < w.sim.nextUid ∧ S.uid ≠ 1 ∧ S.uid ≠ 2 ∧ S.uid ≠ 3
  nextUid : 3 < w.sim.nextUid
  request : w.ep.m_requestMessage = some req
  serviceBase : w.ep.m_serviceBase = sb
  socketOpen : w.ep.m_socketOpen = true
  ackEvent : w.ep.m_ACKTimeoutEvent = some 2
  responseEvent : w.ep.m_responseTimeoutEvent = some 1
  socketEvent : w.ep.m_socketTimeoutEvent = none
  cache : fresh = true → w.ep.m_msgCache.m_ids = []
  counters : w.s_msgCounters.length = 4
  attempts : World.requestAttempts w.trace = [(T0, req)]
  outcomes : World.outcomes w.trace = out

/-- The call is over with the outcomes `out`: only removal runs of the id cache are pending,
and the request was transmitted once, at `T0`. -/
structure World.CallOver (T0 : Time) (req : Message) (out : List (Time × Output))
    (w : World) : Prop where
  quiescent : w.Quiescent
  attempts : World.requestAttempts w.trace = [(T0, req)]
  outcomes : World.outcomes w.trace = out

/-- The invariant of a call whose ACK arrives at `T0 + d` and whose response never arrives:
the call waits for the ACK, or it has reported `OnSendSuccess` at `T0 + d` and waits for the
response, or it is over, having reported `OnResponseTimeout` at `T0 + responseTimeout` in
addition. -/
def World.AckOnlyInv (T0 d : Time) (sb : ServiceBase) (req : Message) (ack : Packet)
    (w : World) : Prop :=
  (∃ S, w.InCall T0 sb req S
      [responseTimer T0 sb, ackTimer T0 sb, arrivalEvent T0 d [ack]] true []) ∨
  (∃ S, w.InCall T0 sb req S [responseTimer T0 sb] false [(T0 + d, Output.OnSendSuccess)]) ∨
  w.CallOver T0 req
    [(T0 + d, Output.OnSendSuccess), (T0 + sb.m_responseTimeout, Output.OnResponseTimeout)]

/-- The invariant of a call whose ACK and response arrive together at `T0 + d`: the call
waits for them, or it is over, having reported `OnSendSuccess` and having handed the
response to `OnReceiveResponse`. -/
def World.AnsweredInv (T0 d : Time) (sb : ServiceBase) (req : Message) (ack rsp : Packet)
    (w : World) : Prop :=
  (∃ S, w.InCall T0 sb req S
      [responseTimer T0 sb, ackTimer T0 sb, arrivalEvent T0 d [ack, rsp]] true []) ∨
  w.CallOver T0 req
    [(T0 + d, Output.OnSendSuccess), (T0 + d, Output.OnReceiveResponse rsp.header)]

/-! ## Theorems -/

/-- Reading back the four bytes `WriteU32` produced returns the value and the rest. -/
theorem ReadU32_WriteU32 (data : Nat) (h : data < U32) (rest : List Nat) :
    ReadU32 ([data % 256, data / 256 % 256, data / 65536 % 256, data / 16777216 % 256] ++ rest)
      = some (data, rest) := by
  simp only [ReadU32, List.cons_append, List.nil_append, Nat.mod_mod]
  unfold U32 at h
  congr 2
  omega

/-- C1: for every message whose ten fields are 32-bit values, deserializing the output of
`Serialize` into any (in particular a fresh) message gives back the same ten fields, and
`Deserialize` reports 40 bytes consumed; the serialized form has exactly 40 bytes. -/
theorem C1_serialize_roundtrip (m self : Message) (h : m.InRange) :
    Message.Deserialize self (Message.Serialize m []) = some (m, 40) ∧
    (Message.Serialize m []).length = 40 := by
  obtain ⟨h0, h1, h2, h3, h4, h5, h6, h7, h8, h9⟩ := h
  refine ⟨?_, by simp [Message.Serialize, WriteU32]⟩
  simp only [Message.Serialize, WriteU32, List.nil_append, List.append_assoc,
    Message.Deserialize]
  rw [ReadU32_WriteU32 _ h0]
  simp only [Option.bind_eq_bind, Option.some_bind]
  rw [ReadU32_WriteU32 _ h1]
  simp only [Option.some_bind]
  rw [ReadU32_WriteU32 _ h2]
  simp only [Option.some_bind]
  rw [ReadU32_WriteU32 _ h3]
  simp only [Option.some_bind]
  rw [ReadU32_WriteU32 _ h4]
  simp only [Option.some_bind]
  rw [ReadU32_WriteU32 _ h5]
  simp only [Option.some_bind]
  rw [ReadU32_WriteU32 _ h6]
  simp only [Option.some_bind]
  rw [ReadU32_WriteU32 _ h7]
  simp only [Option.some_bind]
  rw [ReadU32_WriteU32 _ h8]
  simp only [Option.some_bind]
  have h9r := ReadU32_WriteU32 _ h9 []
  simp only [List.append_nil] at h9r
  rw [h9r]
  rfl

/-- C1 witness: a concrete message with large field values round-trips. -/
theorem C1_serialize_roundtrip_witness :
    (Message.mk 4 4294967295 7 65536 1 2 3 258 16777216 100).InRange ∧
    (Message.Deserialize Message.new
        (Message.Serialize (Message.mk 4 4294967295 7 65536 1 2 3 258 16777216 100) [])
      = some (Message.mk 4 4294967295 7 65536 1 2 3 258 16777216 100, 40) ∧
     (Message.Serialize (Message.mk 4 4294967295 7 65536 1 2 3 258 16777216 100) []).length
      = 40) :=
  ⟨by decide, C1_serialize_roundtrip _ Message.new (by decide)⟩

/-! ### Validation of the configuration -/

theorem mapFind_mem {α : Type} (m : List (Nat × α)) (key : Nat) (v : α)
    (h : mapFind m key = some v) : (key, v) ∈ m := by
  induction m with
  | nil => simp [mapFind] at h
  | cons e rest ih =>
    obtain ⟨k, w⟩ := e
    simp only [mapFind] at h
    by_cases hk : k = key
    · simp only [hk, if_true, Option.some.injEq] at h
      simp [hk, h]
    · simp only [hk, if_false] at h
      exact List.mem_cons_of_mem _ (ih h)

/-- The loop of `CheckExecutionPlan` returns true exactly when every step is resolvable, and
it has no defined result otherwise: it never returns false. -/
theorem CheckExecutionPlan_loop_iff (cfg : ServiceConfiguration) (steps : List ExecutionStep) :
    (ServiceConfiguration.CheckExecutionPlan.loop cfg steps = some true ↔
      ∀ step ∈ steps, cfg.Resolvable step) ∧
    ServiceConfiguration.CheckExecutionPlan.loop cfg steps ≠ some false := by
  induction steps with
  | nil => simp [ServiceConfiguration.CheckExecutionPlan.loop]
  | cons step rest ih =>
    simp only [ServiceConfiguration.CheckExecutionPlan.loop, List.mem_cons, forall_eq_or_imp]
    cases hc : cfg.GetContract step.m_contractId with
    | none =>
      refine ⟨⟨fun h => (by cases h), fun h => ?_⟩, by simp⟩
      exfalso
      obtain ⟨ref, contract, method, h1, _, _⟩ := h.1
      rw [hc] at h1; cases h1
    | some ref =>
      simp only []
      cases hs : cfg.service ref with
      | none =>
        refine ⟨⟨fun h => (by cases h), fun h => ?_⟩, by simp⟩
        exfalso
        obtain ⟨ref2, contract, method, h1, h2, _⟩ := h.1
        rw [hc] at h1; cases h1
        rw [hs] at h2; cases h2
      | some contract =>
        simp only []
        cases hm : contract.GetMethod step.m_contractMethodId with
        | none =>
          refine ⟨⟨fun h => (by cases h), fun h => ?_⟩, by simp⟩
          exfalso
          obtain ⟨ref2, contract2, method, h1, h2, h3⟩ := h.1
          rw [hc] at h1; cases h1
          rw [hs] at h2; cases h2
          rw [hm] at h3; cases h3
        | some method =>
          refine ⟨?_, ih.2⟩
          simp only [ih.1]
          constructor
          · intro h
            exact ⟨⟨ref, contract, method, hc, hs, hm⟩, h⟩
          · intro h
            exact h.2

/-- The loop of `CheckClients` returns true exactly when every client has a plan with a step
and with resolvable steps only; when it returns false, some client has a plan without
steps. -/
theorem CheckClients_loop_iff (cfg : ServiceConfiguration) (clients : List (Nat × Client)) :
    (ServiceConfiguration.CheckClients.loop cfg clients = some true ↔
      ∀ kc ∈ clients, kc.2.m_executionPlan.m_executionSteps ≠ [] ∧
        ∀ step ∈ kc.2.m_executionPlan.m_executionSteps, cfg.Resolvable step) ∧
    (ServiceConfiguration.CheckClients.loop cfg clients = some false →
      ∃ kc ∈ clients, kc.2.m_executionPlan.m_executionSteps = []) := by
  induction clients with
  | nil => simp [ServiceConfiguration.CheckClients.loop]
  | cons kc rest ih =>
    obtain ⟨k, client⟩ := kc
    simp only [ServiceConfiguration.CheckClients.loop, List.mem_cons, forall_eq_or_imp,
      ExecutionPlan.GetExecutionStepsCount, List.length_eq_zero,
      ServiceConfiguration.CheckExecutionPlan, exists_eq_or_imp]
    obtain ⟨hX, hF⟩ := CheckExecutionPlan_loop_iff cfg client.m_executionPlan.m_executionSteps
    by_cases h0 : client.m_executionPlan.m_executionSteps = []
    · simp [h0]
    · simp only [h0, if_false, ne_eq, not_false_eq_true, true_and, false_or]
      cases hp : ServiceConfiguration.CheckExecutionPlan.loop cfg
          client.m_executionPlan.m_executionSteps with
      | none =>
        refine ⟨⟨fun h => (by cases h), fun h => ?_⟩, by simp⟩
        exfalso
        rw [hX.2 h.1] at hp
        cases hp
      | some result =>
        cases result with
        | false => exact absurd hp hF
        | true =>
          simp only [Bool.not_true, Bool.false_eq_true, if_false]
          refine ⟨?_, ih.2⟩
          rw [ih.1]
          constructor
          · intro h; exact ⟨hX.1 hp, h⟩
          · intro h; exact h.2

/-- The loop of `CheckServiceExecutionPlans` returns true exactly when the plan of every
method has resolvable steps only, and it never returns false. -/
theorem CheckServiceExecutionPlans_loop_iff (cfg : ServiceConfiguration)
    (methods : List (Nat × ServiceMethod)) :
    (ServiceConfiguration.CheckServiceExecutionPlans.loop cfg methods = some true ↔
      ∀ km ∈ methods, ∃ plan, cfg.plan km.2.m_executionPlan = some plan ∧
        ∀ step ∈ plan.m_executionSteps, cfg.Resolvable step) ∧
    ServiceConfiguration.CheckServiceExecutionPlans.loop cfg methods ≠ some false := by
  induction methods with
  | nil => simp [ServiceConfiguration.CheckServiceExecutionPlans.loop]
  | cons km rest ih =>
    obtain ⟨k, method⟩ := km
    simp only [ServiceConfiguration.CheckServiceExecutionPlans.loop, List.mem_cons,
      forall_eq_or_imp, ServiceConfiguration.CheckExecutionPlan]
    cases hpl : cfg.plan method.m_executionPlan with
    | none => simp
    | some plan =>
      obtain ⟨hX, hF⟩ := CheckExecutionPlan_loop_iff cfg plan.m_executionSteps
      simp only [Option.some.injEq, exists_eq_left']
      cases hp : ServiceConfiguration.CheckExecutionPlan.loop cfg plan.m_executionSteps with
      | none =>
        refine ⟨⟨fun h => (by cases h), fun h => ?_⟩, by simp⟩
        exfalso
        rw [hX.2 h.1] at hp
        cases hp
      | some result =>
        cases result with
        | false => exact absurd hp hF
        | true =>
          simp only [Bool.not_true, Bool.false_eq_true, if_false]
          refine ⟨?_, ih.2⟩
          rw [ih.1]
          constructor
          · intro h; exact ⟨hX.1 hp, h⟩
          · intro h; exact h.2

/-- The loop of `CheckServices` returns true exactly when every service has a method and the
plans of its methods have resolvable steps only; when it returns false, some service has no
method. -/
theorem CheckServices_loop_iff (cfg : ServiceConfiguration) (services : List (Nat × ServiceRef)) :
    (ServiceConfiguration.CheckServices.loop cfg services = some true ↔
      ∀ ks ∈ services, ∃ s, cfg.service ks.2 = some s ∧ s.m_methods ≠ [] ∧
        ∀ km ∈ s.m_methods, ∃ plan, cfg.plan km.2.m_executionPlan = some plan ∧
          ∀ step ∈ plan.m_executionSteps, cfg.Resolvable step) ∧
    (ServiceConfiguration.CheckServices.loop cfg services = some false →
      ∃ ks ∈ services, ∃ s, cfg.service ks.2 = some s ∧ s.m_methods = []) := by
  induction services with
  | nil => simp [ServiceConfiguration.CheckServices.loop]
  | cons ks rest ih =>
    obtain ⟨k, ref⟩ := ks
    simp only [ServiceConfiguration.CheckServices.loop, List.mem_cons, forall_eq_or_imp,
      ServiceConfiguration.CheckServiceExecutionPlans, exists_eq_or_imp]
    cases hs : cfg.service ref with
    | none => simp
    | some s =>
      obtain ⟨hX, hF⟩ := CheckServiceExecutionPlans_loop_iff cfg s.m_methods
      simp only [Option.some.injEq, exists_eq_left']
      by_cases h0 : s.m_methods = []
      · simp [h0]
      · have h0l : ¬ s.m_methods.length = 0 := by
          intro h; exact h0 (List.length_eq_zero.mp h)
        simp only [h0l, if_false, h0, ne_eq, not_false_eq_true, true_and, false_or]
        cases hp : ServiceConfiguration.CheckServiceExecutionPlans.loop cfg s.m_methods with
        | none =>
          refine ⟨⟨fun h => (by cases h), fun h => ?_⟩, by simp⟩
          exfalso
          rw [hX.2 h.1] at hp
          cases hp
        | some result =>
          cases result with
          | false => exact absurd hp hF
          | true =>
            simp only [Bool.not_true, Bool.false_eq_true, if_false]
            refine ⟨?_, ih.2⟩
            rw [ih.1]
            constructor
            · intro h; exact ⟨hX.1 hp, h⟩
            · intro h; exact h.2

/-- The method `CheckClients` returns true exactly when there is a client and every client
has a plan with a step and with resolvable steps only; when it returns false, there is no
client or some client has a plan without steps. -/
theorem CheckClients_iff (cfg : ServiceConfiguration) :
    (cfg.CheckClients = some true ↔
      cfg.m_clients ≠ [] ∧ ∀ kc ∈ cfg.m_clients, kc.2.m_executionPlan.m_executionSteps ≠ [] ∧
        ∀ step ∈ kc.2.m_executionPlan.m_executionSteps, cfg.Resolvable step) ∧
    (cfg.CheckClients = some false →
      cfg.m_clients = [] ∨ ∃ kc ∈ cfg.m_clients, kc.2.m_executionPlan.m_executionSteps = []) := by
  unfold ServiceConfiguration.CheckClients
  by_cases h : cfg.m_clients = []
  · simp [h]
  · have hl : ¬ cfg.m_clients.length = 0 := fun h0 => h (List.length_eq_zero.mp h0)
    simp only [hl, if_false, ne_eq, h, not_false_eq_true, true_and, false_or]
    exact CheckClients_loop_iff cfg cfg.m_clients

/-- The method `CheckServices` returns true exactly when there is a service and every
service has a method and plans with resolvable steps only; when it returns false, there is
no service or some service has no method. -/
theorem CheckServices_iff (cfg : ServiceConfiguration) :
    (cfg.CheckServices = some true ↔
      cfg.m_services ≠ [] ∧ ∀ ks ∈ cfg.m_services, ∃ s, cfg.service ks.2 = some s ∧
        s.m_methods ≠ [] ∧
        ∀ km ∈ s.m_methods, ∃ plan, cfg.plan km.2.m_executionPlan = some plan ∧
          ∀ step ∈ plan.m_executionSteps, cfg.Resolvable step) ∧
    (cfg.CheckServices = some false →
      cfg.m_services = [] ∨
        ∃ ks ∈ cfg.m_services, ∃ s, cfg.service ks.2 = some s ∧ s.m_methods = []) := by
  unfold ServiceConfiguration.CheckServices
  by_cases h : cfg.m_services = []
  · simp [h]
  · have hl : ¬ cfg.m_services.length = 0 := fun h0 => h (List.length_eq_zero.mp h0)
    simp only [hl, if_false, ne_eq, h, not_false_eq_true, true_and, false_or]
    exact CheckServices_loop_iff cfg cfg.m_services

/-- The method `CheckServiceConfiguration` is the conjunction of the two checks when both
have a result, and has none otherwise. -/
theorem CheckServiceConfiguration_eq (cfg : ServiceConfiguration) :
    cfg.CheckServiceConfiguration =
      cfg.CheckClients.bind (fun c => cfg.CheckServices.map (fun s => c && s)) := by
  unfold ServiceConfiguration.CheckServiceConfiguration
  cases cfg.CheckClients with
  | none => rfl
  | some c =>
    cases cfg.CheckServices with
    | none => rfl
    | some s => cases c <;> cases s <;> rfl

/-- The method `CheckServiceConfiguration` returns true exactly when both checks do; when
it returns false, one of them does. -/
theorem CheckServiceConfiguration_cases (cfg : ServiceConfiguration) :
    (cfg.CheckServiceConfiguration = some true ↔
      cfg.CheckClients = some true ∧ cfg.CheckServices = some true) ∧
    (cfg.CheckServiceConfiguration = some false →
      cfg.CheckClients = some false ∨ cfg.CheckServices = some false) := by
  rw [CheckServiceConfiguration_eq]
  cases cfg.CheckClients with
  | none => simp
  | some c =>
    cases cfg.CheckServices with
    | none => simp
    | some s => cases c <;> cases s <;> simp

/-- The acceptance condition of `CheckServiceConfiguration`. -/
theorem CheckServiceConfiguration_true_iff (cfg : ServiceConfiguration) :
    cfg.CheckServiceConfiguration = some true ↔
      (cfg.m_clients ≠ [] ∧
       (∀ kc ∈ cfg.m_clients, kc.2.m_executionPlan.m_executionSteps ≠ []) ∧
       cfg.m_services ≠ [] ∧
       (∀ ks ∈ cfg.m_services, ∃ s, cfg.service ks.2 = some s ∧ s.m_methods ≠ []) ∧
       (∀ kc ∈ cfg.m_clients, ∀ step ∈ kc.2.m_executionPlan.m_executionSteps,
          cfg.Resolvable step) ∧
       (∀ ks ∈ cfg.m_services, ∀ s, cfg.service ks.2 = some s → ∀ km ∈ s.m_methods,
          ∃ plan, cfg.plan km.2.m_executionPlan = some plan ∧
            ∀ step ∈ plan.m_executionSteps, cfg.Resolvable step)) := by
  rw [(CheckServiceConfiguration_cases cfg).1, (CheckClients_iff cfg).1,
    (CheckServices_iff cfg).1]
  constructor
  · rintro ⟨⟨hc0, hc⟩, hs0, hs⟩
    refine ⟨hc0, fun kc hkc => (hc kc hkc).1, hs0, ?_, fun kc hkc => (hc kc hkc).2, ?_⟩
    · intro ks hks
      obtain ⟨s, h1, h2, _⟩ := hs ks hks
      exact ⟨s, h1, h2⟩
    · intro ks hks s hs1
      obtain ⟨s2, h1, _, h3⟩ := hs ks hks
      rw [hs1] at h1
      cases h1
      exact h3
  · rintro ⟨hc0, hc1, hs0, hs1, hc2, hs2⟩
    refine ⟨⟨hc0, fun kc hkc => ⟨hc1 kc hkc, hc2 kc hkc⟩⟩, hs0, ?_⟩
    intro ks hks
    obtain ⟨s, h1, h2⟩ := hs1 ks hks
    exact ⟨s, h1, h2, hs2 ks hks s h1⟩

/-- When `CheckServiceConfiguration` returns false, one of the four tests for emptiness has
failed: a missing contract or method is never the reason. -/
theorem CheckServiceConfiguration_false (cfg : ServiceConfiguration)
    (h : cfg.CheckServiceConfiguration = some false) :
    cfg.m_clients = [] ∨
    (∃ kc ∈ cfg.m_clients, kc.2.m_executionPlan.m_executionSteps = []) ∨
    cfg.m_services = [] ∨
    (∃ ks ∈ cfg.m_services, ∃ s, cfg.service ks.2 = some s ∧ s.m_methods = []) := by
  rcases (CheckServiceConfiguration_cases cfg).2 h with hc | hs
  · rcases (CheckClients_iff cfg).2 hc with h1 | h1
    · exact Or.inl h1
    · exact Or.inr (Or.inl h1)
  · rcases (CheckServices_iff cfg).2 hs with h1 | h1
    · exact Or.inr (Or.inr (Or.inl h1))
    · exact Or.inr (Or.inr (Or.inr h1))

/-- C2, where the code leaves the claim: `CheckServiceConfiguration` returns true exactly
when there is at least one client, every client plan has at least one step, there is at
least one service, every service has at least one method, and every step of every client
plan and of every service-method plan names a contract id indexed in the configuration and a
method id that the service indexed under that contract has. It returns false only when one
of the four tests for emptiness fails. A configuration that passes these four tests and has
a step that names an absent contract id or method id is not rejected: the check has no
defined result, because `GetContract` and `GetMethod` dereference `find (id)` of the absent
id before the result is tested for null. This is so for the example configuration whose
client step targets the contract 2 that no service has (the contract index being sound, such
a configuration is never accepted). -/
theorem C2_CheckServiceConfiguration_undefined_on_absent_id (cfg : ServiceConfiguration) :
    (cfg.CheckServiceConfiguration = some true ↔
      (cfg.m_clients ≠ [] ∧
       (∀ kc ∈ cfg.m_clients, kc.2.m_executionPlan.m_executionSteps ≠ []) ∧
       cfg.m_services ≠ [] ∧
       (∀ ks ∈ cfg.m_services, ∃ s, cfg.service ks.2 = some s ∧ s.m_methods ≠ []) ∧
       (∀ kc ∈ cfg.m_clients, ∀ step ∈ kc.2.m_executionPlan.m_executionSteps,
          cfg.Resolvable step) ∧
       (∀ ks ∈ cfg.m_services, ∀ s, cfg.service ks.2 = some s → ∀ km ∈ s.m_methods,
          ∃ plan, cfg.plan km.2.m_executionPlan = some plan ∧
            ∀ step ∈ plan.m_executionSteps, cfg.Resolvable step))) ∧
    (cfg.CheckServiceConfiguration = some false →
      cfg.m_clients = [] ∨
      (∃ kc ∈ cfg.m_clients, kc.2.m_executionPlan.m_executionSteps = []) ∨
      cfg.m_services = [] ∨
      (∃ ks ∈ cfg.m_services, ∃ s, cfg.service ks.2 = some s ∧ s.m_methods = [])) ∧
    (cfg.m_clients ≠ [] →
      (∀ kc ∈ cfg.m_clients, kc.2.m_executionPlan.m_executionSteps ≠ []) →
      cfg.m_services ≠ [] →
      (∀ ks ∈ cfg.m_services, ∃ s, cfg.service ks.2 = some s ∧ s.m_methods ≠ []) →
      ((∃ kc ∈ cfg.m_clients, ∃ step ∈ kc.2.m_executionPlan.m_executionSteps,
          ¬ cfg.Resolvable step) ∨
        (∃ ks ∈ cfg.m_services, ∃ s, cfg.service ks.2 = some s ∧ ∃ km ∈ s.m_methods,
          ∀ plan, cfg.plan km.2.m_executionPlan = some plan →
            ∃ step ∈ plan.m_executionSteps, ¬ cfg.Resolvable step)) →
      cfg.CheckServiceConfiguration = none) ∧
    (cfg.ContractIndexSound →
      (∃ kc ∈ cfg.m_clients, ∃ step ∈ kc.2.m_executionPlan.m_executionSteps,
        ∀ s ∈ cfg.serviceObjects, s.m_contractId ≠ step.m_contractId) →
      cfg.CheckServiceConfiguration ≠ some true) ∧
    exampleConfigMissingContract.ContractIndexSound ∧
    (∃ kc ∈ exampleConfigMissingContract.m_clients,
      ∃ step ∈ kc.2.m_executionPlan.m_executionSteps,
        ∀ s ∈ exampleConfigMissingContract.serviceObjects,
          s.m_contractId ≠ step.m_contractId) ∧
    exampleConfigMissingContract.CheckServiceConfiguration = none ∧
    exampleConfigValid.CheckServiceConfiguration = some true := by
  have hmain := CheckServiceConfiguration_true_iff cfg
  refine ⟨hmain, CheckServiceConfiguration_false cfg, ?_, ?_, by decide, by decide, by decide,
    by decide⟩
  · intro h1 h2 h3 h4 hbad
    cases hres : cfg.CheckServiceConfiguration with
    | none => rfl
    | some result =>
      exfalso
      cases result with
      | false =>
        rcases CheckServiceConfiguration_false cfg hres with e | ⟨kc, hkc, e⟩ | e |
          ⟨ks, hks, s, hs, e⟩
        · exact h1 e
        · exact h2 kc hkc e
        · exact h3 e
        · obtain ⟨s2, hs2, hne⟩ := h4 ks hks
          rw [hs] at hs2
          cases hs2
          exact hne e
      | true =>
        obtain ⟨_, _, _, _, hc2, hs2⟩ := hmain.mp hres
        rcases hbad with ⟨kc, hkc, step, hstep, hnr⟩ | ⟨ks, hks, s, hs, km, hkm, hall⟩
        · exact hnr (hc2 kc hkc step hstep)
        · obtain ⟨plan, hp, hr⟩ := hs2 ks hks s hs km hkm
          obtain ⟨step, hstep, hnr⟩ := hall plan hp
          exact hnr (hr step hstep)
  · intro hsound hex hres
    obtain ⟨kc, hkc, step, hstep, hno⟩ := hex
    obtain ⟨_, _, _, _, hc2, _⟩ := hmain.mp hres
    obtain ⟨ref, contract, method, h1, h2, _⟩ := hc2 kc hkc step hstep
    have hmem := mapFind_mem _ _ _ h1
    have hs := hsound _ hmem
    simp only [h2, Option.map_some', Option.some.injEq] at hs
    have hin : contract ∈ cfg.serviceObjects := by
      unfold ServiceConfiguration.service at h2
      exact List.getElem?_mem h2
    exact hno contract hin hs

/-- C2, at the failing input: the example configuration has a client and a service, the
client plan has a step and the service has a method, the step of the client targets the
contract 2, whose lookup in the index of contracts finds nothing, and the check has no
defined result. -/
theorem C2_CheckServiceConfiguration_undefined_on_absent_id_witness :
    exampleConfigMissingContract.m_clients ≠ [] ∧
    exampleConfigMissingContract.m_services ≠ [] ∧
    (∃ kc ∈ exampleConfigMissingContract.m_clients,
      ∃ step ∈ kc.2.m_executionPlan.m_executionSteps,
        step.m_contractId = 2 ∧
        exampleConfigMissingContract.GetContract step.m_contractId = none) ∧
    exampleConfigMissingContract.CheckServiceConfiguration = none :=
  have h1 : exampleConfigMissingContract.m_clients ≠ [] := by decide
  have h2 : ∀ kc ∈ exampleConfigMissingContract.m_clients,
      kc.2.m_executionPlan.m_executionSteps ≠ [] := by
    have h : ∀ kc ∈ exampleConfigMissingContract.m_clients,
        kc.2.m_executionPlan.m_executionSteps.length ≠ 0 := by decide
    intro kc hkc he
    exact h kc hkc (by rw [he]; rfl)
  have h3 : exampleConfigMissingContract.m_services ≠ [] := by decide
  have h4 : ∀ ks ∈ exampleConfigMissingContract.m_services,
      ∃ s, exampleConfigMissingContract.service ks.2 = some s ∧ s.m_methods ≠ [] := by
    have h : ∀ ks ∈ exampleConfigMissingContract.m_services,
        (match exampleConfigMissingContract.service ks.2 with
          | some s => decide (s.m_methods.length ≠ 0)
          | none => false) = true := by decide
    intro ks hks
    have hk := h ks hks
    cases hsv : exampleConfigMissingContract.service ks.2 with
    | none => rw [hsv] at hk; cases hk
    | some s =>
      rw [hsv] at hk
      refine ⟨s, rfl, fun he => ?_⟩
      exact of_decide_eq_true hk (by rw [he]; rfl)
  have h5 : ∃ kc ∈ exampleConfigMissingContract.m_clients,
      ∃ step ∈ kc.2.m_executionPlan.m_executionSteps,
        step.m_contractId = 2 ∧
        exampleConfigMissingContract.GetContract step.m_contractId = none := by decide
  have h6 : ∃ kc ∈ exampleConfigMissingContract.m_clients,
      ∃ step ∈ kc.2.m_executionPlan.m_executionSteps,
        ¬ exampleConfigMissingContract.Resolvable step := by
    obtain ⟨kc, hkc, step, hstep, _, hnone⟩ := h5
    refine ⟨kc, hkc, step, hstep, ?_⟩
    rintro ⟨ref, contract, method, hr, _, _⟩
    rw [hnone] at hr
    cases hr
  ⟨h1, h3, h5,
    (C2_CheckServiceConfiguration_undefined_on_absent_id exampleConfigMissingContract).2.2.1
      h1 h2 h3 h4 (Or.inl h6)⟩

/-! ### The scenario generator: structural invariant -/

theorem mapInsert_mem {α : Type} (m : List (Nat × α)) (key : Nat) (value : α) (e : Nat × α)
    (h : e ∈ mapInsert m key value) : e ∈ m ∨ e = (key, value) := by
  induction m with
  | nil =>
    simp only [mapInsert, List.mem_singleton] at h
    exact Or.inr h
  | cons x rest ih =>
    obtain ⟨k, v⟩ := x
    simp only [mapInsert] at h
    split_ifs at h with h1 h2
    · rcases List.mem_cons.mp h with h | h
      · exact Or.inr h
      · exact Or.inl h
    · exact Or.inl h
    · rcases List.mem_cons.mp h with h | h
      · exact Or.inl (h ▸ List.mem_cons_self _ _)
      · rcases ih h with h | h
        · exact Or.inl (List.mem_cons_of_mem _ h)
        · exact Or.inr h

theorem mem_mapInsert_of_mem {α : Type} (m : List (Nat × α)) (key : Nat) (value : α)
    (e : Nat × α) (h : e ∈ m) : e ∈ mapInsert m key value := by
  induction m with
  | nil => cases h
  | cons x rest ih =>
    obtain ⟨k, v⟩ := x
    simp only [mapInsert]
    split_ifs with h1 h2
    · exact List.mem_cons_of_mem _ h
    · exact h
    · rcases List.mem_cons.mp h with h | h
      · exact h ▸ List.mem_cons_self _ _
      · exact List.mem_cons_of_mem _ (ih h)

theorem Service_new_spec {serviceId : Nat} {startTime stopTime responseTimeout ACKTimeout : Time}
    {retransmissionLimit : Nat} {msgIdLifetime : Time} {contractId : Nat}
    {faultModel : FaultModel} {postErrorDelay : RandomVariable} {s : Service}
    (h : Service.new serviceId startTime stopTime responseTimeout ACKTimeout
      retransmissionLimit msgIdLifetime contractId faultModel postErrorDelay = some s) :
    s.m_serviceId = serviceId ∧ s.m_contractId = contractId ∧ s.m_methods = [] ∧
      serviceId ≠ 0 ∧ contractId ≠ 0 := by
  unfold Service.new at h
  cases hb : ServiceBase.new serviceId startTime stopTime responseTimeout ACKTimeout
      retransmissionLimit msgIdLifetime with
  | none => simp [hb] at h
  | some base =>
    simp only [hb, Option.bind_eq_bind, Option.some_bind] at h
    unfold ServiceBase.new at hb
    split_ifs at hb with hcond
    split_ifs at h with hc
    simp only [Option.some.injEq] at hb
    simp only [pure, Option.some.injEq] at h
    subst h
    subst hb
    exact ⟨rfl, rfl, rfl, hcond.1, hc⟩

theorem service_append (cfg : ServiceConfiguration) (x : Service) (ref : ServiceRef)
    (s : Service) (h : cfg.service ref = some s) :
    (cfg.serviceObjects ++ [x])[ref]? = some s := by
  unfold ServiceConfiguration.service at h
  have hlt : ref < cfg.serviceObjects.length := by
    by_contra hge
    rw [List.getElem?_eq_none (Nat.le_of_not_lt hge)] at h
    cases h
  rw [List.getElem?_append_left hlt]
  exact h

theorem AddService_spec {cfg cfg2 : ServiceConfiguration} {serviceId : Nat}
    {startTime stopTime responseTimeout ACKTimeout : Time} {retransmissionLimit : Nat}
    {msgIdLifetime : Time} {contractId : Nat} {faultModel : FaultModel}
    {postErrorDelay : RandomVariable}
    (h : cfg.AddService serviceId startTime stopTime responseTimeout ACKTimeout
      retransmissionLimit msgIdLifetime contractId faultModel postErrorDelay = some cfg2) :
    ∃ s, s.m_serviceId = serviceId ∧ s.m_contractId = contractId ∧ s.m_methods = [] ∧
      (serviceId ≠ 0 ∧ contractId ≠ 0) ∧
      cfg2.serviceObjects = cfg.serviceObjects ++ [s] ∧
      cfg2.planObjects = cfg.planObjects ∧
      cfg2.m_services = mapInsert cfg.m_services serviceId cfg.serviceObjects.length ∧
      cfg2.m_clients = cfg.m_clients := by
  unfold ServiceConfiguration.AddService at h
  by_cases h0 : serviceId = 0 ∨ contractId = 0
  · simp [h0] at h
  · simp only [h0, if_false, Option.bind_eq_bind] at h
    cases hs : Service.new serviceId startTime stopTime responseTimeout ACKTimeout
        retransmissionLimit msgIdLifetime contractId faultModel postErrorDelay with
    | none => simp [hs] at h
    | some s =>
      simp only [hs, Option.some_bind, pure, Option.some.injEq] at h
      obtain ⟨h1, h2, h3, h4, h5⟩ := Service_new_spec hs
      subst h
      exact ⟨s, h1, h2, h3, ⟨h4, h5⟩, rfl, rfl, rfl, rfl⟩

theorem service_lt_length {cfg : ServiceConfiguration} {ref : ServiceRef} {s : Service}
    (h : cfg.service ref = some s) : ref < cfg.serviceObjects.length := by
  unfold ServiceConfiguration.service at h
  by_contra hge
  rw [List.getElem?_eq_none (Nat.le_of_not_lt hge)] at h
  cases h

theorem plan_lt_length {cfg : ServiceConfiguration} {ref : PlanRef} {plan : ServiceExecutionPlan}
    (h : cfg.plan ref = some plan) : ref < cfg.planObjects.length := by
  unfold ServiceConfiguration.plan at h
  by_contra hge
  rw [List.getElem?_eq_none (Nat.le_of_not_lt hge)] at h
  cases h

theorem MethodOK_of_plans_eq {cfg cfg2 : ServiceConfiguration} {contract : Nat}
    {method : ServiceMethod} (hp : cfg2.planObjects = cfg.planObjects)
    (h : cfg.MethodOK contract method) : cfg2.MethodOK contract method := by
  obtain ⟨plan, h1, h2⟩ := h
  refine ⟨plan, ?_, h2⟩
  unfold ServiceConfiguration.plan at h1 ⊢
  rw [hp]
  exact h1

theorem ServiceOK_of_append {base cbase n : Nat} {cfg cfg2 : ServiceConfiguration} {x : Service}
    {id : Nat} {ref : ServiceRef} (hs : cfg2.serviceObjects = cfg.serviceObjects ++ [x])
    (hp : cfg2.planObjects = cfg.planObjects) (h : cfg.ServiceOK base cbase n id ref) :
    cfg2.ServiceOK base cbase n id ref := by
  obtain ⟨s, h1, h2, h3, h4, h5⟩ := h
  refine ⟨s, ?_, h2, h3, h4, fun km hkm => MethodOK_of_plans_eq hp (h5 km hkm)⟩
  have := service_append cfg x ref s h1
  unfold ServiceConfiguration.service
  rw [hs]
  exact this

theorem AddService_PreReplicaInv {base cbase n : Nat} {cfg cfg2 : ServiceConfiguration}
    {methods : List (Nat × ServiceMethod)} {serviceId : Nat}
    {startTime stopTime responseTimeout ACKTimeout : Time} {retransmissionLimit : Nat}
    {msgIdLifetime : Time} {contractId : Nat} {faultModel : FaultModel}
    {postErrorDelay : RandomVariable}
    (hJ : cfg.PreReplicaInv base cbase n methods)
    (h : cfg.AddService serviceId startTime stopTime responseTimeout ACKTimeout
      retransmissionLimit msgIdLifetime contractId faultModel postErrorDelay = some cfg2)
    (h1 : base ≤ serviceId) (h2 : serviceId < base + n)
    (h3 : contractId + base = cbase + serviceId) :
    cfg2.PreReplicaInv base cbase n methods := by
  obtain ⟨s, hs1, hs2, hs3, _, hobj, hplans, hsvc, _⟩ := AddService_spec h
  have hnew : cfg2.service cfg.serviceObjects.length = some s := by
    unfold ServiceConfiguration.service
    rw [hobj]
    exact List.getElem?_concat_length _ _
  have hold : ∀ ref t, cfg.service ref = some t → cfg2.service ref = some t := by
    intro ref t ht
    have := service_append cfg s ref t ht
    unfold ServiceConfiguration.service
    rw [hobj]
    exact this
  -- every service of the new configuration is the new one or an old one
  have hcase : ∀ e ∈ cfg2.m_services, ∀ t ∈ cfg2.service e.2,
      (e ∈ cfg.m_services ∧ cfg.service e.2 = some t) ∨ t = s := by
    intro e he t ht
    rw [hsvc] at he
    rcases mapInsert_mem _ _ _ _ he with he | he
    · obtain ⟨t2, ht2, _⟩ := hJ.inv e he
      have := hold _ _ ht2
      rw [Option.mem_def] at ht
      rw [this] at ht
      cases ht
      exact Or.inl ⟨he, ht2⟩
    · subst he
      rw [Option.mem_def, hnew] at ht
      cases ht
      exact Or.inr rfl
  refine ⟨?_, ?_, ?_, ?_⟩
  · intro e he
    rw [hsvc] at he
    rcases mapInsert_mem _ _ _ _ he with he | he
    · exact ServiceOK_of_append hobj hplans (hJ.inv e he)
    · subst he
      refine ⟨s, hnew, hs1, h1, fun _ => ?_, ?_⟩
      · rw [hs2]; exact h3
      · intro km hkm
        rw [hs3] at hkm
        cases hkm
  · intro e he
    rw [hsvc] at he
    rcases mapInsert_mem _ _ _ _ he with he | he
    · exact hJ.original e he
    · subst he
      exact h2
  · intro e he e2 he2 t ht t2 ht2 km hkm km2 hkm2 heq
    rcases hcase e he t ht with ⟨hea, hta⟩ | hts
    · rcases hcase e2 he2 t2 ht2 with ⟨hea2, hta2⟩ | hts2
      · exact hJ.unique e hea e2 hea2 t hta t2 hta2 km hkm km2 hkm2 heq
      · subst hts2
        rw [hs3] at hkm2
        cases hkm2
    · subst hts
      rw [hs3] at hkm
      cases hkm
  · intro km hkm
    obtain ⟨t, ht1, ht2⟩ := hJ.owners km hkm
    refine ⟨t, hold _ _ ht1, ?_⟩
    rw [hsvc]
    exact mem_mapInsert_of_mem _ _ _ _ ht2

theorem mod_U32_of_le_of_ne_zero {a : Nat} (h1 : a ≤ U32) (h2 : a % U32 ≠ 0) :
    a < U32 ∧ a % U32 = a := by
  have hlt : a < U32 := by
    rcases Nat.lt_or_eq_of_le h1 with h | h
    · exact h
    · subst h; simp at h2
  exact ⟨hlt, Nat.mod_eq_of_lt hlt⟩

theorem AddServices_loop_PreReplicaInv {base cbase N : Nat} {startTime stopTime : RandomVariable}
    {responseTimeout ACKTimeout : Time} {retransmissionLimit : Nat} {msgIdLifetime : Time}
    {serviceFaultModel : FaultModel} {postErrorDelay : RandomVariable} :
    ∀ (n i : Nat) (gen gen2 : ServiceConfigurationRandomGenerator) (rng rng2 : Rng),
      ServiceConfigurationRandomGenerator.AddServices.loop startTime stopTime responseTimeout
        ACKTimeout retransmissionLimit msgIdLifetime serviceFaultModel postErrorDelay n
        ((base + i) % U32) ((cbase + i) % U32) gen rng = some (gen2, rng2) →
      i + n = N → base + i ≤ U32 → cbase + i ≤ U32 →
      gen.m_serviceConfiguration.PreReplicaInv base cbase N gen.m_serviceMethods →
      gen2.m_serviceConfiguration.PreReplicaInv base cbase N gen2.m_serviceMethods ∧
        gen2.m_serviceMethods = gen.m_serviceMethods ∧ base + N ≤ U32 := by
  intro n
  induction n with
  | zero =>
    intro i gen gen2 rng rng2 h hi hb _ hJ
    simp only [ServiceConfigurationRandomGenerator.AddServices.loop, Option.some.injEq,
      Prod.mk.injEq] at h
    obtain ⟨rfl, _⟩ := h
    simp only [Nat.add_zero] at hi
    subst hi
    exact ⟨hJ, rfl, hb⟩
  | succ n ih =>
    intro i gen gen2 rng rng2 h hi hb hcb hJ
    simp only [ServiceConfigurationRandomGenerator.AddServices.loop, Option.bind_eq_bind] at h
    cases hadd : gen.m_serviceConfiguration.AddService ((base + i) % U32)
        (MilliSeconds ↑(startTime.GetInteger rng).1)
        (MilliSeconds ↑(stopTime.GetInteger (startTime.GetInteger rng).2).1) responseTimeout
        ACKTimeout retransmissionLimit msgIdLifetime ((cbase + i) % U32) serviceFaultModel
        postErrorDelay with
    | none =>
      rw [hadd] at h
      simp at h
    | some cfg =>
      rw [hadd] at h
      simp only [Option.some_bind] at h
      obtain ⟨_, _, _, _, ⟨hne, hcne⟩, _⟩ := AddService_spec hadd
      obtain ⟨hlt, hmod⟩ := mod_U32_of_le_of_ne_zero hb hne
      obtain ⟨hclt, hcmod⟩ := mod_U32_of_le_of_ne_zero hcb hcne
      rw [hmod, hcmod] at hadd h
      have hJ2 := AddService_PreReplicaInv hJ hadd (Nat.le_add_right _ _) (by omega) (by omega)
      have hrec := ih (i + 1) { gen with m_serviceConfiguration := cfg } gen2 _ rng2
        (by rw [← Nat.add_assoc base i 1, ← Nat.add_assoc cbase i 1]; exact h)
        (by omega) (by omega) (by omega) hJ2
      exact hrec

theorem AddServiceMethod_spec {cfg cfg2 : ServiceConfiguration} {serviceId contractMethodId : Nat}
    {responseSize : RandomVariable} {faultModel : FaultModel}
    {planPreExeDelay planPostExeDelay stepPostExeDelay postPlanErrorDelay : RandomVariable}
    {method : ServiceMethod}
    (h : cfg.AddServiceMethod serviceId contractMethodId responseSize faultModel planPreExeDelay
      planPostExeDelay stepPostExeDelay postPlanErrorDelay = some (cfg2, method)) :
    ∃ ref service plan, cfg.GetService serviceId = some ref ∧ cfg.service ref = some service ∧
      method.m_service = ref ∧ method.m_executionPlan = cfg.planObjects.length ∧
      plan.m_executionSteps = [] ∧
      cfg2.serviceObjects = cfg.serviceObjects.set ref
        { service with m_methods := mapInsert service.m_methods contractMethodId method } ∧
      cfg2.planObjects = cfg.planObjects ++ [plan] ∧
      cfg2.m_services = cfg.m_services := by
  unfold ServiceConfiguration.AddServiceMethod at h
  by_cases h0 : serviceId = 0 ∨ contractMethodId = 0
  · simp [h0] at h
  · simp only [h0, if_false, Option.bind_eq_bind] at h
    cases hg : cfg.GetService serviceId with
    | none => simp [hg] at h
    | some ref =>
      simp only [hg, Option.some_bind] at h
      cases hs : cfg.service ref with
      | none => simp [hs] at h
      | some service =>
        simp only [hs, Option.some_bind] at h
        unfold Service.AddMethod at h
        have h00 : ¬ contractMethodId = 0 := fun hc => h0 (Or.inr hc)
        simp only [h00, if_false, Option.bind_eq_bind] at h
        unfold ServiceMethod.new at h
        simp only [ne_eq, h00, not_false_eq_true, if_true, Option.some_bind, pure,
          Option.some.injEq, Prod.mk.injEq] at h
        obtain ⟨h1, h2⟩ := h
        subst h1
        subst h2
        exact ⟨ref, service, _, rfl, hs, rfl, rfl, rfl, rfl, rfl, rfl⟩

theorem plan_append (cfg : ServiceConfiguration) (x : ServiceExecutionPlan) (ref : PlanRef)
    (plan : ServiceExecutionPlan) (h : cfg.plan ref = some plan) :
    (cfg.planObjects ++ [x])[ref]? = some plan := by
  have hlt := plan_lt_length h
  unfold ServiceConfiguration.plan at h
  rw [List.getElem?_append_left hlt]
  exact h

theorem AddServiceMethod_PreReplicaInv {base cbase n : Nat} {cfg cfg2 : ServiceConfiguration}
    {methods : List (Nat × ServiceMethod)} {serviceId contractMethodId : Nat}
    {responseSize : RandomVariable} {faultModel : FaultModel}
    {planPreExeDelay planPostExeDelay stepPostExeDelay postPlanErrorDelay : RandomVariable}
    {method : ServiceMethod}
    (hJ : cfg.PreReplicaInv base cbase n methods)
    (h : cfg.AddServiceMethod serviceId contractMethodId responseSize faultModel planPreExeDelay
      planPostExeDelay stepPostExeDelay postPlanErrorDelay = some (cfg2, method)) :
    cfg2.PreReplicaInv base cbase n (mapInsert methods contractMethodId method) := by
  obtain ⟨ref, service, newPlan, hget, hsvc, hmref, hmplan, hempty, hobj, hplans, hservices⟩ :=
    AddServiceMethod_spec h
  have hreflt := service_lt_length hsvc
  have hmethodOK : ∀ c m, cfg.MethodOK c m → cfg2.MethodOK c m := by
    intro c m ⟨plan, hp1, hp2⟩
    refine ⟨plan, ?_, hp2⟩
    have := plan_append cfg newPlan _ _ hp1
    unfold ServiceConfiguration.plan
    rw [hplans]
    exact this
  have hnewOK : ∀ c, cfg2.MethodOK c method := by
    intro c
    refine ⟨newPlan, ?_, ?_⟩
    · unfold ServiceConfiguration.plan
      rw [hplans, hmplan]
      exact List.getElem?_concat_length _ _
    · intro step hstep
      rw [hempty] at hstep
      cases hstep
  have hat : cfg2.service ref = some
      { service with m_methods := mapInsert service.m_methods contractMethodId method } := by
    unfold ServiceConfiguration.service
    rw [hobj, List.getElem?_set]
    simp [hreflt]
  have hother : ∀ r, r ≠ ref → cfg2.service r = cfg.service r := by
    intro r hr
    unfold ServiceConfiguration.service
    rw [hobj, List.getElem?_set]
    simp [Ne.symm hr]
  -- a service of the new configuration with one of its methods: either both are old,
  -- or the method is the new one
  have hclass : ∀ r, ∀ t ∈ cfg2.service r, ∀ km ∈ t.m_methods,
      (∃ t0, cfg.service r = some t0 ∧ t0.m_contractId = t.m_contractId ∧
        t0.m_serviceId = t.m_serviceId ∧ km ∈ t0.m_methods) ∨
      (r = ref ∧ km = (contractMethodId, method)) := by
    intro r t ht km hkm
    rw [Option.mem_def] at ht
    by_cases hr : r = ref
    · subst hr
      rw [hat] at ht
      cases ht
      rcases mapInsert_mem _ _ _ _ hkm with hk | hk
      · exact Or.inl ⟨service, hsvc, rfl, rfl, hk⟩
      · exact Or.inr ⟨rfl, hk⟩
    · rw [hother r hr] at ht
      exact Or.inl ⟨t, ht, rfl, rfl, hkm⟩
  have hsame : ∀ r t0, cfg.service r = some t0 → ∃ t, cfg2.service r = some t ∧
      t.m_contractId = t0.m_contractId ∧ t.m_serviceId = t0.m_serviceId := by
    intro r t0 ht0
    by_cases hr : r = ref
    · subst hr
      rw [hsvc] at ht0
      cases ht0
      exact ⟨_, hat, rfl, rfl⟩
    · exact ⟨t0, by rw [hother r hr]; exact ht0, rfl, rfl⟩
  refine ⟨?_, ?_, ?_, ?_⟩
  · intro e he
    rw [hservices] at he
    obtain ⟨t0, ht0, hid, hbase, hcontract, hmeth⟩ := hJ.inv e he
    obtain ⟨t, ht, htc, hti⟩ := hsame _ _ ht0
    refine ⟨t, ht, by rw [hti]; exact hid, hbase, by rw [htc]; exact hcontract, ?_⟩
    intro km hkm
    rcases hclass e.2 t ht km hkm with ⟨t1, ht1, hc1, _, hk1⟩ | ⟨_, hk⟩
    · rw [ht0] at ht1
      cases ht1
      rw [htc]
      exact hmethodOK _ _ (hmeth km hk1)
    · rw [hk]
      exact hnewOK _
  · intro e he
    rw [hservices] at he
    exact hJ.original e he
  · intro e he e2 he2 t ht t2 ht2 km hkm km2 hkm2 heq
    rw [hservices] at he he2
    rcases hclass e.2 t ht km hkm with ⟨t0, ht0, hc0, _, hk0⟩ | ⟨hr, hk⟩
    · rcases hclass e2.2 t2 ht2 km2 hkm2 with ⟨t02, ht02, hc02, _, hk02⟩ | ⟨hr2, hk2⟩
      · rw [← hc0, ← hc02]
        exact hJ.unique e he e2 he2 t0 ht0 t02 ht02 km hk0 km2 hk02 heq
      · exfalso
        obtain ⟨_, hs1, _, _, _, hm⟩ := hJ.inv e he
        rw [ht0] at hs1
        cases hs1
        obtain ⟨plan, hp, _⟩ := hm km hk0
        have := plan_lt_length hp
        rw [heq, hk2, hmplan] at this
        exact Nat.lt_irrefl _ this
    · rcases hclass e2.2 t2 ht2 km2 hkm2 with ⟨t02, ht02, hc02, _, hk02⟩ | ⟨hr2, hk2⟩
      · exfalso
        obtain ⟨_, hs1, _, _, _, hm⟩ := hJ.inv e2 he2
        rw [ht02] at hs1
        cases hs1
        obtain ⟨plan, hp, _⟩ := hm km2 hk02
        have := plan_lt_length hp
        rw [← heq, hk, hmplan] at this
        exact Nat.lt_irrefl _ this
      · rw [Option.mem_def] at ht ht2
        rw [hr] at ht
        rw [hr2] at ht2
        rw [ht] at ht2
        cases ht2
        rfl
  · intro km hkm
    rcases mapInsert_mem _ _ _ _ hkm with hk | hk
    · obtain ⟨t0, ht0, hin⟩ := hJ.owners km hk
      obtain ⟨t, ht, _, hti⟩ := hsame _ _ ht0
      refine ⟨t, ht, ?_⟩
      rw [hservices, hti]
      exact hin
    · subst hk
      refine ⟨_, by rw [hmref]; exact hat, ?_⟩
      rw [hservices, hmref]
      have hmem := mapFind_mem _ _ _ hget
      obtain ⟨t0, ht0, hid, _⟩ := hJ.inv _ hmem
      rw [hsvc] at ht0
      cases ht0
      simp only at hid ⊢
      rw [hid]
      exact hmem

theorem AddServiceMethods_inner_PreReplicaInv {base cbase N : Nat}
    {responseSize : RandomVariable} {methodFaultModel : FaultModel}
    {planPreExeDelay planPostExeDelay stepPostExeDelay postPlanErrorDelay : RandomVariable}
    {serviceId : Nat} :
    ∀ (m methodId methodId2 : Nat) (gen gen2 : ServiceConfigurationRandomGenerator),
      ServiceConfigurationRandomGenerator.AddServiceMethods.inner responseSize methodFaultModel
        planPreExeDelay planPostExeDelay stepPostExeDelay postPlanErrorDelay serviceId m
        methodId gen = some (methodId2, gen2) →
      gen.m_serviceConfiguration.PreReplicaInv base cbase N gen.m_serviceMethods →
      gen2.m_serviceConfiguration.PreReplicaInv base cbase N gen2.m_serviceMethods := by
  intro m
  induction m with
  | zero =>
    intro methodId methodId2 gen gen2 h hJ
    simp only [ServiceConfigurationRandomGenerator.AddServiceMethods.inner, Option.some.injEq,
      Prod.mk.injEq] at h
    obtain ⟨_, rfl⟩ := h
    exact hJ
  | succ m ih =>
    intro methodId methodId2 gen gen2 h hJ
    simp only [ServiceConfigurationRandomGenerator.AddServiceMethods.inner,
      Option.bind_eq_bind] at h
    cases hadd : gen.m_serviceConfiguration.AddServiceMethod serviceId ((methodId + 1) % U32)
        responseSize methodFaultModel planPreExeDelay planPostExeDelay stepPostExeDelay
        postPlanErrorDelay with
    | none =>
      rw [hadd] at h
      simp at h
    | some r =>
      obtain ⟨cfg, method⟩ := r
      rw [hadd] at h
      simp only [Option.some_bind] at h
      exact ih _ _ _ _ h (AddServiceMethod_PreReplicaInv hJ hadd)

theorem AddServiceMethods_loop_PreReplicaInv {base cbase N : Nat} {serviceBaseId : Nat}
    {numberOfServiceMethods responseSize : RandomVariable} {methodFaultModel : FaultModel}
    {planPreExeDelay planPostExeDelay stepPostExeDelay postPlanErrorDelay : RandomVariable} :
    ∀ (n s methodId : Nat) (gen gen2 : ServiceConfigurationRandomGenerator) (rng rng2 : Rng),
      ServiceConfigurationRandomGenerator.AddServiceMethods.loop serviceBaseId
        numberOfServiceMethods responseSize methodFaultModel planPreExeDelay planPostExeDelay
        stepPostExeDelay postPlanErrorDelay n s methodId gen rng = some (gen2, rng2) →
      gen.m_serviceConfiguration.PreReplicaInv base cbase N gen.m_serviceMethods →
      gen2.m_serviceConfiguration.PreReplicaInv base cbase N gen2.m_serviceMethods := by
  intro n
  induction n with
  | zero =>
    intro s methodId gen gen2 rng rng2 h hJ
    simp only [ServiceConfigurationRandomGenerator.AddServiceMethods.loop, Option.some.injEq,
      Prod.mk.injEq] at h
    obtain ⟨rfl, _⟩ := h
    exact hJ
  | succ n ih =>
    intro s methodId gen gen2 rng rng2 h hJ
    simp only [ServiceConfigurationRandomGenerator.AddServiceMethods.loop,
      Option.bind_eq_bind] at h
    cases hin : ServiceConfigurationRandomGenerator.AddServiceMethods.inner responseSize
        methodFaultModel planPreExeDelay planPostExeDelay stepPostExeDelay postPlanErrorDelay
        ((serviceBaseId + s) % U32) (numberOfServiceMethods.GetInteger rng).1 methodId gen with
    | none =>
      rw [hin] at h
      simp at h
    | some r =>
      obtain ⟨methodId1, gen1⟩ := r
      rw [hin] at h
      simp only [Option.some_bind] at h
      exact ih _ _ _ _ _ _ h (AddServiceMethods_inner_PreReplicaInv _ _ _ _ _ hin hJ)

theorem AddServiceExecutionStep_spec {cfg cfg2 : ServiceConfiguration}
    {serviceId contractMethodId destContractId destContractMethodId : Nat}
    {requestSize : RandomVariable} {stepProbability : Double}
    (h : cfg.AddServiceExecutionStep serviceId contractMethodId destContractId
      destContractMethodId requestSize stepProbability = some cfg2) :
    ∃ ref service method plan step, cfg.GetService serviceId = some ref ∧
      cfg.service ref = some service ∧ service.GetMethod contractMethodId = some method ∧
      cfg.plan method.m_executionPlan = some plan ∧ step.m_contractId = destContractId ∧
      cfg2.planObjects = cfg.planObjects.set method.m_executionPlan
        { plan with m_executionSteps := plan.m_executionSteps ++ [step] } ∧
      cfg2.serviceObjects = cfg.serviceObjects ∧ cfg2.m_services = cfg.m_services := by
  unfold ServiceConfiguration.AddServiceExecutionStep at h
  by_cases h0 : serviceId = 0 ∨ contractMethodId = 0 ∨ destContractId = 0 ∨
      destContractMethodId = 0 ∨ stepProbability = 0
  · simp [h0] at h
  · simp only [h0, if_false, Option.bind_eq_bind] at h
    cases hg : cfg.GetService serviceId with
    | none => simp [hg] at h
    | some ref =>
      simp only [hg, Option.some_bind] at h
      cases hs : cfg.service ref with
      | none => simp [hs] at h
      | some service =>
        simp only [hs, Option.some_bind] at h
        cases hm : service.GetMethod contractMethodId with
        | none => simp [hm] at h
        | some method =>
          simp only [hm, Option.some_bind] at h
          cases hp : cfg.plan method.m_executionPlan with
          | none => simp [hp] at h
          | some plan =>
            simp only [hp, Option.some_bind] at h
            unfold ExecutionPlan.AddExecutionStep at h
            cases hst : ExecutionStep.new destContractId destContractMethodId requestSize
                stepProbability with
            | none => simp [hst] at h
            | some step =>
              simp only [hst, Option.bind_eq_bind, Option.some_bind, pure,
                Option.some.injEq] at h
              subst h
              refine ⟨ref, service, method, plan, step, rfl, hs, hm, hp, ?_, rfl, rfl, rfl⟩
              unfold ExecutionStep.new at hst
              split_ifs at hst
              simp only [Option.some.injEq] at hst
              subst hst
              rfl

theorem AddServiceExecutionStep_PreReplicaInv {base cbase n : Nat}
    {cfg cfg2 : ServiceConfiguration} {methods : List (Nat × ServiceMethod)}
    {dependent antecedent : ServiceMethod} {dependentService antecedentService : Service}
    {requestSize : RandomVariable} {stepProbability : Double}
    (hJ : cfg.PreReplicaInv base cbase n methods)
    (ha : ∃ k, (k, antecedent) ∈ methods)
    (has : cfg.service antecedent.m_service = some antecedentService)
    (hlt : dependentService.m_serviceId < antecedentService.m_serviceId)
    (h : cfg.AddServiceExecutionStep dependentService.m_serviceId
      dependent.m_contractMethodId antecedentService.m_contractId
      antecedent.m_contractMethodId requestSize stepProbability = some cfg2) :
    cfg2.PreReplicaInv base cbase n methods := by
  obtain ⟨ref, service, method, plan, step, hget, hsvc, hmeth, hplan, hstep, hplans, hobj,
    hservices⟩ := AddServiceExecutionStep_spec h
  have hservice : ∀ r, cfg2.service r = cfg.service r := by
    intro r
    unfold ServiceConfiguration.service
    rw [hobj]
  -- the antecedent service is an original one
  obtain ⟨ka, hka⟩ := ha
  obtain ⟨ta, hta, hain⟩ := hJ.owners _ hka
  rw [has] at hta
  cases hta
  obtain ⟨ta2, hta2, _, _, hac, _⟩ := hJ.inv _ hain
  simp only at hta2 hac
  rw [has] at hta2
  cases hta2
  have hac := hac (hJ.original _ hain)
  -- the service that receives the step
  have hmem := mapFind_mem _ _ _ hget
  obtain ⟨t, ht, _, _, htc, _⟩ := hJ.inv _ hmem
  simp only at ht htc
  rw [hsvc] at ht
  cases ht
  have htc := htc (hJ.original _ hmem)
  have hcontract : service.m_contractId < antecedentService.m_contractId := by omega
  have hmmem : (dependent.m_contractMethodId, method) ∈ service.m_methods :=
    mapFind_mem _ _ _ hmeth
  have hPlt := plan_lt_length hplan
  refine ⟨?_, ?_, ?_, ?_⟩
  · intro e he
    rw [hservices] at he
    obtain ⟨s0, hs0, hid, hbase, hc, hm⟩ := hJ.inv e he
    refine ⟨s0, by rw [hservice]; exact hs0, hid, hbase, hc, ?_⟩
    intro km hkm
    obtain ⟨pl, hpl, hsteps⟩ := hm km hkm
    by_cases hP : km.2.m_executionPlan = method.m_executionPlan
    · have hsame := hJ.unique e he _ hmem s0 hs0 service hsvc km hkm _ hmmem hP
      refine ⟨{ plan with m_executionSteps := plan.m_executionSteps ++ [step] }, ?_, ?_⟩
      · unfold ServiceConfiguration.plan
        rw [hplans, hP, List.getElem?_set]
        simp [hPlt]
      · intro st hst
        rw [hP, hplan] at hpl
        cases hpl
        simp only [List.mem_append, List.mem_singleton] at hst
        rcases hst with hst | hst
        · exact hsteps st hst
        · rw [hst, hstep, hsame]
          exact hcontract
    · refine ⟨pl, ?_, hsteps⟩
      unfold ServiceConfiguration.plan at hpl ⊢
      rw [hplans, List.getElem?_set]
      simp only [Ne.symm hP, if_false]
      exact hpl
  · intro e he
    rw [hservices] at he
    exact hJ.original e he
  · intro e he e2 he2 t ht t2 ht2 km hkm km2 hkm2 heq
    rw [hservices] at he he2
    rw [hservice] at ht ht2
    exact hJ.unique e he e2 he2 t ht t2 ht2 km hkm km2 hkm2 heq
  · intro km hkm
    obtain ⟨t0, ht0, hin⟩ := hJ.owners km hkm
    exact ⟨t0, by rw [hservice]; exact ht0, by rw [hservices]; exact hin⟩

theorem AddServiceExecutionSteps_body_PreReplicaInv {base cbase N : Nat}
    {dependencyProbability : Double} {requestSize stepProbability : RandomVariable}
    {dependent antecedent : ServiceMethod} {gen gen2 : ServiceConfigurationRandomGenerator}
    {rng rng2 : Rng}
    (hJ : gen.m_serviceConfiguration.PreReplicaInv base cbase N gen.m_serviceMethods)
    (ha : ∃ k, (k, antecedent) ∈ gen.m_serviceMethods)
    (h : ServiceConfigurationRandomGenerator.AddServiceExecutionSteps.body
      dependencyProbability requestSize stepProbability dependent antecedent gen rng
        = some (gen2, rng2)) :
    gen2.m_serviceConfiguration.PreReplicaInv base cbase N gen2.m_serviceMethods ∧
      gen2.m_serviceMethods = gen.m_serviceMethods := by
  unfold ServiceConfigurationRandomGenerator.AddServiceExecutionSteps.body at h
  simp only [Option.bind_eq_bind] at h
  cases hds : gen.m_serviceConfiguration.service dependent.m_service with
  | none => simp [hds] at h
  | some dependentService =>
    simp only [hds, Option.some_bind] at h
    cases has : gen.m_serviceConfiguration.service antecedent.m_service with
    | none => simp [has] at h
    | some antecedentService =>
      simp only [has, Option.some_bind] at h
      split_ifs at h with hc hi
      · simp only [pure, Option.some.injEq, Prod.mk.injEq] at h
        obtain ⟨rfl, _⟩ := h
        exact ⟨hJ, rfl⟩
      · simp only [pure, Option.some.injEq, Prod.mk.injEq] at h
        obtain ⟨rfl, _⟩ := h
        exact ⟨hJ, rfl⟩
      · cases hsh : ServiceConfigurationRandomGenerator.ShouldDependencyBeCreated
            dependencyProbability rng with
        | none => simp [hsh] at h
        | some r =>
          obtain ⟨create, rng1⟩ := r
          simp only [hsh, Option.some_bind] at h
          cases create with
          | false =>
            simp only [Bool.false_eq_true, if_false, pure, Option.some.injEq,
              Prod.mk.injEq] at h
            obtain ⟨rfl, _⟩ := h
            exact ⟨hJ, rfl⟩
          | true =>
            simp only [if_true] at h
            cases hadd : gen.m_serviceConfiguration.AddServiceExecutionStep
                dependentService.m_serviceId dependent.m_contractMethodId
                antecedentService.m_contractId antecedent.m_contractMethodId requestSize
                (stepProbability.GetValue rng1).1 with
            | none => simp [hadd] at h
            | some cfg2 =>
              simp only [hadd, Option.some_bind, pure, Option.some.injEq, Prod.mk.injEq] at h
              obtain ⟨rfl, _⟩ := h
              exact ⟨AddServiceExecutionStep_PreReplicaInv hJ ha has (Nat.lt_of_not_le hi) hadd,
                rfl⟩

theorem AddServiceExecutionSteps_inner_PreReplicaInv {base cbase N : Nat}
    {dependencyProbability : Double} {requestSize stepProbability : RandomVariable}
    {dependent : ServiceMethod} :
    ∀ (ys : List (Nat × ServiceMethod)) (gen gen2 : ServiceConfigurationRandomGenerator)
      (rng rng2 : Rng),
      ServiceConfigurationRandomGenerator.AddServiceExecutionSteps.inner
        dependencyProbability requestSize stepProbability dependent ys gen rng
          = some (gen2, rng2) →
      (∀ km ∈ ys, km ∈ gen.m_serviceMethods) →
      gen.m_serviceConfiguration.PreReplicaInv base cbase N gen.m_serviceMethods →
      gen2.m_serviceConfiguration.PreReplicaInv base cbase N gen2.m_serviceMethods ∧
        gen2.m_serviceMethods = gen.m_serviceMethods := by
  intro ys
  induction ys with
  | nil =>
    intro gen gen2 rng rng2 h _ hJ
    simp only [ServiceConfigurationRandomGenerator.AddServiceExecutionSteps.inner,
      Option.some.injEq, Prod.mk.injEq] at h
    obtain ⟨rfl, _⟩ := h
    exact ⟨hJ, rfl⟩
  | cons y ys ih =>
    intro gen gen2 rng rng2 h hsub hJ
    obtain ⟨k, antecedent⟩ := y
    simp only [ServiceConfigurationRandomGenerator.AddServiceExecutionSteps.inner,
      Option.bind_eq_bind] at h
    cases hb : ServiceConfigurationRandomGenerator.AddServiceExecutionSteps.body
        dependencyProbability requestSize stepProbability dependent antecedent gen rng with
    | none => simp [hb] at h
    | some r =>
      obtain ⟨gen1, rng1⟩ := r
      simp only [hb, Option.some_bind] at h
      obtain ⟨hJ1, hm1⟩ := AddServiceExecutionSteps_body_PreReplicaInv hJ
        ⟨k, hsub _ (List.mem_cons_self _ _)⟩ hb
      obtain ⟨hJ2, hm2⟩ := ih gen1 gen2 rng1 rng2 h
        (fun km hkm => by rw [hm1]; exact hsub km (List.mem_cons_of_mem _ hkm)) hJ1
      exact ⟨hJ2, by rw [hm2, hm1]⟩

theorem AddServiceExecutionSteps_outer_PreReplicaInv {base cbase N : Nat}
    {dependencyProbability : Double} {requestSize stepProbability : RandomVariable}
    {all : List (Nat × ServiceMethod)} :
    ∀ (xs : List (Nat × ServiceMethod)) (gen gen2 : ServiceConfigurationRandomGenerator)
      (rng rng2 : Rng),
      ServiceConfigurationRandomGenerator.AddServiceExecutionSteps.outer
        dependencyProbability requestSize stepProbability all xs gen rng
          = some (gen2, rng2) →
      (∀ km ∈ all, km ∈ gen.m_serviceMethods) →
      gen.m_serviceConfiguration.PreReplicaInv base cbase N gen.m_serviceMethods →
      gen2.m_serviceConfiguration.PreReplicaInv base cbase N gen2.m_serviceMethods ∧
        gen2.m_serviceMethods = gen.m_serviceMethods := by
  intro xs
  induction xs with
  | nil =>
    intro gen gen2 rng rng2 h _ hJ
    simp only [ServiceConfigurationRandomGenerator.AddServiceExecutionSteps.outer,
      Option.some.injEq, Prod.mk.injEq] at h
    obtain ⟨rfl, _⟩ := h
    exact ⟨hJ, rfl⟩
  | cons x xs ih =>
    intro gen gen2 rng rng2 h hsub hJ
    obtain ⟨k, dependent⟩ := x
    simp only [ServiceConfigurationRandomGenerator.AddServiceExecutionSteps.outer,
      Option.bind_eq_bind] at h
    cases hb : ServiceConfigurationRandomGenerator.AddServiceExecutionSteps.inner
        dependencyProbability requestSize stepProbability dependent all gen rng with
    | none => simp [hb] at h
    | some r =>
      obtain ⟨gen1, rng1⟩ := r
      simp only [hb, Option.some_bind] at h
      obtain ⟨hJ1, hm1⟩ := AddServiceExecutionSteps_inner_PreReplicaInv all gen gen1 rng rng1
        hb hsub hJ
      obtain ⟨hJ2, hm2⟩ := ih gen1 gen2 rng1 rng2 h
        (fun km hkm => by rw [hm1]; exact hsub km hkm) hJ1
      exact ⟨hJ2, by rw [hm2, hm1]⟩

theorem CreateReplica_loop_spec (newRef : ServiceRef) :
    ∀ (methods : List (Nat × ServiceMethod)) (service service2 : Service),
      Service.CreateReplica.loop newRef methods service = some service2 →
      service2.m_serviceId = service.m_serviceId ∧
      service2.m_contractId = service.m_contractId ∧
      ∀ km ∈ service2.m_methods, km ∈ service.m_methods ∨
        ∃ km0 ∈ methods, km.2.m_executionPlan = km0.2.m_executionPlan := by
  intro methods
  induction methods with
  | nil =>
    intro service service2 h
    simp only [Service.CreateReplica.loop, Option.some.injEq] at h
    subst h
    exact ⟨rfl, rfl, fun km hkm => Or.inl hkm⟩
  | cons x rest ih =>
    intro service service2 h
    obtain ⟨k, method⟩ := x
    simp only [Service.CreateReplica.loop, Option.bind_eq_bind] at h
    cases hr : method.CreateReplica newRef with
    | none => simp [hr] at h
    | some replica =>
      simp only [hr, Option.some_bind] at h
      obtain ⟨h1, h2, h3⟩ := ih _ _ h
      refine ⟨h1, h2, ?_⟩
      intro km hkm
      have hplan : replica.m_executionPlan = method.m_executionPlan := by
        unfold ServiceMethod.CreateReplica ServiceMethod.new at hr
        split_ifs at hr
        simp only [Option.some.injEq] at hr
        subst hr
        rfl
      rcases h3 km hkm with hk | ⟨km0, hk0, hp0⟩
      · rcases mapInsert_mem _ _ _ _ hk with hk | hk
        · exact Or.inl hk
        · refine Or.inr ⟨(k, method), List.mem_cons_self _ _, ?_⟩
          rw [hk]
          exact hplan
      · exact Or.inr ⟨km0, List.mem_cons_of_mem _ hk0, hp0⟩

theorem AddServiceReplica_spec {cfg cfg2 : ServiceConfiguration} {serviceId newServiceId : Nat}
    (h : cfg.AddServiceReplica serviceId newServiceId = some cfg2) :
    ∃ ref service newService, cfg.GetService serviceId = some ref ∧
      cfg.service ref = some service ∧ newService.m_serviceId = newServiceId ∧
      newService.m_contractId = service.m_contractId ∧
      (∀ km ∈ newService.m_methods,
        ∃ km0 ∈ service.m_methods, km.2.m_executionPlan = km0.2.m_executionPlan) ∧
      newServiceId ≠ 0 ∧
      cfg2.serviceObjects = cfg.serviceObjects ++ [newService] ∧
      cfg2.planObjects = cfg.planObjects ∧
      cfg2.m_services = mapInsert cfg.m_services newServiceId cfg.serviceObjects.length := by
  unfold ServiceConfiguration.AddServiceReplica at h
  by_cases h0 : serviceId = 0 ∨ newServiceId = 0
  · simp [h0] at h
  · simp only [h0, if_false, Option.bind_eq_bind] at h
    cases hg : cfg.GetService serviceId with
    | none => simp [hg] at h
    | some ref =>
      simp only [hg, Option.some_bind] at h
      cases hs : cfg.service ref with
      | none => simp [hs] at h
      | some service =>
        simp only [hs, Option.some_bind] at h
        cases hr : service.CreateReplica newServiceId cfg.serviceObjects.length with
        | none => simp [hr] at h
        | some newService =>
          simp only [hr, Option.some_bind, pure, Option.some.injEq] at h
          subst h
          unfold Service.CreateReplica at hr
          simp only [Option.bind_eq_bind] at hr
          cases hn : Service.new newServiceId service.m_startTime service.m_stopTime
              service.m_responseTimeout service.m_ACKTimeout service.m_retransmissionLimit
              service.m_msgIdLifetime service.m_contractId service.m_faultModel
              service.m_postErrorDelay with
          | none => simp [hn] at hr
          | some fresh =>
            simp only [hn, Option.some_bind] at hr
            obtain ⟨hf1, hf2, hf3, _, _⟩ := Service_new_spec hn
            obtain ⟨hl1, hl2, hl3⟩ := CreateReplica_loop_spec _ _ _ _ hr
            refine ⟨ref, service, newService, rfl, hs, by rw [hl1, hf1], by rw [hl2, hf2], ?_,
              fun hz => h0 (Or.inr hz), rfl, rfl, rfl⟩
            intro km hkm
            rcases hl3 km hkm with hk | hk
            · rw [hf3] at hk
              cases hk
            · exact hk

theorem AddServiceReplica_GenInv {base cbase n : Nat} {cfg cfg2 : ServiceConfiguration}
    {serviceId newServiceId : Nat} (hJ : cfg.GenInv base cbase n)
    (h : cfg.AddServiceReplica serviceId newServiceId = some cfg2)
    (hnew : base + n ≤ newServiceId) : cfg2.GenInv base cbase n := by
  obtain ⟨ref, service, newService, hget, hsvc, hid, hcontract, hmethods, _, hobj, hplans,
    hservices⟩ := AddServiceReplica_spec h
  intro e he
  rw [hservices] at he
  rcases mapInsert_mem _ _ _ _ he with he | he
  · exact ServiceOK_of_append hobj hplans (hJ e he)
  · subst he
    refine ⟨newService, ?_, hid, by omega, fun hlt => by omega, ?_⟩
    · unfold ServiceConfiguration.service
      rw [hobj]
      exact List.getElem?_concat_length _ _
    · intro km hkm
      obtain ⟨km0, hkm0, hp⟩ := hmethods km hkm
      obtain ⟨s0, hs0, _, _, _, hm0⟩ := hJ _ (mapFind_mem _ _ _ hget)
      simp only at hs0
      rw [hsvc] at hs0
      cases hs0
      obtain ⟨plan, hplan, hsteps⟩ := hm0 km0 hkm0
      refine ⟨plan, ?_, ?_⟩
      · unfold ServiceConfiguration.plan at hplan ⊢
        rw [hplans, hp]
        exact hplan
      · rw [hcontract]
        exact hsteps

theorem AddServiceReplicas_loop_GenInv {base cbase N : Nat} {serviceId : Nat} :
    ∀ (k newServiceId newServiceId2 : Nat) (gen gen2 : ServiceConfigurationRandomGenerator),
      ServiceConfigurationRandomGenerator.AddServiceReplicas.loop serviceId k newServiceId gen
        = some (newServiceId2, gen2) →
      base + N ≤ newServiceId + 1 → newServiceId < U32 →
      gen.m_serviceConfiguration.GenInv base cbase N →
      gen2.m_serviceConfiguration.GenInv base cbase N ∧ base + N ≤ newServiceId2 + 1 ∧
        newServiceId2 < U32 := by
  intro k
  induction k with
  | zero =>
    intro newServiceId newServiceId2 gen gen2 h h1 h2 hJ
    simp only [ServiceConfigurationRandomGenerator.AddServiceReplicas.loop, Option.some.injEq,
      Prod.mk.injEq] at h
    obtain ⟨rfl, rfl⟩ := h
    exact ⟨hJ, h1, h2⟩
  | succ k ih =>
    intro newServiceId newServiceId2 gen gen2 h h1 h2 hJ
    simp only [ServiceConfigurationRandomGenerator.AddServiceReplicas.loop,
      Option.bind_eq_bind] at h
    cases hadd : gen.m_serviceConfiguration.AddServiceReplica serviceId
        ((newServiceId + 1) % U32) with
    | none => simp [hadd] at h
    | some cfg =>
      simp only [hadd, Option.some_bind] at h
      obtain ⟨_, _, _, _, _, _, _, _, hne, _⟩ := AddServiceReplica_spec hadd
      obtain ⟨hlt, hmod⟩ := mod_U32_of_le_of_ne_zero (Nat.succ_le_of_lt h2) hne
      rw [hmod] at hadd h
      exact ih _ _ _ _ h (by omega) hlt (AddServiceReplica_GenInv hJ hadd (by omega))

theorem AddServicesReplicas_loop_GenInv {base cbase N : Nat} {numberOfReplicas : RandomVariable} :
    ∀ (n serviceId newServiceId : Nat) (gen gen2 : ServiceConfigurationRandomGenerator)
      (rng rng2 : Rng),
      ServiceConfigurationRandomGenerator.AddServicesReplicas.loop numberOfReplicas n serviceId
        newServiceId gen rng = some (gen2, rng2) →
      base + N ≤ newServiceId + 1 → newServiceId < U32 →
      gen.m_serviceConfiguration.GenInv base cbase N →
      gen2.m_serviceConfiguration.GenInv base cbase N := by
  intro n
  induction n with
  | zero =>
    intro serviceId newServiceId gen gen2 rng rng2 h _ _ hJ
    simp only [ServiceConfigurationRandomGenerator.AddServicesReplicas.loop, Option.some.injEq,
      Prod.mk.injEq] at h
    obtain ⟨rfl, _⟩ := h
    exact hJ
  | succ n ih =>
    intro serviceId newServiceId gen gen2 rng rng2 h h1 h2 hJ
    simp only [ServiceConfigurationRandomGenerator.AddServicesReplicas.loop,
      Option.bind_eq_bind] at h
    cases hadd : ServiceConfigurationRandomGenerator.AddServiceReplicas gen serviceId
        newServiceId numberOfReplicas rng with
    | none => simp [hadd] at h
    | some r =>
      obtain ⟨newServiceId1, gen1, rng1⟩ := r
      simp only [hadd, Option.some_bind] at h
      unfold ServiceConfigurationRandomGenerator.AddServiceReplicas at hadd
      by_cases h0 : serviceId = 0
      · simp [h0] at hadd
      · simp only [h0, if_false, Option.bind_eq_bind] at hadd
        cases hl : ServiceConfigurationRandomGenerator.AddServiceReplicas.loop serviceId
            (numberOfReplicas.GetInteger rng).1 newServiceId gen with
        | none => simp [hl] at hadd
        | some r2 =>
          obtain ⟨newServiceId3, gen3⟩ := r2
          simp only [hl, Option.some_bind, pure, Option.some.injEq, Prod.mk.injEq] at hadd
          obtain ⟨rfl, rfl, _⟩ := hadd
          obtain ⟨hJ3, h13, h23⟩ := AddServiceReplicas_loop_GenInv _ _ _ _ _ hl h1 h2 hJ
          exact ih _ _ _ _ _ _ h h13 h23 hJ3

theorem PreReplicaInv_new (base cbase n : Nat) :
    ServiceConfiguration.new.PreReplicaInv base cbase n [] := by
  refine ⟨?_, ?_, ?_, ?_⟩
  · intro e he; cases he
  · intro e he; cases he
  · intro e he; cases he
  · intro km hkm; cases hkm

/-- Structural invariant of every configuration that `GenerateServices` produces from a
fresh generator: each entry of `m_services` points to a service with that id, services with
an id below `serviceBaseId + numberOfServices` have the contract id at the same offset, and
every step of every method plan targets a contract id above that of the owning service. -/
theorem GenerateServices_GenInv {numberOfServices serviceBaseId contractBaseId : Nat}
    {numberOfReplicas startTime stopTime : RandomVariable}
    {responseTimeout ACKTimeout : Time} {retransmissionLimit : Nat} {msgIdLifetime : Time}
    {serviceFaultModel : FaultModel}
    {numberOfServiceMethods methodResponseSize : RandomVariable} {methodFaultModel : FaultModel}
    {methodPreExeDelay methodPostExeDelay methodPostPlanErrorDelay : RandomVariable}
    {executionStepDependencyProbability : Double}
    {executionStepPostExeDelay executionStepRequestSize stepProbability
      servicePostErrorDelay : RandomVariable} {rng rng2 : Rng}
    {gen : ServiceConfigurationRandomGenerator}
    (hb : serviceBaseId < U32) (hcb : contractBaseId < U32)
    (h : ServiceConfigurationRandomGenerator.new.GenerateServices numberOfServices serviceBaseId
      contractBaseId numberOfReplicas startTime stopTime responseTimeout ACKTimeout
      retransmissionLimit msgIdLifetime serviceFaultModel numberOfServiceMethods
      methodResponseSize methodFaultModel methodPreExeDelay methodPostExeDelay
      methodPostPlanErrorDelay executionStepDependencyProbability executionStepPostExeDelay
      executionStepRequestSize stepProbability servicePostErrorDelay rng = some (gen, rng2)) :
    gen.m_serviceConfiguration.GenInv serviceBaseId contractBaseId numberOfServices := by
  unfold ServiceConfigurationRandomGenerator.GenerateServices at h
  by_cases h0 : numberOfServices ≠ 0 ∧ serviceBaseId ≠ 0 ∧ contractBaseId ≠ 0 ∧
      0 < executionStepDependencyProbability
  swap
  · simp [h0] at h
  rw [if_neg (not_not_intro h0)] at h
  simp only [pure, Option.bind_eq_bind, Option.some_bind] at h
  obtain ⟨hN, hbase, hcbase, hprob⟩ := h0
  -- phase 1: the services
  cases h1 : ServiceConfigurationRandomGenerator.new.AddServices numberOfServices serviceBaseId
      contractBaseId startTime stopTime responseTimeout ACKTimeout retransmissionLimit
      msgIdLifetime serviceFaultModel servicePostErrorDelay rng with
  | none => simp [h1] at h
  | some r1 =>
    obtain ⟨gen1, rng1⟩ := r1
    simp only [h1, Option.some_bind] at h
    unfold ServiceConfigurationRandomGenerator.AddServices at h1
    simp only [ne_eq, hN, not_false_eq_true, hbase, hcbase, and_self, if_true] at h1
    have hmb : (serviceBaseId + 0) % U32 = serviceBaseId := Nat.mod_eq_of_lt hb
    have hmc : (contractBaseId + 0) % U32 = contractBaseId := Nat.mod_eq_of_lt hcb
    rw [← hmb, ← hmc] at h1
    obtain ⟨hJ1, hm1, hle⟩ := AddServices_loop_PreReplicaInv numberOfServices 0 _ _ _ _ h1
      (Nat.zero_add _) (Nat.le_of_lt hb) (Nat.le_of_lt hcb)
      (PreReplicaInv_new serviceBaseId contractBaseId numberOfServices)
    -- phase 2: the methods
    cases h2 : gen1.AddServiceMethods numberOfServices serviceBaseId numberOfServiceMethods
        methodResponseSize methodFaultModel methodPreExeDelay methodPostExeDelay
        executionStepPostExeDelay methodPostPlanErrorDelay rng1 with
    | none => simp [h2] at h
    | some r2 =>
      obtain ⟨gen2, rng3⟩ := r2
      simp only [h2, Option.some_bind] at h
      unfold ServiceConfigurationRandomGenerator.AddServiceMethods at h2
      have hJ2 := AddServiceMethods_loop_PreReplicaInv _ _ _ _ _ _ _ h2 hJ1
      -- phase 3: the execution steps
      cases h3 : gen2.AddServiceExecutionSteps executionStepDependencyProbability
          executionStepPostExeDelay executionStepRequestSize stepProbability rng3 with
      | none => simp [h3] at h
      | some r3 =>
        obtain ⟨gen3, rng4⟩ := r3
        simp only [h3, Option.some_bind] at h
        unfold ServiceConfigurationRandomGenerator.AddServiceExecutionSteps at h3
        simp only [hprob, if_true] at h3
        obtain ⟨hJ3, _⟩ := AddServiceExecutionSteps_outer_PreReplicaInv _ _ _ _ _ h3
          (fun km hkm => hkm) hJ2
        -- phase 4: the replicas
        unfold ServiceConfigurationRandomGenerator.AddServicesReplicas at h
        simp only [ne_eq, hN, not_false_eq_true, hbase, and_self, if_true] at h
        have hlt : serviceBaseId + numberOfServices - 1 < U32 := by omega
        rw [Nat.mod_eq_of_lt hlt] at h
        exact AddServicesReplicas_loop_GenInv _ _ _ _ _ _ _ h (by omega) hlt hJ3.inv

/-- C5 counterexample: in the configuration generated by `exampleGenerateServices` the
replica with id 3 (of service 1, contract 1) has a step to contract 2, which is served by
service 2, whose id is lower: the claimed ordering of service ids fails for a replica. -/
theorem C5_counterexample :
    exampleGenerateServices.isSome = true ∧
    ¬ (∀ e ∈ exampleGeneratedConfig.m_services,
        exampleGeneratedConfig.StepsTargetHigherServiceIds e.2) := by
  decide

/-- C5 (amended): in every configuration that `GenerateServices` produces from a fresh
generator, for every outcome of the draws, each service that is not a replica (its id is
below `serviceBaseId + numberOfServices`) has only steps that target contracts all of whose
serving services, replicas included, have a strictly greater service id. -/
theorem C5_original_services_target_higher_ids
    {numberOfServices serviceBaseId contractBaseId : Nat}
    {numberOfReplicas startTime stopTime : RandomVariable}
    {responseTimeout ACKTimeout : Time} {retransmissionLimit : Nat} {msgIdLifetime : Time}
    {serviceFaultModel : FaultModel}
    {numberOfServiceMethods methodResponseSize : RandomVariable} {methodFaultModel : FaultModel}
    {methodPreExeDelay methodPostExeDelay methodPostPlanErrorDelay : RandomVariable}
    {executionStepDependencyProbability : Double}
    {executionStepPostExeDelay executionStepRequestSize stepProbability
      servicePostErrorDelay : RandomVariable} {rng rng2 : Rng}
    {gen : ServiceConfigurationRandomGenerator}
    (hb : serviceBaseId < U32) (hcb : contractBaseId < U32)
    (h : ServiceConfigurationRandomGenerator.new.GenerateServices numberOfServices serviceBaseId
      contractBaseId numberOfReplicas startTime stopTime responseTimeout ACKTimeout
      retransmissionLimit msgIdLifetime serviceFaultModel numberOfServiceMethods
      methodResponseSize methodFaultModel methodPreExeDelay methodPostExeDelay
      methodPostPlanErrorDelay executionStepDependencyProbability executionStepPostExeDelay
      executionStepRequestSize stepProbability servicePostErrorDelay rng = some (gen, rng2)) :
    ∀ e ∈ gen.m_serviceConfiguration.m_services, e.1 < serviceBaseId + numberOfServices →
      gen.m_serviceConfiguration.StepsTargetHigherServiceIds e.2 := by
  have hJ := GenerateServices_GenInv hb hcb h
  intro e he horig s hs km hkm plan hplan step hstep e2 he2 s2 hs2 hc
  obtain ⟨t, ht, hid, _, hcontract, hm⟩ := hJ e he
  rw [Option.mem_def] at hs hs2 hplan
  rw [hs] at ht
  cases ht
  obtain ⟨plan1, hplan1, hsteps⟩ := hm km hkm
  rw [hplan] at hplan1
  cases hplan1
  have hgt := hsteps step hstep
  have hc1 := hcontract horig
  obtain ⟨t2, ht2, hid2, hbase2, hcontract2, _⟩ := hJ e2 he2
  rw [hs2] at ht2
  cases ht2
  rw [hid, hid2]
  by_cases h2 : e2.1 < serviceBaseId + numberOfServices
  · have hc2 := hcontract2 h2
    omega
  · omega

/-- C5 witness (amended claim): in the generated example the two original services, at the
addresses 0 and 1, satisfy the ordering; service 1 has a step to contract 2, served by
service 2 only. -/
theorem C5_original_services_target_higher_ids_witness :
    (1 : Nat) < U32 ∧ exampleGenerateServices.isSome = true ∧
    exampleGeneratedConfig.StepsTargetHigherServiceIds 0 ∧
    exampleGeneratedConfig.StepsTargetHigherServiceIds 1 := by
  refine ⟨by decide, by decide, ?_⟩
  cases hgen : exampleGenerateServices with
  | none =>
    have hsome : exampleGenerateServices.isSome = true := by decide
    rw [hgen] at hsome
    cases hsome
  | some r =>
    obtain ⟨gen, rng2⟩ := r
    have hcfg : exampleGeneratedConfig = gen.m_serviceConfiguration := by
      simp [exampleGeneratedConfig, hgen]
    have hall := C5_original_services_target_higher_ids (by decide) (by decide) hgen
    rw [← hcfg] at hall
    exact ⟨hall (1, 0) (by decide) (by decide), hall (2, 1) (by decide) (by decide)⟩

/-! ### Client dependencies of the scenario generator -/

/-- A client step with probability 0 is never added: the constructor of `ExecutionStep`
asserts a non-zero probability. -/
theorem AddClientExecutionStep_zero_probability (cfg : ServiceConfiguration)
    (clientId destContractId destContractMethodId : Nat) (requestSize : RandomVariable) :
    cfg.AddClientExecutionStep clientId destContractId destContractMethodId requestSize
      (Double.ofNat 0) = none := by
  unfold ServiceConfiguration.AddClientExecutionStep
  by_cases h0 : clientId = 0 ∨ destContractId = 0 ∨ destContractMethodId = 0
  · simp [h0]
  · simp only [h0, if_false, Option.bind_eq_bind]
    cases hc : cfg.GetClient clientId with
    | none => simp
    | some client =>
      simp [ExecutionPlan.AddExecutionStep, ExecutionStep.new, Double.ofNat]

/-- Whenever the random selection gives a client no dependency (the inner loop ends with the
flag `hasClientAtLeastOneDependency` false), the uniform strategy does not produce a
configuration: the synthetic step it tries to add has probability 0. -/
theorem uniform_synthetic_step_aborts (dependencyProbability : Double)
    (requestSize : RandomVariable) (k : Nat) (x : Client) (xs : List (Nat × Client))
    (client client2 : Option Client) (gen : ServiceConfigurationRandomGenerator)
    (cfg2 : ServiceConfiguration) (rng rng2 : Rng)
    (h : ServiceConfigurationRandomGenerator.AddClientExecutionStepsWithUniformDependenceProbability.inner
      dependencyProbability requestSize x gen.m_serviceMethods client false
      gen.m_serviceConfiguration rng = some (client2, false, cfg2, rng2)) :
    ServiceConfigurationRandomGenerator.AddClientExecutionStepsWithUniformDependenceProbability.outer
      dependencyProbability requestSize ((k, x) :: xs) client gen rng = none := by
  simp only [
    ServiceConfigurationRandomGenerator.AddClientExecutionStepsWithUniformDependenceProbability.outer,
    h, Option.bind_eq_bind, Option.some_bind, Bool.not_false, if_true]
  cases hm : mapFind gen.m_serviceMethods (RandomVariable.GetInteger { tag := 0 } rng2).1 with
  | none => rfl
  | some antecedent =>
    cases client2 with
    | none => rfl
    | some c =>
      simp only [Option.some_bind]
      cases hsv : cfg2.service antecedent.m_service with
      | none => rfl
      | some service =>
        simp only [Option.some_bind, AddClientExecutionStep_zero_probability, Option.none_bind]

/-- C6 (failing inputs): with the uniform strategy, a client for which both dependency draws
(0.7 against the probability 0.5) select nothing makes the generation fail, whether the
synthetic-dependency draw is 0 (no such method id) or 1 (an existing method): no
configuration is produced. With the fixed-subset strategy and a selection that holds no
service with a method (here the single id 0), the client is left without any step, no
synthetic step is added, and `CheckClients` rejects the result. -/
theorem C6_failing_inputs :
    exampleUniformClients [700000, 700000] [1, 100, 0] = none ∧
    exampleUniformClients [700000, 700000] [1, 100, 1] = none ∧
    ((exampleFrontEndClients [0]).map (fun r =>
        (r.1.m_serviceConfiguration.m_clients.map (fun kc =>
          (kc.1, kc.2.m_executionPlan.m_executionSteps.length)),
         r.1.m_serviceConfiguration.CheckClients)))
      = some ([(100, 0)], some false) := by
  refine ⟨?_, ?_, ?_⟩
  · exact Option.eq_none_iff_forall_not_mem.mpr (by decide)
  · exact Option.eq_none_iff_forall_not_mem.mpr (by decide)
  · decide

/-! ### The client endpoint: messages that are not related to the request -/

theorem ReceiveMessage_loop_unrelated (env : Env) (w : World) (p : Packet) (rest : List Packet)
    (h : ¬ w.ep.IsRelated p.header) :
    UdpClientMessageEndpoint.ReceiveMessage.loop env (p :: rest) false w
      = UdpClientMessageEndpoint.ReceiveMessage.loop env rest false w := by
  unfold UdpClientMessageEndpoint.IsRelated at h
  rw [UdpClientMessageEndpoint.ReceiveMessage.loop]
  by_cases hs : p.size > 0
  · simp only [hs, if_true, Bool.false_eq_true, if_false]
    have hc : w.ep.m_requestMessage.isNone = true ∨
        some p.header.m_relatedToMessageId ≠
          w.ep.m_requestMessage.map (fun r => r.m_messageId) := by
      right
      intro heq
      exact h heq.symm
    rw [if_pos hc]
  · simp only [hs, if_false]

theorem requestAttempts_append (a b : List (Time × Output)) :
    World.requestAttempts (a ++ b) = World.requestAttempts a ++ World.requestAttempts b := by
  induction a with
  | nil => rfl
  | cons x rest ih =>
    obtain ⟨t, o⟩ := x
    cases o with
    | SendTo msg dest r s =>
      simp only [List.cons_append, World.requestAttempts]
      split_ifs
      · simp [ih]
      · exact ih
    | RecordReceiveMessage _ _ _ => simpa [World.requestAttempts] using ih
    | RecordError _ _ _ => simpa [World.requestAttempts] using ih
    | OnSendSuccess => simpa [World.requestAttempts] using ih
    | OnSendFailure => simpa [World.requestAttempts] using ih
    | OnReceiveResponse _ => simpa [World.requestAttempts] using ih
    | OnResponseTimeout => simpa [World.requestAttempts] using ih

theorem outcomes_append (a b : List (Time × Output)) :
    World.outcomes (a ++ b) = World.outcomes a ++ World.outcomes b := by
  induction a with
  | nil => rfl
  | cons x rest ih =>
    obtain ⟨t, o⟩ := x
    cases o <;> simp [World.outcomes, ih]

theorem World.Quiet.refl (w : World) : World.Quiet w w :=
  ⟨rfl, rfl, rfl, rfl, rfl, ⟨[], by simp, rfl⟩, List.Sublist.refl _⟩

theorem World.Quiet.trans {w1 w2 w3 : World} (h12 : World.Quiet w1 w2) (h23 : World.Quiet w2 w3) :
    World.Quiet w1 w3 := by
  obtain ⟨e1, ht1, ha1⟩ := h12.trace
  obtain ⟨e2, ht2, ha2⟩ := h23.trace
  refine ⟨h23.request.trans h12.request, h23.counter.trans h12.counter,
    h23.serviceBase.trans h12.serviceBase, h23.socketOpen.trans h12.socketOpen,
    h23.counters.trans h12.counters, ⟨e1 ++ e2, ?_, ?_⟩, h23.timers.trans h12.timers⟩
  · rw [ht2, ht1, List.append_assoc]
  · rw [requestAttempts_append, ha1, ha2]; rfl

theorem World.CallInv.of_quiet {base : List (Time × Output)} {req : Message} {w w2 : World}
    (h : World.CallInv base req w) (hq : World.Quiet w w2) : World.CallInv base req w2 := by
  obtain ⟨new, hn1, hn2, hn3⟩ := h.trace
  obtain ⟨ext, he1, he2⟩ := hq.trace
  refine ⟨hq.request.trans h.request, by rw [hq.serviceBase]; exact h.limit,
    by rw [hq.serviceBase, hq.counter]; exact h.counter, ⟨new ++ ext, ?_, ?_, ?_⟩, ?_, ?_⟩
  · rw [he1, hn1, List.append_assoc]
  · rw [requestAttempts_append, he2, List.append_nil, hq.counter]; exact hn2
  · rw [requestAttempts_append, he2, List.append_nil]; exact hn3
  · exact Nat.le_trans hq.timers.length_le h.timers
  · intro e he hk
    rw [hq.serviceBase, hq.counter]
    have hmem : e ∈ w2.sim.events.filter ScheduledEvent.isRetryTimer := by
      rw [List.mem_filter]
      exact ⟨he, by simp [ScheduledEvent.isRetryTimer, hk]⟩
    have hmem1 := hq.timers.subset hmem
    exact h.socket e (List.mem_filter.mp hmem1).1 hk

theorem counter_spec {w w2 : World} {messageType : Nat}
    {f : MessageTypeCounter → MessageTypeCounter} (h : w.counter messageType f = some w2) :
    w2.sim = w.sim ∧ w2.ep = w.ep ∧ w2.trace = w.trace ∧ w2.nSendTo = w.nSendTo ∧
      w2.s_messageCounter = w.s_messageCounter ∧
      w2.s_msgCounters.length = w.s_msgCounters.length := by
  unfold World.counter at h
  simp only at h
  split at h
  · simp only [Option.some.injEq] at h
    subst h
    simp
  · cases h

theorem counter_ok (w : World) (messageType : Nat) (f : MessageTypeCounter → MessageTypeCounter)
    (ht : 1 ≤ messageType ∧ messageType ≤ 4) (hl : w.s_msgCounters.length = 4) :
    ∃ w2, w.counter messageType f = some w2 := by
  unfold World.counter
  have hidx : (messageType + (U32 - 1)) % U32 = messageType - 1 := by
    unfold U32
    omega
  simp only [hidx]
  have hlt : messageType - 1 < w.s_msgCounters.length := by omega
  rw [List.getElem?_eq_getElem hlt]
  exact ⟨_, rfl⟩

theorem World.Logs.of_counter {w w2 : World} {messageType : Nat}
    {f : MessageTypeCounter → MessageTypeCounter} (h : w.counter messageType f = some w2) :
    World.Logs w w2 [] := by
  obtain ⟨h1, h2, h3, h4, h5, h6⟩ := counter_spec h
  exact ⟨h1, h2, by simp [h3], h4, h5, h6⟩

theorem World.Logs.emit (w : World) (o : Output) : World.Logs w (w.emit o) [(w.sim.now, o)] :=
  ⟨rfl, rfl, rfl, rfl, rfl, rfl⟩

theorem World.Logs.logs_trans {w1 w2 w3 : World} {e1 e2 : List (Time × Output)}
    (h12 : World.Logs w1 w2 e1) (h23 : World.Logs w2 w3 e2) : World.Logs w1 w3 (e1 ++ e2) :=
  ⟨h23.sim.trans h12.sim, h23.ep.trans h12.ep,
    by rw [h23.trace, h12.trace, List.append_assoc], h23.nSendTo.trans h12.nSendTo,
    h23.s_messageCounter.trans h12.s_messageCounter, h23.counters.trans h12.counters⟩

theorem World.Logs.quiet {w w2 : World} {ext : List (Time × Output)} (h : World.Logs w w2 ext)
    (ha : World.requestAttempts ext = []) : World.Quiet w w2 :=
  ⟨by rw [h.ep], by rw [h.ep], by rw [h.ep], by rw [h.ep], h.counters, ⟨ext, h.trace, ha⟩,
    by rw [h.sim]⟩

theorem World.Logs.of_eq {w w2 : World} {ext ext2 : List (Time × Output)} (h : World.Logs w w2 ext)
    (he : ext = ext2) : World.Logs w w2 ext2 := he ▸ h

theorem RecordSendMessage_logs {w w2 : World} {msg : Message} {dest : Address}
    {retransmission : Nat} {success : Bool}
    (h : MessageEndpoint.RecordSendMessage w msg dest retransmission success = some w2) :
    World.Logs w w2 ((w.sim.now, Output.SendTo msg dest retransmission success) ::
      (if success then [] else [(w.sim.now, Output.RecordError w.ep.m_serviceBase.m_serviceId
        ErrorType.ERROR_TYPE_SOCKET_FAILURE msg.m_messageId)])) := by
  unfold MessageEndpoint.RecordSendMessage at h
  cases success <;> by_cases hr : retransmission = 0 ∨ retransmission = 1 <;>
    simp only [hr, if_true, if_false, Bool.false_eq_true, Bool.not_false, Bool.not_true,
      Option.bind_eq_bind, Option.some_bind, Option.bind_eq_some, pure, Option.some.injEq,
      exists_eq_left'] at h
  · obtain ⟨w1, h1, w3, h3, h5⟩ := h
    have l := (World.Logs.of_counter h1).logs_trans (World.Logs.of_counter h3)
    subst h5
    refine ⟨l.sim, l.ep, ?_, l.nSendTo, l.s_messageCounter, l.counters⟩
    simp [World.emit, l.trace, l.sim, l.ep]
  · obtain ⟨w1, h1, h5⟩ := h
    have l := World.Logs.of_counter h1
    subst h5
    refine ⟨l.sim, l.ep, ?_, l.nSendTo, l.s_messageCounter, l.counters⟩
    simp [World.emit, l.trace, l.sim, l.ep]
  · obtain ⟨w1, h1, w3, h3, w4, h4, h5⟩ := h
    have l := ((World.Logs.of_counter h1).logs_trans (World.Logs.of_counter h3)).logs_trans (World.Logs.of_counter h4)
    subst h5
    refine ⟨l.sim, l.ep, ?_, l.nSendTo, l.s_messageCounter, l.counters⟩
    simp [World.emit, l.trace, l.sim]
  · obtain ⟨w1, h1, w3, h3, h5⟩ := h
    have l := (World.Logs.of_counter h1).logs_trans (World.Logs.of_counter h3)
    subst h5
    refine ⟨l.sim, l.ep, ?_, l.nSendTo, l.s_messageCounter, l.counters⟩
    simp [World.emit, l.trace, l.sim]

theorem RecordReceiveMessage_logs {w w2 : World} {msg : Message} {sender : Address}
    {droped : Bool} (h : MessageEndpoint.RecordReceiveMessage w msg sender droped = some w2) :
    World.Logs w w2 [(w.sim.now, Output.RecordReceiveMessage msg sender droped)] := by
  unfold MessageEndpoint.RecordReceiveMessage at h
  cases droped <;>
    simp only [if_true, if_false, Bool.false_eq_true, Bool.not_false, Bool.not_true,
      Option.bind_eq_bind, Option.some_bind, Option.bind_eq_some, pure, Option.some.injEq,
      exists_eq_left'] at h
  · obtain ⟨w1, h1, w3, h3, h5⟩ := h
    have l := (World.Logs.of_counter h1).logs_trans (World.Logs.of_counter h3)
    subst h5
    refine ⟨l.sim, l.ep, ?_, l.nSendTo, l.s_messageCounter, l.counters⟩
    simp [World.emit, l.trace, l.sim]
  · obtain ⟨w1, h1, h5⟩ := h
    have l := World.Logs.of_counter h1
    subst h5
    refine ⟨l.sim, l.ep, ?_, l.nSendTo, l.s_messageCounter, l.counters⟩
    simp [World.emit, l.trace, l.sim]

theorem RecordSendFailure_logs {w w2 : World} {msg : Option Message}
    (h : MessageEndpoint.RecordSendFailure w msg = some w2) :
    ∃ m, msg = some m ∧ World.Logs w w2 [(w.sim.now, Output.RecordError
      w.ep.m_serviceBase.m_serviceId ErrorType.ERROR_TYPE_SEND_FAILURE m.m_messageId)] := by
  unfold MessageEndpoint.RecordSendFailure at h
  simp only [Option.bind_eq_bind, Option.bind_eq_some] at h
  obtain ⟨m, hm, w1, h1, h5⟩ := h
  have l1 := World.Logs.of_counter h1
  simp only [pure, Option.some.injEq] at h5
  subst h5
  refine ⟨m, hm, l1.sim, l1.ep, ?_, l1.nSendTo, l1.s_messageCounter, l1.counters⟩
  simp [World.emit, l1.trace, l1.sim, l1.ep]

theorem RecordACKTimeout_logs {w w2 : World} {msg : Option Message}
    (h : MessageEndpoint.RecordACKTimeout w msg = some w2) :
    ∃ m, msg = some m ∧ World.Logs w w2 [(w.sim.now, Output.RecordError
      w.ep.m_serviceBase.m_serviceId ErrorType.ERROR_TYPE_ACK_TIMEOUT m.m_messageId)] := by
  unfold MessageEndpoint.RecordACKTimeout at h
  simp only [Option.bind_eq_bind, Option.bind_eq_some] at h
  obtain ⟨m, hm, w1, h1, h5⟩ := h
  have l1 := World.Logs.of_counter h1
  simp only [pure, Option.some.injEq] at h5
  subst h5
  refine ⟨m, hm, l1.sim, l1.ep, ?_, l1.nSendTo, l1.s_messageCounter, l1.counters⟩
  simp [World.emit, l1.trace, l1.sim, l1.ep]

theorem RecordResponseTimeout_logs {w w2 : World} {msg : Option Message}
    (h : MessageEndpoint.RecordResponseTimeout w msg = some w2) :
    ∃ m, msg = some m ∧ World.Logs w w2 [(w.sim.now, Output.RecordError
      w.ep.m_serviceBase.m_serviceId ErrorType.ERROR_TYPE_RESPONSE_TIMEOUT m.m_messageId)] := by
  unfold MessageEndpoint.RecordResponseTimeout at h
  simp only [Option.bind_eq_bind, Option.bind_eq_some] at h
  obtain ⟨m, hm, w1, h1, h5⟩ := h
  have l1 := World.Logs.of_counter h1
  simp only [pure, Option.some.injEq] at h5
  subst h5
  refine ⟨m, hm, l1.sim, l1.ep, ?_, l1.nSendTo, l1.s_messageCounter, l1.counters⟩
  simp [World.emit, l1.trace, l1.sim, l1.ep]

/-! ### The client endpoint: what the handlers keep -/

theorem World.Quiet.of_cancel (w : World) (id : EventId) :
    World.Quiet w { w with sim := w.sim.Cancel id } := by
  refine ⟨rfl, rfl, rfl, rfl, rfl, ⟨[], by simp, rfl⟩, ?_⟩
  cases id with
  | none => exact List.Sublist.refl _
  | some uid => exact List.Sublist.filter _ (List.filter_sublist _)

theorem schedule_spec {w w2 : World} {delay : Time} {kind : EventKind} {id : EventId}
    (h : w.schedule delay kind = some (w2, id)) :
    0 ≤ delay ∧ id = some w.sim.nextUid ∧
      w2 = { w with sim := { w.sim with
        nextUid := w.sim.nextUid + 1
        events := w.sim.events ++ [{ ts := w.sim.now + delay, uid := w.sim.nextUid,
                                     kind := kind }] } } := by
  unfold World.schedule Simulator.Schedule at h
  by_cases hd : delay < 0
  · simp [hd] at h
  · simp only [hd, if_false, Option.bind_eq_bind, Option.some_bind, pure, Option.some.injEq,
      Prod.mk.injEq] at h
    exact ⟨not_lt.mp hd, h.2.symm, h.1.symm⟩

theorem schedule_ok (w : World) {delay : Time} (kind : EventKind) (hd : 0 ≤ delay) :
    w.schedule delay kind = some ({ w with sim := { w.sim with
        nextUid := w.sim.nextUid + 1
        events := w.sim.events ++ [{ ts := w.sim.now + delay, uid := w.sim.nextUid,
                                     kind := kind }] } }, some w.sim.nextUid) := by
  unfold World.schedule Simulator.Schedule
  simp [not_lt.mpr hd]

theorem World.Quiet.of_schedule {w w2 : World} {delay : Time} {kind : EventKind} {id : EventId}
    (h : w.schedule delay kind = some (w2, id))
    (hk : kind ≠ EventKind.Socket_TimeoutExpired ∧ kind ≠ EventKind.ACK_TimeoutExpired) :
    World.Quiet w w2 := by
  obtain ⟨_, _, rfl⟩ := schedule_spec h
  refine ⟨rfl, rfl, rfl, rfl, rfl, ⟨[], by simp, rfl⟩, ?_⟩
  simp [List.filter_append, ScheduledEvent.isRetryTimer, hk.1, hk.2]

theorem Socket_CancelTimeout_quiet (w : World) :
    World.Quiet w (UdpClientMessageEndpoint.Socket_CancelTimeout w) :=
  World.Quiet.of_cancel w _

theorem ACK_CancelTimeout_quiet (w : World) :
    World.Quiet w (UdpClientMessageEndpoint.ACK_CancelTimeout w) :=
  World.Quiet.of_cancel w _

theorem Response_CancelTimeout_quiet (w : World) :
    World.Quiet w (UdpClientMessageEndpoint.Response_CancelTimeout w) :=
  World.Quiet.of_cancel w _

theorem cancel_all_quiet (w : World) :
    World.Quiet w (UdpClientMessageEndpoint.Response_CancelTimeout
      (UdpClientMessageEndpoint.ACK_CancelTimeout
        (UdpClientMessageEndpoint.Socket_CancelTimeout w))) :=
  ((Socket_CancelTimeout_quiet w).trans (ACK_CancelTimeout_quiet _)).trans
    (Response_CancelTimeout_quiet _)

theorem cancel_all_fields (w : World) :
    (UdpClientMessageEndpoint.Response_CancelTimeout
      (UdpClientMessageEndpoint.ACK_CancelTimeout
        (UdpClientMessageEndpoint.Socket_CancelTimeout w))).ep = w.ep ∧
    (UdpClientMessageEndpoint.Response_CancelTimeout
      (UdpClientMessageEndpoint.ACK_CancelTimeout
        (UdpClientMessageEndpoint.Socket_CancelTimeout w))).trace = w.trace ∧
    (UdpClientMessageEndpoint.Response_CancelTimeout
      (UdpClientMessageEndpoint.ACK_CancelTimeout
        (UdpClientMessageEndpoint.Socket_CancelTimeout w))).sim.now = w.sim.now := by
  refine ⟨rfl, rfl, ?_⟩
  unfold UdpClientMessageEndpoint.Response_CancelTimeout
    UdpClientMessageEndpoint.ACK_CancelTimeout UdpClientMessageEndpoint.Socket_CancelTimeout
    Simulator.Cancel
  cases w.ep.m_socketTimeoutEvent <;> cases w.ep.m_ACKTimeoutEvent <;>
    cases w.ep.m_responseTimeoutEvent <;> rfl

/-- The transition `Transition_RetransmissionLimitReached`, when it returns: no attempt is
made, and the error record and the callback `OnSendFailure` are added to the trace. -/
theorem Transition_RetransmissionLimitReached_spec {w w2 : World}
    (h : UdpClientMessageEndpoint.Transition_RetransmissionLimitReached w = some w2) :
    World.Quiet w w2 ∧ ∃ m, w.ep.m_requestMessage = some m ∧
      w2.trace = w.trace ++ [(w.sim.now, Output.RecordError w.ep.m_serviceBase.m_serviceId
        ErrorType.ERROR_TYPE_SEND_FAILURE m.m_messageId), (w.sim.now, Output.OnSendFailure)] := by
  unfold UdpClientMessageEndpoint.Transition_RetransmissionLimitReached at h
  simp only [Option.bind_eq_bind, Option.bind_eq_some, pure, Option.some.injEq] at h
  obtain ⟨w1, h1, h2⟩ := h
  obtain ⟨m, hm, l⟩ := RecordSendFailure_logs h1
  obtain ⟨hep, htr, hnow⟩ := cancel_all_fields w
  have hq := (cancel_all_quiet w).trans (l.quiet rfl)
  subst h2
  have htrace : (w1.emit Output.OnSendFailure).trace = w.trace ++
      [(w.sim.now, Output.RecordError w.ep.m_serviceBase.m_serviceId
        ErrorType.ERROR_TYPE_SEND_FAILURE m.m_messageId), (w.sim.now, Output.OnSendFailure)] := by
    simp only [World.emit, l.trace, l.sim, htr, hep, hnow, List.append_assoc,
      List.singleton_append]
  refine ⟨⟨hq.request, hq.counter, hq.serviceBase, hq.socketOpen, hq.counters,
    ⟨_, htrace, rfl⟩, hq.timers⟩, m, ?_, htrace⟩
  rw [← hep]; exact hm

theorem World.Logs.eq {w w2 : World} {ext : List (Time × Output)} (h : World.Logs w w2 ext) :
    ∃ cs, cs.length = w.s_msgCounters.length ∧
      w2 = { w with trace := w.trace ++ ext, s_msgCounters := cs } := by
  refine ⟨w2.s_msgCounters, h.counters, ?_⟩
  obtain ⟨sim, ep, mc, cs, n, tr⟩ := w2
  obtain ⟨h1, h2, h3, h4, h5, _⟩ := h
  simp only at h1 h2 h3 h4 h5
  subst h1 h2 h3 h4 h5
  rfl

/-- The method `Task_SendMessage (msg, to, retransmissionCounter)`, when it returns: the
message was not null, the socket is open, the result is that of the transport, and the send
is recorded. -/
theorem Task_SendMessage_msg_spec {env : Env} {w w1 : World} {msg : Option Message}
    {dest : Address} {r : Nat} {s : Bool}
    (h : UdpClientMessageEndpoint.Task_SendMessage_msg env w msg dest r = some (s, w1)) :
    ∃ m, msg = some m ∧ w.ep.m_socketOpen = true ∧
      s = decide ((env.transport w.nSendTo % (U32 : Int)).toNat > 0) ∧
      World.Logs { w with nSendTo := w.nSendTo + 1 } w1
        ((w.sim.now, Output.SendTo m dest r s) ::
          (if s then [] else [(w.sim.now, Output.RecordError w.ep.m_serviceBase.m_serviceId
            ErrorType.ERROR_TYPE_SOCKET_FAILURE m.m_messageId)])) := by
  unfold UdpClientMessageEndpoint.Task_SendMessage_msg at h
  cases msg with
  | none => simp at h
  | some m =>
    by_cases ho : w.ep.m_socketOpen = true
    · simp only [ho, Bool.not_true, Bool.false_eq_true, if_false, Option.bind_eq_bind,
        Option.some_bind, Option.bind_eq_some, pure, Option.some.injEq, Prod.mk.injEq] at h
      obtain ⟨w2, h2, hs, rfl⟩ := h
      refine ⟨m, rfl, ho, hs.symm, ?_⟩
      have l := RecordSendMessage_logs h2
      rw [hs] at l
      exact l
    · simp [ho] at h

theorem Task_SendMessage_msg_ok (env : Env) (w : World) (m : Message) (dest : Address) (r : Nat)
    (ho : w.ep.m_socketOpen = true) (ht : 1 ≤ m.m_messageType ∧ m.m_messageType ≤ 4)
    (hl : w.s_msgCounters.length = 4) :
    ∃ w1, UdpClientMessageEndpoint.Task_SendMessage_msg env w (some m) dest r =
      some (decide ((env.transport w.nSendTo % (U32 : Int)).toNat > 0), w1) := by
  unfold UdpClientMessageEndpoint.Task_SendMessage_msg MessageEndpoint.RecordSendMessage
  simp only [ho, Bool.not_true, Bool.false_eq_true, if_false, Option.bind_eq_bind,
    Option.some_bind, pure]
  generalize decide ((env.transport w.nSendTo % (U32 : Int)).toNat > 0) = s
  obtain ⟨w2, h2⟩ := counter_ok { w with nSendTo := w.nSendTo + 1 } m.m_messageType
    (fun c => { c with msgSendAttemptCounter := (c.msgSendAttemptCounter + 1) % U32 }) ht hl
  have hl2 : w2.s_msgCounters.length = 4 := (counter_spec h2).2.2.2.2.2.trans hl
  obtain ⟨w3, h3⟩ := counter_ok w2 m.m_messageType
    (fun c => { c with msgSendSuccessCounter := (c.msgSendSuccessCounter + 1) % U32 }) ht hl2
  have hl3 : w3.s_msgCounters.length = 4 := (counter_spec h3).2.2.2.2.2.trans hl2
  obtain ⟨w4, h4⟩ := counter_ok w3 m.m_messageType
    (fun c => { c with msgSendUniqueCounter := (c.msgSendUniqueCounter + 1) % U32 }) ht hl3
  obtain ⟨w5, h5⟩ := counter_ok w2 m.m_messageType
    (fun c => { c with msgSendUniqueCounter := (c.msgSendUniqueCounter + 1) % U32 }) ht hl2
  rw [h2]
  cases s <;> by_cases hr : r = 0 ∨ r = 1 <;>
    simp [hr, h2, h3, h4, h5]

/-! ### The client endpoint: the invariant of one call -/

theorem World.Kept.kept_refl (w : World) : World.Kept w w := ⟨rfl, rfl, rfl, rfl⟩

theorem World.Kept.kept_trans {w1 w2 w3 : World} (h12 : World.Kept w1 w2) (h23 : World.Kept w2 w3) :
    World.Kept w1 w3 :=
  ⟨h23.serviceBase.trans h12.serviceBase, h23.socketOpen.trans h12.socketOpen,
    h23.counters.trans h12.counters, h23.request.trans h12.request⟩

theorem World.Quiet.kept {w w2 : World} (h : World.Quiet w w2) : World.Kept w w2 :=
  ⟨h.serviceBase, h.socketOpen, h.counters, h.request⟩

theorem ACK_StartTimeout_CallInv {base : List (Time × Output)} {req : Message} {w w2 : World}
    (hinv : World.CallInv base req w)
    (hno : w.sim.events.filter ScheduledEvent.isRetryTimer = [])
    (h : UdpClientMessageEndpoint.ACK_StartTimeout w = some w2) :
    World.CallInv base req w2 ∧ w2.trace = w.trace ∧
      w2.ep.m_retransmissionCounter = w.ep.m_retransmissionCounter ∧ World.Kept w w2 := by
  unfold UdpClientMessageEndpoint.ACK_StartTimeout at h
  simp only [Option.bind_eq_bind, Option.bind_eq_some, pure, Option.some.injEq, Prod.exists] at h
  obtain ⟨w1, id, h1, rfl⟩ := h
  obtain ⟨_, _, rfl⟩ := schedule_spec h1
  refine ⟨⟨hinv.request, hinv.limit, hinv.counter, hinv.trace, ?_, ?_⟩, rfl, rfl,
    ⟨rfl, rfl, rfl, rfl⟩⟩
  · simp [List.filter_append, hno, ScheduledEvent.isRetryTimer]
  · intro e he hk
    simp only [List.mem_append, List.mem_singleton] at he
    rcases he with he | he
    · exact hinv.socket e he hk
    · subst he
      cases hk

theorem Socket_StartTimeout_CallInv {base : List (Time × Output)} {req : Message} {w w2 : World}
    (hinv : World.CallInv base req w)
    (hno : w.sim.events.filter ScheduledEvent.isRetryTimer = [])
    (hc : w.ep.m_retransmissionCounter < w.ep.m_serviceBase.m_retransmissionLimit)
    (h : UdpClientMessageEndpoint.Socket_StartTimeout w = some w2) :
    World.CallInv base req w2 ∧ w2.trace = w.trace ∧
      w2.ep.m_retransmissionCounter = w.ep.m_retransmissionCounter ∧ World.Kept w w2 := by
  unfold UdpClientMessageEndpoint.Socket_StartTimeout at h
  simp only [Option.bind_eq_bind, Option.bind_eq_some, pure, Option.some.injEq, Prod.exists] at h
  obtain ⟨w1, id, h1, rfl⟩ := h
  obtain ⟨_, _, rfl⟩ := schedule_spec h1
  refine ⟨⟨hinv.request, hinv.limit, hinv.counter, hinv.trace, ?_, ?_⟩, rfl, rfl,
    ⟨rfl, rfl, rfl, rfl⟩⟩
  · simp [List.filter_append, hno, ScheduledEvent.isRetryTimer]
  · intro e _ _
    exact hc

theorem requestAttempts_send (t : Time) (m : Message) (dest : Address) (r : Nat) (s : Bool)
    (sid : Nat) (hr : r ≠ 0) :
    World.requestAttempts ((t, Output.SendTo m dest r s) ::
      (if s then [] else [(t, Output.RecordError sid ErrorType.ERROR_TYPE_SOCKET_FAILURE
        m.m_messageId)])) = [(t, m)] := by
  cases s <;> simp [World.requestAttempts, hr]

/-- The state `State_SendingRequest`, entered with no retry timer pending and the counter
below the limit: when it returns, the request has been transmitted once more, the counter
has grown by one, and the invariant of the call holds again. -/
theorem State_SendingRequest_CallInv {env : Env} {base : List (Time × Output)} {req : Message}
    {w w2 : World} (hinv : World.CallInv base req w)
    (hno : w.sim.events.filter ScheduledEvent.isRetryTimer = [])
    (hc : w.ep.m_retransmissionCounter < w.ep.m_serviceBase.m_retransmissionLimit)
    (h : UdpClientMessageEndpoint.State_SendingRequest env w = some w2) :
    World.CallInv base req w2 ∧
      w2.ep.m_retransmissionCounter = w.ep.m_retransmissionCounter + 1 ∧
      World.Kept w w2 ∧
      ∃ ext, w2.trace = w.trace ++ ext ∧
        World.requestAttempts ext = [(w.sim.now, req)] := by
  have hL := hinv.limit
  have hmod : (w.ep.m_retransmissionCounter + 1) % U32 = w.ep.m_retransmissionCounter + 1 :=
    Nat.mod_eq_of_lt (by omega)
  unfold UdpClientMessageEndpoint.State_SendingRequest
    UdpClientMessageEndpoint.Task_SendMessage at h
  simp only [Option.bind_eq_bind, Option.bind_eq_some, Prod.exists] at h
  obtain ⟨s, w1, h1, h2⟩ := h
  obtain ⟨m, hm, _, _, l⟩ := Task_SendMessage_msg_spec h1
  have hm2 : w.ep.m_requestMessage = some m := hm
  rw [hinv.request, Option.some.injEq] at hm2
  subst hm2
  have hep1 : w1.ep = { w.ep with
      m_retransmissionCounter := (w.ep.m_retransmissionCounter + 1) % U32 } := l.ep
  have hsim1 : w1.sim = w.sim := l.sim
  have hatt := requestAttempts_send w.sim.now req w.ep.m_requestAddress
    ((w.ep.m_retransmissionCounter + 1) % U32) s w.ep.m_serviceBase.m_serviceId
    (by rw [hmod]; omega)
  have htr1 : w1.trace = w.trace ++ ((w.sim.now, Output.SendTo req w.ep.m_requestAddress
      ((w.ep.m_retransmissionCounter + 1) % U32) s) ::
        (if s then [] else [(w.sim.now, Output.RecordError w.ep.m_serviceBase.m_serviceId
          ErrorType.ERROR_TYPE_SOCKET_FAILURE req.m_messageId)])) := l.trace
  have hcnt1 : w1.ep.m_retransmissionCounter = w.ep.m_retransmissionCounter + 1 := by
    rw [hep1]; exact hmod
  have hsb1 : w1.ep.m_serviceBase = w.ep.m_serviceBase := by rw [hep1]
  have hso1 : w1.ep.m_socketOpen = w.ep.m_socketOpen := by rw [hep1]
  have hcs1 : w1.s_msgCounters.length = w.s_msgCounters.length := l.counters
  have hk1 : World.Kept w w1 := ⟨hsb1, hso1, hcs1, by rw [hep1]⟩
  have hno1 : w1.sim.events.filter ScheduledEvent.isRetryTimer = [] := by rw [hsim1]; exact hno
  obtain ⟨new, hn1, hn2, hn3⟩ := hinv.trace
  have hinv1 : World.CallInv base req w1 := by
    refine ⟨by rw [hep1]; exact hinv.request, by rw [hsb1]; exact hinv.limit,
      by rw [hsb1, hcnt1]; exact hc, ⟨new ++ ((w.sim.now, Output.SendTo req w.ep.m_requestAddress
      ((w.ep.m_retransmissionCounter + 1) % U32) s) ::
        (if s then [] else [(w.sim.now, Output.RecordError w.ep.m_serviceBase.m_serviceId
          ErrorType.ERROR_TYPE_SOCKET_FAILURE req.m_messageId)])), ?_, ?_, ?_⟩, ?_, ?_⟩
    · rw [htr1, hn1, List.append_assoc]
    · rw [requestAttempts_append, hatt, List.length_append, hn2, hcnt1, List.length_singleton]
    · intro a ha
      rw [requestAttempts_append, hatt, List.mem_append, List.mem_singleton] at ha
      rcases ha with ha | ha
      · exact hn3 a ha
      · rw [ha]
    · rw [hno1]; exact Nat.zero_le _
    · intro e he hk
      have : e ∈ w1.sim.events.filter ScheduledEvent.isRetryTimer :=
        List.mem_filter.mpr ⟨he, by simp [ScheduledEvent.isRetryTimer, hk]⟩
      rw [hno1] at this
      cases this
  cases s with
  | true =>
    simp only [if_true] at h2
    obtain ⟨hi, ht, hcnt, hk⟩ := ACK_StartTimeout_CallInv hinv1 hno1 h2
    exact ⟨hi, hcnt.trans hcnt1, hk1.kept_trans hk, _, ht.trans htr1, hatt⟩
  | false =>
    simp only [Bool.false_eq_true, if_false] at h2
    unfold UdpClientMessageEndpoint.Transition_SocketSendFailed
      UdpClientMessageEndpoint.State_SocketResending at h2
    split at h2
    · obtain ⟨hq, m, _, htr⟩ := Transition_RetransmissionLimitReached_spec h2
      generalize ((w.sim.now, Output.SendTo req w.ep.m_requestAddress
        ((w.ep.m_retransmissionCounter + 1) % U32) false) ::
          (if false = true then [] else [(w.sim.now, Output.RecordError
            w.ep.m_serviceBase.m_serviceId ErrorType.ERROR_TYPE_SOCKET_FAILURE
            req.m_messageId)])) = ext1 at hatt htr1
      refine ⟨hinv1.of_quiet hq, hq.counter.trans hcnt1, hk1.kept_trans hq.kept,
        ext1 ++ [(w1.sim.now, Output.RecordError w1.ep.m_serviceBase.m_serviceId
          ErrorType.ERROR_TYPE_SEND_FAILURE m.m_messageId), (w1.sim.now, Output.OnSendFailure)],
        ?_, ?_⟩
      · rw [htr, htr1, List.append_assoc]
      · rw [requestAttempts_append, hatt]
        rfl
    · rename_i hlt
      obtain ⟨hi, ht, hcnt, hk⟩ :=
        Socket_StartTimeout_CallInv hinv1 hno1 (not_le.mp hlt) h2
      exact ⟨hi, hcnt.trans hcnt1, hk1.kept_trans hk, _, ht.trans htr1, hatt⟩

theorem World.Quiet.of_ep (w : World) (ep : UdpClientMessageEndpoint)
    (h1 : ep.m_requestMessage = w.ep.m_requestMessage)
    (h2 : ep.m_retransmissionCounter = w.ep.m_retransmissionCounter)
    (h3 : ep.m_serviceBase = w.ep.m_serviceBase)
    (h4 : ep.m_socketOpen = w.ep.m_socketOpen) : World.Quiet w { w with ep := ep } :=
  ⟨h1, h2, h3, h4, rfl, ⟨[], by simp, rfl⟩, List.Sublist.refl _⟩

theorem World.Quiet.of_fields {w w2 : World} (hsim : w2.sim = w.sim)
    (htrace : w2.trace = w.trace)
    (h1 : w2.ep.m_requestMessage = w.ep.m_requestMessage)
    (h2 : w2.ep.m_retransmissionCounter = w.ep.m_retransmissionCounter)
    (h3 : w2.ep.m_serviceBase = w.ep.m_serviceBase)
    (h4 : w2.ep.m_socketOpen = w.ep.m_socketOpen)
    (h5 : w2.s_msgCounters.length = w.s_msgCounters.length) : World.Quiet w w2 :=
  ⟨h1, h2, h3, h4, h5, ⟨[], by simp [htrace], rfl⟩, by rw [hsim]⟩

theorem World.Quiet.of_emit (w : World) (o : Output)
    (ho : World.requestAttempts [(w.sim.now, o)] = []) : World.Quiet w (w.emit o) :=
  (World.Logs.emit w o).quiet ho

theorem Transition_ReceivedACK_quiet (w : World) :
    World.Quiet w (UdpClientMessageEndpoint.Transition_ReceivedACK w) := by
  unfold UdpClientMessageEndpoint.Transition_ReceivedACK
    UdpClientMessageEndpoint.State_WaitingForResponse
  split
  · exact World.Quiet.refl w
  · have hq := ((Socket_CancelTimeout_quiet w).trans (ACK_CancelTimeout_quiet _)).trans
      (World.Quiet.of_emit _ Output.OnSendSuccess rfl)
    simp only [ite_self]
    exact hq

theorem Task_SendACK_quiet {env : Env} {w w2 : World}
    (h : UdpClientMessageEndpoint.Task_SendACK env w = some w2) : World.Quiet w w2 := by
  unfold UdpClientMessageEndpoint.Task_SendACK at h
  simp only [Option.bind_eq_bind, Option.bind_eq_some, pure, Option.some.injEq,
    Prod.exists] at h
  obtain ⟨resp, _, s, w1, h1, rfl⟩ := h
  obtain ⟨m, _, _, _, l⟩ := Task_SendMessage_msg_spec h1
  have ha : World.requestAttempts ((w.sim.now, Output.SendTo m w.ep.m_responseAddress 0 s) ::
      (if s then [] else [(w.sim.now, Output.RecordError w.ep.m_serviceBase.m_serviceId
        ErrorType.ERROR_TYPE_SOCKET_FAILURE m.m_messageId)])) = [] := by
    cases s <;> simp [World.requestAttempts]
  exact ⟨by rw [l.ep], by rw [l.ep], by rw [l.ep], by rw [l.ep], l.counters, ⟨_, l.trace, ha⟩,
    by rw [l.sim]⟩

theorem State_HavingResponse_quiet {env : Env} {w w2 : World}
    (h : UdpClientMessageEndpoint.State_HavingResponse env w = some w2) : World.Quiet w w2 := by
  unfold UdpClientMessageEndpoint.State_HavingResponse at h
  simp only [Option.bind_eq_bind, Option.bind_eq_some, pure, Option.some.injEq] at h
  obtain ⟨w1, h1, resp, _, rfl⟩ := h
  exact ((cancel_all_quiet w).trans (Task_SendACK_quiet h1)).trans
    (World.Quiet.of_emit _ _ rfl)

theorem Transition_ReceivedResponse_quiet {env : Env} {w w2 : World}
    (h : UdpClientMessageEndpoint.Transition_ReceivedResponse env w = some w2) :
    World.Quiet w w2 :=
  (cancel_all_quiet w).trans (State_HavingResponse_quiet h)

theorem Task_ProcessReceivedMessage_quiet {env : Env} {w w2 : World} {msg : Message}
    {sender : Address}
    (h : UdpClientMessageEndpoint.Task_ProcessReceivedMessage env w msg sender = some w2) :
    World.Quiet w w2 := by
  unfold UdpClientMessageEndpoint.Task_ProcessReceivedMessage at h
  split at h
  · simp only [Option.some.injEq] at h
    subst h
    exact Transition_ReceivedACK_quiet w
  · exact World.Quiet.trans (by exact World.Quiet.of_fields rfl rfl rfl rfl rfl rfl rfl)
      (Transition_ReceivedResponse_quiet h)

theorem ReceiveMessage_drain_quiet (packets : List Packet) (w : World) :
    World.Quiet w (UdpClientMessageEndpoint.ReceiveMessage.drain packets w) := by
  induction packets generalizing w with
  | nil => exact World.Quiet.refl w
  | cons p rest ih =>
    unfold UdpClientMessageEndpoint.ReceiveMessage.drain
    split
    · exact World.Quiet.trans (by exact World.Quiet.of_fields rfl rfl rfl rfl rfl rfl rfl) (ih _)
    · exact ih w

theorem ReceiveMessage_loop_quiet (env : Env) (packets : List Packet) (aliased : Bool)
    (w w2 : World)
    (h : UdpClientMessageEndpoint.ReceiveMessage.loop env packets aliased w = some w2) :
    World.Quiet w w2 := by
  induction packets generalizing w aliased with
  | nil =>
    simp only [UdpClientMessageEndpoint.ReceiveMessage.loop, Option.some.injEq] at h
    subst h
    exact World.Quiet.refl w
  | cons p rest ih =>
    unfold UdpClientMessageEndpoint.ReceiveMessage.loop at h
    split at h
    · have hq0 : World.Quiet w
          (if aliased then { w with ep := { w.ep with m_responseMessage := some p.header } }
            else w) := by
        split
        · exact World.Quiet.of_ep w _ rfl rfl rfl rfl
        · exact World.Quiet.refl w
      simp only at h
      generalize (if aliased = true then
        { w with ep := { w.ep with m_responseMessage := some p.header } } else w) = wa at h hq0
      split at h
      · exact hq0.trans (ih _ _ h)
      · simp only [Option.bind_eq_bind, Option.bind_eq_some, pure] at h
        obtain ⟨w1, h1, h2⟩ := h
        have hq1 : World.Quiet wa w1 :=
          World.Quiet.trans (by exact World.Quiet.of_fields rfl rfl rfl rfl rfl rfl rfl)
            ((RecordReceiveMessage_logs h1).quiet rfl)
        split at h2
        · simp only [Option.bind_eq_some] at h2
          obtain ⟨w3, h3, h4⟩ := h2
          have hq3 := (hq0.trans hq1).trans (Task_ProcessReceivedMessage_quiet h3)
          split at h4
          · exact hq3.trans (ih _ _ h4)
          · split at h4
            · simp only [Option.some.injEq] at h4
              subst h4
              exact hq3.trans (ReceiveMessage_drain_quiet _ _)
            · exact hq3.trans (ih _ _ h4)
        · exact (hq0.trans hq1).trans (ih _ _ h2)
    · exact ih _ _ h

theorem Response_TimeoutExpired_quiet {w w2 : World}
    (h : UdpClientMessageEndpoint.Response_TimeoutExpired w = some w2) : World.Quiet w w2 := by
  unfold UdpClientMessageEndpoint.Response_TimeoutExpired at h
  simp only [Option.bind_eq_bind, Option.bind_eq_some, pure, Option.some.injEq] at h
  obtain ⟨w1, h1, rfl⟩ := h
  obtain ⟨m, _, l⟩ := RecordResponseTimeout_logs h1
  exact (((Response_CancelTimeout_quiet w).trans (l.quiet rfl)).trans (cancel_all_quiet w1)).trans
    (World.Quiet.of_emit _ _ rfl)

theorem RemoveOldRecords_quiet {env : Env} {w w2 : World}
    (h : EndpointMessageIdCache.RemoveOldRecords env w = some w2) : World.Quiet w w2 := by
  unfold EndpointMessageIdCache.RemoveOldRecords at h
  simp only [Option.bind_eq_bind, Option.bind_eq_some, pure, Option.some.injEq,
    Prod.exists] at h
  obtain ⟨w1, id, h1, rfl⟩ := h
  exact (World.Quiet.of_schedule h1 ⟨by simp, by simp⟩).trans
    (World.Quiet.of_fields rfl rfl rfl rfl rfl rfl rfl)

/-! ### The client endpoint: the handlers return -/

theorem RecordSendFailure_ok (w : World) (m : Message)
    (ht : 1 ≤ m.m_messageType ∧ m.m_messageType ≤ 4) (hl : w.s_msgCounters.length = 4) :
    ∃ w2, MessageEndpoint.RecordSendFailure w (some m) = some w2 := by
  unfold MessageEndpoint.RecordSendFailure
  obtain ⟨w1, h1⟩ := counter_ok w m.m_messageType
    (fun c => { c with msgSendFailureCounter := (c.msgSendFailureCounter + 1) % U32 }) ht hl
  simp [h1]

theorem RecordACKTimeout_ok (w : World) (m : Message)
    (ht : 1 ≤ m.m_messageType ∧ m.m_messageType ≤ 4) (hl : w.s_msgCounters.length = 4) :
    ∃ w2, MessageEndpoint.RecordACKTimeout w (some m) = some w2 := by
  unfold MessageEndpoint.RecordACKTimeout
  obtain ⟨w1, h1⟩ := counter_ok w m.m_messageType
    (fun c => { c with msgACKTimeoutCounter := (c.msgACKTimeoutCounter + 1) % U32 }) ht hl
  simp [h1]

theorem RecordResponseTimeout_ok (w : World) (m : Message)
    (ht : 1 ≤ m.m_messageType ∧ m.m_messageType ≤ 4) (hl : w.s_msgCounters.length = 4) :
    ∃ w2, MessageEndpoint.RecordResponseTimeout w (some m) = some w2 := by
  unfold MessageEndpoint.RecordResponseTimeout
  obtain ⟨w1, h1⟩ := counter_ok w m.m_messageType
    (fun c => { c with msgResponseTimeoutCounter := (c.msgResponseTimeoutCounter + 1) % U32 })
    ht hl
  simp [h1]

theorem RecordReceiveMessage_ok (w : World) (m : Message) (sender : Address) (droped : Bool)
    (ht : 1 ≤ m.m_messageType ∧ m.m_messageType ≤ 4) (hl : w.s_msgCounters.length = 4) :
    ∃ w2, MessageEndpoint.RecordReceiveMessage w m sender droped = some w2 := by
  unfold MessageEndpoint.RecordReceiveMessage
  obtain ⟨w1, h1⟩ := counter_ok w m.m_messageType
    (fun c => { c with msgReceiveCounter := (c.msgReceiveCounter + 1) % U32 }) ht hl
  have hl1 : w1.s_msgCounters.length = 4 := (counter_spec h1).2.2.2.2.2.trans hl
  obtain ⟨w2, h2⟩ := counter_ok w1 m.m_messageType
    (fun c => { c with msgReceiveUniqueCounter := (c.msgReceiveUniqueCounter + 1) % U32 })
    ht hl1
  cases droped <;> simp [h1, h2]

theorem Transition_RetransmissionLimitReached_ok (w : World) (m : Message)
    (hreq : w.ep.m_requestMessage = some m)
    (ht : 1 ≤ m.m_messageType ∧ m.m_messageType ≤ 4) (hl : w.s_msgCounters.length = 4) :
    ∃ w2, UdpClientMessageEndpoint.Transition_RetransmissionLimitReached w = some w2 := by
  unfold UdpClientMessageEndpoint.Transition_RetransmissionLimitReached
  have hep := (cancel_all_fields w).1
  have hcs := (cancel_all_quiet w).counters
  obtain ⟨w1, h1⟩ := RecordSendFailure_ok _ m ht (hcs.trans hl)
  simp only [hep, hreq, h1, Option.bind_eq_bind, Option.some_bind, pure]
  exact ⟨_, rfl⟩

theorem Task_SendMessage_ok (env : Env) (w : World) (m : Message)
    (hreq : w.ep.m_requestMessage = some m)
    (ht : 1 ≤ m.m_messageType ∧ m.m_messageType ≤ 4) (hl : w.s_msgCounters.length = 4)
    (ho : w.ep.m_socketOpen = true) :
    ∃ w1, UdpClientMessageEndpoint.Task_SendMessage env w =
        some (decide ((env.transport w.nSendTo % (U32 : Int)).toNat > 0), w1) ∧
      w1.ep = { w.ep with
        m_retransmissionCounter := (w.ep.m_retransmissionCounter + 1) % U32 } ∧
      w1.sim = w.sim ∧ w1.s_msgCounters.length = 4 := by
  obtain ⟨w1, h1⟩ := Task_SendMessage_msg_ok env
    { w with ep := { w.ep with
        m_retransmissionCounter := (w.ep.m_retransmissionCounter + 1) % U32 } }
    m w.ep.m_requestAddress ((w.ep.m_retransmissionCounter + 1) % U32) ho ht hl
  obtain ⟨m2, _, _, _, l⟩ := Task_SendMessage_msg_spec h1
  rw [← hreq] at h1
  exact ⟨w1, h1, l.ep, l.sim, l.counters.trans hl⟩

theorem State_SendingRequest_ok (env : Env) (w : World) (m : Message)
    (hreq : w.ep.m_requestMessage = some m)
    (ht : 1 ≤ m.m_messageType ∧ m.m_messageType ≤ 4) (hl : w.s_msgCounters.length = 4)
    (ho : w.ep.m_socketOpen = true) (hA : 0 ≤ w.ep.m_serviceBase.m_ACKTimeout) :
    ∃ w2, UdpClientMessageEndpoint.State_SendingRequest env w = some w2 := by
  obtain ⟨w1, h1, hep1, _, hl1⟩ := Task_SendMessage_ok env w m hreq ht hl ho
  unfold UdpClientMessageEndpoint.State_SendingRequest
  rw [h1]
  simp only [Option.bind_eq_bind, Option.some_bind]
  have hA1 : 0 ≤ w1.ep.m_serviceBase.m_ACKTimeout := by rw [hep1]; exact hA
  split
  · unfold UdpClientMessageEndpoint.Transition_RequestSentSuccessfully
      UdpClientMessageEndpoint.State_WaitForACK UdpClientMessageEndpoint.ACK_StartTimeout
    rw [schedule_ok w1 _ hA1]
    exact ⟨_, rfl⟩
  · unfold UdpClientMessageEndpoint.Transition_SocketSendFailed
      UdpClientMessageEndpoint.State_SocketResending
    split
    · exact Transition_RetransmissionLimitReached_ok w1 m (by rw [hep1]; exact hreq) ht hl1
    · unfold UdpClientMessageEndpoint.Socket_StartTimeout
      rw [schedule_ok w1 _ hA1]
      exact ⟨_, rfl⟩

/-! ### The client endpoint: one call over any run -/

theorem earliest_mem {l : List ScheduledEvent} {e : ScheduledEvent}
    (h : Simulator.earliest l = some e) : e ∈ l := by
  induction l generalizing e with
  | nil => cases h
  | cons x rest ih =>
    unfold Simulator.earliest at h
    cases hr : Simulator.earliest rest with
    | none =>
      rw [hr] at h
      simp only [Option.some.injEq] at h
      subst h
      exact List.mem_cons_self _ _
    | some m =>
      rw [hr] at h
      simp only at h
      split at h
      · simp only [Option.some.injEq] at h
        subst h
        exact List.mem_cons_self _ _
      · simp only [Option.some.injEq] at h
        subst h
        exact List.mem_cons_of_mem _ (ih hr)

theorem retry_timer_unique {l : List ScheduledEvent} {e : ScheduledEvent}
    (hlen : (l.filter ScheduledEvent.isRetryTimer).length ≤ 1) (he : e ∈ l)
    (hr : e.isRetryTimer = true) :
    (l.filter (fun x => x.uid ≠ e.uid)).filter ScheduledEvent.isRetryTimer = [] := by
  have hmem : e ∈ l.filter ScheduledEvent.isRetryTimer := List.mem_filter.mpr ⟨he, hr⟩
  rw [List.eq_nil_iff_forall_not_mem]
  intro x hx
  rw [List.mem_filter, List.mem_filter] at hx
  obtain ⟨⟨hxl, hxu⟩, hxr⟩ := hx
  have hxm : x ∈ l.filter ScheduledEvent.isRetryTimer := List.mem_filter.mpr ⟨hxl, hxr⟩
  generalize l.filter ScheduledEvent.isRetryTimer = f at hlen hmem hxm
  match f, hlen, hmem, hxm with
  | [y], _, hm, hxm =>
    simp only [List.mem_singleton] at hm hxm
    subst hm
    subst hxm
    simp at hxu
  | _ :: _ :: _, hl, _, _ => simp at hl

theorem Cancel_now (sim : Simulator) (id : EventId) : (sim.Cancel id).now = sim.now := by
  cases id <;> rfl

theorem filter_nil_of_sublist {l l2 : List ScheduledEvent} (h : l2.Sublist l) (hl : l = []) :
    l2 = [] := by
  subst hl
  exact List.sublist_nil.mp h

/-- The handler `ACK_TimeoutExpired`, called when the ACK timer has left the queue: below the
limit the request is transmitted again and the counter grows by one, else send-failure is
reported; the invariant of the call holds afterwards. -/
theorem ACK_TimeoutExpired_CallInv {env : Env} {base : List (Time × Output)} {req : Message}
    {w w2 : World} (hinv : World.CallInv base req w)
    (hno : w.sim.events.filter ScheduledEvent.isRetryTimer = [])
    (h : UdpClientMessageEndpoint.ACK_TimeoutExpired env w = some w2) :
    World.CallInv base req w2 ∧ World.Kept w w2 ∧
      (w.ep.m_retransmissionCounter < w.ep.m_serviceBase.m_retransmissionLimit →
        w2.ep.m_retransmissionCounter = w.ep.m_retransmissionCounter + 1 ∧
        ∃ ext, w2.trace = w.trace ++ ext ∧ World.requestAttempts ext = [(w.sim.now, req)]) ∧
      (¬ w.ep.m_retransmissionCounter < w.ep.m_serviceBase.m_retransmissionLimit →
        w2.ep.m_retransmissionCounter = w.ep.m_retransmissionCounter ∧
        ∃ ext, w2.trace = w.trace ++ ext ∧ World.requestAttempts ext = [] ∧
          World.outcomes ext = [(w.sim.now, Output.OnSendFailure)]) := by
  unfold UdpClientMessageEndpoint.ACK_TimeoutExpired at h
  simp only [Option.bind_eq_bind, Option.bind_eq_some] at h
  obtain ⟨w1, h1, h2⟩ := h
  obtain ⟨m, _, l⟩ := RecordACKTimeout_logs h1
  have hq1 : World.Quiet w w1 := (ACK_CancelTimeout_quiet w).trans (l.quiet rfl)
  have hinv1 := hinv.of_quiet hq1
  have hno1 := filter_nil_of_sublist hq1.timers hno
  have hnow1 : w1.sim.now = w.sim.now := by
    rw [l.sim]
    exact Cancel_now _ _
  have htr1 : w1.trace = w.trace ++ [(w.sim.now, Output.RecordError
      w.ep.m_serviceBase.m_serviceId ErrorType.ERROR_TYPE_ACK_TIMEOUT m.m_messageId)] := by
    rw [l.trace]
    simp only [UdpClientMessageEndpoint.ACK_CancelTimeout, Cancel_now]
  unfold UdpClientMessageEndpoint.Transition_ACKTimeout at h2
  rw [hq1.counter, hq1.serviceBase] at h2
  split at h2
  · rename_i hge
    obtain ⟨hq2, m2, _, htr2⟩ := Transition_RetransmissionLimitReached_spec h2
    refine ⟨hinv1.of_quiet hq2, (hq1.trans hq2).kept, fun hlt => absurd hlt (not_lt.mpr hge),
      fun _ => ⟨hq2.counter.trans hq1.counter,
        [(w.sim.now, Output.RecordError w.ep.m_serviceBase.m_serviceId
          ErrorType.ERROR_TYPE_ACK_TIMEOUT m.m_messageId)] ++
        [(w1.sim.now, Output.RecordError w1.ep.m_serviceBase.m_serviceId
          ErrorType.ERROR_TYPE_SEND_FAILURE m2.m_messageId),
         (w1.sim.now, Output.OnSendFailure)], ?_, ?_⟩⟩
    · rw [htr2, htr1, List.append_assoc]
    · rw [hnow1]
      exact ⟨rfl, rfl⟩
  · rename_i hlt
    have hlt1 : w1.ep.m_retransmissionCounter < w1.ep.m_serviceBase.m_retransmissionLimit := by
      rw [hq1.counter, hq1.serviceBase]
      exact not_le.mp hlt
    obtain ⟨hi, hcnt, hk, ext, hext, hatt⟩ := State_SendingRequest_CallInv hinv1 hno1 hlt1 h2
    refine ⟨hi, hq1.kept.kept_trans hk, fun _ => ⟨by rw [hcnt, hq1.counter],
      [(w.sim.now, Output.RecordError w.ep.m_serviceBase.m_serviceId
          ErrorType.ERROR_TYPE_ACK_TIMEOUT m.m_messageId)] ++ ext, ?_, ?_⟩,
      fun hn => absurd (not_le.mp hlt) hn⟩
    · rw [hext, htr1, List.append_assoc]
    · rw [requestAttempts_append, hatt, hnow1]
      rfl

theorem Socket_TimeoutExpired_CallInv {env : Env} {base : List (Time × Output)} {req : Message}
    {w w2 : World} (hinv : World.CallInv base req w)
    (hno : w.sim.events.filter ScheduledEvent.isRetryTimer = [])
    (hc : w.ep.m_retransmissionCounter < w.ep.m_serviceBase.m_retransmissionLimit)
    (h : UdpClientMessageEndpoint.Socket_TimeoutExpired env w = some w2) :
    World.CallInv base req w2 ∧ World.Kept w w2 := by
  unfold UdpClientMessageEndpoint.Socket_TimeoutExpired
    UdpClientMessageEndpoint.Transition_SocketTimeout at h
  have hq1 := Socket_CancelTimeout_quiet w
  obtain ⟨hi, _, hk, _⟩ := State_SendingRequest_CallInv (hinv.of_quiet hq1)
    (filter_nil_of_sublist hq1.timers hno) hc h
  exact ⟨hi, hq1.kept.kept_trans hk⟩

/-- One step of the simulator keeps the invariant of the call. -/
theorem fire_CallInv {env : Env} {base : List (Time × Output)} {req : Message} {w w2 : World}
    (hinv : World.CallInv base req w) (h : w.fire env = some w2) :
    World.CallInv base req w2 ∧ World.Kept w w2 := by
  unfold World.fire at h
  cases he : Simulator.earliest w.sim.events with
  | none =>
    rw [he] at h
    simp only [Option.some.injEq] at h
    subst h
    exact ⟨hinv, World.Kept.kept_refl w⟩
  | some e =>
    rw [he] at h
    simp only at h
    have hmem := earliest_mem he
    have hq0 : World.Quiet w { w with sim := { w.sim with
        now := e.ts, events := w.sim.events.filter (fun x => x.uid ≠ e.uid) } } :=
      ⟨rfl, rfl, rfl, rfl, rfl, ⟨[], by simp, rfl⟩,
        List.Sublist.filter _ (List.filter_sublist _)⟩
    have hinv0 := hinv.of_quiet hq0
    cases hk : e.kind with
    | Socket_TimeoutExpired =>
      rw [hk] at h
      have hno := retry_timer_unique hinv.timers hmem
        (by simp [ScheduledEvent.isRetryTimer, hk])
      obtain ⟨hi, hkept⟩ := Socket_TimeoutExpired_CallInv hinv0 hno (hinv.socket e hmem hk) h
      exact ⟨hi, hq0.kept.kept_trans hkept⟩
    | ACK_TimeoutExpired =>
      rw [hk] at h
      have hno := retry_timer_unique hinv.timers hmem
        (by simp [ScheduledEvent.isRetryTimer, hk])
      obtain ⟨hi, hkept, _⟩ := ACK_TimeoutExpired_CallInv hinv0 hno h
      exact ⟨hi, hq0.kept.kept_trans hkept⟩
    | Response_TimeoutExpired =>
      rw [hk] at h
      have hq := hq0.trans (Response_TimeoutExpired_quiet h)
      exact ⟨hinv.of_quiet hq, hq.kept⟩
    | RemoveOldRecords =>
      rw [hk] at h
      have hq := hq0.trans (RemoveOldRecords_quiet h)
      exact ⟨hinv.of_quiet hq, hq.kept⟩
    | ReceiveMessage packets =>
      rw [hk] at h
      simp only [World.dispatch] at h
      split at h
      · have hq := hq0.trans (ReceiveMessage_loop_quiet env packets false _ _ h)
        exact ⟨hinv.of_quiet hq, hq.kept⟩
      · simp only [Option.some.injEq] at h
        subst h
        exact ⟨hinv0, hq0.kept⟩

theorem deliver_quiet {w w2 : World} {delay : Time} {packets : List Packet}
    (h : w.deliver delay packets = some w2) : World.Quiet w w2 := by
  unfold World.deliver at h
  simp only [Option.bind_eq_bind, Option.bind_eq_some, pure, Option.some.injEq,
    Prod.exists] at h
  obtain ⟨w1, id, h1, rfl⟩ := h
  exact World.Quiet.of_schedule h1 ⟨by simp, by simp⟩

/-- Every run of inputs keeps the invariant of the call. -/
theorem run_CallInv {env : Env} {base : List (Time × Output)} {req : Message}
    (inputs : List Input) {w w2 : World}
    (hinv : World.CallInv base req w) (h : World.run env inputs w = some w2) :
    World.CallInv base req w2 ∧ World.Kept w w2 := by
  induction inputs generalizing w with
  | nil =>
    simp only [World.run, Option.some.injEq] at h
    subst h
    exact ⟨hinv, World.Kept.kept_refl w⟩
  | cons i rest ih =>
    simp only [World.run, Option.bind_eq_some] at h
    obtain ⟨w1, h1, h2⟩ := h
    cases i with
    | fire =>
      obtain ⟨hi, hk⟩ := fire_CallInv hinv h1
      obtain ⟨hi2, hk2⟩ := ih hi h2
      exact ⟨hi2, hk.kept_trans hk2⟩
    | deliver delay packets =>
      have hq := deliver_quiet h1
      obtain ⟨hi2, hk2⟩ := ih (hinv.of_quiet hq) h2
      exact ⟨hi2, hq.kept.kept_trans hk2⟩

theorem Response_StartTimeout_quiet {w w2 : World}
    (h : UdpClientMessageEndpoint.Response_StartTimeout w = some w2) : World.Quiet w w2 := by
  unfold UdpClientMessageEndpoint.Response_StartTimeout at h
  simp only [Option.bind_eq_bind, Option.bind_eq_some, pure, Option.some.injEq,
    Prod.exists] at h
  obtain ⟨w1, id, h1, rfl⟩ := h
  exact ((Response_CancelTimeout_quiet w).trans
    (World.Quiet.of_schedule h1 ⟨by simp, by simp⟩)).trans
    (World.Quiet.of_fields rfl rfl rfl rfl rfl rfl rfl)

theorem Transition_StartSendMessage_CallInv {env : Env} {w w0 : World} {req : Message}
    (hreq : w.ep.m_requestMessage = some req)
    (hL : w.ep.m_serviceBase.m_retransmissionLimit < U32)
    (h1 : 1 ≤ w.ep.m_serviceBase.m_retransmissionLimit)
    (hfresh : w.sim.events.filter ScheduledEvent.isRetryTimer = [])
    (h : UdpClientMessageEndpoint.Transition_StartSendMessage env w = some w0) :
    World.CallInv w.trace req w0 ∧ World.Kept w w0 := by
  unfold UdpClientMessageEndpoint.Transition_StartSendMessage at h
  simp only [Option.bind_eq_bind, Option.bind_eq_some] at h
  obtain ⟨w3, h3, h4⟩ := h
  have hqc := cancel_all_quiet w
  obtain ⟨hcep, hctr, _⟩ := cancel_all_fields w
  generalize (UdpClientMessageEndpoint.Response_CancelTimeout
    (UdpClientMessageEndpoint.ACK_CancelTimeout
      (UdpClientMessageEndpoint.Socket_CancelTimeout w))) = wc at h3 hqc hcep hctr
  have hq3 := Response_StartTimeout_quiet h3
  have hno : wc.sim.events.filter ScheduledEvent.isRetryTimer = [] :=
    filter_nil_of_sublist hqc.timers hfresh
  have hinv2 : World.CallInv w.trace req
      { wc with ep := { wc.ep with m_retransmissionCounter := 0 } } := by
    refine ⟨?_, ?_, Nat.zero_le _, ⟨[], ?_, rfl, ?_⟩, ?_, ?_⟩
    · show wc.ep.m_requestMessage = some req
      rw [hcep]; exact hreq
    · show wc.ep.m_serviceBase.m_retransmissionLimit < U32
      rw [hcep]; exact hL
    · show wc.trace = w.trace ++ []
      rw [hctr, List.append_nil]
    · intro a ha
      cases ha
    · show (wc.sim.events.filter ScheduledEvent.isRetryTimer).length ≤ 1
      rw [hno]; exact Nat.zero_le _
    · intro e he hk
      have hmem : e ∈ wc.sim.events.filter ScheduledEvent.isRetryTimer :=
        List.mem_filter.mpr ⟨he, by simp [ScheduledEvent.isRetryTimer, hk]⟩
      rw [hno] at hmem
      cases hmem
  have hinv3 := hinv2.of_quiet hq3
  have hno3 := filter_nil_of_sublist hq3.timers hno
  have hk3 : World.Kept w w3 := by
    refine ⟨?_, ?_, ?_, ?_⟩
    · rw [hq3.serviceBase]
      show wc.ep.m_serviceBase = _
      rw [hcep]
    · rw [hq3.socketOpen]
      show wc.ep.m_socketOpen = _
      rw [hcep]
    · rw [hq3.counters]
      exact hqc.counters
    · rw [hq3.request]
      show wc.ep.m_requestMessage = _
      rw [hcep]
  have hc3 : w3.ep.m_retransmissionCounter < w3.ep.m_serviceBase.m_retransmissionLimit := by
    rw [hk3.serviceBase, hq3.counter]
    exact h1
  obtain ⟨hi, _, hk, _⟩ := State_SendingRequest_CallInv hinv3 hno3 hc3 h4
  exact ⟨hi, hk3.kept_trans hk⟩

/-- The call `SendMessage` on an endpoint with no retry timer pending establishes the
invariant of the call for the message passed in, relative to the trace so far. -/
theorem SendMessage_CallInv {env : Env} {w w0 : World} {req : Message} {dest : Address}
    {waitForResponse : Bool}
    (hL : w.ep.m_serviceBase.m_retransmissionLimit < U32)
    (h1 : 1 ≤ w.ep.m_serviceBase.m_retransmissionLimit)
    (hfresh : w.sim.events.filter ScheduledEvent.isRetryTimer = [])
    (h : UdpClientMessageEndpoint.SendMessage env w req dest waitForResponse = some w0) :
    World.CallInv w.trace req w0 ∧ w0.ep.m_serviceBase = w.ep.m_serviceBase ∧
      w0.ep.m_socketOpen = true ∧ w0.s_msgCounters.length = w.s_msgCounters.length := by
  unfold UdpClientMessageEndpoint.SendMessage at h
  split at h
  · cases h
  · rename_i ho
    have ho2 : w.ep.m_socketOpen = true := by
      cases hso : w.ep.m_socketOpen
      · rw [hso] at ho
        exact absurd rfl ho
      · rfl
    obtain ⟨hi, hk⟩ := Transition_StartSendMessage_CallInv
      (w := { w with ep := { w.ep with
        m_requestMessage := some req
        m_requestAddress := dest
        m_waitForResponse := waitForResponse
        m_responseMessage := none } }) rfl hL h1 hfresh h
    exact ⟨hi, hk.serviceBase, hk.socketOpen.trans ho2, hk.counters⟩

theorem ACK_TimeoutExpired_ok (env : Env) (w : World) (m : Message)
    (hreq : w.ep.m_requestMessage = some m)
    (ht : 1 ≤ m.m_messageType ∧ m.m_messageType ≤ 4) (hl : w.s_msgCounters.length = 4)
    (ho : w.ep.m_socketOpen = true) (hA : 0 ≤ w.ep.m_serviceBase.m_ACKTimeout) :
    ∃ w2, UdpClientMessageEndpoint.ACK_TimeoutExpired env w = some w2 := by
  unfold UdpClientMessageEndpoint.ACK_TimeoutExpired
  have hq0 := ACK_CancelTimeout_quiet w
  obtain ⟨w1, h1⟩ := RecordACKTimeout_ok (UdpClientMessageEndpoint.ACK_CancelTimeout w) m ht
    (hq0.counters.trans hl)
  rw [← hreq, ← hq0.request] at h1
  simp only [h1, Option.bind_eq_bind, Option.some_bind]
  obtain ⟨_, _, l⟩ := RecordACKTimeout_logs h1
  have hq1 := hq0.trans (l.quiet rfl)
  unfold UdpClientMessageEndpoint.Transition_ACKTimeout
  split
  · exact Transition_RetransmissionLimitReached_ok w1 m (hq1.request.trans hreq) ht
      (hq1.counters.trans hl)
  · exact State_SendingRequest_ok env w1 m (hq1.request.trans hreq) ht (hq1.counters.trans hl)
      (hq1.socketOpen.trans ho) (by rw [hq1.serviceBase]; exact hA)

/-- C9: a call started by `SendMessage` on an endpoint without pending retry timers, followed
by any run of simulator steps and packet arrivals. Since the start of the call the request
has been transmitted at most `m_retransmissionLimit` times, and every transmission carries
the message passed to `SendMessage`. When the ACK timer is the next event, the simulator
step returns: with the retry counter below the limit the request is transmitted once more
at the time of the timer and the counter grows by one; otherwise nothing is transmitted, the
counter stays, and `OnSendFailure` is reported at that time. -/
theorem C9_ack_timeout_retransmits_within_limit (env : Env) (w w0 : World) (req : Message)
    (dest : Address) (waitForResponse : Bool)
    (hL : w.ep.m_serviceBase.m_retransmissionLimit < U32)
    (h1 : 1 ≤ w.ep.m_serviceBase.m_retransmissionLimit)
    (hA : 0 ≤ w.ep.m_serviceBase.m_ACKTimeout)
    (ht : 1 ≤ req.m_messageType ∧ req.m_messageType ≤ 4)
    (hcs : w.s_msgCounters.length = 4)
    (hfresh : w.sim.events.filter ScheduledEvent.isRetryTimer = [])
    (hstart : UdpClientMessageEndpoint.SendMessage env w req dest waitForResponse = some w0)
    (inputs : List Input) (w1 : World) (hrun : World.run env inputs w0 = some w1) :
    (∃ new, w1.trace = w.trace ++ new ∧
      (World.requestAttempts new).length ≤ w.ep.m_serviceBase.m_retransmissionLimit ∧
      ∀ a ∈ World.requestAttempts new, a.2 = req) ∧
    ∀ e, Simulator.earliest w1.sim.events = some e → e.kind = EventKind.ACK_TimeoutExpired →
      ∃ w2, w1.fire env = some w2 ∧
        (w1.ep.m_retransmissionCounter < w.ep.m_serviceBase.m_retransmissionLimit →
          w2.ep.m_retransmissionCounter = w1.ep.m_retransmissionCounter + 1 ∧
          ∃ ext, w2.trace = w1.trace ++ ext ∧ World.requestAttempts ext = [(e.ts, req)]) ∧
        (¬ w1.ep.m_retransmissionCounter < w.ep.m_serviceBase.m_retransmissionLimit →
          w2.ep.m_retransmissionCounter = w1.ep.m_retransmissionCounter ∧
          ∃ ext, w2.trace = w1.trace ++ ext ∧ World.requestAttempts ext = [] ∧
            World.outcomes ext = [(e.ts, Output.OnSendFailure)]) := by
  obtain ⟨hinv0, hsb0, hso0, hcs0⟩ := SendMessage_CallInv hL h1 hfresh hstart
  obtain ⟨hinv1, hk⟩ := run_CallInv inputs hinv0 hrun
  have hsb1 : w1.ep.m_serviceBase = w.ep.m_serviceBase := hk.serviceBase.trans hsb0
  refine ⟨?_, ?_⟩
  · obtain ⟨new, hn1, hn2, hn3⟩ := hinv1.trace
    refine ⟨new, hn1, ?_, hn3⟩
    rw [hn2, ← hsb1]
    exact hinv1.counter
  · intro e he hkind
    have hmem := earliest_mem he
    have hq0 : World.Quiet w1 { w1 with sim := { w1.sim with
        now := e.ts, events := w1.sim.events.filter (fun x => x.uid ≠ e.uid) } } :=
      ⟨rfl, rfl, rfl, rfl, rfl, ⟨[], by simp, rfl⟩,
        List.Sublist.filter _ (List.filter_sublist _)⟩
    have hno := retry_timer_unique hinv1.timers hmem
      (by simp [ScheduledEvent.isRetryTimer, hkind])
    have hfire : w1.fire env = UdpClientMessageEndpoint.ACK_TimeoutExpired env
        { w1 with sim := { w1.sim with
          now := e.ts, events := w1.sim.events.filter (fun x => x.uid ≠ e.uid) } } := by
      unfold World.fire
      rw [he]
      simp only [hkind, World.dispatch]
    obtain ⟨w2, h2⟩ := ACK_TimeoutExpired_ok env
      { w1 with sim := { w1.sim with
          now := e.ts, events := w1.sim.events.filter (fun x => x.uid ≠ e.uid) } } req
      hinv1.request ht ((hk.counters.trans hcs0).trans hcs) (hk.socketOpen.trans hso0)
      (by rw [hsb1]; exact hA)
    obtain ⟨_, _, hlt, hge⟩ := ACK_TimeoutExpired_CallInv (hinv1.of_quiet hq0) hno h2
    refine ⟨w2, hfire.trans h2, ?_, ?_⟩
    · intro hc
      exact hlt (by rw [hsb1]; exact hc)
    · intro hc
      exact hge (by rw [hsb1]; exact hc)

theorem C9_ack_timeout_retransmits_within_limit_witness :
    UdpClientMessageEndpoint.SendMessage exampleEnvSending
      (World.create 0 exampleServiceBase false 0) exampleRequest 3 true
        = some exampleWorldWaiting ∧
    World.run exampleEnvSending [] exampleWorldWaiting = some exampleWorldWaiting ∧
    ∃ w2, exampleWorldWaiting.fire exampleEnvSending = some w2 ∧
      w2.ep.m_retransmissionCounter = 2 ∧
      ∃ ext, w2.trace = exampleWorldWaiting.trace ++ ext ∧
        World.requestAttempts ext = [(MilliSeconds 10, exampleRequest)] := by
  have hstart : UdpClientMessageEndpoint.SendMessage exampleEnvSending
      (World.create 0 exampleServiceBase false 0) exampleRequest 3 true
        = some exampleWorldWaiting := by decide
  have hrun : World.run exampleEnvSending [] exampleWorldWaiting = some exampleWorldWaiting :=
    rfl
  obtain ⟨w2, hf, hlt, _⟩ := (C9_ack_timeout_retransmits_within_limit exampleEnvSending
    (World.create 0 exampleServiceBase false 0) exampleWorldWaiting exampleRequest 3 true
    (by decide) (by decide) (by decide) (by decide) (by decide) (by decide) hstart [] 
    exampleWorldWaiting hrun).2
    { ts := MilliSeconds 10, uid := 2, kind := EventKind.ACK_TimeoutExpired }
    (by decide) rfl
  exact ⟨hstart, hrun, w2, hf, hlt (by decide)⟩

/-! ### The simulator: which event runs next -/

theorem before_iff (a b : ScheduledEvent) :
    a.before b = true ↔
      @LT.lt Int _ a.ts b.ts ∨ (@Eq Int a.ts b.ts ∧ a.uid ≤ b.uid) := by
  simp [ScheduledEvent.before]

theorem earliest_le {l : List ScheduledEvent} {m : ScheduledEvent}
    (h : Simulator.earliest l = some m) : ∀ x ∈ l, m.before x = true := by
  induction l generalizing m with
  | nil => cases h
  | cons y rest ih =>
    unfold Simulator.earliest at h
    cases hr : Simulator.earliest rest with
    | none =>
      rw [hr] at h
      simp only [Option.some.injEq] at h
      subst h
      have hrest : rest = [] := by
        cases rest with
        | nil => rfl
        | cons z zs =>
          unfold Simulator.earliest at hr
          cases hz : Simulator.earliest zs <;> rw [hz] at hr <;> simp only at hr
          · cases hr
          · split at hr <;> cases hr
      subst hrest
      intro x hx
      simp only [List.mem_singleton] at hx
      subst hx
      rw [before_iff]
      right
      exact ⟨rfl, Nat.le_refl _⟩
    | some m2 =>
      rw [hr] at h
      simp only at h
      have ih2 := ih hr
      split at h
      · rename_i hb
        simp only [Option.some.injEq] at h
        subst h
        intro x hx
        rcases List.mem_cons.mp hx with hx | hx
        · subst hx
          rw [before_iff]
          right
          exact ⟨rfl, Nat.le_refl _⟩
        · have h2 := ih2 x hx
          rw [before_iff] at hb h2 ⊢
          omega
      · rename_i hb
        simp only [Option.some.injEq] at h
        subst h
        intro x hx
        rcases List.mem_cons.mp hx with hx | hx
        · subst hx
          rw [before_iff] at hb ⊢
          omega
        · exact ih2 x hx

theorem earliest_some {l : List ScheduledEvent} (hne : l ≠ []) :
    ∃ m, Simulator.earliest l = some m := by
  cases l with
  | nil => exact absurd rfl hne
  | cons y rest =>
    unfold Simulator.earliest
    cases Simulator.earliest rest with
    | none => exact ⟨y, rfl⟩
    | some m2 =>
      simp only
      split
      · exact ⟨y, rfl⟩
      · exact ⟨m2, rfl⟩

/-! ### The client endpoint: the results of the handlers -/

theorem World.Logs.exact {w w2 : World} {ext : List (Time × Output)} {x : Option World}
    (h : x = some w2) (l : World.Logs w w2 ext) :
    ∃ cs, cs.length = w.s_msgCounters.length ∧
      x = some { w with trace := w.trace ++ ext, s_msgCounters := cs } := by
  obtain ⟨cs, hcs, rfl⟩ := l.eq
  exact ⟨cs, hcs, h⟩

theorem RecordSendFailure_exact (w : World) (m : Message)
    (ht : 1 ≤ m.m_messageType ∧ m.m_messageType ≤ 4) (hl : w.s_msgCounters.length = 4) :
    ∃ cs, cs.length = 4 ∧ MessageEndpoint.RecordSendFailure w (some m) =
      some { w with
        trace := w.trace ++ [(w.sim.now, Output.RecordError w.ep.m_serviceBase.m_serviceId
          ErrorType.ERROR_TYPE_SEND_FAILURE m.m_messageId)]
        s_msgCounters := cs } := by
  obtain ⟨w2, h⟩ := RecordSendFailure_ok w m ht hl
  obtain ⟨m2, hm, l⟩ := RecordSendFailure_logs h
  simp only [Option.some.injEq] at hm
  subst hm
  obtain ⟨cs, hcs, hx⟩ := l.exact h
  exact ⟨cs, hcs.trans hl, hx⟩

theorem RecordACKTimeout_exact (w : World) (m : Message)
    (ht : 1 ≤ m.m_messageType ∧ m.m_messageType ≤ 4) (hl : w.s_msgCounters.length = 4) :
    ∃ cs, cs.length = 4 ∧ MessageEndpoint.RecordACKTimeout w (some m) =
      some { w with
        trace := w.trace ++ [(w.sim.now, Output.RecordError w.ep.m_serviceBase.m_serviceId
          ErrorType.ERROR_TYPE_ACK_TIMEOUT m.m_messageId)]
        s_msgCounters := cs } := by
  obtain ⟨w2, h⟩ := RecordACKTimeout_ok w m ht hl
  obtain ⟨m2, hm, l⟩ := RecordACKTimeout_logs h
  simp only [Option.some.injEq] at hm
  subst hm
  obtain ⟨cs, hcs, hx⟩ := l.exact h
  exact ⟨cs, hcs.trans hl, hx⟩

theorem RecordResponseTimeout_exact (w : World) (m : Message)
    (ht : 1 ≤ m.m_messageType ∧ m.m_messageType ≤ 4) (hl : w.s_msgCounters.length = 4) :
    ∃ cs, cs.length = 4 ∧ MessageEndpoint.RecordResponseTimeout w (some m) =
      some { w with
        trace := w.trace ++ [(w.sim.now, Output.RecordError w.ep.m_serviceBase.m_serviceId
          ErrorType.ERROR_TYPE_RESPONSE_TIMEOUT m.m_messageId)]
        s_msgCounters := cs } := by
  obtain ⟨w2, h⟩ := RecordResponseTimeout_ok w m ht hl
  obtain ⟨m2, hm, l⟩ := RecordResponseTimeout_logs h
  simp only [Option.some.injEq] at hm
  subst hm
  obtain ⟨cs, hcs, hx⟩ := l.exact h
  exact ⟨cs, hcs.trans hl, hx⟩

theorem RecordReceiveMessage_exact (w : World) (m : Message) (sender : Address) (droped : Bool)
    (ht : 1 ≤ m.m_messageType ∧ m.m_messageType ≤ 4) (hl : w.s_msgCounters.length = 4) :
    ∃ cs, cs.length = 4 ∧ MessageEndpoint.RecordReceiveMessage w m sender droped =
      some { w with
        trace := w.trace ++ [(w.sim.now, Output.RecordReceiveMessage m sender droped)]
        s_msgCounters := cs } := by
  obtain ⟨w2, h⟩ := RecordReceiveMessage_ok w m sender droped ht hl
  obtain ⟨cs, hcs, hx⟩ := (RecordReceiveMessage_logs h).exact h
  exact ⟨cs, hcs.trans hl, hx⟩

theorem Task_SendMessage_msg_exact (env : Env) (w : World) (m : Message) (dest : Address)
    (r : Nat) (ho : w.ep.m_socketOpen = true)
    (ht : 1 ≤ m.m_messageType ∧ m.m_messageType ≤ 4) (hl : w.s_msgCounters.length = 4) :
    ∃ cs, cs.length = 4 ∧
      UdpClientMessageEndpoint.Task_SendMessage_msg env w (some m) dest r =
        some (decide ((env.transport w.nSendTo % (U32 : Int)).toNat > 0),
          { w with
            nSendTo := w.nSendTo + 1
            trace := w.trace ++
              ((w.sim.now, Output.SendTo m dest r
                (decide ((env.transport w.nSendTo % (U32 : Int)).toNat > 0))) ::
              (if decide ((env.transport w.nSendTo % (U32 : Int)).toNat > 0) then []
               else [(w.sim.now, Output.RecordError w.ep.m_serviceBase.m_serviceId
                ErrorType.ERROR_TYPE_SOCKET_FAILURE m.m_messageId)]))
            s_msgCounters := cs }) := by
  obtain ⟨w1, h1⟩ := Task_SendMessage_msg_ok env w m dest r ho ht hl
  obtain ⟨m2, hm, _, _, l⟩ := Task_SendMessage_msg_spec h1
  simp only [Option.some.injEq] at hm
  subst hm
  obtain ⟨cs, hcs, rfl⟩ := l.eq
  exact ⟨cs, hcs.trans hl, h1⟩

theorem Task_SendMessage_exact (env : Env) (w : World) (m : Message)
    (hreq : w.ep.m_requestMessage = some m)
    (ht : 1 ≤ m.m_messageType ∧ m.m_messageType ≤ 4) (hl : w.s_msgCounters.length = 4)
    (ho : w.ep.m_socketOpen = true) :
    ∃ cs, cs.length = 4 ∧
      UdpClientMessageEndpoint.Task_SendMessage env w =
        some (decide ((env.transport w.nSendTo % (U32 : Int)).toNat > 0),
          { w with
            ep := { w.ep with
              m_retransmissionCounter := (w.ep.m_retransmissionCounter + 1) % U32 }
            nSendTo := w.nSendTo + 1
            trace := w.trace ++
              ((w.sim.now, Output.SendTo m w.ep.m_requestAddress
                ((w.ep.m_retransmissionCounter + 1) % U32)
                (decide ((env.transport w.nSendTo % (U32 : Int)).toNat > 0))) ::
              (if decide ((env.transport w.nSendTo % (U32 : Int)).toNat > 0) then []
               else [(w.sim.now, Output.RecordError w.ep.m_serviceBase.m_serviceId
                ErrorType.ERROR_TYPE_SOCKET_FAILURE m.m_messageId)]))
            s_msgCounters := cs }) := by
  obtain ⟨cs, hcs, h⟩ := Task_SendMessage_msg_exact env
    { w with ep := { w.ep with
        m_retransmissionCounter := (w.ep.m_retransmissionCounter + 1) % U32 } }
    m w.ep.m_requestAddress ((w.ep.m_retransmissionCounter + 1) % U32) ho ht hl
  rw [← hreq] at h
  exact ⟨cs, hcs, h⟩

/-- The state `State_SendingRequest` when the transport accepts the message: the request is
transmitted and the ACK timer is started. -/
theorem State_SendingRequest_sent (env : Env) (w : World) (m : Message)
    (hreq : w.ep.m_requestMessage = some m)
    (ht : 1 ≤ m.m_messageType ∧ m.m_messageType ≤ 4) (hl : w.s_msgCounters.length = 4)
    (ho : w.ep.m_socketOpen = true) (hA : 0 ≤ w.ep.m_serviceBase.m_ACKTimeout)
    (hok : (env.transport w.nSendTo % (U32 : Int)).toNat > 0) :
    ∃ cs, cs.length = 4 ∧
      UdpClientMessageEndpoint.State_SendingRequest env w =
        some { sim := { now := w.sim.now, nextUid := w.sim.nextUid + 1,
                        events := w.sim.events ++
                          [{ ts := w.sim.now + w.ep.m_serviceBase.m_ACKTimeout,
                             uid := w.sim.nextUid, kind := EventKind.ACK_TimeoutExpired }] }
               ep := { w.ep with
                 m_retransmissionCounter := (w.ep.m_retransmissionCounter + 1) % U32
                 m_ACKTimeoutEvent := some w.sim.nextUid }
               s_messageCounter := w.s_messageCounter
               s_msgCounters := cs
               nSendTo := w.nSendTo + 1
               trace := w.trace ++ [(w.sim.now, Output.SendTo m w.ep.m_requestAddress
                 ((w.ep.m_retransmissionCounter + 1) % U32) true)] } := by
  obtain ⟨cs, hcs, h⟩ := Task_SendMessage_exact env w m hreq ht hl ho
  refine ⟨cs, hcs, ?_⟩
  unfold UdpClientMessageEndpoint.State_SendingRequest
  rw [h]
  simp only [hok, decide_True, if_true, Option.bind_eq_bind, Option.some_bind,
    UdpClientMessageEndpoint.Transition_RequestSentSuccessfully,
    UdpClientMessageEndpoint.State_WaitForACK, UdpClientMessageEndpoint.ACK_StartTimeout]
  rw [schedule_ok _ _ hA]
  rfl

/-- The state `State_SendingRequest` when the transport rejects the message and the limit is
not reached: the attempt is recorded and the socket timer is started. -/
theorem State_SendingRequest_retry (env : Env) (w : World) (m : Message)
    (hreq : w.ep.m_requestMessage = some m)
    (ht : 1 ≤ m.m_messageType ∧ m.m_messageType ≤ 4) (hl : w.s_msgCounters.length = 4)
    (ho : w.ep.m_socketOpen = true) (hA : 0 ≤ w.ep.m_serviceBase.m_ACKTimeout)
    (hfail : (env.transport w.nSendTo % (U32 : Int)).toNat = 0)
    (hlt : (w.ep.m_retransmissionCounter + 1) % U32 < w.ep.m_serviceBase.m_retransmissionLimit) :
    ∃ cs, cs.length = 4 ∧
      UdpClientMessageEndpoint.State_SendingRequest env w =
        some { sim := { now := w.sim.now, nextUid := w.sim.nextUid + 1,
                        events := w.sim.events ++
                          [{ ts := w.sim.now + w.ep.m_serviceBase.m_ACKTimeout,
                             uid := w.sim.nextUid, kind := EventKind.Socket_TimeoutExpired }] }
               ep := { w.ep with
                 m_retransmissionCounter := (w.ep.m_retransmissionCounter + 1) % U32
                 m_socketTimeoutEvent := some w.sim.nextUid }
               s_messageCounter := w.s_messageCounter
               s_msgCounters := cs
               nSendTo := w.nSendTo + 1
               trace := w.trace ++ [(w.sim.now, Output.SendTo m w.ep.m_requestAddress
                   ((w.ep.m_retransmissionCounter + 1) % U32) false),
                 (w.sim.now, Output.RecordError w.ep.m_serviceBase.m_serviceId
                   ErrorType.ERROR_TYPE_SOCKET_FAILURE m.m_messageId)] } := by
  obtain ⟨cs, hcs, h⟩ := Task_SendMessage_exact env w m hreq ht hl ho
  refine ⟨cs, hcs, ?_⟩
  unfold UdpClientMessageEndpoint.State_SendingRequest
  rw [h]
  simp only [hfail, gt_iff_lt, Nat.lt_irrefl, decide_False, Bool.false_eq_true, if_false,
    Option.bind_eq_bind, Option.some_bind,
    UdpClientMessageEndpoint.Transition_SocketSendFailed,
    UdpClientMessageEndpoint.State_SocketResending, ge_iff_le, not_le.mpr hlt,
    UdpClientMessageEndpoint.Socket_StartTimeout]
  rw [schedule_ok _ _ hA]
  rfl

theorem exists_eq_some_pair {x : Option (Bool × World)} {s : Bool} {W : World}
    (h : x = some (s, W)) : ∃ W1, W1 = W ∧ x = some (s, W1) := ⟨W, rfl, h⟩

theorem exists_eq_some {x : Option World} {W : World}
    (h : x = some W) : ∃ W1, W1 = W ∧ x = some W1 := ⟨W, rfl, h⟩

/-- The transition `Transition_RetransmissionLimitReached`: the three timers are cancelled,
the failure is recorded and `OnSendFailure` is reported. -/
theorem Transition_RetransmissionLimitReached_exact (w : World) (m : Message)
    (hreq : w.ep.m_requestMessage = some m)
    (ht : 1 ≤ m.m_messageType ∧ m.m_messageType ≤ 4) (hl : w.s_msgCounters.length = 4) :
    ∃ cs, cs.length = 4 ∧
      UdpClientMessageEndpoint.Transition_RetransmissionLimitReached w =
        some { sim := ((w.sim.Cancel w.ep.m_socketTimeoutEvent).Cancel
                        w.ep.m_ACKTimeoutEvent).Cancel w.ep.m_responseTimeoutEvent
               ep := w.ep
               s_messageCounter := w.s_messageCounter
               s_msgCounters := cs
               nSendTo := w.nSendTo
               trace := w.trace ++ [
                 (w.sim.now, Output.RecordError w.ep.m_serviceBase.m_serviceId
                   ErrorType.ERROR_TYPE_SEND_FAILURE m.m_messageId),
                 (w.sim.now, Output.OnSendFailure)] } := by
  obtain ⟨cs, hcs, h⟩ := RecordSendFailure_exact
    (UdpClientMessageEndpoint.Response_CancelTimeout
      (UdpClientMessageEndpoint.ACK_CancelTimeout
        (UdpClientMessageEndpoint.Socket_CancelTimeout w))) m ht hl
  refine ⟨cs, hcs, ?_⟩
  unfold UdpClientMessageEndpoint.Transition_RetransmissionLimitReached
  have hreq2 : (UdpClientMessageEndpoint.Response_CancelTimeout
      (UdpClientMessageEndpoint.ACK_CancelTimeout
        (UdpClientMessageEndpoint.Socket_CancelTimeout w))).ep.m_requestMessage = some m := hreq
  simp only [hreq2, h, Option.bind_eq_bind, Option.some_bind, pure]
  simp [World.emit, UdpClientMessageEndpoint.Response_CancelTimeout,
    UdpClientMessageEndpoint.ACK_CancelTimeout, UdpClientMessageEndpoint.Socket_CancelTimeout,
    Cancel_now]

/-- The state `State_SendingRequest` when the transport rejects the message and the limit is
reached: the attempt is recorded, the timers are cancelled and send-failure is reported. -/
theorem State_SendingRequest_limit (env : Env) (w : World) (m : Message)
    (hreq : w.ep.m_requestMessage = some m)
    (ht : 1 ≤ m.m_messageType ∧ m.m_messageType ≤ 4) (hl : w.s_msgCounters.length = 4)
    (ho : w.ep.m_socketOpen = true)
    (hfail : (env.transport w.nSendTo % (U32 : Int)).toNat = 0)
    (hge : w.ep.m_serviceBase.m_retransmissionLimit ≤ (w.ep.m_retransmissionCounter + 1) % U32) :
    ∃ cs, cs.length = 4 ∧
      UdpClientMessageEndpoint.State_SendingRequest env w =
        some { sim := ((w.sim.Cancel w.ep.m_socketTimeoutEvent).Cancel
                        w.ep.m_ACKTimeoutEvent).Cancel w.ep.m_responseTimeoutEvent
               ep := { w.ep with
                 m_retransmissionCounter := (w.ep.m_retransmissionCounter + 1) % U32 }
               s_messageCounter := w.s_messageCounter
               s_msgCounters := cs
               nSendTo := w.nSendTo + 1
               trace := w.trace ++ [(w.sim.now, Output.SendTo m w.ep.m_requestAddress
                   ((w.ep.m_retransmissionCounter + 1) % U32) false),
                 (w.sim.now, Output.RecordError w.ep.m_serviceBase.m_serviceId
                   ErrorType.ERROR_TYPE_SOCKET_FAILURE m.m_messageId),
                 (w.sim.now, Output.RecordError w.ep.m_serviceBase.m_serviceId
                   ErrorType.ERROR_TYPE_SEND_FAILURE m.m_messageId),
                 (w.sim.now, Output.OnSendFailure)] } := by
  obtain ⟨cs, hcs, h⟩ := Task_SendMessage_exact env w m hreq ht hl ho
  obtain ⟨W1, hW1, h⟩ := exists_eq_some_pair h
  have hs : decide ((env.transport w.nSendTo % (U32 : Int)).toNat > 0) = false := by
    simp [hfail]
  rw [hs] at h hW1
  have hreq1 : W1.ep.m_requestMessage = some m := by rw [hW1]; exact hreq
  have hl1 : W1.s_msgCounters.length = 4 := by rw [hW1]; exact hcs
  have hge1 : W1.ep.m_retransmissionCounter ≥ W1.ep.m_serviceBase.m_retransmissionLimit := by
    rw [hW1]; exact hge
  obtain ⟨cs2, hcs2, h2⟩ := Transition_RetransmissionLimitReached_exact W1 m hreq1 ht hl1
  refine ⟨cs2, hcs2, ?_⟩
  unfold UdpClientMessageEndpoint.State_SendingRequest
  rw [h]
  simp only [Bool.false_eq_true, if_false, Option.bind_eq_bind, Option.some_bind,
    UdpClientMessageEndpoint.Transition_SocketSendFailed,
    UdpClientMessageEndpoint.State_SocketResending, hge1, if_true]
  rw [h2, hW1]
  simp

/-! ### The simulator: removal runs of the id cache -/

/-- The step of the simulator when a removal run of the id cache is the next event: the run
is taken from the queue and scheduled again 1000 ms later; apart from the id cache the
endpoint, the counters and the trace stay as they are. -/
theorem fire_sweep (env : Env) (w : World) (S : ScheduledEvent)
    (he : Simulator.earliest w.sim.events = some S) (hS : S.kind = EventKind.RemoveOldRecords) :
    w.fire env = some
      { sim := { now := S.ts, nextUid := w.sim.nextUid + 1,
                 events := w.sim.events.filter (fun x => x.uid ≠ S.uid) ++
                   [{ ts := S.ts + MilliSeconds 1000, uid := w.sim.nextUid,
                      kind := EventKind.RemoveOldRecords }] }
        ep := { w.ep with m_msgCache := { w.ep.m_msgCache with
                  m_ids := (if w.ep.m_msgCache.m_ids.any (fun e => decide (e.2 < S.ts)) then
                      env.eraseOutcome w.ep.m_msgCache.m_ids S.ts
                    else w.ep.m_msgCache.m_ids)
                  m_removeOldRecordsEvent := some w.sim.nextUid } }
        s_messageCounter := w.s_messageCounter
        s_msgCounters := w.s_msgCounters
        nSendTo := w.nSendTo
        trace := w.trace } := by
  unfold World.fire
  rw [he]
  simp only [hS, World.dispatch, EndpointMessageIdCache.RemoveOldRecords]
  rw [schedule_ok _ _ (by decide : (0 : Time) ≤ MilliSeconds 1000)]
  rfl

theorem Quiescent_fire (env : Env) (w : World) (h : w.Quiescent) :
    ∃ w2, w.fire env = some w2 ∧ w2.Quiescent ∧ w2.trace = w.trace := by
  cases he : Simulator.earliest w.sim.events with
  | none =>
    refine ⟨w, ?_, h, rfl⟩
    unfold World.fire
    rw [he]
  | some S =>
    have hS := h S (earliest_mem he)
    refine ⟨_, fire_sweep env w S he hS, ?_, rfl⟩
    intro x hx
    simp only [List.mem_append, List.mem_filter, List.mem_singleton] at hx
    rcases hx with hx | hx
    · exact h x hx.1
    · rw [hx]

theorem fires_add (env : Env) (a b : Nat) (w : World) :
    World.fires env (a + b) w = (World.fires env a w).bind (World.fires env b) := by
  induction a generalizing w with
  | zero => simp [World.fires]
  | succ a ih =>
    rw [Nat.succ_add]
    simp only [World.fires]
    cases World.fire env w with
    | none => rfl
    | some w1 => simp only [Option.some_bind, ih]

theorem Quiescent_fires (env : Env) (n : Nat) (w : World) (h : w.Quiescent) :
    ∃ w2, World.fires env n w = some w2 ∧ w2.Quiescent ∧ w2.trace = w.trace := by
  induction n generalizing w with
  | zero => exact ⟨w, rfl, h, rfl⟩
  | succ n ih =>
    obtain ⟨w1, h1, hq1, ht1⟩ := Quiescent_fire env w h
    obtain ⟨w2, h2, hq2, ht2⟩ := ih w1 hq1
    refine ⟨w2, ?_, hq2, ht2.trans ht1⟩
    simp only [World.fires, h1, Option.some_bind, h2]

/-! ### A call over a transport that rejects every message -/

theorem range_succ_map_attempts (T0 A : Int) (req : Message) (k : Nat) :
    (List.range (k + 1)).map (fun (j : Nat) => (T0 + (j : Int) * A, req)) =
      (List.range k).map (fun (j : Nat) => (T0 + (j : Int) * A, req)) ++ [(T0 + (k : Int) * A, req)] := by
  rw [List.range_succ, List.map_append]
  rfl

/-- The socket timer is the next event of a call in the state `Resending`: the request is
transmitted again and rejected; below the limit the socket timer is started again, at the
limit send-failure is reported and the call is over. -/
theorem Resending_timer (env : Env) (T0 : Time) (sb : ServiceBase) (req : Message)
    (dest : Address) (k : Nat) (S : ScheduledEvent) (u : Nat) (w : World)
    (h : w.Resending T0 sb req dest k S u)
    (hfail : ∀ n, (env.transport n % (U32 : Int)).toNat = 0)
    (ht : 1 ≤ req.m_messageType ∧ req.m_messageType ≤ 4)
    (hA : 0 ≤ sb.m_ACKTimeout) (hLU : sb.m_retransmissionLimit < U32)
    (hkL : k < sb.m_retransmissionLimit)
    (he : Simulator.earliest w.sim.events = some
      { ts := T0 + (k : Int) * sb.m_ACKTimeout, uid := u,
        kind := EventKind.Socket_TimeoutExpired }) :
    ∃ w2, w.fire env = some w2 ∧
      ((k + 1 < sb.m_retransmissionLimit ∧
          w2.Resending T0 sb req dest (k + 1) S w.sim.nextUid) ∨
        (k + 1 = sb.m_retransmissionLimit ∧ w2.SendFailed T0 sb req)) := by
  obtain ⟨W, hW, hfire⟩ : ∃ W : World,
      W = { sim := { now := T0 + (k : Int) * sb.m_ACKTimeout, nextUid := w.sim.nextUid,
                     events := (w.sim.events.filter (fun x => x.uid ≠ u)).filter
                       (fun x => x.uid ≠ u) }
            ep := w.ep, s_messageCounter := w.s_messageCounter
            s_msgCounters := w.s_msgCounters, nSendTo := w.nSendTo, trace := w.trace } ∧
      w.fire env = UdpClientMessageEndpoint.State_SendingRequest env W := by
    refine ⟨_, rfl, ?_⟩
    unfold World.fire
    rw [he]
    simp only [World.dispatch, UdpClientMessageEndpoint.Socket_TimeoutExpired,
      UdpClientMessageEndpoint.Transition_SocketTimeout,
      UdpClientMessageEndpoint.Socket_CancelTimeout, h.socketEvent, Simulator.Cancel]
  have hreq : W.ep.m_requestMessage = some req := by rw [hW]; exact h.request
  have hl : W.s_msgCounters.length = 4 := by rw [hW]; exact h.counters
  have ho : W.ep.m_socketOpen = true := by rw [hW]; exact h.socketOpen
  have hA2 : 0 ≤ W.ep.m_serviceBase.m_ACKTimeout := by rw [hW]; simp only [h.serviceBase]; exact hA
  have hmod : (k + 1) % U32 = k + 1 := Nat.mod_eq_of_lt (by omega)
  have hcnt : (W.ep.m_retransmissionCounter + 1) % U32 = k + 1 := by
    rw [hW]; simp only [h.counter]; exact hmod
  have hmemW : ∀ x, x ∈ W.sim.events ↔ x = S ∨
      x = { ts := T0 + sb.m_responseTimeout, uid := 1,
            kind := EventKind.Response_TimeoutExpired } := by
    intro x
    rw [hW]
    simp only [List.mem_filter, h.mem, decide_eq_true_eq]
    constructor
    · rintro ⟨⟨hx | hx | hx, hu⟩, _⟩
      · exact Or.inl hx
      · exact Or.inr hx
      · rw [hx] at hu
        exact absurd rfl hu
    · rintro (hx | hx)
      · rw [hx]
        exact ⟨⟨Or.inl rfl, h.suid.2.2⟩, h.suid.2.2⟩
      · rw [hx]
        exact ⟨⟨Or.inr (Or.inl rfl), fun hc => h.uuid.2.1 hc.symm⟩,
          fun hc => h.uuid.2.1 hc.symm⟩
  by_cases hlim : k + 1 < sb.m_retransmissionLimit
  · obtain ⟨cs, hcs, h2⟩ := State_SendingRequest_retry env W req hreq ht hl ho hA2 (hfail _)
      (by rw [hcnt]; rw [hW]; simp only [h.serviceBase]; exact hlim)
    refine ⟨_, hfire.trans h2, Or.inl ⟨hlim, ?_⟩⟩
    rw [hcnt]
    refine ⟨h.sweep, ?_, ?_, ?_, ?_, ?_, ?_, ?_, rfl, ?_, ?_, ?_, hcs, ?_, ?_⟩
    · intro x
      simp only [List.mem_append, List.mem_singleton, hmemW]
      have hts : W.sim.now + W.ep.m_serviceBase.m_ACKTimeout
          = T0 + ((k + 1 : Nat) : Int) * sb.m_ACKTimeout := by
        rw [hW]
        simp only [h.serviceBase]
        push_cast
        ring
      have hnu : W.sim.nextUid = w.sim.nextUid := by rw [hW]
      rw [hts, hnu]
      tauto
    · have hnu : W.sim.nextUid = w.sim.nextUid := by rw [hW]
      simp only [hnu]
      exact ⟨by have := h.suid.1; omega, h.suid.2.1, by have := h.suid.1; omega⟩
    · have hnu : W.sim.nextUid = w.sim.nextUid := by rw [hW]
      simp only [hnu]
      exact ⟨by omega, by have := h.uuid.2.2; omega, by have := h.uuid.2.2; omega⟩
    · show W.ep.m_requestMessage = some req
      exact hreq
    · show W.ep.m_requestAddress = dest
      rw [hW]; exact h.address
    · show W.ep.m_serviceBase = sb
      rw [hW]; exact h.serviceBase
    · show W.ep.m_socketOpen = true
      exact ho
    · show W.ep.m_ACKTimeoutEvent = none
      rw [hW]; exact h.ackEvent
    · show W.ep.m_responseTimeoutEvent = some 1
      rw [hW]; exact h.responseEvent
    · show some W.sim.nextUid = some w.sim.nextUid
      rw [hW]
    · show World.requestAttempts (W.trace ++ _) = _
      rw [requestAttempts_append, range_succ_map_attempts]
      rw [hW]
      simp only [h.attempts, World.requestAttempts, h.request]
      simp
    · show World.outcomes (W.trace ++ _) = _
      rw [outcomes_append]
      rw [hW]
      simp only [h.outcomes]
      rfl
  · have hkeq : k + 1 = sb.m_retransmissionLimit := by omega
    obtain ⟨cs, hcs, h2⟩ := State_SendingRequest_limit env W req hreq ht hl ho (hfail _)
      (by rw [hcnt]; rw [hW]; simp only [h.serviceBase]; omega)
    refine ⟨_, hfire.trans h2, Or.inr ⟨hkeq, ?_⟩⟩
    rw [hcnt]
    refine ⟨?_, ?_, ?_⟩
    · intro x hx
      have hx2 : x ∈ W.sim.events := by
        have hse : W.ep.m_socketTimeoutEvent = some u := by rw [hW]; exact h.socketEvent
        have hae : W.ep.m_ACKTimeoutEvent = none := by rw [hW]; exact h.ackEvent
        have hre : W.ep.m_responseTimeoutEvent = some 1 := by rw [hW]; exact h.responseEvent
        simp only [hse, hae, hre, Simulator.Cancel, List.mem_filter] at hx
        exact hx.1.1
      have hx3 : x.uid ≠ 1 := by
        have hse : W.ep.m_socketTimeoutEvent = some u := by rw [hW]; exact h.socketEvent
        have hae : W.ep.m_ACKTimeoutEvent = none := by rw [hW]; exact h.ackEvent
        have hre : W.ep.m_responseTimeoutEvent = some 1 := by rw [hW]; exact h.responseEvent
        simp only [hse, hae, hre, Simulator.Cancel, List.mem_filter, decide_eq_true_eq] at hx
        exact hx.2
      rcases (hmemW x).mp hx2 with hx4 | hx4
      · rw [hx4]; exact h.sweep
      · rw [hx4] at hx3
        exact absurd rfl hx3
    · show World.requestAttempts (W.trace ++ _) = _
      rw [requestAttempts_append, ← hkeq, range_succ_map_attempts]
      rw [hW]
      simp only [h.attempts, World.requestAttempts, h.request]
      simp
    · show World.outcomes (W.trace ++ _) = _
      rw [outcomes_append]
      rw [hW]
      simp only [h.outcomes, ← hkeq]
      simp [World.outcomes]

/-- One step of the simulator on a call in the state `Resending`, the socket timer being due
before the response timer: either the removal run of the id cache runs and the state stays,
or the socket timer runs. -/
theorem Resending_fire (env : Env) (T0 : Time) (sb : ServiceBase) (req : Message)
    (dest : Address) (k : Nat) (S : ScheduledEvent) (u : Nat) (w : World)
    (h : w.Resending T0 sb req dest k S u)
    (hfail : ∀ n, (env.transport n % (U32 : Int)).toNat = 0)
    (ht : 1 ≤ req.m_messageType ∧ req.m_messageType ≤ 4)
    (hA : 0 ≤ sb.m_ACKTimeout) (hLU : sb.m_retransmissionLimit < U32)
    (hkL : k < sb.m_retransmissionLimit)
    (hR : (k : Int) * sb.m_ACKTimeout < sb.m_responseTimeout) :
    ∃ w2, w.fire env = some w2 ∧
      ((@LE.le Int _ S.ts (T0 + (k : Int) * sb.m_ACKTimeout) ∧
          w2.Resending T0 sb req dest k
            { ts := S.ts + MilliSeconds 1000, uid := w.sim.nextUid,
              kind := EventKind.RemoveOldRecords } u) ∨
        (k + 1 < sb.m_retransmissionLimit ∧
          w2.Resending T0 sb req dest (k + 1) S w.sim.nextUid) ∨
        (k + 1 = sb.m_retransmissionLimit ∧ w2.SendFailed T0 sb req)) := by
  have hSmem : S ∈ w.sim.events := (h.mem S).2 (Or.inl rfl)
  have hsock : ScheduledEvent.mk (T0 + (k : Int) * sb.m_ACKTimeout) u
      EventKind.Socket_TimeoutExpired ∈ w.sim.events :=
    (h.mem _).2 (Or.inr (Or.inr rfl))
  obtain ⟨m, hm⟩ := earliest_some (List.ne_nil_of_mem hSmem)
  have hle := earliest_le hm _ hsock
  rw [before_iff] at hle
  rcases (h.mem m).1 (earliest_mem hm) with hmS | hmR | hmT
  · subst hmS
    refine ⟨_, fire_sweep env w m hm h.sweep, Or.inl ⟨?_, ?_⟩⟩
    · simp only at hle
      omega
    · refine ⟨rfl, ?_, ?_, ?_, h.request, h.address, h.serviceBase, h.socketOpen, h.counter,
        h.ackEvent, h.responseEvent, h.socketEvent, h.counters, h.attempts, h.outcomes⟩
      · intro x
        simp only [List.mem_append, List.mem_filter, List.mem_singleton, h.mem,
          decide_eq_true_eq]
        constructor
        · rintro (⟨hx | hx | hx, hu⟩ | hx)
          · rw [hx] at hu
            exact absurd rfl hu
          · exact Or.inr (Or.inl hx)
          · exact Or.inr (Or.inr hx)
          · exact Or.inl hx
        · rintro (hx | hx | hx)
          · exact Or.inr hx
          · rw [hx]
            exact Or.inl ⟨Or.inr (Or.inl rfl), fun hc => h.suid.2.1 hc.symm⟩
          · rw [hx]
            exact Or.inl ⟨Or.inr (Or.inr rfl), fun hc => h.suid.2.2 hc.symm⟩
      · have h1 := h.uuid
        exact ⟨Nat.lt_succ_self _, by show w.sim.nextUid ≠ 1; omega,
          by show w.sim.nextUid ≠ u; omega⟩
      · have h1 := h.uuid
        exact ⟨by show u < w.sim.nextUid + 1; omega, h1.2.1,
          by show 1 < w.sim.nextUid + 1; omega⟩
  · subst hmR
    simp only at hle
    omega
  · subst hmT
    obtain ⟨w2, hf, hcase⟩ := Resending_timer env T0 sb req dest k S u w h hfail ht hA hLU hkL hm
    exact ⟨w2, hf, Or.inr hcase⟩

theorem Cancel_none (sim : Simulator) : sim.Cancel none = sim := rfl

theorem SendMessage_open (env : Env) (w : World) (req : Message) (dest : Address)
    (waitForResponse : Bool) (ho : w.ep.m_socketOpen = true) :
    UdpClientMessageEndpoint.SendMessage env w req dest waitForResponse =
      UdpClientMessageEndpoint.Transition_StartSendMessage env
        { w with ep := { w.ep with
            m_requestMessage := some req
            m_requestAddress := dest
            m_waitForResponse := waitForResponse
            m_responseMessage := none } } := by
  unfold UdpClientMessageEndpoint.SendMessage
  simp only [ho, Bool.not_true, Bool.false_eq_true, if_false]
  rfl

theorem Transition_StartSendMessage_idle (env : Env) (w : World)
    (h1 : w.ep.m_socketTimeoutEvent = none) (h2 : w.ep.m_ACKTimeoutEvent = none)
    (h3 : w.ep.m_responseTimeoutEvent = none)
    (hR : 0 ≤ w.ep.m_serviceBase.m_responseTimeout) :
    UdpClientMessageEndpoint.Transition_StartSendMessage env w =
      UdpClientMessageEndpoint.State_SendingRequest env
        { w with
          sim := { w.sim with
            nextUid := w.sim.nextUid + 1
            events := w.sim.events ++
              [{ ts := w.sim.now + w.ep.m_serviceBase.m_responseTimeout, uid := w.sim.nextUid,
                 kind := EventKind.Response_TimeoutExpired }] }
          ep := { w.ep with
            m_retransmissionCounter := 0
            m_responseTimeoutEvent := some w.sim.nextUid } } := by
  unfold UdpClientMessageEndpoint.Transition_StartSendMessage
    UdpClientMessageEndpoint.Response_StartTimeout
    UdpClientMessageEndpoint.Response_CancelTimeout
    UdpClientMessageEndpoint.ACK_CancelTimeout
    UdpClientMessageEndpoint.Socket_CancelTimeout
  simp only [h1, h2, h3, Cancel_none]
  rw [schedule_ok _ _ hR]
  rfl

/-- The call `SendMessage` on a newly created endpoint: the response timer is started with
uid 1 and `State_SendingRequest` is entered with the retransmission counter 0. -/
theorem SendMessage_create (env : Env) (T0 : Time) (sb : ServiceBase) (wfr0 : Bool) (rc0 : Nat)
    (req : Message) (dest : Address) (waitForResponse : Bool)
    (hR : 0 ≤ sb.m_responseTimeout) :
    UdpClientMessageEndpoint.SendMessage env (World.create T0 sb wfr0 rc0) req dest
        waitForResponse =
      UdpClientMessageEndpoint.State_SendingRequest env
        (World.started T0 sb req dest waitForResponse) := by
  rw [SendMessage_open env _ req dest waitForResponse rfl,
    Transition_StartSendMessage_idle env _ rfl rfl rfl hR]
  rfl

theorem MilliSeconds_1000 : MilliSeconds 1000 = (1000000000 : Int) := by
  unfold MilliSeconds
  norm_num

/-- A call over a rejecting transport that is started on a newly created endpoint is in the
state `Resending` after one transmission, or has failed at once when the limit is 1. -/
theorem SendMessage_create_failing (env : Env) (T0 : Time) (sb : ServiceBase) (wfr0 : Bool)
    (rc0 : Nat) (req : Message) (dest : Address) (waitForResponse : Bool)
    (hfail : ∀ n, (env.transport n % (U32 : Int)).toNat = 0)
    (ht : 1 ≤ req.m_messageType ∧ req.m_messageType ≤ 4)
    (hA : 0 ≤ sb.m_ACKTimeout) (hR : 0 ≤ sb.m_responseTimeout)
    (hL1 : 1 ≤ sb.m_retransmissionLimit) :
    ∃ w0, UdpClientMessageEndpoint.SendMessage env (World.create T0 sb wfr0 rc0) req dest
        waitForResponse = some w0 ∧ w0.FailingInv T0 sb req dest := by
  have hstart := SendMessage_create env T0 sb wfr0 rc0 req dest waitForResponse hR
  by_cases hlim : 1 < sb.m_retransmissionLimit
  · obtain ⟨cs, hcs, h2⟩ := State_SendingRequest_retry env
      (World.started T0 sb req dest waitForResponse) req rfl ht rfl rfl hA (hfail _) hlim
    refine ⟨_, hstart.trans h2, Or.inl ⟨1, ScheduledEvent.mk (T0 + MilliSeconds 1000) 0
      EventKind.RemoveOldRecords, 2, Nat.le_refl 1, hlim, ?_⟩⟩
    refine ⟨rfl, ?_, ?_, ?_, rfl, rfl, rfl, rfl, rfl, rfl, rfl, rfl, hcs, ?_, ?_⟩
    · intro x
      simp only [World.started, List.cons_append, List.nil_append, List.mem_cons,
        List.mem_singleton, List.not_mem_nil, or_false, Nat.cast_one, one_mul]
    · exact ⟨by simp [World.started], by simp, by simp⟩
    · exact ⟨by simp [World.started], by simp, by simp [World.started]⟩
    · simp [World.started, World.requestAttempts, (by decide : U32 ≠ 1), List.range_succ]
    · rfl
  · have hLeq : sb.m_retransmissionLimit = 1 := by omega
    obtain ⟨cs, hcs, h2⟩ := State_SendingRequest_limit env
      (World.started T0 sb req dest waitForResponse) req rfl ht rfl rfl (hfail _)
      (Nat.le_of_eq hLeq)
    refine ⟨_, hstart.trans h2, Or.inr ?_⟩
    refine ⟨?_, ?_, ?_⟩
    · intro x hx
      simp only [World.started, Simulator.Cancel, List.mem_filter, List.mem_cons,
        List.mem_singleton, List.not_mem_nil, or_false, decide_eq_true_eq] at hx
      rcases hx with ⟨hx | hx, hu⟩
      · rw [hx]
      · rw [hx] at hu
        exact absurd rfl hu
    · simp [World.started, World.requestAttempts, hLeq, (by decide : U32 ≠ 1),
        List.range_succ]
    · simp [World.started, World.outcomes, hLeq]

theorem ack_multiple_lt_response {sb : ServiceBase} {k : Nat} (hA : 0 ≤ sb.m_ACKTimeout)
    (hkL : k < sb.m_retransmissionLimit)
    (hRL : ((sb.m_retransmissionLimit : Int) - 1) * sb.m_ACKTimeout < sb.m_responseTimeout) :
    (k : Int) * sb.m_ACKTimeout < sb.m_responseTimeout := by
  have hk : (k : Int) ≤ (sb.m_retransmissionLimit : Int) - 1 := by omega
  exact lt_of_le_of_lt (mul_le_mul_of_nonneg_right hk hA) hRL

theorem SendFailed_fires (env : Env) (T0 : Time) (sb : ServiceBase) (req : Message) (n : Nat)
    (w : World) (h : w.SendFailed T0 sb req) :
    ∃ w2, World.fires env n w = some w2 ∧ w2.SendFailed T0 sb req := by
  obtain ⟨w2, h2, hq, htr⟩ := Quiescent_fires env n w h.quiescent
  exact ⟨w2, h2, hq, by rw [htr]; exact h.attempts, by rw [htr]; exact h.outcomes⟩

/-- One step of the simulator keeps the invariant of a call over a rejecting transport. -/
theorem FailingInv_fire (env : Env) (T0 : Time) (sb : ServiceBase) (req : Message)
    (dest : Address) (w : World) (h : w.FailingInv T0 sb req dest)
    (hfail : ∀ n, (env.transport n % (U32 : Int)).toNat = 0)
    (ht : 1 ≤ req.m_messageType ∧ req.m_messageType ≤ 4)
    (hA : 0 ≤ sb.m_ACKTimeout) (hLU : sb.m_retransmissionLimit < U32)
    (hRL : ((sb.m_retransmissionLimit : Int) - 1) * sb.m_ACKTimeout < sb.m_responseTimeout) :
    ∃ w2, w.fire env = some w2 ∧ w2.FailingInv T0 sb req dest := by
  rcases h with ⟨k, S, u, hk1, hkL, hres⟩ | hf
  · obtain ⟨w2, hf, hcase⟩ := Resending_fire env T0 sb req dest k S u w hres hfail ht hA hLU hkL
      (ack_multiple_lt_response hA hkL hRL)
    refine ⟨w2, hf, ?_⟩
    rcases hcase with ⟨_, hr⟩ | ⟨hlt, hr⟩ | ⟨_, hr⟩
    · exact Or.inl ⟨k, _, u, hk1, hkL, hr⟩
    · exact Or.inl ⟨k + 1, S, _, by omega, hlt, hr⟩
    · exact Or.inr hr
  · obtain ⟨w2, h2, hs⟩ := SendFailed_fires env T0 sb req 1 w hf
    refine ⟨w2, ?_, Or.inr hs⟩
    simp only [World.fires, Option.bind_eq_some] at h2
    obtain ⟨w1, h1, h3⟩ := h2
    simp only [Option.some.injEq] at h3
    subst h3
    exact h1

theorem FailingInv_fires (env : Env) (T0 : Time) (sb : ServiceBase) (req : Message)
    (dest : Address) (n : Nat) (w : World) (h : w.FailingInv T0 sb req dest)
    (hfail : ∀ n, (env.transport n % (U32 : Int)).toNat = 0)
    (ht : 1 ≤ req.m_messageType ∧ req.m_messageType ≤ 4)
    (hA : 0 ≤ sb.m_ACKTimeout) (hLU : sb.m_retransmissionLimit < U32)
    (hRL : ((sb.m_retransmissionLimit : Int) - 1) * sb.m_ACKTimeout < sb.m_responseTimeout) :
    ∃ w2, World.fires env n w = some w2 ∧ w2.FailingInv T0 sb req dest := by
  induction n generalizing w with
  | zero => exact ⟨w, rfl, h⟩
  | succ n ih =>
    obtain ⟨w1, h1, hi1⟩ := FailingInv_fire env T0 sb req dest w h hfail ht hA hLU hRL
    obtain ⟨w2, h2, hi2⟩ := ih w1 hi1
    exact ⟨w2, by simp only [World.fires, h1, Option.some_bind, h2], hi2⟩

/-- A call in the state `Resending` leaves it after finitely many steps of the simulator:
the removal runs of the id cache that are due before the socket timer run first, then the
socket timer. -/
theorem Resending_advance (env : Env) (T0 : Time) (sb : ServiceBase) (req : Message)
    (dest : Address) (k : Nat) (u : Nat)
    (hfail : ∀ n, (env.transport n % (U32 : Int)).toNat = 0)
    (ht : 1 ≤ req.m_messageType ∧ req.m_messageType ≤ 4)
    (hA : 0 ≤ sb.m_ACKTimeout) (hLU : sb.m_retransmissionLimit < U32)
    (hkL : k < sb.m_retransmissionLimit)
    (hR : (k : Int) * sb.m_ACKTimeout < sb.m_responseTimeout) (d : Nat) :
    ∀ (S : ScheduledEvent) (w : World), w.Resending T0 sb req dest k S u →
      Int.toNat (T0 + (k : Int) * sb.m_ACKTimeout - S.ts + 1) ≤ d →
      ∃ n w2, World.fires env n w = some w2 ∧
        ((k + 1 < sb.m_retransmissionLimit ∧ ∃ S2 u2, w2.Resending T0 sb req dest (k + 1) S2 u2) ∨
          (k + 1 = sb.m_retransmissionLimit ∧ w2.SendFailed T0 sb req)) := by
  induction d with
  | zero =>
    intro S w h hd
    obtain ⟨w2, hf, hcase⟩ := Resending_fire env T0 sb req dest k S u w h hfail ht hA hLU hkL hR
    refine ⟨1, w2, by simp only [World.fires, hf, Option.some_bind], ?_⟩
    rcases hcase with ⟨hle, _⟩ | ⟨hlt, hr⟩ | ⟨he, hr⟩
    · omega
    · exact Or.inl ⟨hlt, S, _, hr⟩
    · exact Or.inr ⟨he, hr⟩
  | succ d ih =>
    intro S w h hd
    obtain ⟨w2, hf, hcase⟩ := Resending_fire env T0 sb req dest k S u w h hfail ht hA hLU hkL hR
    rcases hcase with ⟨hle, hr⟩ | ⟨hlt, hr⟩ | ⟨he, hr⟩
    · obtain ⟨n, w3, h3, hc3⟩ := ih _ w2 hr (by
        simp only [MilliSeconds_1000]
        omega)
      exact ⟨n + 1, w3, by simp only [World.fires, hf, Option.some_bind, h3], hc3⟩
    · exact ⟨1, w2, by simp only [World.fires, hf, Option.some_bind], Or.inl ⟨hlt, S, _, hr⟩⟩
    · exact ⟨1, w2, by simp only [World.fires, hf, Option.some_bind], Or.inr ⟨he, hr⟩⟩

/-- A call over a rejecting transport fails after finitely many steps of the simulator. -/
theorem Resending_reaches_failure (env : Env) (T0 : Time) (sb : ServiceBase) (req : Message)
    (dest : Address)
    (hfail : ∀ n, (env.transport n % (U32 : Int)).toNat = 0)
    (ht : 1 ≤ req.m_messageType ∧ req.m_messageType ≤ 4)
    (hA : 0 ≤ sb.m_ACKTimeout) (hLU : sb.m_retransmissionLimit < U32)
    (hRL : ((sb.m_retransmissionLimit : Int) - 1) * sb.m_ACKTimeout < sb.m_responseTimeout)
    (j : Nat) :
    ∀ (k : Nat) (S : ScheduledEvent) (u : Nat) (w : World),
      k < sb.m_retransmissionLimit → sb.m_retransmissionLimit - k ≤ j →
      w.Resending T0 sb req dest k S u →
      ∃ n w2, World.fires env n w = some w2 ∧ w2.SendFailed T0 sb req := by
  induction j with
  | zero =>
    intro k S u w hkL hj _
    omega
  | succ j ih =>
    intro k S u w hkL hj h
    obtain ⟨n, w2, h2, hcase⟩ := Resending_advance env T0 sb req dest k u hfail ht hA hLU hkL
      (ack_multiple_lt_response hA hkL hRL) _ S w h (Nat.le_refl _)
    rcases hcase with ⟨hlt, S2, u2, hr⟩ | ⟨_, hr⟩
    · obtain ⟨n3, w3, h3, hs3⟩ := ih (k + 1) S2 u2 w2 hlt (by omega) hr
      exact ⟨n + n3, w3, by rw [fires_add, h2, Option.some_bind, h3], hs3⟩
    · exact ⟨n, w2, h2, hr⟩

theorem FailingInv_facts {T0 : Time} {sb : ServiceBase} {req : Message} {dest : Address}
    {w : World} (h : w.FailingInv T0 sb req dest) :
    (∃ k, k ≤ sb.m_retransmissionLimit ∧ World.requestAttempts w.trace =
      (List.range k).map (fun (j : Nat) => (T0 + (j : Int) * sb.m_ACKTimeout, req))) ∧
    (World.outcomes w.trace = [] ∨ World.outcomes w.trace =
      [(T0 + ((sb.m_retransmissionLimit : Int) - 1) * sb.m_ACKTimeout,
        Output.OnSendFailure)]) := by
  rcases h with ⟨k, S, u, _, hkL, hr⟩ | hf
  · exact ⟨⟨k, Nat.le_of_lt hkL, hr.attempts⟩, Or.inl hr.outcomes⟩
  · exact ⟨⟨_, Nat.le_refl _, hf.attempts⟩, Or.inr hf.outcomes⟩

/-- C15: a disabled fault model of any of the five classes reports no corruption and
leaves the caller's `isGeneratingException`, its own state and the random draws as they
were, whatever value the caller's variable had. -/
theorem C15_disabled_fault_model_returns_false (fm : FaultModel) (now : Time) (rng : Rng)
    (isGeneratingException : Bool) (h : fm.IsEnabled = false) :
    fm.IsCorrupt now rng isGeneratingException = (false, isGeneratingException, fm, rng) := by
  simp [FaultModel.IsCorrupt, h]

theorem C15_disabled_fault_model_returns_false_witness :
    (FaultModel.SingleRateFaultModel false true 500000 { tag := 1 }).IsCorrupt 0
        { values := [0], integers := [] } false =
      (false, false, FaultModel.SingleRateFaultModel false true 500000 { tag := 1 },
        { values := [0], integers := [] }) ∧
    (FaultModel.AbsoluteTimeFaultModel false true 0 0).IsCorrupt 0
        { values := [0], integers := [] } true =
      (false, true, FaultModel.AbsoluteTimeFaultModel false true 0 0,
        { values := [0], integers := [] }) ∧
    (FaultModel.OnOffTimeFaultModel false true true { tag := 1 } { tag := 2 }).IsCorrupt 0
        { values := [0], integers := [] } false =
      (false, false, FaultModel.OnOffTimeFaultModel false true true { tag := 1 } { tag := 2 },
        { values := [0], integers := [] }) ∧
    (FaultModel.OnOffRateFaultModel false true true 500000 { tag := 1 } 500000
        { tag := 2 }).IsCorrupt 0 { values := [0], integers := [] } true =
      (false, true,
        FaultModel.OnOffRateFaultModel false true true 500000 { tag := 1 } 500000
          { tag := 2 },
        { values := [0], integers := [] }) ∧
    (FaultModel.CompositeFaultModel false
        [FaultModel.SingleRateFaultModel true true 500000 { tag := 1 }]).IsCorrupt 0
        { values := [0], integers := [] } false =
      (false, false,
        FaultModel.CompositeFaultModel false
          [FaultModel.SingleRateFaultModel true true 500000 { tag := 1 }],
        { values := [0], integers := [] }) :=
  ⟨C15_disabled_fault_model_returns_false _ _ _ false rfl,
   C15_disabled_fault_model_returns_false _ _ _ true rfl,
   C15_disabled_fault_model_returns_false _ _ _ false rfl,
   C15_disabled_fault_model_returns_false _ _ _ true rfl,
   C15_disabled_fault_model_returns_false _ _ _ false rfl⟩

theorem IsCorrupt_of_enabled (fm : FaultModel) (now : Time) (rng : Rng) (flag : Bool)
    (h : fm.IsEnabled = true) :
    fm.IsCorrupt now rng flag = fm.IsCorruptQuery now rng flag := by
  simp [FaultModel.IsCorrupt, h]

theorem IsCorruptQuery_loop_QueriedInOrder (now : Time) (ms : List FaultModel) :
    ∀ (rng : Rng) (flag : Bool),
      ∃ ms2 rng2 outcome,
        FaultModel.IsCorruptQuery.loop ms now rng flag =
          (outcome.isSome, outcome.getD false, ms2, rng2) ∧
        CompositeFaultModel.QueriedInOrder now ms rng flag ms2 rng2 outcome := by
  induction ms with
  | nil =>
    intro rng flag
    refine ⟨[], rng, none, ?_, CompositeFaultModel.QueriedInOrder.nonePositive rng flag⟩
    simp [FaultModel.IsCorruptQuery.loop]
  | cons m rest ih =>
    intro rng flag
    cases hen : m.IsEnabled with
    | false =>
      obtain ⟨ms2, rng2, o, h1, h2⟩ := ih rng flag
      refine ⟨m :: ms2, rng2, o, ?_,
        CompositeFaultModel.QueriedInOrder.disabledNotQueried m rest ms2 rng rng2 flag o hen h2⟩
      rw [FaultModel.IsCorruptQuery.loop]
      simp [hen, h1]
    | true =>
      have hq := IsCorrupt_of_enabled m now rng flag hen
      rcases hres : m.IsCorruptQuery now rng flag with ⟨r, f1, m1, rng1⟩
      cases r with
      | true =>
        refine ⟨m1 :: rest, rng1, some f1, ?_,
          CompositeFaultModel.QueriedInOrder.firstPositive m m1 rest rng rng1 flag f1 hen
            (hq.trans hres)⟩
        rw [FaultModel.IsCorruptQuery.loop]
        simp [hen, hres]
      | false =>
        obtain ⟨ms2, rng2, o, h1, h2⟩ := ih rng1 f1
        refine ⟨m1 :: ms2, rng2, o, ?_,
          CompositeFaultModel.QueriedInOrder.negative m m1 rest ms2 rng rng1 rng2 flag f1 o hen
            (hq.trans hres) h2⟩
        rw [FaultModel.IsCorruptQuery.loop]
        simp [hen, hres, h1]

theorem QueriedInOrder_unique {now : Time} {ms ms2 ms3 : List FaultModel} {rng rng2 rng3 : Rng}
    {flag : Bool} {o2 o3 : Option Bool}
    (h2 : CompositeFaultModel.QueriedInOrder now ms rng flag ms2 rng2 o2)
    (h3 : CompositeFaultModel.QueriedInOrder now ms rng flag ms3 rng3 o3) :
    ms2 = ms3 ∧ rng2 = rng3 ∧ o2 = o3 := by
  induction h2 generalizing ms3 rng3 o3 with
  | nonePositive rng flag =>
    cases h3
    exact ⟨rfl, rfl, rfl⟩
  | disabledNotQueried m rest rest2 rng rng2 flag o hen _ ih =>
    cases h3 with
    | disabledNotQueried _ _ rest3 _ _ _ _ _ h =>
      obtain ⟨e1, e2, e3⟩ := ih h
      exact ⟨by rw [e1], e2, e3⟩
    | negative _ _ _ _ _ _ _ _ _ _ hen2 _ _ => rw [hen] at hen2; cases hen2
    | firstPositive _ _ _ _ _ _ _ hen2 _ => rw [hen] at hen2; cases hen2
  | negative m m1 rest rest2 rng rng1 rng2 flag f1 o hen hq _ ih =>
    cases h3 with
    | disabledNotQueried _ _ rest3 _ _ _ _ hen2 h => rw [hen] at hen2; cases hen2
    | negative _ m1b _ rest3 _ rng1b _ _ f1b _ _ hq2 h =>
      rw [hq] at hq2
      simp only [Prod.mk.injEq, true_and] at hq2
      obtain ⟨ef, em, er⟩ := hq2
      subst ef em er
      obtain ⟨e1, e2, e3⟩ := ih h
      exact ⟨by rw [e1], e2, e3⟩
    | firstPositive _ _ _ _ _ _ _ _ hq2 =>
      rw [hq] at hq2
      simp at hq2
  | firstPositive m m1 rest rng rng1 flag f1 hen hq =>
    cases h3 with
    | disabledNotQueried _ _ rest3 _ _ _ _ hen2 h => rw [hen] at hen2; cases hen2
    | negative _ _ _ _ _ _ _ _ _ _ _ hq2 _ =>
      rw [hq] at hq2
      simp at hq2
    | firstPositive _ _ _ _ _ _ _ _ hq2 =>
      rw [hq] at hq2
      simp only [Prod.mk.injEq, true_and] at hq2
      obtain ⟨ef, em, er⟩ := hq2
      subst ef em er
      exact ⟨rfl, rfl, rfl⟩

/-- C16: the query of an enabled composite fault model is the run through its sub-models in
insertion order that `QueriedInOrder` describes, and that run has one outcome only. The
result is true exactly when the run ends at a first positive enabled sub-model; the flag is
then the one that sub-model set, the sub-models after it keep their state and no further
draw is taken; with no positive enabled sub-model the result and the flag are false;
disabled sub-models keep their state and take no draw. -/
theorem C16_composite_queries_in_order (ms : List FaultModel) (now : Time) (rng : Rng)
    (isGeneratingException : Bool) :
    ∃ ms2 rng2 outcome,
      (FaultModel.CompositeFaultModel true ms).IsCorrupt now rng isGeneratingException =
        (outcome.isSome, outcome.getD false, FaultModel.CompositeFaultModel true ms2, rng2) ∧
      CompositeFaultModel.QueriedInOrder now ms rng isGeneratingException ms2 rng2 outcome ∧
      ∀ ms3 rng3 outcome3,
        CompositeFaultModel.QueriedInOrder now ms rng isGeneratingException ms3 rng3 outcome3 →
        ms3 = ms2 ∧ rng3 = rng2 ∧ outcome3 = outcome := by
  obtain ⟨ms2, rng2, o, h1, h2⟩ := IsCorruptQuery_loop_QueriedInOrder now ms rng
    isGeneratingException
  refine ⟨ms2, rng2, o, ?_, h2, fun ms3 rng3 o3 h3 => QueriedInOrder_unique h3 h2⟩
  rw [IsCorrupt_of_enabled (FaultModel.CompositeFaultModel true ms) _ _ _ rfl,
    FaultModel.IsCorruptQuery]
  simp [h1]

/-- C17: for an enabled `AbsoluteTimeFaultModel` the query returns true exactly when
`m_to ≤ now ≤ m_from`, the two comparisons of the source being the reverse of a test for
`m_from ≤ now ≤ m_to`; with the window from 10 ms to 20 ms the query at 15 ms returns
false, and so does every query for a window with `m_from < m_to`. -/
theorem C17_absolute_time_window_reversed :
    (∀ (g : Bool) (m_from m_to now : Time) (rng : Rng) (flag : Bool),
      ((FaultModel.AbsoluteTimeFaultModel true g m_from m_to).IsCorrupt now rng flag).1 = true
        ↔ (m_to ≤ now ∧ now ≤ m_from)) ∧
    (∀ (g : Bool) (m_from m_to now : Time) (rng : Rng) (flag : Bool), m_from < m_to →
      ((FaultModel.AbsoluteTimeFaultModel true g m_from m_to).IsCorrupt now rng flag).1
        = false) ∧
    ((FaultModel.AbsoluteTimeFaultModel true true (MilliSeconds 10) (MilliSeconds 20)).IsCorrupt
      (MilliSeconds 15) { values := [], integers := [] } false).1 = false := by
  have h1 : ∀ (g : Bool) (m_from m_to now : Time) (rng : Rng) (flag : Bool),
      ((FaultModel.AbsoluteTimeFaultModel true g m_from m_to).IsCorrupt now rng flag).1 = true
        ↔ (m_to ≤ now ∧ now ≤ m_from) := by
    intro g m_from m_to now rng flag
    rw [IsCorrupt_of_enabled (FaultModel.AbsoluteTimeFaultModel true g m_from m_to) _ _ _ rfl,
      FaultModel.IsCorruptQuery]
    simp only [ge_iff_le, Bool.and_eq_true, decide_eq_true_eq]
    exact And.comm
  refine ⟨h1, ?_, by decide⟩
  intro g m_from m_to now rng flag hlt
  cases hr : ((FaultModel.AbsoluteTimeFaultModel true g m_from m_to).IsCorrupt now rng flag).1
  · rfl
  · have h2 := (h1 g m_from m_to now rng flag).mp hr
    exact absurd (lt_of_lt_of_le hlt (le_trans h2.1 h2.2)) (lt_irrefl _)

/-- C18: a query of an enabled `OnOffRateFaultModel` in the phase `m_state` takes one draw,
from `m_onRanvar` in the on phase and from `m_offRanvar` in the off phase; the phase flips
exactly when the draw is below `m_onRate` (on phase) or below `m_offRate` (off phase); the
query returns the phase after the flip and sets the flag to `m_isGeneratingException`. -/
theorem C18_on_off_rate_query (g m_state : Bool) (m_offRate : Double)
    (m_offRanvar : RandomVariable) (m_onRate : Double) (m_onRanvar : RandomVariable)
    (now : Time) (rng : Rng) (flag : Bool) :
    ∃ newState,
      (FaultModel.OnOffRateFaultModel true g m_state m_offRate m_offRanvar m_onRate
          m_onRanvar).IsCorrupt now rng flag =
        (newState, g,
          FaultModel.OnOffRateFaultModel true g newState m_offRate m_offRanvar m_onRate
            m_onRanvar,
          (if m_state then m_onRanvar.GetValue rng else m_offRanvar.GetValue rng).2) ∧
      (newState ≠ m_state ↔
        (m_state = true ∧ (m_onRanvar.GetValue rng).1 < m_onRate) ∨
        (m_state = false ∧ (m_offRanvar.GetValue rng).1 < m_offRate)) := by
  rw [IsCorrupt_of_enabled (FaultModel.OnOffRateFaultModel true g m_state m_offRate
    m_offRanvar m_onRate m_onRanvar) _ _ _ rfl, FaultModel.IsCorruptQuery]
  cases m_state
  · by_cases h : (m_offRanvar.GetValue rng).1 < m_offRate
    · exact ⟨true, by simp [h], by simp [h]⟩
    · exact ⟨false, by simp [h], by simp [h]⟩
  · by_cases h : (m_onRanvar.GetValue rng).1 < m_onRate
    · exact ⟨false, by simp [h], by simp [h]⟩
    · exact ⟨true, by simp [h], by simp [h]⟩

/-! ### The id cache of an endpoint -/

theorem mapFind_mapInsert_of_absent {α : Type} (l : List (Nat × α)) (key : Nat) (value : α)
    (h : mapFind l key = none) : mapFind (mapInsert l key value) key = some value := by
  induction l with
  | nil => simp [mapInsert, mapFind]
  | cons kv rest ih =>
    obtain ⟨k, v⟩ := kv
    simp only [mapFind] at h
    by_cases hk : k = key
    · simp [hk] at h
    · simp only [hk, if_false] at h
      simp only [mapInsert]
      by_cases hlt : key < k
      · simp [hlt, mapFind]
      · have hne : ¬ key = k := fun e => hk e.symm
        simp [hlt, hne, mapFind, hk, ih h]

theorem mapFind_mapInsert_of_ne {α : Type} (l : List (Nat × α)) (key other : Nat) (value : α)
    (h : other ≠ key) : mapFind (mapInsert l key value) other = mapFind l other := by
  induction l with
  | nil =>
    have hne : ¬ key = other := fun e => h e.symm
    simp [mapInsert, mapFind, hne]
  | cons kv rest ih =>
    obtain ⟨k, v⟩ := kv
    simp only [mapInsert]
    by_cases hlt : key < k
    · have hne : ¬ key = other := fun e => h e.symm
      simp [hlt, mapFind, hne]
    · by_cases hke : key = k
      · simp [hlt, hke]
      · simp only [hlt, hke, if_false, mapFind, ih]

/-- C12: `HaveMessageAlreadyArrived` on a cache without the message id returns false and
stores the id with the expiry `m_msgIdLifetime + now`, leaving the entries of all other ids
as they are, and a second call for the message then returns true; on a cache that holds the
id it returns true and leaves the cache unchanged, the stored expiry included. -/
theorem C12_HaveMessageAlreadyArrived (cache : EndpointMessageIdCache) (msg : Message)
    (now later : Time) :
    (cache.IsMessageInCache msg = false →
      (cache.HaveMessageAlreadyArrived msg now).1 = false ∧
      mapFind (cache.HaveMessageAlreadyArrived msg now).2.m_ids msg.m_messageId =
        some (cache.m_msgIdLifetime + now) ∧
      (∀ other, other ≠ msg.m_messageId →
        mapFind (cache.HaveMessageAlreadyArrived msg now).2.m_ids other =
          mapFind cache.m_ids other) ∧
      (cache.HaveMessageAlreadyArrived msg now).2.HaveMessageAlreadyArrived msg later =
        (true, (cache.HaveMessageAlreadyArrived msg now).2)) ∧
    (cache.IsMessageInCache msg = true →
      cache.HaveMessageAlreadyArrived msg now = (true, cache)) := by
  constructor
  · intro h
    have habs : mapFind cache.m_ids msg.m_messageId = none := by
      unfold EndpointMessageIdCache.IsMessageInCache at h
      cases hf : mapFind cache.m_ids msg.m_messageId with
      | none => rfl
      | some v => rw [hf] at h; cases h
    have hres : cache.HaveMessageAlreadyArrived msg now = (false, cache.AddMessage msg now) := by
      unfold EndpointMessageIdCache.HaveMessageAlreadyArrived
      simp [h]
    have hfind : mapFind (cache.AddMessage msg now).m_ids msg.m_messageId =
        some (cache.m_msgIdLifetime + now) :=
      mapFind_mapInsert_of_absent _ _ _ habs
    rw [hres]
    refine ⟨rfl, hfind, fun other ho => mapFind_mapInsert_of_ne _ _ _ _ ho, ?_⟩
    unfold EndpointMessageIdCache.HaveMessageAlreadyArrived
      EndpointMessageIdCache.IsMessageInCache
    simp [hfind]
  · intro h
    unfold EndpointMessageIdCache.HaveMessageAlreadyArrived
    simp [h]

theorem C12_HaveMessageAlreadyArrived_witness :
    exampleCacheEmpty.IsMessageInCache exampleRequest = false ∧
    (exampleCacheEmpty.HaveMessageAlreadyArrived exampleRequest (MilliSeconds 7)).1 = false ∧
    mapFind (exampleCacheEmpty.HaveMessageAlreadyArrived exampleRequest
      (MilliSeconds 7)).2.m_ids 5 = some (MilliSeconds 57) :=
  ⟨by decide,
   ((C12_HaveMessageAlreadyArrived exampleCacheEmpty exampleRequest (MilliSeconds 7)
      (MilliSeconds 8)).1 (by decide)).1,
   ((C12_HaveMessageAlreadyArrived exampleCacheEmpty exampleRequest (MilliSeconds 7)
      (MilliSeconds 8)).1 (by decide)).2.1⟩

/-- C13: what a removal run of the id cache leaves behind. When no entry is older than the
current time the cache is left as it is. When some entry is older, the loop of the source
erases from the map it iterates over and advances the erased iterator, so that the entries
left are not fixed by the source (`env.eraseOutcome`): an outcome that the source allows
drops the unexpired id 6 (expiry 100 ms) in a run at 50 ms together with the expired id 5,
where the claim has the run remove exactly the expired entries. -/
theorem C13_removal_run_outcome :
    (∀ (env : Env) (w : World), (∀ e ∈ w.ep.m_msgCache.m_ids, ¬ e.2 < w.sim.now) →
      ∃ w2, EndpointMessageIdCache.RemoveOldRecords env w = some w2 ∧
        w2.ep.m_msgCache.m_ids = w.ep.m_msgCache.m_ids) ∧
    (∀ (env : Env) (w : World), (∃ e ∈ w.ep.m_msgCache.m_ids, e.2 < w.sim.now) →
      ∃ w2, EndpointMessageIdCache.RemoveOldRecords env w = some w2 ∧
        w2.ep.m_msgCache.m_ids = env.eraseOutcome w.ep.m_msgCache.m_ids w.sim.now) ∧
    (EndpointMessageIdCache.RemoveOldRecords exampleEnvErasingAll exampleWorldCached).map
      (fun w => w.ep.m_msgCache.m_ids) = some [] := by
  refine ⟨?_, ?_, by decide⟩
  · intro env w h
    unfold EndpointMessageIdCache.RemoveOldRecords
    rw [schedule_ok _ _ (by decide : (0 : Time) ≤ MilliSeconds 1000)]
    refine ⟨_, rfl, ?_⟩
    have hany : w.ep.m_msgCache.m_ids.any (fun e => decide (e.2 < w.sim.now)) = false := by
      rw [List.any_eq_false]
      intro e he
      simpa using h e he
    simp [hany]
  · intro env w h
    unfold EndpointMessageIdCache.RemoveOldRecords
    rw [schedule_ok _ _ (by decide : (0 : Time) ≤ MilliSeconds 1000)]
    refine ⟨_, rfl, ?_⟩
    have hany : w.ep.m_msgCache.m_ids.any (fun e => decide (e.2 < w.sim.now)) = true := by
      rw [List.any_eq_true]
      obtain ⟨e, he, hlt⟩ := h
      exact ⟨e, he, by simpa using hlt⟩
    simp [hany]

/-- When every lookup of the check is at a present id, `CheckClients` has a result. -/
theorem CheckClients_loop_defined (cfg : ServiceConfiguration) (clients : List (Nat × Client))
    (h : ∀ kc ∈ clients, ∀ step ∈ kc.2.m_executionPlan.m_executionSteps,
      cfg.Resolvable step) :
    ∃ b, ServiceConfiguration.CheckClients.loop cfg clients = some b := by
  induction clients with
  | nil => exact ⟨true, rfl⟩
  | cons kc rest ih =>
    obtain ⟨k, client⟩ := kc
    have hp := (CheckExecutionPlan_loop_iff cfg client.m_executionPlan.m_executionSteps).1.2
      (h (k, client) (List.mem_cons_self _ _))
    simp only [ServiceConfiguration.CheckClients.loop, ServiceConfiguration.CheckExecutionPlan,
      hp]
    by_cases h0 : (ClientExecutionPlan.toExecutionPlan
        client.m_executionPlan).GetExecutionStepsCount = 0
    · exact ⟨false, by simp [h0]⟩
    · simp only [h0, if_false, Bool.not_true, Bool.false_eq_true]
      exact ih (fun kc hkc => h kc (List.mem_cons_of_mem _ hkc))

/-- When every lookup of the check is at a present id, `CheckServices` has a result. -/
theorem CheckServices_loop_defined (cfg : ServiceConfiguration)
    (services : List (Nat × ServiceRef))
    (h : ∀ ks ∈ services, ∃ s, cfg.service ks.2 = some s ∧ ∀ km ∈ s.m_methods,
      ∃ plan, cfg.plan km.2.m_executionPlan = some plan ∧
        ∀ step ∈ plan.m_executionSteps, cfg.Resolvable step) :
    ∃ b, ServiceConfiguration.CheckServices.loop cfg services = some b := by
  induction services with
  | nil => exact ⟨true, rfl⟩
  | cons ks rest ih =>
    obtain ⟨k, ref⟩ := ks
    obtain ⟨s, hs, hm⟩ := h (k, ref) (List.mem_cons_self _ _)
    have hp := (CheckServiceExecutionPlans_loop_iff cfg s.m_methods).1.2 hm
    simp only [ServiceConfiguration.CheckServices.loop, hs,
      ServiceConfiguration.CheckServiceExecutionPlans, hp]
    by_cases h0 : s.m_methods.length = 0
    · exact ⟨false, by simp [h0]⟩
    · simp only [h0, if_false, Bool.not_true, Bool.false_eq_true]
      exact ih (fun ks hks => h ks (List.mem_cons_of_mem _ hks))

/-- When every lookup of the check is at a present id, `CheckServiceConfiguration` has a
result. -/
theorem CheckServiceConfiguration_defined (cfg : ServiceConfiguration)
    (h : cfg.LookupsDefined) : ∃ b, cfg.CheckServiceConfiguration = some b := by
  have hc : ∃ b, cfg.CheckClients = some b := by
    unfold ServiceConfiguration.CheckClients
    by_cases h0 : cfg.m_clients.length = 0
    · exact ⟨false, by simp [h0]⟩
    · simp only [h0, if_false]
      exact CheckClients_loop_defined cfg cfg.m_clients h.1
  have hs : ∃ b, cfg.CheckServices = some b := by
    unfold ServiceConfiguration.CheckServices
    by_cases h0 : cfg.m_services.length = 0
    · exact ⟨false, by simp [h0]⟩
    · simp only [h0, if_false]
      exact CheckServices_loop_defined cfg cfg.m_services h.2
  obtain ⟨c, hc⟩ := hc
  obtain ⟨s, hs⟩ := hs
  rw [CheckServiceConfiguration_eq, hc, hs]
  exact ⟨c && s, rfl⟩

/-- C19, counterexample: in the example configuration method 1 of service 1 has an
execution plan without steps, and the configuration passes the check. -/
theorem C19_counterexample :
    exampleConfigValid.HasEmptyServiceMethodPlan = true ∧
    exampleConfigValid.CheckServiceConfiguration = some true := by
  decide

/-- C19 (for clients only): `CheckServiceConfiguration` never returns true for a
configuration in which some client has an execution plan without steps, and it returns
false for every such configuration in which the steps name present contract and method ids
(the lookup of an absent id has no defined result). The plans of service methods are checked
for the targets of their steps only, so that an empty plan of a service method is
accepted. -/
theorem C19_empty_client_plan_rejected (cfg : ServiceConfiguration)
    (h : ∃ kc ∈ cfg.m_clients, kc.2.m_executionPlan.m_executionSteps = []) :
    cfg.CheckServiceConfiguration ≠ some true ∧
    (cfg.LookupsDefined → cfg.CheckServiceConfiguration = some false) := by
  obtain ⟨kc, hkc, hempty⟩ := h
  have hnot : cfg.CheckServiceConfiguration ≠ some true := by
    intro hres
    exact (CheckServiceConfiguration_true_iff cfg).1 hres |>.2.1 kc hkc hempty
  refine ⟨hnot, fun hdef => ?_⟩
  obtain ⟨b, hb⟩ := CheckServiceConfiguration_defined cfg hdef
  cases b with
  | false => exact hb
  | true => exact absurd hb hnot

theorem C19_empty_client_plan_rejected_witness :
    (∃ kc ∈ exampleConfigEmptyClient.m_clients,
      kc.2.m_executionPlan.m_executionSteps = []) ∧
    exampleConfigEmptyClient.LookupsDefined ∧
    exampleConfigEmptyClient.CheckServiceConfiguration ≠ some true ∧
    exampleConfigEmptyClient.CheckServiceConfiguration = some false :=
  have hdef : exampleConfigEmptyClient.LookupsDefined := by
    have hc : ∀ kc ∈ exampleConfigEmptyClient.m_clients,
        kc.2.m_executionPlan.m_executionSteps.length = 0 := by decide
    have hs : ∀ ks ∈ exampleConfigEmptyClient.m_services,
        (match exampleConfigEmptyClient.service ks.2 with
          | some s => s.m_methods.all (fun km =>
              match exampleConfigEmptyClient.plan km.2.m_executionPlan with
              | some plan => decide (plan.m_executionSteps.length = 0)
              | none => false)
          | none => false) = true := by decide
    refine ⟨fun kc hkc step hstep => ?_, fun ks hks => ?_⟩
    · rw [List.length_eq_zero.mp (hc kc hkc)] at hstep
      cases hstep
    · have h1 := hs ks hks
      cases hsv : exampleConfigEmptyClient.service ks.2 with
      | none => rw [hsv] at h1; cases h1
      | some s =>
        rw [hsv] at h1
        refine ⟨s, rfl, fun km hkm => ?_⟩
        have h2 := List.all_eq_true.mp h1 km hkm
        cases hpl : exampleConfigEmptyClient.plan km.2.m_executionPlan with
        | none => rw [hpl] at h2; cases h2
        | some plan =>
          rw [hpl] at h2
          refine ⟨plan, rfl, fun step hstep => ?_⟩
          rw [List.length_eq_zero.mp (of_decide_eq_true h2)] at hstep
          cases hstep
  ⟨by decide, hdef,
    (C19_empty_client_plan_rejected exampleConfigEmptyClient (by decide)).1,
    (C19_empty_client_plan_rejected exampleConfigEmptyClient (by decide)).2 hdef⟩

/-! ### Initialisation of messages -/

theorem Initialization_apply_facts (call : Initialization) (mc cc : Nat)
    (hmc : mc + 1 < U32) (hcc : cc + 1 < U32) :
    (call.apply mc cc).1.m_messageId = mc + 1 ∧ (call.apply mc cc).2.1 = mc + 1 ∧
    (call.isNew = true → (call.apply mc cc).1.m_conversationId = cc + 1 ∧
      (call.apply mc cc).2.2 = cc + 1) ∧
    (call.isNew = false → (call.apply mc cc).2.2 = cc ∧
      ∀ s ∈ call.sourceMsg, (call.apply mc cc).1.m_conversationId = s.m_conversationId) := by
  have h1 : (mc + 1) % U32 = mc + 1 := Nat.mod_eq_of_lt hmc
  have h2 : (cc + 1) % U32 = cc + 1 := Nat.mod_eq_of_lt hcc
  cases call <;>
    simp [Initialization.apply, Initialization.isNew, Initialization.sourceMsg,
      Message.InitializeNew, Message.InitializeResponse, Message.InitializeACK,
      Message.InitializeResponseException, Message.InitializeNext, h1, h2]

theorem applyAll_ordered (calls : List Initialization) :
    ∀ (known : List Message) (mc cc : Nat),
      mc + calls.length < U32 → cc + calls.length < U32 →
      (∀ k ∈ known, k.m_messageId ≤ mc ∧ k.m_conversationId ≤ cc) →
      Initialization.SourcesKnown known calls mc cc →
      (∀ cm ∈ Initialization.applyAll calls mc cc, ∀ k ∈ known,
        k.m_messageId < cm.2.m_messageId ∧
        (cm.1.isNew = true → k.m_conversationId ≠ cm.2.m_conversationId)) ∧
      (Initialization.applyAll calls mc cc).Pairwise (fun a b =>
        a.2.m_messageId < b.2.m_messageId ∧
        (b.1.isNew = true → a.2.m_conversationId ≠ b.2.m_conversationId)) := by
  induction calls with
  | nil =>
    intro known mc cc _ _ _ _
    exact ⟨fun cm hcm => (by cases hcm), List.Pairwise.nil⟩
  | cons call rest ih =>
    intro known mc cc hmc hcc hknown hsrc
    simp only [List.length_cons] at hmc hcc
    obtain ⟨hid, hmc2, hnew, hold⟩ := Initialization_apply_facts call mc cc (by omega) (by omega)
    obtain ⟨hs1, hs2⟩ := hsrc
    have hcc2 : (call.apply mc cc).2.2 ≤ cc + 1 ∧ cc ≤ (call.apply mc cc).2.2 := by
      cases hn : call.isNew
      · rw [(hold hn).1]; omega
      · rw [(hnew hn).2]; omega
    have hconv : (call.apply mc cc).1.m_conversationId ≤ (call.apply mc cc).2.2 := by
      cases hn : call.isNew
      · cases hsm : call.sourceMsg with
        | none => cases call <;> simp [Initialization.isNew, Initialization.sourceMsg] at hn hsm
        | some s =>
          rw [(hold hn).2 s (by rw [hsm]; rfl), (hold hn).1]
          exact (hknown s (hs1 s (by rw [hsm]; rfl))).2
      · rw [(hnew hn).1, (hnew hn).2]
    have hknown2 : ∀ k ∈ known ++ [(call.apply mc cc).1],
        k.m_messageId ≤ (call.apply mc cc).2.1 ∧
        k.m_conversationId ≤ (call.apply mc cc).2.2 := by
      intro k hk
      rcases List.mem_append.mp hk with hk | hk
      · have := hknown k hk
        rw [hmc2]
        exact ⟨by omega, by omega⟩
      · simp only [List.mem_singleton] at hk
        subst hk
        rw [hid, hmc2]
        exact ⟨Nat.le_refl _, hconv⟩
    obtain ⟨ih1, ih2⟩ := ih (known ++ [(call.apply mc cc).1]) (call.apply mc cc).2.1
      (call.apply mc cc).2.2 (by rw [hmc2]; omega) (by omega) hknown2 hs2
    have hhead : ∀ k ∈ known, k.m_messageId < (call.apply mc cc).1.m_messageId ∧
        (call.isNew = true → k.m_conversationId ≠ (call.apply mc cc).1.m_conversationId) := by
      intro k hk
      have := hknown k hk
      refine ⟨by rw [hid]; omega, fun hn => ?_⟩
      rw [(hnew hn).1]
      omega
    constructor
    · intro cm hcm k hk
      simp only [Initialization.applyAll, List.mem_cons] at hcm
      rcases hcm with hcm | hcm
      · subst hcm
        exact hhead k hk
      · exact ih1 cm hcm k (List.mem_append_left _ hk)
    · simp only [Initialization.applyAll]
      refine List.Pairwise.cons ?_ ih2
      intro cm hcm
      exact ih1 cm hcm _ (List.mem_append_right _ (List.mem_singleton.mpr rfl))

/-- C20: the fields that the five initialisers set, for every source message and all
arguments, and the order of ids over a run of calls. `InitializeResponse`,
`InitializeResponseException` and `InitializeACK` give a message related to the source
message and of its conversation, of size 100 for the ACK and the exception;
`InitializeNew` and `InitializeNext` give a Request related to no message, `InitializeNext`
in the conversation of the source message. In a sequence of calls, each on a source message
that an earlier call of the sequence initialised, with counters that do not wrap, every
message gets a message id greater than those of all messages before it, and
`InitializeNew` gives a conversation id that no message before it has. -/
theorem C20_message_initialisers (s : Message) (size destNode destService destMethod : Nat)
    (srcNode srcService mc cc : Nat) (calls : List Initialization)
    (hmc : mc + calls.length < U32) (hcc : cc + calls.length < U32)
    (hsrc : Initialization.SourcesKnown [] calls mc cc) :
    ((Message.new.InitializeResponse s size mc).1.m_messageType = Message.MTResponse ∧
      (Message.new.InitializeResponse s size mc).1.m_relatedToMessageId = s.m_messageId ∧
      (Message.new.InitializeResponse s size mc).1.m_conversationId = s.m_conversationId ∧
      (Message.new.InitializeResponse s size mc).1.m_size = size) ∧
    ((Message.new.InitializeResponseException s mc).1.m_messageType =
        Message.MTResponseException ∧
      (Message.new.InitializeResponseException s mc).1.m_relatedToMessageId = s.m_messageId ∧
      (Message.new.InitializeResponseException s mc).1.m_conversationId = s.m_conversationId ∧
      (Message.new.InitializeResponseException s mc).1.m_size = 100) ∧
    ((Message.new.InitializeACK s mc).1.m_messageType = Message.MTACK ∧
      (Message.new.InitializeACK s mc).1.m_relatedToMessageId = s.m_messageId ∧
      (Message.new.InitializeACK s mc).1.m_conversationId = s.m_conversationId ∧
      (Message.new.InitializeACK s mc).1.m_size = 100) ∧
    ((Message.new.InitializeNew srcNode srcService destNode destService destMethod size
        mc cc).1.m_messageType = Message.MTRequest ∧
      (Message.new.InitializeNew srcNode srcService destNode destService destMethod size
        mc cc).1.m_relatedToMessageId = 0) ∧
    ((Message.new.InitializeNext s destNode destService destMethod size mc).1.m_messageType =
        Message.MTRequest ∧
      (Message.new.InitializeNext s destNode destService destMethod size
        mc).1.m_relatedToMessageId = 0 ∧
      (Message.new.InitializeNext s destNode destService destMethod size
        mc).1.m_conversationId = s.m_conversationId) ∧
    (Initialization.applyAll calls mc cc).Pairwise (fun a b =>
      a.2.m_messageId < b.2.m_messageId ∧
      (b.1.isNew = true → a.2.m_conversationId ≠ b.2.m_conversationId)) := by
  refine ⟨⟨rfl, rfl, rfl, rfl⟩, ⟨rfl, rfl, rfl, rfl⟩, ⟨rfl, rfl, rfl, rfl⟩, ⟨rfl, rfl⟩,
    ⟨rfl, rfl, rfl⟩, ?_⟩
  exact (applyAll_ordered calls [] mc cc hmc hcc (fun k hk => (by cases hk)) hsrc).2

theorem C20_message_initialisers_witness :
    Initialization.SourcesKnown [] exampleInitializations 0 0 ∧
    (Initialization.applyAll exampleInitializations 0 0).map
      (fun cm => (cm.2.m_messageType, cm.2.m_messageId, cm.2.m_relatedToMessageId,
        cm.2.m_conversationId)) =
      [(1, 1, 0, 1), (4, 2, 1, 1), (1, 3, 0, 1), (2, 4, 1, 1), (1, 5, 0, 2)] ∧
    (Initialization.applyAll exampleInitializations 0 0).Pairwise (fun a b =>
      a.2.m_messageId < b.2.m_messageId ∧
      (b.1.isNew = true → a.2.m_conversationId ≠ b.2.m_conversationId)) := by
  have hsrc : Initialization.SourcesKnown [] exampleInitializations 0 0 := by
    simp [Initialization.SourcesKnown, exampleInitializations, Initialization.sourceMsg,
      Initialization.apply]
  exact ⟨hsrc, by decide,
    (C20_message_initialisers Message.new 0 0 0 0 0 0 0 0 exampleInitializations (by decide)
      (by decide) hsrc).2.2.2.2.2⟩

/-! ### Construction of `ServiceBase` -/

/-- C22: the constructor of `ServiceBase` accepts its arguments exactly when the id and the
retransmission limit are not 0 and none of the five times is 0 when read in whole
milliseconds (`GetMilliSeconds () != 0`). A negative time of at least one millisecond in
size is accepted (start time -5 ms), and a positive time below one millisecond is rejected
(start time 500000 ns), where the claim has the reverse. -/
theorem C22_ServiceBase_constructor_assertions :
    (∀ (serviceId : Nat) (startTime stopTime responseTimeout ACKTimeout : Time)
        (retransmissionLimit : Nat) (msgIdLifetime : Time),
      (ServiceBase.new serviceId startTime stopTime responseTimeout ACKTimeout
          retransmissionLimit msgIdLifetime).isSome = true ↔
        (serviceId ≠ 0 ∧ retransmissionLimit ≠ 0 ∧
          (startTime ≤ -1000000 ∨ 1000000 ≤ startTime) ∧
          (stopTime ≤ -1000000 ∨ 1000000 ≤ stopTime) ∧
          (responseTimeout ≤ -1000000 ∨ 1000000 ≤ responseTimeout) ∧
          (ACKTimeout ≤ -1000000 ∨ 1000000 ≤ ACKTimeout) ∧
          (msgIdLifetime ≤ -1000000 ∨ 1000000 ≤ msgIdLifetime))) ∧
    (ServiceBase.new 1 (MilliSeconds (-5)) (MilliSeconds 100) (MilliSeconds 10)
      (MilliSeconds 2) 3 (MilliSeconds 50)).isSome = true ∧
    (ServiceBase.new 1 500000 (MilliSeconds 100) (MilliSeconds 10)
      (MilliSeconds 2) 3 (MilliSeconds 50)).isSome = false := by
  refine ⟨?_, by decide, by decide⟩
  intro serviceId startTime stopTime responseTimeout ACKTimeout retransmissionLimit
    msgIdLifetime
  have hms : ∀ t : Int, Time.GetMilliSeconds t ≠ 0 ↔ (t ≤ -1000000 ∨ 1000000 ≤ t) := by
    intro t
    unfold Time.GetMilliSeconds
    have hx : ∀ x : Int, 0 ≤ x → (Int.tdiv x 1000000 ≠ 0 ↔ 1000000 ≤ x) := by
      intro x hx
      rw [Int.tdiv_eq_ediv hx (by norm_num)]
      omega
    by_cases h0 : (0 : Int) ≤ t
    · rw [hx t h0]
      constructor
      · exact fun h => Or.inr h
      · rintro (h | h)
        · exact absurd (le_trans h0 h) (by norm_num)
        · exact h
    · have h1 := hx (-t) (by omega)
      constructor
      · intro h
        have h2 : Int.tdiv (-t) 1000000 ≠ 0 := by
          rw [Int.neg_tdiv]
          exact neg_ne_zero.mpr h
        have h3 := h1.mp h2
        exact Or.inl (by omega)
      · rintro (h | h)
        · have h2 := h1.mpr (by omega)
          rw [Int.neg_tdiv] at h2
          exact neg_ne_zero.mp h2
        · omega
  unfold ServiceBase.new
  split
  · rename_i h
    simp only [Option.isSome_some, true_iff]
    obtain ⟨h1, h2, h3, h4, h5, h6, h7⟩ := h
    exact ⟨h1, h6, (hms _).mp h2, (hms _).mp h3, (hms _).mp h4, (hms _).mp h5, (hms _).mp h7⟩
  · rename_i h
    simp only [Option.isSome_none, Bool.false_eq_true, false_iff]
    rintro ⟨h1, h6, h2, h3, h4, h5, h7⟩
    exact h ⟨h1, (hms _).mpr h2, (hms _).mpr h3, (hms _).mpr h4, (hms _).mpr h5, h6,
      (hms _).mpr h7⟩

/-- C22, counterexample: a start time of -5 ms is not strictly positive and the constructor
accepts it; a start time of 0.5 ms (500000 ns) is strictly positive, as are the other four
times, the id and the limit are at least 1, and the constructor rejects it. -/
theorem C22_counterexample :
    ((ServiceBase.new 1 (MilliSeconds (-5)) (MilliSeconds 100) (MilliSeconds 10)
      (MilliSeconds 2) 3 (MilliSeconds 50)).isSome = true ∧
      ¬ ((0 : Time) < MilliSeconds (-5))) ∧
    ((ServiceBase.new 1 500000 (MilliSeconds 100) (MilliSeconds 10)
      (MilliSeconds 2) 3 (MilliSeconds 50)).isSome = false ∧
      (1 : Nat) ≠ 0 ∧ 1 ≤ (3 : Nat) ∧ (0 : Time) < 500000 ∧ (0 : Time) < MilliSeconds 100 ∧
      (0 : Time) < MilliSeconds 10 ∧ (0 : Time) < MilliSeconds 2 ∧
      (0 : Time) < MilliSeconds 50) := by
  decide

/-! ### The time window of `AbsoluteTimeFaultModel`, the order on arcs -/

/-- C26, counterexample: with `m_from` = 20 ms and `m_to` = 10 ms the query at 15 ms
returns true, the three times being different. -/
theorem C26_counterexample :
    ((FaultModel.AbsoluteTimeFaultModel true true (MilliSeconds 20) (MilliSeconds 10)).IsCorrupt
      (MilliSeconds 15) { values := [], integers := [] } false).1 = true ∧
    MilliSeconds 20 ≠ MilliSeconds 10 ∧ MilliSeconds 20 ≠ MilliSeconds 15 := by
  decide

/-- C26 (for windows with `m_from ≤ m_to`): when the query of an enabled
`AbsoluteTimeFaultModel` whose bounds satisfy `m_from ≤ m_to` returns true, then `m_from`,
`m_to` and the current time are equal. -/
theorem C26_window_check_only_at_a_point (g : Bool) (m_from m_to now : Time) (rng : Rng)
    (flag : Bool) (hwin : m_from ≤ m_to)
    (h : ((FaultModel.AbsoluteTimeFaultModel true g m_from m_to).IsCorrupt now rng flag).1
      = true) :
    m_from = now ∧ m_to = now := by
  rw [IsCorrupt_of_enabled (FaultModel.AbsoluteTimeFaultModel true g m_from m_to) _ _ _ rfl,
    FaultModel.IsCorruptQuery] at h
  simp only [ge_iff_le, Bool.and_eq_true, decide_eq_true_eq] at h
  exact ⟨le_antisymm (le_trans hwin h.2) h.1, le_antisymm h.2 (le_trans h.1 hwin)⟩

theorem C26_window_check_only_at_a_point_witness :
    ((FaultModel.AbsoluteTimeFaultModel true true 7 7).IsCorrupt 7
      { values := [], integers := [] } false).1 = true ∧
    ((7 : Time) = 7 ∧ (7 : Time) = 7) :=
  ⟨by decide, C26_window_check_only_at_a_point true 7 7 7 { values := [], integers := [] }
    false (by decide) (by decide)⟩

/-- C28: the order `operator<` on arcs is irreflexive, and two arcs neither of which is
below the other are equal; it is not asymmetric ((1, 5) and (2, 3) are each below the
other) and not transitive ((2, 2) is below (1, 3), (1, 3) is below (2, 1), and (2, 2) is not
below (2, 1)), so it is not a strict weak ordering. -/
theorem C28_arc_order_not_strict_weak :
    (∀ a : Arc, a.lt a = false) ∧
    (∀ a b : Arc, a.lt b = false → b.lt a = false → a = b) ∧
    ((Arc.mk 1 5).lt (Arc.mk 2 3) = true ∧ (Arc.mk 2 3).lt (Arc.mk 1 5) = true) ∧
    ((Arc.mk 2 2).lt (Arc.mk 1 3) = true ∧ (Arc.mk 1 3).lt (Arc.mk 2 1) = true ∧
      (Arc.mk 2 2).lt (Arc.mk 2 1) = false) := by
  refine ⟨?_, ?_, by decide, by decide⟩
  · intro a
    simp [Arc.lt]
  · intro a b h1 h2
    obtain ⟨ah, at_⟩ := a
    obtain ⟨bh, bt⟩ := b
    simp only [Arc.lt] at h1 h2
    have h3 : ¬ ah < bh := fun h => by simp [h] at h1
    have h4 : ¬ at_ < bt := fun h => by simp [h3, h] at h1
    have h5 : ¬ bh < ah := fun h => by simp [h] at h2
    have h6 : ¬ bt < at_ := fun h => by simp [h5, h] at h2
    have e1 : ah = bh := by omega
    have e2 : at_ = bt := by omega
    rw [e1, e2]

/-! ### The dependency graph between contracts of a generated configuration -/

/-- C30: in every configuration that `GenerateServices` produces from a fresh generator, for
every outcome of the draws and replicas included, every step in a method plan of a service
targets a contract id strictly greater than the contract id of that service; so along every
chain of calls from contract to contract the contract ids increase strictly, and no contract
occurs twice in it. -/
theorem C30_steps_target_higher_contract_ids
    {numberOfServices serviceBaseId contractBaseId : Nat}
    {numberOfReplicas startTime stopTime : RandomVariable}
    {responseTimeout ACKTimeout : Time} {retransmissionLimit : Nat} {msgIdLifetime : Time}
    {serviceFaultModel : FaultModel}
    {numberOfServiceMethods methodResponseSize : RandomVariable} {methodFaultModel : FaultModel}
    {methodPreExeDelay methodPostExeDelay methodPostPlanErrorDelay : RandomVariable}
    {executionStepDependencyProbability : Double}
    {executionStepPostExeDelay executionStepRequestSize stepProbability
      servicePostErrorDelay : RandomVariable} {rng rng2 : Rng}
    {gen : ServiceConfigurationRandomGenerator}
    (hb : serviceBaseId < U32) (hcb : contractBaseId < U32)
    (h : ServiceConfigurationRandomGenerator.new.GenerateServices numberOfServices serviceBaseId
      contractBaseId numberOfReplicas startTime stopTime responseTimeout ACKTimeout
      retransmissionLimit msgIdLifetime serviceFaultModel numberOfServiceMethods
      methodResponseSize methodFaultModel methodPreExeDelay methodPostExeDelay
      methodPostPlanErrorDelay executionStepDependencyProbability executionStepPostExeDelay
      executionStepRequestSize stepProbability servicePostErrorDelay rng = some (gen, rng2)) :
    (∀ e ∈ gen.m_serviceConfiguration.m_services,
      ∃ s, gen.m_serviceConfiguration.service e.2 = some s ∧
        ∀ km ∈ s.m_methods, ∃ plan,
          gen.m_serviceConfiguration.plan km.2.m_executionPlan = some plan ∧
          ∀ step ∈ plan.m_executionSteps, s.m_contractId < step.m_contractId) ∧
    ∀ chain : List Nat, chain.Chain' gen.m_serviceConfiguration.ContractCalls →
      chain.Pairwise (fun c d => c < d) ∧ chain.Nodup := by
  have hJ := GenerateServices_GenInv hb hcb h
  have hfirst : ∀ e ∈ gen.m_serviceConfiguration.m_services,
      ∃ s, gen.m_serviceConfiguration.service e.2 = some s ∧
        ∀ km ∈ s.m_methods, ∃ plan,
          gen.m_serviceConfiguration.plan km.2.m_executionPlan = some plan ∧
          ∀ step ∈ plan.m_executionSteps, s.m_contractId < step.m_contractId := by
    intro e he
    obtain ⟨s, hs, _, _, _, hm⟩ := hJ e he
    exact ⟨s, hs, hm⟩
  refine ⟨hfirst, ?_⟩
  intro chain hchain
  have hlt : ∀ c d, gen.m_serviceConfiguration.ContractCalls c d → c < d := by
    rintro c d ⟨e, he, s, hs, hc, km, hkm, plan, hplan, step, hstep, hd⟩
    obtain ⟨s2, hs2, hm⟩ := hfirst e he
    rw [hs] at hs2
    cases hs2
    obtain ⟨plan2, hplan2, hsteps⟩ := hm km hkm
    rw [hplan] at hplan2
    cases hplan2
    rw [← hc, ← hd]
    exact hsteps step hstep
  have hchain2 : chain.Chain' (fun c d => c < d) := hchain.imp (fun {c d} hcd => hlt c d hcd)
  have hpair : chain.Pairwise (fun c d => c < d) := List.chain'_iff_pairwise.mp hchain2
  exact ⟨hpair, hpair.imp (fun {c d} hcd => Nat.ne_of_lt hcd)⟩

theorem C30_steps_target_higher_contract_ids_witness :
    (1 : Nat) < U32 ∧ exampleGenerateServices.isSome = true ∧
    ∀ chain : List Nat, chain.Chain' exampleGeneratedConfig.ContractCalls →
      chain.Pairwise (fun c d => c < d) ∧ chain.Nodup := by
  refine ⟨by decide, by decide, ?_⟩
  cases hgen : exampleGenerateServices with
  | none =>
    have hsome : exampleGenerateServices.isSome = true := by decide
    rw [hgen] at hsome
    cases hsome
  | some r =>
    obtain ⟨gen, rng2⟩ := r
    have hcfg : exampleGeneratedConfig = gen.m_serviceConfiguration := by
      simp [exampleGeneratedConfig, hgen]
    have hall := (C30_steps_target_higher_contract_ids (by decide) (by decide) hgen).2
    rw [← hcfg] at hall
    exact hall

/-- The loop of `SelectService` keeps the record it was given when no record of the list has
a distance in `(0, nearestRecordDistance)`, and else returns a record of the list with the
least such distance. -/
theorem SelectService_loop_spec (entry : List RoutingTableEntry)
    (l : List ServiceRegistryRecord) (nr : ServiceRegistryRecord) (nd : Nat) :
    (ServiceRegistryServiceSelectorHopDistance.SelectService.loop entry l nr nd = nr ∧
        ∀ x ∈ l, ServiceRegistryServiceSelectorHopDistance.GetHopDistanceOfNode entry x.m_serviceAddress = 0 ∨
          nd ≤ ServiceRegistryServiceSelectorHopDistance.GetHopDistanceOfNode entry x.m_serviceAddress) ∨
    (ServiceRegistryServiceSelectorHopDistance.SelectService.loop entry l nr nd ∈ l ∧
      0 < ServiceRegistryServiceSelectorHopDistance.GetHopDistanceOfNode entry (ServiceRegistryServiceSelectorHopDistance.SelectService.loop entry l nr nd).m_serviceAddress ∧
      ServiceRegistryServiceSelectorHopDistance.GetHopDistanceOfNode entry (ServiceRegistryServiceSelectorHopDistance.SelectService.loop entry l nr nd).m_serviceAddress < nd ∧
      ∀ x ∈ l, 0 < ServiceRegistryServiceSelectorHopDistance.GetHopDistanceOfNode entry x.m_serviceAddress →
        ServiceRegistryServiceSelectorHopDistance.GetHopDistanceOfNode entry (ServiceRegistryServiceSelectorHopDistance.SelectService.loop entry l nr nd).m_serviceAddress ≤
          ServiceRegistryServiceSelectorHopDistance.GetHopDistanceOfNode entry x.m_serviceAddress) := by
  induction l generalizing nr nd with
  | nil => left; exact ⟨rfl, fun x hx => by cases hx⟩
  | cons r rest ih =>
    by_cases hc : ServiceRegistryServiceSelectorHopDistance.GetHopDistanceOfNode entry r.m_serviceAddress > 0 ∧
        ServiceRegistryServiceSelectorHopDistance.GetHopDistanceOfNode entry r.m_serviceAddress < nd
    · have he : ServiceRegistryServiceSelectorHopDistance.SelectService.loop entry (r :: rest) nr nd =
          ServiceRegistryServiceSelectorHopDistance.SelectService.loop entry rest r (ServiceRegistryServiceSelectorHopDistance.GetHopDistanceOfNode entry r.m_serviceAddress) := by
        simp only [ServiceRegistryServiceSelectorHopDistance.SelectService.loop, if_pos hc]
      rw [he]
      right
      rcases ih r (ServiceRegistryServiceSelectorHopDistance.GetHopDistanceOfNode entry r.m_serviceAddress) with ⟨h1, h2⟩ | ⟨h1, h2, h3, h4⟩
      · rw [h1]
        refine ⟨List.mem_cons_self _ _, hc.1, hc.2, ?_⟩
        intro x hx hpos
        rcases List.mem_cons.1 hx with rfl | hx
        · exact le_refl _
        · rcases h2 x hx with h | h
          · omega
          · exact h
      · refine ⟨List.mem_cons_of_mem _ h1, h2, by omega, ?_⟩
        intro x hx hpos
        rcases List.mem_cons.1 hx with rfl | hx
        · omega
        · exact h4 x hx hpos
    · have he : ServiceRegistryServiceSelectorHopDistance.SelectService.loop entry (r :: rest) nr nd =
          ServiceRegistryServiceSelectorHopDistance.SelectService.loop entry rest nr nd := by
        simp only [ServiceRegistryServiceSelectorHopDistance.SelectService.loop, if_neg hc]
      rw [he]
      rcases ih nr nd with ⟨h1, h2⟩ | ⟨h1, h2, h3, h4⟩
      · left
        refine ⟨h1, ?_⟩
        intro x hx
        rcases List.mem_cons.1 hx with rfl | hx
        · by_cases h0 : ServiceRegistryServiceSelectorHopDistance.GetHopDistanceOfNode entry x.m_serviceAddress = 0
          · exact Or.inl h0
          · right
            by_contra hlt
            exact hc ⟨by omega, by omega⟩
        · exact h2 x hx
      · right
        refine ⟨List.mem_cons_of_mem _ h1, h2, h3, ?_⟩
        intro x hx hpos
        rcases List.mem_cons.1 hx with rfl | hx
        · by_contra hlt
          exact hc ⟨hpos, by omega⟩
        · exact h4 x hx hpos

/-- C21, the input that refutes the claim as it stands: of two candidates the first has hop
distance 0 (no route) and the second has the positive hop distance 1000; the selector
returns the first candidate, whose distance is not the minimum of the positive ones. -/
theorem C21_counterexample :
    ServiceRegistryServiceSelectorHopDistance.SelectService exampleRoutingFar 1 exampleCandidates =
        some { m_service := 0, m_serviceAddress := 1, m_nodeId := 1 } ∧
      ServiceRegistryServiceSelectorHopDistance.GetHopDistanceOfNode exampleRoutingFar 1 = 0 ∧
      ServiceRegistryServiceSelectorHopDistance.GetHopDistanceOfNode exampleRoutingFar 2 = 1000 := by
  decide

/-- C21, amended: for every non-empty candidate set (in iteration order `first :: rest`) and
every routing table, the hop-distance selector returns a candidate of the set; when some
candidate has a hop distance that is positive and below 1000, the returned candidate has
such a distance and no candidate with a positive distance is nearer; when no candidate has a
hop distance that is positive and below 1000, the first candidate is returned. -/
theorem C21_hop_distance_selector (entry : List RoutingTableEntry) (destContractId : Nat)
    (first : ServiceRegistryRecord) (rest : List ServiceRegistryRecord) :
    ∃ r, ServiceRegistryServiceSelectorHopDistance.SelectService entry destContractId (first :: rest) = some r ∧
      r ∈ first :: rest ∧
      ((∃ x ∈ first :: rest, 0 < ServiceRegistryServiceSelectorHopDistance.GetHopDistanceOfNode entry x.m_serviceAddress ∧
            ServiceRegistryServiceSelectorHopDistance.GetHopDistanceOfNode entry x.m_serviceAddress < 1000) →
        0 < ServiceRegistryServiceSelectorHopDistance.GetHopDistanceOfNode entry r.m_serviceAddress ∧
        ServiceRegistryServiceSelectorHopDistance.GetHopDistanceOfNode entry r.m_serviceAddress < 1000 ∧
        ∀ x ∈ first :: rest, 0 < ServiceRegistryServiceSelectorHopDistance.GetHopDistanceOfNode entry x.m_serviceAddress →
          ServiceRegistryServiceSelectorHopDistance.GetHopDistanceOfNode entry r.m_serviceAddress ≤
            ServiceRegistryServiceSelectorHopDistance.GetHopDistanceOfNode entry x.m_serviceAddress) ∧
      ((∀ x ∈ first :: rest, ServiceRegistryServiceSelectorHopDistance.GetHopDistanceOfNode entry x.m_serviceAddress = 0 ∨
            1000 ≤ ServiceRegistryServiceSelectorHopDistance.GetHopDistanceOfNode entry x.m_serviceAddress) → r = first) := by
  refine ⟨ServiceRegistryServiceSelectorHopDistance.SelectService.loop entry (first :: rest) first 1000, rfl, ?_⟩
  rcases SelectService_loop_spec entry (first :: rest) first 1000 with
    ⟨h1, h2⟩ | ⟨h1, h2, h3, h4⟩
  · refine ⟨by rw [h1]; exact List.mem_cons_self _ _, ?_, fun _ => h1⟩
    rintro ⟨x, hx, hpos, hlt⟩
    rcases h2 x hx with h | h <;> omega
  · refine ⟨h1, fun _ => ⟨h2, h3, h4⟩, ?_⟩
    intro hall
    rcases hall _ h1 with h | h <;> omega

/-- The loop of `FindStepToExecute` on the steps from index `c` on: the result `r` is in
`[c, c + length]`, every step before `r` has a probability below its draw, the step `r`, if
it is one, has a probability that is at least its draw, and one draw is used for each step
looked at. -/
theorem FindStepToExecute_loop_spec (sel : RandomVariable) (n : Nat)
    (l : List ExecutionStep) (c : Nat) (rng : Rng) (hn : n = c + l.length) :
    c ≤ (ServiceExecutionPlanExecuter.FindStepToExecute.loop sel n l c rng).1 ∧
    (ServiceExecutionPlanExecuter.FindStepToExecute.loop sel n l c rng).1 ≤ n ∧
    (∀ i, c ≤ i → i < (ServiceExecutionPlanExecuter.FindStepToExecute.loop sel n l c rng).1 →
      ∃ s, l.get? (i - c) = some s ∧ s.m_stepProbability < rng.values.getD (i - c) 0) ∧
    ((ServiceExecutionPlanExecuter.FindStepToExecute.loop sel n l c rng).1 < n →
      ∃ s, l.get? ((ServiceExecutionPlanExecuter.FindStepToExecute.loop sel n l c rng).1 - c)
          = some s ∧
        rng.values.getD ((ServiceExecutionPlanExecuter.FindStepToExecute.loop sel n l c rng).1
          - c) 0 ≤ s.m_stepProbability) := by
  induction l generalizing c rng with
  | nil =>
    simp only [ServiceExecutionPlanExecuter.FindStepToExecute.loop, List.length_nil,
      Nat.add_zero] at hn ⊢
    subst hn
    exact ⟨le_refl _, le_refl _, fun i h1 h2 => by omega, fun h => by omega⟩
  | cons s rest ih =>
    have hhead : rng.values.headD 0 = rng.values.getD 0 0 := by
      cases rng.values <;> rfl
    by_cases hsel : rng.values.headD 0 ≤ s.m_stepProbability
    · have he : ServiceExecutionPlanExecuter.FindStepToExecute.loop sel n (s :: rest) c rng =
          (c, { rng with values := rng.values.tail }) := by
        simp only [ServiceExecutionPlanExecuter.FindStepToExecute.loop,
          RandomVariable.GetValue, if_pos hsel]
      rw [he]
      simp only [List.length_cons] at hn
      refine ⟨le_refl _, by omega, fun i h1 h2 => by omega, fun _ => ⟨s, ?_, ?_⟩⟩
      · simp
      · show rng.values.getD (c - c) 0 ≤ s.m_stepProbability
        rw [Nat.sub_self, ← hhead]
        exact hsel
    · have he : ServiceExecutionPlanExecuter.FindStepToExecute.loop sel n (s :: rest) c rng =
          ServiceExecutionPlanExecuter.FindStepToExecute.loop sel n rest (c + 1)
            { rng with values := rng.values.tail } := by
        simp only [ServiceExecutionPlanExecuter.FindStepToExecute.loop,
          RandomVariable.GetValue, if_neg hsel]
      rw [he]
      simp only [List.length_cons] at hn
      obtain ⟨h1, h2, h3, h4⟩ := ih (c + 1) { rng with values := rng.values.tail } (by omega)
      have htail : ∀ k, rng.values.tail.getD k 0 = rng.values.getD (k + 1) 0 := by
        intro k
        cases rng.values <;> simp
      refine ⟨by omega, h2, ?_, ?_⟩
      · intro i hi1 hi2
        by_cases hic : i = c
        · subst hic
          refine ⟨s, by simp, ?_⟩
          simp only [Nat.sub_self]
          rw [← hhead]
          exact lt_of_not_le hsel
        · obtain ⟨t, ht1, ht2⟩ := h3 i (by omega) hi2
          refine ⟨t, ?_, ?_⟩
          · have : i - c = (i - (c + 1)) + 1 := by omega
            rw [this]
            simpa using ht1
          · have : i - c = (i - (c + 1)) + 1 := by omega
            rw [this, ← htail]
            exact ht2
      · intro hlt
        obtain ⟨t, ht1, ht2⟩ := h4 hlt
        have : (ServiceExecutionPlanExecuter.FindStepToExecute.loop sel n rest (c + 1)
            { rng with values := rng.values.tail }).1 - c =
            ((ServiceExecutionPlanExecuter.FindStepToExecute.loop sel n rest (c + 1)
            { rng with values := rng.values.tail }).1 - (c + 1)) + 1 := by omega
        refine ⟨t, ?_, ?_⟩
        · rw [this]
          simpa using ht1
        · rw [this, ← htail]
          exact ht2

/-- The method `FindStepToExecute` for a current step `c` within the plan. -/
theorem FindStepToExecute_spec (self : ServiceExecutionPlanExecuter) (c : Nat) (rng : Rng)
    (hlen : self.m_servicePlan.m_executionSteps.length < 2147483648)
    (hc : self.m_currentStep = (c : Int))
    (hcn : c ≤ self.m_servicePlan.m_executionSteps.length) :
    c ≤ (self.FindStepToExecute rng).1 ∧
    (self.FindStepToExecute rng).1 ≤ self.m_servicePlan.m_executionSteps.length ∧
    (∀ i, c ≤ i → i < (self.FindStepToExecute rng).1 →
      ∃ s, self.m_servicePlan.m_executionSteps.get? i = some s ∧
        s.m_stepProbability < rng.values.getD (i - c) 0) ∧
    ((self.FindStepToExecute rng).1 < self.m_servicePlan.m_executionSteps.length →
      ∃ s, self.m_servicePlan.m_executionSteps.get? (self.FindStepToExecute rng).1 = some s ∧
        rng.values.getD ((self.FindStepToExecute rng).1 - c) 0 ≤ s.m_stepProbability) := by
  have hstep : (self.m_currentStep % (U32 : Int)).toNat = c := by
    rw [hc]
    have : ((c : Int) % (U32 : Int)) = (c : Int) := by
      apply Int.emod_eq_of_lt (by omega)
      unfold U32
      omega
    rw [this]
    simp
  have hF : self.FindStepToExecute rng =
      ServiceExecutionPlanExecuter.FindStepToExecute.loop self.m_stepSelector
        self.m_servicePlan.m_executionSteps.length
        (self.m_servicePlan.m_executionSteps.drop c) c rng := by
    simp only [ServiceExecutionPlanExecuter.FindStepToExecute, hstep,
      ExecutionPlan.GetExecutionStepsCount]
  rw [hF]
  obtain ⟨h1, h2, h3, h4⟩ := FindStepToExecute_loop_spec self.m_stepSelector
    self.m_servicePlan.m_executionSteps.length (self.m_servicePlan.m_executionSteps.drop c) c rng
    (by simp only [List.length_drop]; omega)
  refine ⟨h1, h2, ?_, ?_⟩
  · intro i hi1 hi2
    obtain ⟨s, hs1, hs2⟩ := h3 i hi1 hi2
    refine ⟨s, ?_, hs2⟩
    rw [List.get?_eq_getElem?, List.getElem?_drop] at hs1
    rw [List.get?_eq_getElem?]
    have : c + (i - c) = i := by omega
    rw [this] at hs1
    exact hs1
  · intro hlt
    obtain ⟨s, hs1, hs2⟩ := h4 hlt
    refine ⟨s, ?_, hs2⟩
    rw [List.get?_eq_getElem?, List.getElem?_drop] at hs1
    rw [List.get?_eq_getElem?]
    have : c + ((ServiceExecutionPlanExecuter.FindStepToExecute.loop self.m_stepSelector
        self.m_servicePlan.m_executionSteps.length
        (self.m_servicePlan.m_executionSteps.drop c) c rng).1 - c) =
        (ServiceExecutionPlanExecuter.FindStepToExecute.loop self.m_stepSelector
        self.m_servicePlan.m_executionSteps.length
        (self.m_servicePlan.m_executionSteps.drop c) c rng).1 := by omega
    rw [this] at hs1
    exact hs1

/-- One call of `ExecuteNextStep`: the plan stays, `m_currentStep` does not decrease, and a
step that is sent has an index from the old `m_currentStep` on and within the plan, and
`m_currentStep` is the index after it. -/
theorem ExecuteNextStep_spec (self : ServiceExecutionPlanExecuter) (rng : Rng)
    (hlen : self.m_servicePlan.m_executionSteps.length < 2147483648)
    (hlow : -1 ≤ self.m_currentStep) :
    (self.ExecuteNextStep rng).2.1.m_servicePlan = self.m_servicePlan ∧
    self.m_currentStep ≤ (self.ExecuteNextStep rng).2.1.m_currentStep ∧
    ∀ index, (self.ExecuteNextStep rng).1 = some (ExecuterAction.Send index) →
      self.m_currentStep ≤ (index : Int) ∧
      index < self.m_servicePlan.m_executionSteps.length ∧
      (self.ExecuteNextStep rng).2.1.m_currentStep = (index : Int) + 1 := by
  unfold ServiceExecutionPlanExecuter.ExecuteNextStep
  by_cases h1 : self.m_currentStep = -1
  · simp only [if_pos h1]
    refine ⟨trivial, by simp, ?_⟩
    intro index h
    simp at h
  · simp only [if_neg h1]
    have hlast : ∀ (cur : Int) (r : Rng), self.m_currentStep ≤ cur →
        (ServiceExecutionPlanExecuter.ExecuteNextStep.last self cur r).2.1.m_servicePlan
            = self.m_servicePlan ∧
        self.m_currentStep ≤
          (ServiceExecutionPlanExecuter.ExecuteNextStep.last self cur r).2.1.m_currentStep ∧
        ∀ index, (ServiceExecutionPlanExecuter.ExecuteNextStep.last self cur r).1 =
            some (ExecuterAction.Send index) →
          self.m_currentStep ≤ (index : Int) ∧
          index < self.m_servicePlan.m_executionSteps.length ∧
          (ServiceExecutionPlanExecuter.ExecuteNextStep.last self cur r).2.1.m_currentStep
            = (index : Int) + 1 := by
      intro cur r hcur
      unfold ServiceExecutionPlanExecuter.ExecuteNextStep.last
      by_cases ha : cur = (self.m_servicePlan.GetExecutionStepsCount : Int)
      · simp only [if_pos ha]
        refine ⟨trivial, ?_, ?_⟩
        · show self.m_currentStep ≤ cur + 1
          omega
        · intro index h
          simp at h
      · simp only [if_neg ha]
        by_cases hb : cur > (self.m_servicePlan.GetExecutionStepsCount : Int)
        · simp only [if_pos hb]
          refine ⟨trivial, hcur, ?_⟩
          intro index h
          simp at h
        · simp only [if_neg hb]
          refine ⟨trivial, hcur, ?_⟩
          intro index h
          simp at h
    by_cases h2 : self.m_currentStep < (self.m_servicePlan.GetExecutionStepsCount : Int)
    · simp only [if_pos h2]
      have hc0 : (0 : Int) ≤ self.m_currentStep := by omega
      obtain ⟨c, hc⟩ := Int.eq_ofNat_of_zero_le hc0
      have hcn : c ≤ self.m_servicePlan.m_executionSteps.length := by
        simp only [ExecutionPlan.GetExecutionStepsCount] at h2
        omega
      obtain ⟨f1, f2, -, -⟩ := FindStepToExecute_spec self c rng hlen hc hcn
      by_cases h3 : ((self.FindStepToExecute rng).1 : Int) <
          (self.m_servicePlan.GetExecutionStepsCount : Int)
      · simp only [if_pos h3]
        refine ⟨trivial, ?_, ?_⟩
        · show self.m_currentStep ≤ ((self.FindStepToExecute rng).1 : Int) + 1
          omega
        · intro index h
          simp only [Option.some.injEq, ExecuterAction.Send.injEq, Int.toNat_ofNat] at h
          subst h
          simp only [ExecutionPlan.GetExecutionStepsCount] at h3
          exact ⟨by omega, by omega, rfl⟩
      · simp only [if_neg h3]
        exact hlast _ _ (by omega)
    · simp only [if_neg h2]
      exact hlast _ _ (le_refl _)

/-- The steps sent by successive calls of `ExecuteNextStep` have indices from
`m_currentStep` on and within the plan, in strictly increasing order. -/
theorem sentSteps_spec (rngs : List Rng) (self : ServiceExecutionPlanExecuter)
    (hlen : self.m_servicePlan.m_executionSteps.length < 2147483648)
    (hlow : -1 ≤ self.m_currentStep) :
    (∀ x ∈ ServiceExecutionPlanExecuter.sentSteps rngs self,
      self.m_currentStep ≤ (x : Int) ∧ x < self.m_servicePlan.m_executionSteps.length) ∧
    (ServiceExecutionPlanExecuter.sentSteps rngs self).Pairwise (fun a b => a < b) := by
  induction rngs generalizing self with
  | nil => exact ⟨fun x hx => (by cases hx), List.Pairwise.nil⟩
  | cons rng rest ih =>
    obtain ⟨hp, hm, hs⟩ := ExecuteNextStep_spec self rng hlen hlow
    obtain ⟨ih1, ih2⟩ := ih (self.ExecuteNextStep rng).2.1 (by rw [hp]; exact hlen)
      (le_trans hlow hm)
    rw [hp] at ih1
    by_cases hsend : ∃ index, (self.ExecuteNextStep rng).1 = some (ExecuterAction.Send index)
    · obtain ⟨index, hidx⟩ := hsend
      obtain ⟨s1, s2, s3⟩ := hs index hidx
      have he : ServiceExecutionPlanExecuter.sentSteps (rng :: rest) self =
          index :: ServiceExecutionPlanExecuter.sentSteps rest (self.ExecuteNextStep rng).2.1 := by
        rw [ServiceExecutionPlanExecuter.sentSteps]
        generalize self.ExecuteNextStep rng = res at hidx
        obtain ⟨a, b, c⟩ := res
        simp only at hidx
        subst hidx
        rfl
      rw [he]
      refine ⟨?_, ?_⟩
      · intro x hx
        rcases List.mem_cons.1 hx with rfl | hx
        · exact ⟨s1, s2⟩
        · exact ⟨le_trans hm (ih1 x hx).1, (ih1 x hx).2⟩
      · refine List.Pairwise.cons ?_ ih2
        intro x hx
        have := (ih1 x hx).1
        omega
    · have he : ServiceExecutionPlanExecuter.sentSteps (rng :: rest) self =
          ServiceExecutionPlanExecuter.sentSteps rest (self.ExecuteNextStep rng).2.1 := by
        rw [ServiceExecutionPlanExecuter.sentSteps]
        generalize self.ExecuteNextStep rng = res at hsend
        obtain ⟨a, b, c⟩ := res
        cases a with
        | none => rfl
        | some act =>
          cases act with
          | Send index => exact absurd ⟨index, rfl⟩ hsend
          | Delay d => rfl
          | Finished s => rfl
      rw [he]
      exact ⟨fun x hx => ⟨le_trans hm (ih1 x hx).1, (ih1 x hx).2⟩, ih2⟩

/-- C24, the input that refutes the claim as it stands: a plan with one step of probability
50 and the draw 50; the probability is not greater than the draw, but `FindStepToExecute`
returns the index 0 of the step and not the number 1 of steps. -/
theorem C24_counterexample :
    (ServiceExecutionPlanExecuter.FindStepToExecute
        { m_servicePlan := examplePlanOneStep, m_stepSelector := { tag := 5 },
          m_currentStep := 0 }
        { values := [Double.ofNat 50], integers := [] }).1 = 0 ∧
      examplePlanOneStep.m_executionSteps.length = 1 ∧
      ∀ s ∈ examplePlanOneStep.m_executionSteps, ¬ (s.m_stepProbability > Double.ofNat 50) := by
  decide

/-- C24, amended: for every service execution plan with `n` steps (fewer than 2^31), every
current index `c <= n` and every sequence of draws, `FindStepToExecute` returns the least
index `i` with `c <= i < n` such that the probability of step `i` is at least (greater than
or equal to) the draw made for step `i`, the draw number `i - c` of the call, and returns
`n` when there is no such index; the result is in `[c, n]`; and the steps sent by the
successive calls of `ExecuteNextStep` after `OnStart`, whatever the draws still to come at
each call, have strictly increasing indices below `n`, so each step is sent at most once. -/
theorem C24_FindStepToExecute_least_selected_step (self : ServiceExecutionPlanExecuter)
    (c : Nat) (rng : Rng) (rngs : List Rng)
    (hlen : self.m_servicePlan.m_executionSteps.length < 2147483648)
    (hc : self.m_currentStep = (c : Int))
    (hcn : c ≤ self.m_servicePlan.m_executionSteps.length) :
    c ≤ (self.FindStepToExecute rng).1 ∧
    (self.FindStepToExecute rng).1 ≤ self.m_servicePlan.m_executionSteps.length ∧
    (∀ i, c ≤ i → i < (self.FindStepToExecute rng).1 →
      ∃ s, self.m_servicePlan.m_executionSteps.get? i = some s ∧
        ¬ (rng.values.getD (i - c) 0 ≤ s.m_stepProbability)) ∧
    ((self.FindStepToExecute rng).1 < self.m_servicePlan.m_executionSteps.length →
      ∃ s, self.m_servicePlan.m_executionSteps.get? (self.FindStepToExecute rng).1 = some s ∧
        rng.values.getD ((self.FindStepToExecute rng).1 - c) 0 ≤ s.m_stepProbability) ∧
    (ServiceExecutionPlanExecuter.sentSteps rngs self.OnStart).Pairwise (fun a b => a < b) ∧
    (∀ x ∈ ServiceExecutionPlanExecuter.sentSteps rngs self.OnStart,
      x < self.m_servicePlan.m_executionSteps.length) ∧
    (ServiceExecutionPlanExecuter.sentSteps rngs self.OnStart).Nodup := by
  obtain ⟨h1, h2, h3, h4⟩ := FindStepToExecute_spec self c rng hlen hc hcn
  obtain ⟨s1, s2⟩ := sentSteps_spec rngs self.OnStart hlen (le_refl _)
  refine ⟨h1, h2, ?_, h4, s2, fun x hx => (s1 x hx).2, ?_⟩
  · intro i hi1 hi2
    obtain ⟨s, hs1, hs2⟩ := h3 i hi1 hi2
    exact ⟨s, hs1, not_le.2 hs2⟩
  · exact s2.imp (fun h => Nat.ne_of_lt h)

/-- C24 at a plan with one step of probability 50, current index 0 and the draw 70. -/
theorem C24_FindStepToExecute_least_selected_step_witness :
    (0 : Nat) ≤ (ServiceExecutionPlanExecuter.FindStepToExecute
        { m_servicePlan := examplePlanOneStep, m_stepSelector := { tag := 5 },
          m_currentStep := 0 }
        { values := [Double.ofNat 70], integers := [] }).1 ∧
    (ServiceExecutionPlanExecuter.FindStepToExecute
        { m_servicePlan := examplePlanOneStep, m_stepSelector := { tag := 5 },
          m_currentStep := 0 }
        { values := [Double.ofNat 70], integers := [] }).1 ≤ 1 :=
  ⟨(C24_FindStepToExecute_least_selected_step
      { m_servicePlan := examplePlanOneStep, m_stepSelector := { tag := 5 },
        m_currentStep := 0 } 0 { values := [Double.ofNat 70], integers := [] } []
      (by decide) rfl (by decide)).1,
   (C24_FindStepToExecute_least_selected_step
      { m_servicePlan := examplePlanOneStep, m_stepSelector := { tag := 5 },
        m_currentStep := 0 } 0 { values := [Double.ofNat 70], integers := [] } []
      (by decide) rfl (by decide)).2.1⟩

/-- C25: after each outcome of a call of the client execution plan executer the next step
is scheduled with a delay drawn from the after-failure waiting period of the plan when the
outcome is a received ResponseException or a response timeout, and with a delay drawn from
the request rate (the inter-request delay) of the plan in every other outcome: a received
message of another type, and a send failure. The delay is the drawn integer in
milliseconds. -/
theorem C25_client_executer_next_step_delay (self : ClientExecutionPlanExecuter) (rng : Rng)
    (outcome : CallOutcome) :
    (self.onOutcome rng outcome).1.m_executeTaskEvent =
      some { delayValue := MilliSeconds ((rng.integers.headD 0 % U32 : Nat) : Int),
             delay := if outcome.isExceptionOrTimeout
                      then self.m_clientPlan.m_afterFailureWaitingPeriod
                      else self.m_clientPlan.m_requestRate } ∧
    (self.onOutcome rng outcome).1.m_clientPlan = self.m_clientPlan ∧
    (outcome = CallOutcome.SendFailure →
      (self.onOutcome rng outcome).1.m_executeTaskEvent =
        some { delayValue := MilliSeconds ((rng.integers.headD 0 % U32 : Nat) : Int),
               delay := self.m_clientPlan.m_requestRate }) := by
  cases outcome with
  | SendFailure =>
    exact ⟨rfl, rfl, fun _ => rfl⟩
  | ResponseTimeout =>
    refine ⟨rfl, rfl, fun h => ?_⟩
    cases h
  | ReceiveResponse msg =>
    refine ⟨?_, ?_, fun h => ?_⟩
    · by_cases hm : msg.m_messageType = Message.MTResponseException
      · simp only [ClientExecutionPlanExecuter.onOutcome,
          ClientExecutionPlanExecuter.Request_onReceiveResponseCallback, if_pos hm,
          CallOutcome.isExceptionOrTimeout, decide_eq_true hm, if_true]
        rfl
      · simp only [ClientExecutionPlanExecuter.onOutcome,
          ClientExecutionPlanExecuter.Request_onReceiveResponseCallback, if_neg hm,
          CallOutcome.isExceptionOrTimeout, decide_eq_false hm]
        rfl
    · by_cases hm : msg.m_messageType = Message.MTResponseException
      · simp only [ClientExecutionPlanExecuter.onOutcome,
          ClientExecutionPlanExecuter.Request_onReceiveResponseCallback, if_pos hm]
        rfl
      · simp only [ClientExecutionPlanExecuter.onOutcome,
          ClientExecutionPlanExecuter.Request_onReceiveResponseCallback, if_neg hm]
        rfl
    · cases h

/-- The draws of integers left after one draw are among the draws before it. -/
theorem GetInteger_draws_le (rv : RandomVariable) (rng : Rng) (m : Nat)
    (h : ∀ v ∈ rng.integers, v ≤ m) :
    (rv.GetInteger rng).1 ≤ m ∧ ∀ v ∈ (rv.GetInteger rng).2.integers, v ≤ m := by
  unfold RandomVariable.GetInteger
  constructor
  · show rng.integers.headD 0 % U32 ≤ m
    refine le_trans (Nat.mod_le _ _) ?_
    cases hl : rng.integers with
    | nil => simp
    | cons a t =>
      rw [hl] at h
      exact h a (List.mem_cons_self _ _)
  · intro v hv
    exact h v (List.mem_of_mem_tail hv)

/-- The inner loop of `SelectServicesToBeUsedByClients` within bin `b`. -/
theorem SelectServices_inner_spec (sel : RandomVariable) (bins per b : Nat) (hb : b < bins)
    (hbins : 6 * bins < U32) (count : Nat) :
    ∀ (i : Nat) (rng : Rng) (writes : List (Nat × Nat)),
      b * per ≤ i → i + count = (b + 1) * per → i + count < U32 →
      (∀ v ∈ rng.integers, v ≤ 5) →
      writes.map Prod.fst = List.range i →
      (∀ kv ∈ writes,
        ServiceConfigurationRandomGenerator.SelectServicesToBeUsedByClients.InBin bins per kv) →
      (ServiceConfigurationRandomGenerator.SelectServicesToBeUsedByClients.inner 6 sel b count
          i rng writes).1 = i + count ∧
      (∀ v ∈ (ServiceConfigurationRandomGenerator.SelectServicesToBeUsedByClients.inner 6 sel b
          count i rng writes).2.1.integers, v ≤ 5) ∧
      ((ServiceConfigurationRandomGenerator.SelectServicesToBeUsedByClients.inner 6 sel b count
          i rng writes).2.2).map Prod.fst = List.range (i + count) ∧
      (∀ kv ∈ (ServiceConfigurationRandomGenerator.SelectServicesToBeUsedByClients.inner 6 sel b
          count i rng writes).2.2,
        ServiceConfigurationRandomGenerator.SelectServicesToBeUsedByClients.InBin bins per
          kv) := by
  induction count with
  | zero =>
    intro i rng writes _ _ _ hr hw hq
    exact ⟨rfl, hr, hw, hq⟩
  | succ count ih =>
    intro i rng writes h1 h2 h3 hr hw hq
    obtain ⟨hv, hr2⟩ := GetInteger_draws_le sel rng 5 hr
    have hi : (i + 1) % U32 = i + 1 := Nat.mod_eq_of_lt (by omega)
    have hsid : ((b * 6) % U32 + (sel.GetInteger rng).1) % U32 =
        6 * b + (sel.GetInteger rng).1 := by
      have : b * 6 < U32 := by omega
      rw [Nat.mod_eq_of_lt this, Nat.mod_eq_of_lt (by omega)]
      omega
    have he : ServiceConfigurationRandomGenerator.SelectServicesToBeUsedByClients.inner 6 sel b
          (count + 1) i rng writes =
        ServiceConfigurationRandomGenerator.SelectServicesToBeUsedByClients.inner 6 sel b
          count (i + 1) (sel.GetInteger rng).2
          (writes ++ [(i, 6 * b + (sel.GetInteger rng).1)]) := by
      rw [ServiceConfigurationRandomGenerator.SelectServicesToBeUsedByClients.inner]
      simp only [hi, hsid]
    rw [he]
    have := ih (i + 1) (sel.GetInteger rng).2 (writes ++ [(i, 6 * b + (sel.GetInteger rng).1)])
      (by omega) (by omega) (by omega) hr2
      (by rw [List.map_append, hw, List.range_succ]; rfl)
      (by
        intro kv hkv
        rcases List.mem_append.1 hkv with h | h
        · exact hq kv h
        · rw [List.mem_singleton] at h
          subst h
          exact ⟨b, hb, h1, by show i < (b + 1) * per; omega, by show 6 * b ≤ _; omega,
            by show 6 * b + _ ≤ 6 * b + 5; omega⟩)
    have e : i + 1 + count = i + (count + 1) := by omega
    rw [e] at this
    exact this

/-- The outer loop of `SelectServicesToBeUsedByClients` from bin `b` on. -/
theorem SelectServices_outer_spec (sel : RandomVariable) (bins per : Nat)
    (hbins : 6 * bins < U32) (hper : bins * per < U32) (count : Nat) :
    ∀ (b i : Nat) (rng : Rng) (writes : List (Nat × Nat)),
      b + count = bins → i = b * per →
      (∀ v ∈ rng.integers, v ≤ 5) →
      writes.map Prod.fst = List.range i →
      (∀ kv ∈ writes,
        ServiceConfigurationRandomGenerator.SelectServicesToBeUsedByClients.InBin bins per kv) →
      ((ServiceConfigurationRandomGenerator.SelectServicesToBeUsedByClients.outer 6 per sel
          count b i rng writes).2.2).map Prod.fst = List.range (bins * per) ∧
      (∀ kv ∈ (ServiceConfigurationRandomGenerator.SelectServicesToBeUsedByClients.outer 6 per
          sel count b i rng writes).2.2,
        ServiceConfigurationRandomGenerator.SelectServicesToBeUsedByClients.InBin bins per
          kv) := by
  induction count with
  | zero =>
    intro b i rng writes h1 h2 _ hw hq
    have : b = bins := by omega
    subst this
    subst h2
    exact ⟨hw, hq⟩
  | succ count ih =>
    intro b i rng writes h1 h2 hr hw hq
    have hle : (b + 1) * per ≤ bins * per := Nat.mul_le_mul_right per (by omega)
    have hsm : (b + 1) * per = b * per + per := Nat.succ_mul b per
    obtain ⟨a1, a2, a3, a4⟩ := SelectServices_inner_spec sel bins per b (by omega) hbins per
      i rng writes (by omega) (by omega) (by omega) hr hw hq
    have he : ServiceConfigurationRandomGenerator.SelectServicesToBeUsedByClients.outer 6 per
          sel (count + 1) b i rng writes =
        ServiceConfigurationRandomGenerator.SelectServicesToBeUsedByClients.outer 6 per sel
          count (b + 1)
          (ServiceConfigurationRandomGenerator.SelectServicesToBeUsedByClients.inner 6 sel b
            per i rng writes).1
          (ServiceConfigurationRandomGenerator.SelectServicesToBeUsedByClients.inner 6 sel b
            per i rng writes).2.1
          (ServiceConfigurationRandomGenerator.SelectServicesToBeUsedByClients.inner 6 sel b
            per i rng writes).2.2 := by
      rw [ServiceConfigurationRandomGenerator.SelectServicesToBeUsedByClients.outer]
    rw [he]
    exact ih (b + 1) _ _ _ (by omega) (by rw [a1]; omega) a2 (by rw [a3, a1]) a4

/-- C29, the failing inputs and what holds otherwise. With fewer than 6 services in the
configuration (1 to 5 as well as 0) `numberOfBins` is 0 and the division
`numberOfServicesToBeUsedByClients / numberOfBins` has a zero divisor, for every requested
count: `SelectServicesToBeUsedByClients` is not well defined there. With 6 or more services
(fewer than 2^32), a requested count `n` below 2^32 and draws of the selector within
`[0, 5]`, the method is defined, writes exactly the indices `0 .. k - 1` in order, where
`k = numberOfBins * (n / numberOfBins) <= n`, and every write belongs to a bin `b`: its index
is one of the `n / numberOfBins` indices of the bin and its value lies in `[6b, 6b + 5]`. -/
theorem C29_SelectServicesToBeUsedByClients_zero_bins :
    (∀ numberOfServices n rng, numberOfServices < 6 →
      ServiceConfigurationRandomGenerator.SelectServicesToBeUsedByClients numberOfServices n
        rng = none) ∧
    ServiceConfigurationRandomGenerator.SelectServicesToBeUsedByClients 3 1
      { values := [], integers := [] } = none ∧
    (∀ numberOfServices n rng, 6 ≤ numberOfServices → numberOfServices < U32 → n < U32 →
      (∀ v ∈ rng.integers, v ≤ 5) →
      ∃ writes rng2,
        ServiceConfigurationRandomGenerator.SelectServicesToBeUsedByClients numberOfServices n
          rng = some (writes, rng2) ∧
        writes.map Prod.fst =
          List.range (numberOfServices / 6 * (n / (numberOfServices / 6))) ∧
        numberOfServices / 6 * (n / (numberOfServices / 6)) ≤ n ∧
        ∀ kv ∈ writes,
          ServiceConfigurationRandomGenerator.SelectServicesToBeUsedByClients.InBin
            (numberOfServices / 6) (n / (numberOfServices / 6)) kv) := by
  refine ⟨?_, by decide, ?_⟩
  · intro ns n rng h
    have : ns / 6 = 0 := by omega
    simp only [ServiceConfigurationRandomGenerator.SelectServicesToBeUsedByClients, this,
      if_true]
  · intro ns n rng h1 h2 h3 hr
    have hb : ns / 6 ≠ 0 := by omega
    have hk : ns / 6 * (n / (ns / 6)) ≤ n := Nat.mul_div_le n (ns / 6)
    obtain ⟨o1, o2⟩ := SelectServices_outer_spec { tag := 0 } (ns / 6) (n / (ns / 6))
      (by omega) (by omega) (ns / 6) 0 0 rng [] (by omega) (by simp) hr rfl
      (fun kv hkv => by cases hkv)
    refine ⟨_, (ServiceConfigurationRandomGenerator.SelectServicesToBeUsedByClients.outer 6
      (n / (ns / 6)) { tag := 0 } (ns / 6) 0 0 rng []).2.1, ?_, o1, hk, o2⟩
    simp only [ServiceConfigurationRandomGenerator.SelectServicesToBeUsedByClients, if_neg hb]

/-- Inserting a key above all keys of the map appends the entry. -/
theorem mapInsert_of_lt {α : Type} (l : List (Nat × α)) (key : Nat) (value : α)
    (h : ∀ kv ∈ l, kv.1 < key) : mapInsert l key value = l ++ [(key, value)] := by
  induction l with
  | nil => rfl
  | cons kv rest ih =>
    obtain ⟨k, v⟩ := kv
    have hk : k < key := h (k, v) (List.mem_cons_self _ _)
    have h1 : ¬ key < k := by omega
    have h2 : ¬ key = k := by omega
    simp only [mapInsert, if_neg h1, if_neg h2, List.cons_append]
    rw [ih (fun kv hkv => h kv (List.mem_cons_of_mem _ hkv))]

/-- Reading a map whose values were all changed by `f`. -/
theorem mapFind_map {α β : Type} (f : α → β) (l : List (Nat × α)) (key : Nat) :
    mapFind (l.map (fun kv => (kv.1, f kv.2))) key = (mapFind l key).map f := by
  induction l with
  | nil => rfl
  | cons kv rest ih =>
    obtain ⟨k, v⟩ := kv
    simp only [List.map_cons, mapFind]
    by_cases hk : k = key
    · simp [hk]
    · simp [hk, ih]

/-- The loop of `Service::CreateReplica` appends the replica of every method. -/
theorem CreateReplica_loop_exact (newRef : ServiceRef) :
    ∀ (methods : List (Nat × ServiceMethod)) (service : Service),
      (methods.map Prod.fst).Pairwise (fun a b => a < b) →
      (∀ km ∈ methods, km.2.m_contractMethodId = km.1 ∧ km.1 ≠ 0) →
      (∀ kv ∈ service.m_methods, ∀ km ∈ methods, kv.1 < km.1) →
      Service.CreateReplica.loop newRef methods service =
        some { service with
          m_methods := service.m_methods ++
            methods.map (fun km => (km.1, { km.2 with m_service := newRef })) } := by
  intro methods
  induction methods with
  | nil =>
    intro service _ _ _
    simp [Service.CreateReplica.loop]
  | cons x rest ih =>
    intro service hs hid hlt
    obtain ⟨k, method⟩ := x
    obtain ⟨hid1, hid2⟩ := hid (k, method) (List.mem_cons_self _ _)
    simp only at hid1 hid2
    have hr : method.CreateReplica newRef = some { method with m_service := newRef } := by
      unfold ServiceMethod.CreateReplica ServiceMethod.new
      rw [hid1, if_pos hid2]
    simp only [List.map_cons, List.pairwise_cons] at hs
    simp only [Service.CreateReplica.loop, hr, Option.bind_eq_bind, Option.some_bind]
    rw [mapInsert_of_lt _ _ _ (by
      intro kv hkv
      have := hlt kv hkv (k, method) (List.mem_cons_self _ _)
      simp only [hid1]
      exact this)]
    rw [ih _ hs.2 (fun km hkm => hid km (List.mem_cons_of_mem _ hkm)) (by
      intro kv hkv km hkm
      simp only [List.mem_append, List.mem_singleton] at hkv
      rcases hkv with hkv | hkv
      · exact hlt kv hkv km (List.mem_cons_of_mem _ hkm)
      · subst hkv
        simp only [hid1]
        exact hs.1 km.1 (List.mem_map_of_mem _ hkm))]
    simp only [hid1, List.append_assoc, List.singleton_append, List.map_cons]

/-- The method `Service::CreateReplica` on a well-formed service. -/
theorem CreateReplica_exact (s : Service) (n : Nat) (newRef : ServiceRef)
    (hwf : s.WellFormed) (hn : n ≠ 0) :
    s.CreateReplica n newRef =
      some { s with
        m_serviceId := n
        m_methods := s.m_methods.map (fun km => (km.1, { km.2 with m_service := newRef })) } := by
  obtain ⟨hb, hc, hs, hid⟩ := hwf
  unfold ServiceBase.Constructed ServiceBase.new at hb
  split_ifs at hb with hcond
  have hnew : Service.new n s.m_startTime s.m_stopTime s.m_responseTimeout s.m_ACKTimeout
      s.m_retransmissionLimit s.m_msgIdLifetime s.m_contractId s.m_faultModel
      s.m_postErrorDelay =
      some { s with m_serviceId := n, m_methods := [] } := by
    unfold Service.new ServiceBase.new
    rw [if_pos ⟨hn, hcond.2⟩]
    simp only [Option.bind_eq_bind, Option.some_bind, if_pos hc]
    rfl
  unfold Service.CreateReplica
  simp only [hnew, Option.bind_eq_bind, Option.some_bind]
  rw [CreateReplica_loop_exact newRef s.m_methods _ hs hid (fun kv hkv => by cases hkv)]
  rfl

/-- C23: for every well-formed service `s` of a configuration (registered under `sid`) and
every non-zero id `n` that is not yet the id of a service, `s.CreateReplica (n)` returns a
service with id `n`, the contract id and all timing fields of `s`, and the same method ids
as `s`; each method of the replica has the replica (the new object) as its owning service
and the plan object of the method of `s` with that id, so that a step added afterwards
through `s` is read through the replica as well; and `AddServiceReplica (sid, n)` maps `n`
to the replica and leaves the mapping of all other service ids, the other service objects
and the plans as they are. -/
theorem C23_CreateReplica_shares_plans (cfg : ServiceConfiguration) (sid n : Nat)
    (ref : ServiceRef) (s : Service)
    (hget : cfg.GetService sid = some ref) (hs : cfg.service ref = some s)
    (hwf : s.WellFormed) (hsid : sid ≠ 0) (hn : n ≠ 0) (hnew : cfg.GetService n = none) :
    ∃ replica cfg2,
      s.CreateReplica n cfg.serviceObjects.length = some replica ∧
      replica.m_serviceId = n ∧ replica.m_contractId = s.m_contractId ∧
      replica.m_startTime = s.m_startTime ∧ replica.m_stopTime = s.m_stopTime ∧
      replica.m_responseTimeout = s.m_responseTimeout ∧
      replica.m_ACKTimeout = s.m_ACKTimeout ∧
      replica.m_retransmissionLimit = s.m_retransmissionLimit ∧
      replica.m_msgIdLifetime = s.m_msgIdLifetime ∧
      replica.m_methods.map Prod.fst = s.m_methods.map Prod.fst ∧
      (∀ id m, s.GetMethod id = some m →
        ∃ m2, replica.GetMethod id = some m2 ∧ m2.m_contractMethodId = id ∧
          m2.m_service = cfg.serviceObjects.length ∧
          m2.m_executionPlan = m.m_executionPlan) ∧
      (∀ id, s.GetMethod id = none → replica.GetMethod id = none) ∧
      cfg.AddServiceReplica sid n = some cfg2 ∧
      cfg2.GetService n = some cfg.serviceObjects.length ∧
      cfg2.service cfg.serviceObjects.length = some replica ∧
      cfg.service cfg.serviceObjects.length = none ∧
      (∀ id, id ≠ n → cfg2.GetService id = cfg.GetService id) ∧
      (∀ r s0, cfg.service r = some s0 → cfg2.service r = some s0) ∧
      cfg2.planObjects = cfg.planObjects ∧
      (∀ id m d dm size p cfg3, s.GetMethod id = some m →
        cfg2.AddServiceExecutionStep sid id d dm size p = some cfg3 →
        ∃ m2 plan step, replica.GetMethod id = some m2 ∧
          cfg3.plan m2.m_executionPlan = some plan ∧
          cfg3.plan m.m_executionPlan = some plan ∧
          plan.m_executionSteps.getLast? = some step ∧ step.m_contractId = d) := by
  have hrep := CreateReplica_exact s n cfg.serviceObjects.length hwf hn
  have hfind : ∀ id, mapFind (s.m_methods.map
      (fun km => (km.1, ({ km.2 with m_service := cfg.serviceObjects.length } : ServiceMethod))))
      id = (mapFind s.m_methods id).map
        (fun m => ({ m with m_service := cfg.serviceObjects.length } : ServiceMethod)) :=
    fun id => mapFind_map
      (fun m => ({ m with m_service := cfg.serviceObjects.length } : ServiceMethod))
      s.m_methods id
  have hkey : ∀ id m, mapFind s.m_methods id = some m → m.m_contractMethodId = id := by
    intro id m hm
    have hmem := mapFind_mem _ _ _ hm
    exact (hwf.2.2.2 _ hmem).1
  have hadd : cfg.AddServiceReplica sid n = some
      { cfg with
        serviceObjects := cfg.serviceObjects ++ [{ s with
          m_serviceId := n
          m_methods := s.m_methods.map
            (fun km => (km.1, { km.2 with m_service := cfg.serviceObjects.length })) }]
        m_services := mapInsert cfg.m_services n cfg.serviceObjects.length
        m_contracts := mapInsert cfg.m_contracts s.m_contractId cfg.serviceObjects.length } := by
    unfold ServiceConfiguration.AddServiceReplica
    have h0 : ¬ (sid = 0 ∨ n = 0) := fun h => h.elim hsid hn
    simp only [h0, if_false, hget, hs, hrep, Option.bind_eq_bind, Option.some_bind]
    rfl
  have hmeth : ∀ id m, s.GetMethod id = some m →
      ∃ m2, Service.GetMethod { s with
          m_serviceId := n
          m_methods := s.m_methods.map
            (fun km => (km.1, { km.2 with m_service := cfg.serviceObjects.length })) } id
          = some m2 ∧ m2.m_contractMethodId = id ∧
        m2.m_service = cfg.serviceObjects.length ∧
        m2.m_executionPlan = m.m_executionPlan := by
    intro id m hm
    refine ⟨{ m with m_service := cfg.serviceObjects.length }, ?_, hkey id m hm, rfl, rfl⟩
    unfold Service.GetMethod at hm ⊢
    show mapFind (s.m_methods.map _) id = _
    rw [hfind, hm]
    rfl
  have hkeep : ∀ r s0, cfg.service r = some s0 →
      (cfg.serviceObjects ++ [({ s with
          m_serviceId := n
          m_methods := s.m_methods.map
            (fun km => (km.1, { km.2 with m_service := cfg.serviceObjects.length })) }
            : Service)])[r]? = some s0 := by
    intro r s0 hr
    unfold ServiceConfiguration.service at hr
    have hlt : r < cfg.serviceObjects.length := (List.getElem?_eq_some.1 hr).1
    rw [List.getElem?_append_left hlt]
    exact hr
  have hne : sid ≠ n := by
    intro e
    rw [e] at hget
    rw [hget] at hnew
    cases hnew
  refine ⟨_, _, hrep, rfl, rfl, rfl, rfl, rfl, rfl, rfl, rfl, ?_, hmeth, ?_, hadd, ?_, ?_, ?_,
    ?_, hkeep, rfl, ?_⟩
  · show (s.m_methods.map _).map Prod.fst = _
    rw [List.map_map]
    rfl
  · intro id hm
    unfold Service.GetMethod at hm ⊢
    show mapFind (s.m_methods.map _) id = _
    rw [hfind, hm]
    rfl
  · exact mapFind_mapInsert_of_absent _ _ _ hnew
  · show (cfg.serviceObjects ++ [_])[cfg.serviceObjects.length]? = _
    simp
  · unfold ServiceConfiguration.service
    exact List.getElem?_eq_none (le_refl _)
  · intro id hid
    exact mapFind_mapInsert_of_ne _ _ _ _ hid
  · intro id m d dm size p cfg3 hm h3
    obtain ⟨ref2, service2, method2, plan2, step, g1, g2, g3, g4, g5, g6, -, -⟩ :=
      AddServiceExecutionStep_spec h3
    have e1 : ref2 = ref := by
      have : mapFind (mapInsert cfg.m_services n cfg.serviceObjects.length) sid = some ref2 := g1
      rw [mapFind_mapInsert_of_ne _ _ _ _ hne] at this
      have h' : mapFind cfg.m_services sid = some ref := hget
      rw [h'] at this
      exact (Option.some.inj this).symm
    subst e1
    have e2 : service2 = s := by
      have : (cfg.serviceObjects ++ [_])[ref2]? = some service2 := g2
      rw [hkeep ref2 s hs] at this
      exact (Option.some.inj this).symm
    subst e2
    rw [hm] at g3
    have e3 : method2 = m := (Option.some.inj g3).symm
    subst e3
    obtain ⟨m2, hm2, -, -, hp2⟩ := hmeth id method2 hm
    have hlt : method2.m_executionPlan < cfg.planObjects.length := by
      have hp : cfg.planObjects[method2.m_executionPlan]? = some plan2 := g4
      exact (List.getElem?_eq_some.1 hp).1
    have hplan3 : cfg3.plan method2.m_executionPlan =
        some { plan2 with m_executionSteps := plan2.m_executionSteps ++ [step] } := by
      unfold ServiceConfiguration.plan
      rw [g6]
      show (cfg.planObjects.set _ _)[method2.m_executionPlan]? = _
      rw [List.getElem?_set_self hlt]
    refine ⟨m2, _, step, hm2, by rw [hp2]; exact hplan3, hplan3, ?_, g5⟩
    simp

/-- C23 at service 1 of the example configuration and the new id 2. -/
theorem C23_CreateReplica_shares_plans_witness :
    ∃ replica cfg2,
      exampleService.CreateReplica 2 exampleConfigValid.serviceObjects.length = some replica ∧
      replica.m_serviceId = 2 ∧ replica.m_contractId = exampleService.m_contractId ∧
      exampleConfigValid.AddServiceReplica 1 2 = some cfg2 ∧
      cfg2.GetService 2 = some exampleConfigValid.serviceObjects.length := by
  obtain ⟨replica, cfg2, h1, h2, h3, -, -, -, -, -, -, -, -, -, h4, h5, -⟩ :=
    C23_CreateReplica_shares_plans exampleConfigValid 1 2 0 exampleService rfl rfl
      ⟨rfl, by decide, by decide, by decide⟩ (by decide) (by decide) rfl
  exact ⟨replica, cfg2, h1, h2, h3, h4, h5⟩

/-- C27, two runs in which a call reports a second outcome after a failure outcome, on an
endpoint that stays open and is not used for another call (timeouts: response 100 ms, ACK
10 ms, limit 3; every `SendTo` succeeds). In the first run the ACK arrives at 1 ms and no
response until the response timer expires at 100 ms, where `OnResponseTimeout` is reported;
the response of the peer arrives at 101 ms and is delivered to `OnReceiveResponse`. In the
second run no ACK arrives, `OnSendFailure` is reported at 30 ms after three transmissions,
and the response that arrives at 31 ms is delivered to `OnReceiveResponse` as well. -/
theorem C27_late_response_delivered_after_failure :
    (((UdpClientMessageEndpoint.SendMessage exampleEnvSending
        (World.create 0 exampleServiceBase false 0) exampleRequest 3 true).bind
          (World.run exampleEnvSending
            [Input.deliver (MilliSeconds 1) [examplePacketACK], Input.fire, Input.fire,
             Input.deliver (MilliSeconds 1) [examplePacketResponse], Input.fire])).map
        (fun w => (World.outcomes w.trace, w.ep.m_socketOpen))) =
      some ([(MilliSeconds 1, Output.OnSendSuccess),
             (MilliSeconds 100, Output.OnResponseTimeout),
             (MilliSeconds 101, Output.OnReceiveResponse examplePacketResponse.header)],
            true) ∧
    (((UdpClientMessageEndpoint.SendMessage exampleEnvSending
        (World.create 0 exampleServiceBase false 0) exampleRequest 3 true).bind
          (World.run exampleEnvSending
            [Input.fire, Input.fire, Input.fire,
             Input.deliver (MilliSeconds 1) [examplePacketResponse], Input.fire])).map
        (fun w => (World.outcomes w.trace, (World.requestAttempts w.trace).length,
          w.ep.m_socketOpen))) =
      some ([(MilliSeconds 30, Output.OnSendFailure),
             (MilliSeconds 31, Output.OnReceiveResponse examplePacketResponse.header)],
            3, true) := by
  decide

/-- The update of a counter of a valid message type succeeds and changes the counters only. -/
theorem ServerWorld_counter_exact (w : ServerWorld) (messageType : Nat)
    (f : MessageTypeCounter → MessageTypeCounter)
    (ht : 1 ≤ messageType ∧ messageType ≤ 4) (hl : w.s_msgCounters.length = 4) :
    ∃ cs, cs.length = 4 ∧ w.counter messageType f = some { w with s_msgCounters := cs } := by
  unfold ServerWorld.counter
  have hidx : (messageType + (U32 - 1)) % U32 = messageType - 1 := by
    unfold U32
    omega
  simp only [hidx]
  have hlt : messageType - 1 < w.s_msgCounters.length := by omega
  rw [List.getElem?_eq_getElem hlt]
  exact ⟨_, by simp [hl], rfl⟩

/-- The record of a received message of a valid type. -/
theorem Server_RecordReceiveMessage_exact (w : ServerWorld) (m : Message) (sender : Address)
    (droped : Bool) (ht : 1 ≤ m.m_messageType ∧ m.m_messageType ≤ 4)
    (hl : w.s_msgCounters.length = 4) :
    ∃ cs, cs.length = 4 ∧ UdpServerMessageEndpoint.RecordReceiveMessage w m sender droped =
      some { w with
        trace := w.trace ++ [(w.now, ServerOutput.RecordReceiveMessage m sender droped)]
        s_msgCounters := cs } := by
  unfold UdpServerMessageEndpoint.RecordReceiveMessage
  obtain ⟨cs1, h1, e1⟩ := ServerWorld_counter_exact w m.m_messageType
    (fun c => { c with msgReceiveCounter := (c.msgReceiveCounter + 1) % U32 }) ht hl
  simp only [e1, Option.bind_eq_bind, Option.some_bind]
  cases droped with
  | true =>
    refine ⟨cs1, h1, ?_⟩
    simp [ServerWorld.emit]
  | false =>
    obtain ⟨cs2, h2, e2⟩ := ServerWorld_counter_exact { w with s_msgCounters := cs1 }
      m.m_messageType
      (fun c => { c with msgReceiveUniqueCounter := (c.msgReceiveUniqueCounter + 1) % U32 })
      ht h1
    refine ⟨cs2, h2, ?_⟩
    simp [e2, ServerWorld.emit]

/-- The record of a message handed to the socket, for a message of a valid type. -/
theorem Server_RecordSendMessage_exact (w : ServerWorld) (m : Message) (dest : Address)
    (success : Bool) (ht : 1 ≤ m.m_messageType ∧ m.m_messageType ≤ 4)
    (hl : w.s_msgCounters.length = 4) :
    ∃ cs, cs.length = 4 ∧ UdpServerMessageEndpoint.RecordSendMessage w m dest 0 success =
      some { w with
        trace := w.trace ++ ((w.now, ServerOutput.SendTo m dest 0 success) ::
          (if success then []
           else [(w.now, ServerOutput.RecordError w.ep.m_serviceBase.m_serviceId
              ErrorType.ERROR_TYPE_SOCKET_FAILURE m.m_messageId)]))
        s_msgCounters := cs } := by
  unfold UdpServerMessageEndpoint.RecordSendMessage
  obtain ⟨cs1, h1, e1⟩ := ServerWorld_counter_exact w m.m_messageType
    (fun c => { c with msgSendAttemptCounter := (c.msgSendAttemptCounter + 1) % U32 }) ht hl
  simp only [e1, Option.bind_eq_bind, Option.some_bind]
  cases success with
  | true =>
    obtain ⟨cs2, h2, e2⟩ := ServerWorld_counter_exact { w with s_msgCounters := cs1 }
      m.m_messageType
      (fun c => { c with msgSendSuccessCounter := (c.msgSendSuccessCounter + 1) % U32 })
      ht h1
    obtain ⟨cs3, h3, e3⟩ := ServerWorld_counter_exact { w with s_msgCounters := cs2 }
      m.m_messageType
      (fun c => { c with msgSendUniqueCounter := (c.msgSendUniqueCounter + 1) % U32 })
      ht h2
    refine ⟨cs3, h3, ?_⟩
    simp [e2, e3, ServerWorld.emit]
  | false =>
    obtain ⟨cs3, h3, e3⟩ := ServerWorld_counter_exact { w with s_msgCounters := cs1 }
      m.m_messageType
      (fun c => { c with msgSendUniqueCounter := (c.msgSendUniqueCounter + 1) % U32 })
      ht h1
    refine ⟨cs3, h3, ?_⟩
    simp [e3, ServerWorld.emit]

/-- The method `SendACK` on an open endpoint: one `SendTo` of an ACK for the message. -/
theorem SendACK_exact (env : Env) (w : ServerWorld) (m : Message) (dest : Address)
    (ho : w.ep.m_socketOpen = true) (hl : w.s_msgCounters.length = 4) :
    ∃ cs ext, cs.length = 4 ∧
      UdpServerMessageEndpoint.SendACK env w m dest =
        some { w with
          s_messageCounter := (w.s_messageCounter + 1) % U32
          nSendTo := w.nSendTo + 1
          trace := w.trace ++ ext
          s_msgCounters := cs } ∧
      ServerWorld.acks ext =
        [((Message.new.InitializeACK m w.s_messageCounter).1, dest)] ∧
      ServerWorld.deliveries ext = [] := by
  unfold UdpServerMessageEndpoint.SendACK
  simp only [ho, Bool.not_true, Bool.false_eq_true, if_false]
  have hty : 1 ≤ (Message.new.InitializeACK m w.s_messageCounter).1.m_messageType ∧
      (Message.new.InitializeACK m w.s_messageCounter).1.m_messageType ≤ 4 := by
    simp [Message.InitializeACK, Message.MTACK]
  generalize decide ((env.transport w.nSendTo % (U32 : Int)).toNat > 0) = ok
  obtain ⟨cs, hcs, e⟩ := Server_RecordSendMessage_exact
    { w with
      s_messageCounter := (Message.new.InitializeACK m w.s_messageCounter).2
      nSendTo := w.nSendTo + 1 }
    (Message.new.InitializeACK m w.s_messageCounter).1 dest ok hty hl
  refine ⟨cs, (w.now, ServerOutput.SendTo (Message.new.InitializeACK m w.s_messageCounter).1
      dest 0 ok) ::
    (if ok = true then []
     else [(w.now, ServerOutput.RecordError w.ep.m_serviceBase.m_serviceId
        ErrorType.ERROR_TYPE_SOCKET_FAILURE
        (Message.new.InitializeACK m w.s_messageCounter).1.m_messageId)]), hcs, ?_, ?_, ?_⟩
  · exact e
  · cases ok <;> simp [ServerWorld.acks]
  · cases ok <;> simp [ServerWorld.deliveries]

/-- The test of the id cache is membership of the id among the keys of the map. -/
theorem IsMessageInCache_iff (cache : EndpointMessageIdCache) (msg : Message) :
    cache.IsMessageInCache msg = true ↔ msg.m_messageId ∈ cache.m_ids.map Prod.fst := by
  unfold EndpointMessageIdCache.IsMessageInCache
  generalize cache.m_ids = l
  induction l with
  | nil => simp [mapFind]
  | cons kv rest ih =>
    obtain ⟨k, v⟩ := kv
    by_cases hk : k = msg.m_messageId
    · simp [mapFind, hk]
    · have hk2 : ¬ msg.m_messageId = k := fun e => hk e.symm
      simp [mapFind, hk, hk2, ih]

/-- The keys of a map after `insert`. -/
theorem mem_keys_mapInsert {α : Type} (l : List (Nat × α)) (key : Nat) (value : α) (x : Nat) :
    x ∈ (mapInsert l key value).map Prod.fst ↔ x = key ∨ x ∈ l.map Prod.fst := by
  induction l with
  | nil => simp [mapInsert]
  | cons kv rest ih =>
    obtain ⟨k, v⟩ := kv
    simp only [mapInsert]
    by_cases h1 : key < k
    · simp [h1]
    · by_cases h2 : key = k
      · subst h2
        simp
      · simp only [if_neg h1, if_neg h2, List.map_cons, List.mem_cons, ih]
        tauto

/-- The ids held by the cache after `HaveMessageAlreadyArrived`. -/
theorem mem_ids_HaveMessageAlreadyArrived (cache : EndpointMessageIdCache) (msg : Message)
    (now : Time) (x : Nat) :
    x ∈ (cache.HaveMessageAlreadyArrived msg now).2.m_ids.map Prod.fst ↔
      x = msg.m_messageId ∨ x ∈ cache.m_ids.map Prod.fst := by
  unfold EndpointMessageIdCache.HaveMessageAlreadyArrived
  cases h : cache.IsMessageInCache msg with
  | true =>
    have := (IsMessageInCache_iff cache msg).1 h
    simp only [Bool.not_true, Bool.false_eq_true, if_false]
    constructor
    · exact fun hx => Or.inr hx
    · rintro (hx | hx)
      · rw [hx]
        exact this
      · exact hx
  | false =>
    simp only [Bool.not_false, if_true, EndpointMessageIdCache.AddMessage]
    exact mem_keys_mapInsert _ _ _ _

/-- The first arrivals depend on the set of the ids held only. -/
theorem firstArrivals_congr (ps : List Packet) :
    ∀ (ids ids2 : List Nat), (∀ x, x ∈ ids ↔ x ∈ ids2) →
      ServerWorld.firstArrivals ids ps = ServerWorld.firstArrivals ids2 ps := by
  induction ps with
  | nil => intro _ _ _; rfl
  | cons p rest ih =>
    intro ids ids2 h
    simp only [ServerWorld.firstArrivals]
    by_cases hp : p.header.m_messageId ∈ ids
    · rw [if_pos hp, if_pos ((h _).1 hp)]
      exact ih ids ids2 h
    · rw [if_neg hp, if_neg (fun hq => hp ((h _).2 hq))]
      congr 1
      apply ih
      intro x
      simp only [List.mem_cons, h x]

/-- The first arrivals carry pairwise different ids, none of which was held at the start. -/
theorem firstArrivals_nodup (ps : List Packet) :
    ∀ (ids : List Nat),
      (∀ p ∈ ServerWorld.firstArrivals ids ps, p.header.m_messageId ∉ ids ∧ p ∈ ps) ∧
      ((ServerWorld.firstArrivals ids ps).map (fun p => p.header.m_messageId)).Nodup := by
  induction ps with
  | nil =>
    intro ids
    exact ⟨fun p hp => (by cases hp), List.nodup_nil⟩
  | cons p rest ih =>
    intro ids
    simp only [ServerWorld.firstArrivals]
    by_cases hp : p.header.m_messageId ∈ ids
    · rw [if_pos hp]
      exact ⟨fun q hq => ⟨((ih ids).1 q hq).1, List.mem_cons_of_mem _ ((ih ids).1 q hq).2⟩,
        (ih ids).2⟩
    · rw [if_neg hp]
      obtain ⟨i1, i2⟩ := ih (p.header.m_messageId :: ids)
      refine ⟨?_, ?_⟩
      · intro q hq
        rcases List.mem_cons.1 hq with rfl | hq
        · exact ⟨hp, List.mem_cons_self _ _⟩
        · exact ⟨fun h => (i1 q hq).1 (List.mem_cons_of_mem _ h),
            List.mem_cons_of_mem _ (i1 q hq).2⟩
      · rw [List.map_cons, List.nodup_cons]
        refine ⟨?_, i2⟩
        intro hmem
        obtain ⟨q, hq, hqe⟩ := List.mem_map.1 hmem
        exact (i1 q hq).1 (by rw [hqe]; exact List.mem_cons_self _ _)

/-- The body of the loop of `ReceiveRequest` for a packet that carries a message. -/
theorem ReceiveRequest_body_exact (env : Env) (w : ServerWorld) (p : Packet)
    (ho : w.ep.m_socketOpen = true) (hl : w.s_msgCounters.length = 4)
    (hsize : 0 < p.size)
    (ht : 1 ≤ p.header.m_messageType ∧ p.header.m_messageType ≤ 4) :
    ∃ w2 ext, UdpServerMessageEndpoint.ReceiveRequest.body env w p = some w2 ∧
      w2.trace = w.trace ++ ext ∧ w2.now = w.now ∧ w2.ep.m_socketOpen = true ∧
      w2.s_msgCounters.length = 4 ∧
      w2.ep.m_msgCache = (w.ep.m_msgCache.HaveMessageAlreadyArrived p.header w.now).2 ∧
      (ServerWorld.acks ext).map
          (fun a => (a.1.m_messageType, a.1.m_relatedToMessageId, a.2)) =
        [(Message.MTACK, p.header.m_messageId, p.sender)] ∧
      ServerWorld.deliveries ext =
        if w.ep.m_msgCache.IsMessageInCache p.header = true then []
        else [(p.header, p.sender)] := by
  unfold UdpServerMessageEndpoint.ReceiveRequest.body
  simp only [gt_iff_lt, hsize, if_true]
  have hfst : (w.ep.m_msgCache.HaveMessageAlreadyArrived p.header w.now).1 =
      w.ep.m_msgCache.IsMessageInCache p.header := by
    unfold EndpointMessageIdCache.HaveMessageAlreadyArrived
    cases w.ep.m_msgCache.IsMessageInCache p.header <;> rfl
  rw [← hfst]
  generalize w.ep.m_msgCache.HaveMessageAlreadyArrived p.header w.now = res
  obtain ⟨have1, cache⟩ := res
  simp only
  obtain ⟨cs1, h1, e1⟩ := Server_RecordReceiveMessage_exact
    { w with ep := { w.ep with m_msgCache := cache } } p.header p.sender have1 ht hl
  simp only [e1, Option.bind_eq_bind, Option.some_bind]
  obtain ⟨cs2, ext2, h2, e2, a2, d2⟩ := SendACK_exact env
    { w with
      ep := { w.ep with m_msgCache := cache }
      trace := w.trace ++ [(w.now, ServerOutput.RecordReceiveMessage p.header p.sender have1)]
      s_msgCounters := cs1 } p.header p.sender ho h1
  simp only [e2, Option.some_bind]
  have hacks : ∀ (l1 l2 : List (Time × ServerOutput)),
      ServerWorld.acks (l1 ++ l2) = ServerWorld.acks l1 ++ ServerWorld.acks l2 := by
    intro l1 l2
    induction l1 with
    | nil => rfl
    | cons x rest ih =>
      obtain ⟨t, o⟩ := x
      cases o <;> simp [ServerWorld.acks, ih]
  have hdel : ∀ (l1 l2 : List (Time × ServerOutput)),
      ServerWorld.deliveries (l1 ++ l2) =
        ServerWorld.deliveries l1 ++ ServerWorld.deliveries l2 := by
    intro l1 l2
    induction l1 with
    | nil => rfl
    | cons x rest ih =>
      obtain ⟨t, o⟩ := x
      cases o <;> simp [ServerWorld.deliveries, ih]
  have hack : (ServerWorld.acks ext2).map
      (fun a => (a.1.m_messageType, a.1.m_relatedToMessageId, a.2)) =
      [(Message.MTACK, p.header.m_messageId, p.sender)] := by
    rw [a2]
    rfl
  cases have1 with
  | true =>
    refine ⟨_, [(w.now, ServerOutput.RecordReceiveMessage p.header p.sender true)] ++ ext2,
      rfl, ?_, rfl, ho, h2, rfl, ?_, ?_⟩
    · simp
    · rw [hacks]
      simpa [ServerWorld.acks] using hack
    · rw [hdel, d2]
      simp [ServerWorld.deliveries]
  | false =>
    refine ⟨_, [(w.now, ServerOutput.RecordReceiveMessage p.header p.sender false)] ++ ext2
      ++ [(w.now, ServerOutput.OnReceiveRequest p.header p.sender)],
      rfl, ?_, rfl, ho, h2, rfl, ?_, ?_⟩
    · simp [ServerWorld.emit]
    · rw [hacks, hacks]
      simpa [ServerWorld.acks] using hack
    · rw [hdel, hdel, d2]
      simp [ServerWorld.deliveries]

/-- The ACKs of a trace made of two parts. -/
theorem acks_append (l1 l2 : List (Time × ServerOutput)) :
    ServerWorld.acks (l1 ++ l2) = ServerWorld.acks l1 ++ ServerWorld.acks l2 := by
  induction l1 with
  | nil => rfl
  | cons x rest ih =>
    obtain ⟨t, o⟩ := x
    cases o <;> simp [ServerWorld.acks, ih]

/-- The deliveries of a trace made of two parts. -/
theorem deliveries_append (l1 l2 : List (Time × ServerOutput)) :
    ServerWorld.deliveries (l1 ++ l2) =
      ServerWorld.deliveries l1 ++ ServerWorld.deliveries l2 := by
  induction l1 with
  | nil => rfl
  | cons x rest ih =>
    obtain ⟨t, o⟩ := x
    cases o <;> simp [ServerWorld.deliveries, ih]

/-- The method `ReceiveRequest` on packets that each carry a message of a valid type: every
packet is processed, one ACK is sent for each, and the first arrivals are delivered. -/
theorem ReceiveRequest_exact (env : Env) (packets : List Packet) :
    ∀ (w : ServerWorld), w.ep.m_socketOpen = true → w.s_msgCounters.length = 4 →
      (∀ p ∈ packets, 0 < p.size ∧ 1 ≤ p.header.m_messageType ∧ p.header.m_messageType ≤ 4) →
      ∃ w2 ext, UdpServerMessageEndpoint.ReceiveRequest env w packets = some w2 ∧
        w2.trace = w.trace ++ ext ∧ w2.now = w.now ∧ w2.ep.m_socketOpen = true ∧
        w2.s_msgCounters.length = 4 ∧
        (∀ x, x ∈ w2.ep.m_msgCache.m_ids.map Prod.fst ↔
          x ∈ w.ep.m_msgCache.m_ids.map Prod.fst ∨
            x ∈ packets.map (fun p => p.header.m_messageId)) ∧
        (ServerWorld.acks ext).map
            (fun a => (a.1.m_messageType, a.1.m_relatedToMessageId, a.2)) =
          packets.map (fun p => (Message.MTACK, p.header.m_messageId, p.sender)) ∧
        ServerWorld.deliveries ext =
          (ServerWorld.firstArrivals (w.ep.m_msgCache.m_ids.map Prod.fst) packets).map
            (fun p => (p.header, p.sender)) := by
  induction packets with
  | nil =>
    intro w ho hl _
    exact ⟨w, [], rfl, by simp, rfl, ho, hl, by simp, rfl, rfl⟩
  | cons p rest ih =>
    intro w ho hl ht
    obtain ⟨hsize, hty⟩ := ht p (List.mem_cons_self _ _)
    obtain ⟨w1, ext1, b1, b2, b3, b4, b5, b6, b7, b8⟩ :=
      ReceiveRequest_body_exact env w p ho hl hsize hty
    obtain ⟨w2, ext2, c1, c2, c3, c4, c5, c6, c7, c8⟩ := ih w1 b4 b5
      (fun q hq => ht q (List.mem_cons_of_mem _ hq))
    have hids : ∀ x, x ∈ w1.ep.m_msgCache.m_ids.map Prod.fst ↔
        x = p.header.m_messageId ∨ x ∈ w.ep.m_msgCache.m_ids.map Prod.fst := by
      intro x
      rw [b6]
      exact mem_ids_HaveMessageAlreadyArrived _ _ _ _
    refine ⟨w2, ext1 ++ ext2, ?_, ?_, c3.trans b3, c4, c5, ?_, ?_, ?_⟩
    · simp only [UdpServerMessageEndpoint.ReceiveRequest, b1, Option.some_bind]
      exact c1
    · rw [c2, b2, List.append_assoc]
    · intro x
      rw [c6 x, hids x]
      simp only [List.map_cons, List.mem_cons]
      tauto
    · rw [acks_append, List.map_append, b7, c7]
      rfl
    · rw [deliveries_append, b8, c8]
      simp only [ServerWorld.firstArrivals]
      by_cases hin : w.ep.m_msgCache.IsMessageInCache p.header = true
      · have hmem := (IsMessageInCache_iff _ _).1 hin
        rw [if_pos hin, if_pos hmem, List.nil_append]
        congr 1
        apply firstArrivals_congr
        intro x
        rw [hids x]
        constructor
        · rintro (h | h)
          · rw [h]
            exact hmem
          · exact h
        · exact fun h => Or.inr h
      · have hmem : p.header.m_messageId ∉ w.ep.m_msgCache.m_ids.map Prod.fst :=
          fun h => hin ((IsMessageInCache_iff _ _).2 h)
        rw [if_neg hin, if_neg hmem, List.map_cons, List.singleton_append]
        congr 2
        apply firstArrivals_congr
        intro x
        rw [hids x]
        simp only [List.mem_cons]

/-- C11: for every sequence of packets read by `ReceiveRequest` on an open server endpoint,
each carrying a message of one of the four message types, the endpoint hands exactly one
ACK to the socket for each message, in order, with `relatedToMessageId` the id of the
message and the sender as destination (also for a duplicate); it hands to
`OnReceiveRequest` exactly the messages whose id was not in the id cache when they arrived,
that is neither in the cache at the start nor carried by an earlier packet; so the delivered
messages have pairwise different ids, none of them in the cache before, and afterwards the
cache holds the id of every message received (and the ids it held before), so that a copy
that arrives while the cache holds the id is acknowledged but not delivered. -/
theorem C11_server_acks_all_delivers_first (env : Env) (w : ServerWorld)
    (packets : List Packet)
    (ho : w.ep.m_socketOpen = true) (hl : w.s_msgCounters.length = 4)
    (ht : ∀ p ∈ packets,
      0 < p.size ∧ 1 ≤ p.header.m_messageType ∧ p.header.m_messageType ≤ 4) :
    ∃ w2 ext, UdpServerMessageEndpoint.ReceiveRequest env w packets = some w2 ∧
      w2.trace = w.trace ++ ext ∧
      (ServerWorld.acks ext).map
          (fun a => (a.1.m_messageType, a.1.m_relatedToMessageId, a.2)) =
        packets.map (fun p => (Message.MTACK, p.header.m_messageId, p.sender)) ∧
      ServerWorld.deliveries ext =
        (ServerWorld.firstArrivals (w.ep.m_msgCache.m_ids.map Prod.fst) packets).map
          (fun p => (p.header, p.sender)) ∧
      ((ServerWorld.deliveries ext).map (fun d => d.1.m_messageId)).Nodup ∧
      (∀ d ∈ ServerWorld.deliveries ext, w.ep.m_msgCache.IsMessageInCache d.1 = false) ∧
      (∀ p ∈ packets, w.ep.m_msgCache.IsMessageInCache p.header = true →
        (p.header, p.sender) ∉ ServerWorld.deliveries ext) ∧
      (∀ p ∈ packets, w2.ep.m_msgCache.IsMessageInCache p.header = true) ∧
      (∀ m, w.ep.m_msgCache.IsMessageInCache m = true →
        w2.ep.m_msgCache.IsMessageInCache m = true) ∧
      w2.ep.m_socketOpen = true ∧ w2.s_msgCounters.length = 4 ∧ w2.now = w.now := by
  obtain ⟨w2, ext, c1, c2, c3, c4, c5, c6, c7, c8⟩ := ReceiveRequest_exact env packets w ho hl ht
  obtain ⟨n1, n2⟩ := firstArrivals_nodup packets (w.ep.m_msgCache.m_ids.map Prod.fst)
  have hdel : ∀ d ∈ ServerWorld.deliveries ext,
      w.ep.m_msgCache.IsMessageInCache d.1 = false := by
    intro d hd
    rw [c8] at hd
    obtain ⟨q, hq, rfl⟩ := List.mem_map.1 hd
    have := (n1 q hq).1
    cases hc : w.ep.m_msgCache.IsMessageInCache q.header with
    | false => rfl
    | true => exact absurd ((IsMessageInCache_iff _ _).1 hc) this
  refine ⟨w2, ext, c1, c2, c7, c8, ?_, hdel, ?_, ?_, ?_, c4, c5, c3⟩
  · rw [c8, List.map_map]
    exact n2
  · intro p _ hin hmem
    have := hdel _ hmem
    rw [hin] at this
    cases this
  · intro p hp
    rw [IsMessageInCache_iff, c6]
    exact Or.inr (List.mem_map_of_mem _ hp)
  · intro m hm
    rw [IsMessageInCache_iff] at hm ⊢
    rw [c6]
    exact Or.inl hm

/-- C11 at the example server with two copies of the request 5 waiting on the socket: two
ACKs for message 5, one delivery. -/
theorem C11_server_acks_all_delivers_first_witness :
    ∃ w2 ext, UdpServerMessageEndpoint.ReceiveRequest exampleEnvSending exampleServerWorld
        [examplePacketRequest, examplePacketRequest] = some w2 ∧
      w2.trace = exampleServerWorld.trace ++ ext ∧
      (ServerWorld.acks ext).map
          (fun a => (a.1.m_messageType, a.1.m_relatedToMessageId, a.2)) =
        [(Message.MTACK, 5, 9), (Message.MTACK, 5, 9)] ∧
      ServerWorld.deliveries ext = [(examplePacketRequest.header, 9)] := by
  obtain ⟨w2, ext, h1, h2, h3, h4, -⟩ := C11_server_acks_all_delivers_first exampleEnvSending
    exampleServerWorld [examplePacketRequest, examplePacketRequest] rfl rfl (by decide)
  exact ⟨w2, ext, h1, h2, h3, h4⟩

/-- C4, the run that refutes the claim as it stands: the plan of the example task fails
with a send failure of a downstream call at 7 ms; the executer schedules `PlanFinished
(false)` after the post-plan-error delay (4 ms), and when that event runs at 11 ms the task
hands a ResponseException for the request to its response endpoint, addressed to the
requester. -/
theorem C4_counterexample :
    TaskWorld.sent
        (ServiceExecutionPlanExecuter.Request_onSendFailureCallback
          exampleTaskWorld).fireFinishedWithError.trace =
      [(MilliSeconds 11,
        (Message.new.InitializeResponseException exampleRequest 40).1, 9, false)] ∧
    (Message.new.InitializeResponseException exampleRequest 40).1.m_messageType =
      Message.MTResponseException := by
  decide

/-- C4, amended: when the plan of a requested method fails because a downstream call ended
in send failure, the executer schedules `PlanFinished (false)` after the post-plan-error
delay of the plan, and when that event runs the task hands exactly one message to its
response endpoint: a ResponseException for the request (related to its id, in its
conversation), addressed to the requester, without waiting for a response. No Response is
sent. -/
theorem C4_send_failure_is_answered_by_exception (w : TaskWorld) :
    (ServiceExecutionPlanExecuter.Request_onSendFailureCallback w).m_finishedWithErrorDelay =
      some (w.now + MilliSeconds ((w.rng.integers.headD 0 % U32 : Nat) : Int),
        TaskEvent.PlanFinished false) ∧
    (ServiceExecutionPlanExecuter.Request_onSendFailureCallback w).trace = w.trace ∧
    ∃ msg,
      (ServiceExecutionPlanExecuter.Request_onSendFailureCallback
          w).fireFinishedWithError.trace =
        w.trace ++
          [(w.now + MilliSeconds ((w.rng.integers.headD 0 % U32 : Nat) : Int),
              TaskOutput.PlanExecuterStop),
           (w.now + MilliSeconds ((w.rng.integers.headD 0 % U32 : Nat) : Int),
              TaskOutput.SendMessage msg w.m_requestAddress false)] ∧
      msg.m_messageType = Message.MTResponseException ∧
      msg.m_relatedToMessageId = w.m_conversationMsg.m_messageId ∧
      msg.m_conversationId = w.m_conversationMsg.m_conversationId ∧
      msg.m_messageId = (w.s_messageCounter + 1) % U32 := by
  refine ⟨rfl, rfl, (Message.new.InitializeResponseException w.m_conversationMsg
    w.s_messageCounter).1, ?_, rfl, rfl, rfl, rfl⟩
  simp [ServiceExecutionPlanExecuter.Request_onSendFailureCallback,
    ServiceExecutionPlanExecuter.ExecutePlanFinishedWithErrorDelay,
    TaskWorld.fireFinishedWithError, ServiceExecutionPlanExecuter.PlanFinished,
    ServiceRequestTask.OnExecutionStopCallback, ServiceRequestTask.OnExecutionStop,
    TaskWorld.emit, RandomVariable.GetInteger]

/-- The run of the pending `OnExecutionStop (false, flag)` of a task: a ResponseException
for the request is handed to the response endpoint when the flag is set, nothing otherwise. -/
theorem fireErrorStop_sent (w : TaskWorld) (ts : Time) (flag : Bool)
    (h : w.m_errorStopEvent = some (ts, TaskEvent.OnExecutionStop false flag)) :
    w.fireErrorStop.trace = w.trace ++
      (if flag = true then
        [(ts, TaskOutput.SendMessage
          (Message.new.InitializeResponseException w.m_conversationMsg w.s_messageCounter).1
          w.m_requestAddress false)]
       else []) := by
  unfold TaskWorld.fireErrorStop
  rw [h]
  cases flag <;>
    simp [ServiceRequestTask.OnExecutionStop, TaskWorld.emit, RandomVariable.GetInteger]

/-- C14: `ServiceRequestTask::Start` queries the fault model of the service first, with the
flag cleared. If it reports corrupt, the requested method with its fault model is left as it
is, the plan executer is not started, the error is recorded, and `OnExecutionStop` is
scheduled after the post-error delay of the service with the flag that this query left; if
not, the fault model of the method is queried next (with the draws and the flag that the
first query left), and the plan executer is started exactly when that query does not report
corrupt either, else `OnExecutionStop` is scheduled in the same way with the flag of the
second query. When the scheduled event runs, a ResponseException for the request is sent to
the requester if the flag is set, and nothing is sent if it is not. -/
theorem C14_Start_queries_service_then_method (w : TaskWorld) :
    ((w.m_service.m_faultModel.IsCorrupt w.now w.rng false).1 = true →
      (ServiceRequestTask.Start w).m_requestMethod = w.m_requestMethod ∧
      (ServiceRequestTask.Start w).m_service.m_faultModel =
        (w.m_service.m_faultModel.IsCorrupt w.now w.rng false).2.2.1 ∧
      (ServiceRequestTask.Start w).trace = w.trace ++
        [(w.now, TaskOutput.RecordError w.m_service.m_serviceId
          ProcessingErrorType.ERROR_TYPE_SERVICE_PROCESSING w.m_conversationMsg)] ∧
      (ServiceRequestTask.Start w).m_errorStopEvent =
        some (w.now + MilliSeconds
            (((w.m_service.m_faultModel.IsCorrupt w.now w.rng false).2.2.2.integers.headD 0
              % U32 : Nat) : Int),
          TaskEvent.OnExecutionStop false
            (w.m_service.m_faultModel.IsCorrupt w.now w.rng false).2.1) ∧
      (ServiceRequestTask.Start w).fireErrorStop.trace = (ServiceRequestTask.Start w).trace ++
        (if (w.m_service.m_faultModel.IsCorrupt w.now w.rng false).2.1 = true then
          [(w.now + MilliSeconds
              (((w.m_service.m_faultModel.IsCorrupt w.now w.rng false).2.2.2.integers.headD 0
                % U32 : Nat) : Int),
            TaskOutput.SendMessage
              (Message.new.InitializeResponseException w.m_conversationMsg
                w.s_messageCounter).1
              w.m_requestAddress false)]
         else [])) ∧
    ((w.m_service.m_faultModel.IsCorrupt w.now w.rng false).1 = false →
      (ServiceRequestTask.Start w).m_service.m_faultModel =
        (w.m_service.m_faultModel.IsCorrupt w.now w.rng false).2.2.1 ∧
      (ServiceRequestTask.Start w).m_requestMethod.m_faultModel =
        (w.m_requestMethod.m_faultModel.IsCorrupt w.now
          (w.m_service.m_faultModel.IsCorrupt w.now w.rng false).2.2.2
          (w.m_service.m_faultModel.IsCorrupt w.now w.rng false).2.1).2.2.1 ∧
      ((w.m_requestMethod.m_faultModel.IsCorrupt w.now
          (w.m_service.m_faultModel.IsCorrupt w.now w.rng false).2.2.2
          (w.m_service.m_faultModel.IsCorrupt w.now w.rng false).2.1).1 = false →
        (ServiceRequestTask.Start w).trace = w.trace ++ [(w.now, TaskOutput.PlanExecuterStart)] ∧
        (ServiceRequestTask.Start w).m_errorStopEvent = w.m_errorStopEvent) ∧
      ((w.m_requestMethod.m_faultModel.IsCorrupt w.now
          (w.m_service.m_faultModel.IsCorrupt w.now w.rng false).2.2.2
          (w.m_service.m_faultModel.IsCorrupt w.now w.rng false).2.1).1 = true →
        (ServiceRequestTask.Start w).trace = w.trace ++
          [(w.now, TaskOutput.RecordError w.m_service.m_serviceId
            ProcessingErrorType.ERROR_TYPE_METHOD_PROCESSING w.m_conversationMsg)] ∧
        (ServiceRequestTask.Start w).m_errorStopEvent =
          some (w.now + MilliSeconds
              (((w.m_requestMethod.m_faultModel.IsCorrupt w.now
                  (w.m_service.m_faultModel.IsCorrupt w.now w.rng false).2.2.2
                  (w.m_service.m_faultModel.IsCorrupt w.now w.rng false).2.1).2.2.2.integers.headD
                0 % U32 : Nat) : Int),
            TaskEvent.OnExecutionStop false
              (w.m_requestMethod.m_faultModel.IsCorrupt w.now
                (w.m_service.m_faultModel.IsCorrupt w.now w.rng false).2.2.2
                (w.m_service.m_faultModel.IsCorrupt w.now w.rng false).2.1).2.1) ∧
        (ServiceRequestTask.Start w).fireErrorStop.trace =
          (ServiceRequestTask.Start w).trace ++
          (if (w.m_requestMethod.m_faultModel.IsCorrupt w.now
                (w.m_service.m_faultModel.IsCorrupt w.now w.rng false).2.2.2
                (w.m_service.m_faultModel.IsCorrupt w.now w.rng false).2.1).2.1 = true then
            [(w.now + MilliSeconds
                (((w.m_requestMethod.m_faultModel.IsCorrupt w.now
                    (w.m_service.m_faultModel.IsCorrupt w.now w.rng false).2.2.2
                    (w.m_service.m_faultModel.IsCorrupt w.now w.rng
                      false).2.1).2.2.2.integers.headD 0 % U32 : Nat) : Int),
              TaskOutput.SendMessage
                (Message.new.InitializeResponseException w.m_conversationMsg
                  w.s_messageCounter).1
                w.m_requestAddress false)]
           else []))) := by
  rcases hs : w.m_service.m_faultModel.IsCorrupt w.now w.rng false with ⟨sc, sflag, sfm, rng1⟩
  rcases hm : w.m_requestMethod.m_faultModel.IsCorrupt w.now rng1 sflag with
    ⟨mc, mflag, mfm, rng2⟩
  simp only
  constructor
  · intro hsc
    subst hsc
    have hstart : ServiceRequestTask.Start w =
        { w with
          rng := { rng1 with integers := rng1.integers.tail }
          m_service := { w.m_service with m_faultModel := sfm }
          s_numberOfServiceFailures := (w.s_numberOfServiceFailures + 1) % U32
          trace := w.trace ++ [(w.now, TaskOutput.RecordError w.m_service.m_serviceId
            ProcessingErrorType.ERROR_TYPE_SERVICE_PROCESSING w.m_conversationMsg)]
          m_errorStopEvent := some (w.now + MilliSeconds
            ((rng1.integers.headD 0 % U32 : Nat) : Int),
            TaskEvent.OnExecutionStop false sflag) } := by
      simp [ServiceRequestTask.Start, ServiceRequestTask.IsServiceProcessingError, hs,
        ServiceRequestTask.ExecutionStopWithErrorDelay, TaskWorld.emit,
        RandomVariable.GetInteger]
    refine ⟨by rw [hstart], by rw [hstart], by rw [hstart], by rw [hstart], ?_⟩
    rw [fireErrorStop_sent (ServiceRequestTask.Start w) _ sflag (by rw [hstart])]
    rw [hstart]
  · intro hsc
    subst hsc
    cases mc with
    | false =>
      have hstart : ServiceRequestTask.Start w =
          { w with
            rng := rng2
            m_service := { w.m_service with m_faultModel := sfm }
            m_requestMethod := { w.m_requestMethod with m_faultModel := mfm }
            s_numberOfStartedMethods := (w.s_numberOfStartedMethods + 1) % U32
            trace := w.trace ++ [(w.now, TaskOutput.PlanExecuterStart)] } := by
        simp [ServiceRequestTask.Start, ServiceRequestTask.IsServiceProcessingError, hs,
          ServiceRequestTask.IsMethodProcessingError, hm, TaskWorld.emit]
      refine ⟨by rw [hstart], by rw [hstart], fun _ => ⟨by rw [hstart], by rw [hstart]⟩,
        fun h => by cases h⟩
    | true =>
      have hstart : ServiceRequestTask.Start w =
          { w with
            rng := { rng2 with integers := rng2.integers.tail }
            m_service := { w.m_service with m_faultModel := sfm }
            m_requestMethod := { w.m_requestMethod with m_faultModel := mfm }
            s_numberOfStartedMethods := (w.s_numberOfStartedMethods + 1) % U32
            s_numberOfFailedMethods := (w.s_numberOfFailedMethods + 1) % U32
            trace := w.trace ++ [(w.now, TaskOutput.RecordError w.m_service.m_serviceId
              ProcessingErrorType.ERROR_TYPE_METHOD_PROCESSING w.m_conversationMsg)]
            m_errorStopEvent := some (w.now + MilliSeconds
              ((rng2.integers.headD 0 % U32 : Nat) : Int),
              TaskEvent.OnExecutionStop false mflag) } := by
        simp [ServiceRequestTask.Start, ServiceRequestTask.IsServiceProcessingError, hs,
          ServiceRequestTask.IsMethodProcessingError, hm,
          ServiceRequestTask.ExecutionStopWithErrorDelay, TaskWorld.emit,
          RandomVariable.GetInteger]
      refine ⟨by rw [hstart], by rw [hstart], fun h => (by cases h), fun _ => ?_⟩
      refine ⟨by rw [hstart], by rw [hstart], ?_⟩
      rw [fireErrorStop_sent (ServiceRequestTask.Start w) _ mflag (by rw [hstart])]
      rw [hstart]

/-- The expiry of the response timer: the timers are cancelled, the timeout is recorded and
`OnResponseTimeout` is reported. -/
theorem Response_TimeoutExpired_exact (w : World) (m : Message)
    (hreq : w.ep.m_requestMessage = some m)
    (ht : 1 ≤ m.m_messageType ∧ m.m_messageType ≤ 4) (hl : w.s_msgCounters.length = 4) :
    ∃ cs, cs.length = 4 ∧
      UdpClientMessageEndpoint.Response_TimeoutExpired w =
        some { sim := (((w.sim.Cancel w.ep.m_responseTimeoutEvent).Cancel
                        w.ep.m_socketTimeoutEvent).Cancel
                        w.ep.m_ACKTimeoutEvent).Cancel w.ep.m_responseTimeoutEvent
               ep := w.ep
               s_messageCounter := w.s_messageCounter
               s_msgCounters := cs
               nSendTo := w.nSendTo
               trace := w.trace ++ [
                 (w.sim.now, Output.RecordError w.ep.m_serviceBase.m_serviceId
                   ErrorType.ERROR_TYPE_RESPONSE_TIMEOUT m.m_messageId),
                 (w.sim.now, Output.OnResponseTimeout)] } := by
  obtain ⟨cs, hcs, h⟩ := RecordResponseTimeout_exact
    (UdpClientMessageEndpoint.Response_CancelTimeout w) m ht hl
  refine ⟨cs, hcs, ?_⟩
  unfold UdpClientMessageEndpoint.Response_TimeoutExpired
  have hreq2 : (UdpClientMessageEndpoint.Response_CancelTimeout w).ep.m_requestMessage =
      some m := hreq
  simp only [hreq2, h, Option.bind_eq_bind, Option.some_bind, pure]
  simp [World.emit, UdpClientMessageEndpoint.Transition_ResponseTimeout,
    UdpClientMessageEndpoint.Response_CancelTimeout,
    UdpClientMessageEndpoint.ACK_CancelTimeout, UdpClientMessageEndpoint.Socket_CancelTimeout,
    Cancel_now]

/-- The receive loop on a related ACK that is not in the id cache, while the ACK timer is
pending: the id is stored, the retry timers are cancelled, `OnSendSuccess` is reported, and
the loop goes on with the next packet. -/
theorem ReceiveMessage_loop_ack (env : Env) (w : World) (p : Packet) (rest : List Packet)
    (req : Message) (hsize : 0 < p.size)
    (hreq : w.ep.m_requestMessage = some req)
    (hrel : p.header.m_relatedToMessageId = req.m_messageId)
    (hty : p.header.m_messageType = Message.MTACK)
    (hnew : w.ep.m_msgCache.IsMessageInCache p.header = false)
    (hl : w.s_msgCounters.length = 4)
    (hrun : w.sim.IsRunning w.ep.m_ACKTimeoutEvent = true) :
    ∃ cs, cs.length = 4 ∧
      UdpClientMessageEndpoint.ReceiveMessage.loop env (p :: rest) false w =
        UdpClientMessageEndpoint.ReceiveMessage.loop env rest false
          { sim := (w.sim.Cancel w.ep.m_socketTimeoutEvent).Cancel w.ep.m_ACKTimeoutEvent
            ep := { w.ep with m_msgCache := w.ep.m_msgCache.AddMessage p.header w.sim.now }
            s_messageCounter := w.s_messageCounter
            s_msgCounters := cs
            nSendTo := w.nSendTo
            trace := w.trace ++ [
              (w.sim.now, Output.RecordReceiveMessage p.header p.sender false),
              (w.sim.now, Output.OnSendSuccess)] } := by
  have hty2 : 1 ≤ p.header.m_messageType ∧ p.header.m_messageType ≤ 4 := by
    rw [hty]; decide
  obtain ⟨cs, hcs, h⟩ := RecordReceiveMessage_exact
    { w with ep := { w.ep with
        m_msgCache := w.ep.m_msgCache.AddMessage p.header w.sim.now } }
    p.header p.sender false hty2 hl
  refine ⟨cs, hcs, ?_⟩
  rw [UdpClientMessageEndpoint.ReceiveMessage.loop]
  have hhave : w.ep.m_msgCache.HaveMessageAlreadyArrived p.header w.sim.now =
      (false, w.ep.m_msgCache.AddMessage p.header w.sim.now) := by
    unfold EndpointMessageIdCache.HaveMessageAlreadyArrived
    rw [hnew]
    rfl
  have hcond : ¬ ((w.ep.m_requestMessage.isNone = true) ∨
      some p.header.m_relatedToMessageId ≠
        w.ep.m_requestMessage.map (fun r => r.m_messageId)) := by
    rw [hreq, hrel]
    simp
  simp only [gt_iff_lt, hsize, if_true, Bool.false_eq_true, if_false, hcond, hhave, h,
    Option.bind_eq_bind, Option.some_bind, Bool.not_false,
    UdpClientMessageEndpoint.Task_ProcessReceivedMessage, hty]
  congr 1
  have hrun2 : Simulator.IsRunning w.sim w.ep.m_ACKTimeoutEvent = true := hrun
  simp [UdpClientMessageEndpoint.Transition_ReceivedACK, hrun2, World.emit,
    UdpClientMessageEndpoint.ACK_CancelTimeout, UdpClientMessageEndpoint.Socket_CancelTimeout,
    UdpClientMessageEndpoint.State_WaitingForResponse, Cancel_now]

/-- The receive loop on a related response that is not in the id cache, as the last packet:
the id is stored, the three timers are cancelled, the response is acknowledged and handed to
`OnReceiveResponse`. -/
theorem ReceiveMessage_loop_response (env : Env) (w : World) (p : Packet)
    (req : Message) (hsize : 0 < p.size)
    (hreq : w.ep.m_requestMessage = some req)
    (hrel : p.header.m_relatedToMessageId = req.m_messageId)
    (hty : p.header.m_messageType = Message.MTResponse)
    (hnew : w.ep.m_msgCache.IsMessageInCache p.header = false)
    (hl : w.s_msgCounters.length = 4) (ho : w.ep.m_socketOpen = true) :
    ∃ cs ext, cs.length = 4 ∧
      UdpClientMessageEndpoint.ReceiveMessage.loop env [p] false w =
        some
          { sim := (((((w.sim.Cancel w.ep.m_socketTimeoutEvent).Cancel
                      w.ep.m_ACKTimeoutEvent).Cancel w.ep.m_responseTimeoutEvent).Cancel
                      w.ep.m_socketTimeoutEvent).Cancel
                      w.ep.m_ACKTimeoutEvent).Cancel w.ep.m_responseTimeoutEvent
            ep := { w.ep with
              m_msgCache := w.ep.m_msgCache.AddMessage p.header w.sim.now
              m_responseMessage := some p.header
              m_responseAddress := p.sender }
            s_messageCounter := (w.s_messageCounter + 1) % U32
            s_msgCounters := cs
            nSendTo := w.nSendTo + 1
            trace := w.trace ++ ext } ∧
      World.outcomes ext = [(w.sim.now, Output.OnReceiveResponse p.header)] ∧
      World.requestAttempts ext = [] := by
  have hty2 : 1 ≤ p.header.m_messageType ∧ p.header.m_messageType ≤ 4 := by
    rw [hty]; decide
  have htyA : ¬ p.header.m_messageType = Message.MTACK := by
    rw [hty]; decide
  obtain ⟨cs1, hcs1, h1⟩ := RecordReceiveMessage_exact
    { w with ep := { w.ep with
        m_msgCache := w.ep.m_msgCache.AddMessage p.header w.sim.now } }
    p.header p.sender false hty2 hl
  have hackty : 1 ≤ (Message.new.InitializeACK p.header w.s_messageCounter).1.m_messageType ∧
      (Message.new.InitializeACK p.header w.s_messageCounter).1.m_messageType ≤ 4 := by
    simp [Message.InitializeACK, Message.MTACK]
  obtain ⟨cs2, hcs2, h2⟩ := Task_SendMessage_msg_exact env
    { sim := (((((w.sim.Cancel w.ep.m_socketTimeoutEvent).Cancel
                w.ep.m_ACKTimeoutEvent).Cancel w.ep.m_responseTimeoutEvent).Cancel
                w.ep.m_socketTimeoutEvent).Cancel
                w.ep.m_ACKTimeoutEvent).Cancel w.ep.m_responseTimeoutEvent
      ep := { w.ep with
        m_msgCache := w.ep.m_msgCache.AddMessage p.header w.sim.now
        m_responseMessage := some p.header
        m_responseAddress := p.sender }
      s_messageCounter := (Message.new.InitializeACK p.header w.s_messageCounter).2
      s_msgCounters := cs1
      nSendTo := w.nSendTo
      trace := w.trace ++ [(w.sim.now, Output.RecordReceiveMessage p.header p.sender false)] }
    (Message.new.InitializeACK p.header w.s_messageCounter).1 p.sender 0 ho hackty hcs1
  generalize decide ((env.transport w.nSendTo % (U32 : Int)).toNat > 0) = ok at h2
  refine ⟨cs2, [(w.sim.now, Output.RecordReceiveMessage p.header p.sender false)] ++
    ((w.sim.now, Output.SendTo (Message.new.InitializeACK p.header w.s_messageCounter).1
        p.sender 0 ok) ::
      (if ok = true then []
       else [(w.sim.now, Output.RecordError w.ep.m_serviceBase.m_serviceId
          ErrorType.ERROR_TYPE_SOCKET_FAILURE
          (Message.new.InitializeACK p.header w.s_messageCounter).1.m_messageId)])) ++
    [(w.sim.now, Output.OnReceiveResponse p.header)], hcs2, ?_, ?_, ?_⟩
  · rw [UdpClientMessageEndpoint.ReceiveMessage.loop]
    have hhave : w.ep.m_msgCache.HaveMessageAlreadyArrived p.header w.sim.now =
        (false, w.ep.m_msgCache.AddMessage p.header w.sim.now) := by
      unfold EndpointMessageIdCache.HaveMessageAlreadyArrived
      rw [hnew]
      rfl
    have hcond : ¬ ((w.ep.m_requestMessage.isNone = true) ∨
        some p.header.m_relatedToMessageId ≠
          w.ep.m_requestMessage.map (fun r => r.m_messageId)) := by
      rw [hreq, hrel]
      simp
    simp only [gt_iff_lt, hsize, if_true, Bool.false_eq_true, if_false, hcond, hhave, h1,
      Option.bind_eq_bind, Option.some_bind, Bool.not_false,
      UdpClientMessageEndpoint.Task_ProcessReceivedMessage, htyA, hty, true_or,
      UdpClientMessageEndpoint.Transition_ReceivedResponse,
      UdpClientMessageEndpoint.State_HavingResponse,
      UdpClientMessageEndpoint.Task_SendACK,
      UdpClientMessageEndpoint.Response_CancelTimeout,
      UdpClientMessageEndpoint.ACK_CancelTimeout,
      UdpClientMessageEndpoint.Socket_CancelTimeout, pure,
      UdpClientMessageEndpoint.ReceiveMessage.drain]
    simp only [Cancel_now] at h2
    simp only [h2, Option.some_bind, World.emit, Cancel_now, List.append_assoc,
      List.singleton_append, List.cons_append, List.nil_append]
    rfl
  · cases ok <;> simp [World.outcomes]
  · cases ok <;> simp [World.requestAttempts]

/-- The removal run of the id cache is the next event of a call: it runs, schedules its next
run, and the state of the call stays. -/
theorem InCall_sweep (env : Env) {T0 : Time} {sb : ServiceBase} {req : Message}
    {S : ScheduledEvent} {pending : List ScheduledEvent} {fresh : Bool}
    {out : List (Time × Output)} {w : World}
    (h : w.InCall T0 sb req S pending fresh out)
    (hp : ∀ x ∈ pending, x.uid = 1 ∨ x.uid = 2 ∨ x.uid = 3)
    (hm : Simulator.earliest w.sim.events = some S) :
    ∃ w2, w.fire env = some w2 ∧
      w2.InCall T0 sb req
        { ts := S.ts + MilliSeconds 1000, uid := w.sim.nextUid,
          kind := EventKind.RemoveOldRecords } pending fresh out := by
  refine ⟨_, fire_sweep env w S hm h.sweep, ?_⟩
  have hn := h.nextUid
  refine ⟨rfl, ?_, ⟨Nat.lt_succ_self _, by show w.sim.nextUid ≠ 1; omega,
      by show w.sim.nextUid ≠ 2; omega, by show w.sim.nextUid ≠ 3; omega⟩,
    by show 3 < w.sim.nextUid + 1; omega, h.request, h.serviceBase, h.socketOpen, h.ackEvent,
    h.responseEvent, h.socketEvent, ?_, h.counters, h.attempts, h.outcomes⟩
  · intro x
    simp only [List.mem_append, List.mem_filter, List.mem_singleton, h.mem,
      decide_eq_true_eq]
    constructor
    · rintro (⟨hx | hx, hu⟩ | hx)
      · rw [hx] at hu
        exact absurd rfl hu
      · exact Or.inr hx
      · exact Or.inl hx
    · rintro (hx | hx)
      · exact Or.inr hx
      · refine Or.inl ⟨Or.inr hx, ?_⟩
        have := hp x hx
        have hs := h.suid
        omega
  · intro hf
    have hc := h.cache hf
    show (if w.ep.m_msgCache.m_ids.any (fun e => decide (e.2 < S.ts)) then
        env.eraseOutcome w.ep.m_msgCache.m_ids S.ts else w.ep.m_msgCache.m_ids) = []
    rw [hc]
    simp

/-- The next event of a call with a pending event `t`: the removal run, which is then not
due after `t`, or the first of the pending events. -/
theorem InCall_earliest {T0 : Time} {sb : ServiceBase} {req : Message}
    {S : ScheduledEvent} {pending : List ScheduledEvent} {fresh : Bool}
    {out : List (Time × Output)} {w : World}
    (h : w.InCall T0 sb req S pending fresh out) (t : ScheduledEvent) (ht : t ∈ pending) :
    ∃ m, Simulator.earliest w.sim.events = some m ∧
      ((m = S ∧ @LE.le Int _ S.ts t.ts) ∨
        (m ∈ pending ∧ ∀ x ∈ pending, m.before x = true)) := by
  have hSmem : S ∈ w.sim.events := (h.mem S).2 (Or.inl rfl)
  obtain ⟨m, hm⟩ := earliest_some (List.ne_nil_of_mem hSmem)
  refine ⟨m, hm, ?_⟩
  rcases (h.mem m).1 (earliest_mem hm) with hmS | hmP
  · left
    refine ⟨hmS, ?_⟩
    have hle := earliest_le hm t ((h.mem t).2 (Or.inr ht))
    rw [before_iff, hmS] at hle
    omega
  · right
    exact ⟨hmP, fun x hx => earliest_le hm x ((h.mem x).2 (Or.inr hx))⟩

/-- After finitely many removal runs the next event of a call with a pending event is one
of the pending events. -/
theorem InCall_reach (env : Env) {T0 : Time} {sb : ServiceBase} {req : Message}
    {pending : List ScheduledEvent} {fresh : Bool} {out : List (Time × Output)}
    (hp : ∀ x ∈ pending, x.uid = 1 ∨ x.uid = 2 ∨ x.uid = 3)
    (t : ScheduledEvent) (ht : t ∈ pending) (d : Nat) :
    ∀ (S : ScheduledEvent) (w : World), w.InCall T0 sb req S pending fresh out →
      Int.toNat (t.ts - S.ts + 1) ≤ d →
      ∃ n w2 S2 m, World.fires env n w = some w2 ∧
        w2.InCall T0 sb req S2 pending fresh out ∧
        Simulator.earliest w2.sim.events = some m ∧ m ∈ pending ∧
        ∀ x ∈ pending, m.before x = true := by
  induction d with
  | zero =>
    intro S w h hd
    obtain ⟨m, hm, hcase⟩ := InCall_earliest h t ht
    rcases hcase with ⟨_, hle⟩ | ⟨hmP, hall⟩
    · omega
    · exact ⟨0, w, S, m, rfl, h, hm, hmP, hall⟩
  | succ d ih =>
    intro S w h hd
    obtain ⟨m, hm, hcase⟩ := InCall_earliest h t ht
    rcases hcase with ⟨hmS, hle⟩ | ⟨hmP, hall⟩
    · rw [hmS] at hm
      obtain ⟨w1, hf, h1⟩ := InCall_sweep env h hp hm
      obtain ⟨n, w2, S2, m2, h2, hi2, he2, hm2, hall2⟩ := ih _ w1 h1 (by
        simp only [MilliSeconds_1000]
        omega)
      exact ⟨n + 1, w2, S2, m2, by simp only [World.fires, hf, Option.some_bind, h2], hi2, he2,
        hm2, hall2⟩
    · exact ⟨0, w, S, m, rfl, h, hm, hmP, hall⟩

/-- The arrival is the first of the three pending events of a call when it is due before the
ACK timer and before the response timer. -/
theorem arrival_first {T0 d : Time} {sb : ServiceBase} {packets : List Packet}
    {m : ScheduledEvent}
    (hdA : @LT.lt Int _ d sb.m_ACKTimeout) (hdR : @LT.lt Int _ d sb.m_responseTimeout)
    (hm : m ∈ [responseTimer T0 sb, ackTimer T0 sb, arrivalEvent T0 d packets])
    (hall : ∀ x ∈ [responseTimer T0 sb, ackTimer T0 sb, arrivalEvent T0 d packets],
      m.before x = true) :
    m = arrivalEvent T0 d packets := by
  have hb := hall (arrivalEvent T0 d packets) (by simp)
  rw [before_iff] at hb
  simp only [List.mem_cons, List.mem_singleton, List.not_mem_nil, or_false] at hm
  rcases hm with hm | hm | hm
  · rw [hm] at hb
    simp only [responseTimer, arrivalEvent] at hb
    omega
  · rw [hm] at hb
    simp only [ackTimer, arrivalEvent] at hb
    omega
  · exact hm

/-- The scheduling of an arrival by the network. -/
theorem deliver_exact (w : World) (d : Time) (packets : List Packet) (hd : 0 ≤ d) :
    w.deliver d packets = some
      { w with sim := { w.sim with
          nextUid := w.sim.nextUid + 1
          events := w.sim.events ++
            [{ ts := w.sim.now + d, uid := w.sim.nextUid,
               kind := EventKind.ReceiveMessage packets }] } } := by
  have hnd : ¬ d < 0 := not_lt.2 hd
  simp only [World.deliver, World.schedule, Simulator.Schedule, if_neg hnd,
    Option.bind_eq_bind, Option.some_bind, pure]

/-- The start of a call on a newly created endpoint whose first transmission is accepted by
the transport, followed by the scheduling of the arrival of `packets` after `d`. -/
theorem SendMessage_create_InCall (env : Env) (T0 : Time) (sb : ServiceBase) (wfr0 : Bool)
    (rc0 : Nat) (req : Message) (dest : Address) (waitForResponse : Bool) (d : Time)
    (packets : List Packet)
    (hok : (env.transport 0 % (U32 : Int)).toNat > 0)
    (ht : 1 ≤ req.m_messageType ∧ req.m_messageType ≤ 4)
    (hA : 0 ≤ sb.m_ACKTimeout) (hR : 0 ≤ sb.m_responseTimeout) (hd : 0 ≤ d) :
    ∃ w0 w1, UdpClientMessageEndpoint.SendMessage env (World.create T0 sb wfr0 rc0) req dest
        waitForResponse = some w0 ∧
      w0.deliver d packets = some w1 ∧
      World.requestAttempts w0.trace = [(T0, req)] ∧ World.outcomes w0.trace = [] ∧
      w1.InCall T0 sb req
        { ts := T0 + MilliSeconds 1000, uid := 0, kind := EventKind.RemoveOldRecords }
        [responseTimer T0 sb, ackTimer T0 sb, arrivalEvent T0 d packets] true [] := by
  have hstart := SendMessage_create env T0 sb wfr0 rc0 req dest waitForResponse hR
  obtain ⟨cs, hcs, h2⟩ := State_SendingRequest_sent env
    (World.started T0 sb req dest waitForResponse) req rfl ht rfl rfl hA hok
  obtain ⟨W0, hW0, h0⟩ := exists_eq_some (hstart.trans h2)
  have hatt : World.requestAttempts W0.trace = [(T0, req)] := by
    rw [hW0]
    simp [World.started, World.requestAttempts, (by decide : U32 ≠ 1)]
  have hout : World.outcomes W0.trace = [] := by
    rw [hW0]
    simp [World.started, World.outcomes]
  refine ⟨W0, _, h0, deliver_exact W0 d packets hd, hatt, hout, ?_⟩
  refine ⟨rfl, ?_, ?_, ?_, ?_, ?_, ?_, ?_, ?_, ?_, ?_, ?_, hatt, hout⟩
  · intro x
    rw [hW0]
    simp only [World.started, List.cons_append, List.nil_append, List.mem_cons,
      List.mem_singleton, List.not_mem_nil, or_false, responseTimer, ackTimer,
      arrivalEvent]
  · rw [hW0]
    exact ⟨by simp [World.started], by simp, by simp, by simp⟩
  · rw [hW0]
    simp [World.started]
  · rw [hW0]; rfl
  · rw [hW0]; rfl
  · rw [hW0]; rfl
  · rw [hW0]; rfl
  · rw [hW0]; rfl
  · rw [hW0]; rfl
  · intro _
    rw [hW0]; rfl
  · rw [hW0]; exact hcs

/-- The response timer is the next event of a call that waits for the response only: the
timeout is reported at `T0 + responseTimeout` and the call is over. -/
theorem InCall_response_timeout (env : Env) {T0 : Time} {sb : ServiceBase} {req : Message}
    {S : ScheduledEvent} {fresh : Bool} {out : List (Time × Output)} {w : World}
    (h : w.InCall T0 sb req S [responseTimer T0 sb] fresh out)
    (ht : 1 ≤ req.m_messageType ∧ req.m_messageType ≤ 4)
    (hm : Simulator.earliest w.sim.events = some (responseTimer T0 sb)) :
    ∃ w2, w.fire env = some w2 ∧
      w2.CallOver T0 req (out ++ [(T0 + sb.m_responseTimeout, Output.OnResponseTimeout)]) := by
  obtain ⟨W, hW, hfire⟩ : ∃ W : World,
      W = { sim := { now := T0 + sb.m_responseTimeout, nextUid := w.sim.nextUid,
                     events := w.sim.events.filter (fun x => x.uid ≠ 1) }
            ep := w.ep, s_messageCounter := w.s_messageCounter
            s_msgCounters := w.s_msgCounters, nSendTo := w.nSendTo, trace := w.trace } ∧
      w.fire env = UdpClientMessageEndpoint.Response_TimeoutExpired W := by
    refine ⟨_, rfl, ?_⟩
    unfold World.fire
    rw [hm]
    simp only [World.dispatch, responseTimer]
  have hreq : W.ep.m_requestMessage = some req := by rw [hW]; exact h.request
  have hl : W.s_msgCounters.length = 4 := by rw [hW]; exact h.counters
  obtain ⟨cs, hcs, h2⟩ := Response_TimeoutExpired_exact W req hreq ht hl
  refine ⟨_, hfire.trans h2, ?_, ?_, ?_⟩
  · intro x hx
    have hre : W.ep.m_responseTimeoutEvent = some 1 := by rw [hW]; exact h.responseEvent
    have hx1 : x ∈ W.sim.events ∧ x.uid ≠ 1 := by
      simp only [hre, Simulator.Cancel] at hx
      generalize W.ep.m_socketTimeoutEvent = se at hx
      generalize W.ep.m_ACKTimeoutEvent = ae at hx
      cases se <;> cases ae <;>
        simp only [Simulator.Cancel, List.mem_filter, decide_eq_true_eq] at hx <;> tauto
    have hx2 : x ∈ w.sim.events := by
      have := hx1.1
      rw [hW] at this
      exact (List.mem_filter.1 this).1
    rcases (h.mem x).1 hx2 with hx3 | hx3
    · rw [hx3]; exact h.sweep
    · simp only [List.mem_singleton] at hx3
      rw [hx3] at hx1
      exact absurd rfl hx1.2
  · show World.requestAttempts (W.trace ++ _) = _
    rw [requestAttempts_append]
    rw [hW]
    simp only [h.attempts, World.requestAttempts]
    simp
  · show World.outcomes (W.trace ++ _) = _
    rw [outcomes_append]
    rw [hW]
    simp only [h.outcomes]
    simp [World.outcomes]

/-- The arrival of packets is the next event of a call: `ReceiveMessage` is called with the
packets, at the time of the arrival, the arrival being taken out of the queue. -/
theorem InCall_fire_arrival (env : Env) {T0 d : Time} {sb : ServiceBase} {req : Message}
    {S : ScheduledEvent} {pending : List ScheduledEvent} {fresh : Bool}
    {out : List (Time × Output)} {packets : List Packet} {w : World}
    (h : w.InCall T0 sb req S pending fresh out)
    (hm : Simulator.earliest w.sim.events = some (arrivalEvent T0 d packets)) :
    w.fire env = UdpClientMessageEndpoint.ReceiveMessage.loop env packets false
      { sim := { now := T0 + d, nextUid := w.sim.nextUid,
                 events := w.sim.events.filter (fun x => x.uid ≠ 3) }
        ep := w.ep, s_messageCounter := w.s_messageCounter
        s_msgCounters := w.s_msgCounters, nSendTo := w.nSendTo, trace := w.trace } := by
  unfold World.fire
  rw [hm]
  simp only [World.dispatch, arrivalEvent, h.socketOpen, if_true,
    UdpClientMessageEndpoint.ReceiveMessage]

/-- The arrival of the ACK is the next event of a call that waits for it: `OnSendSuccess` is
reported at the time of the arrival, the ACK timer is cancelled, and the call waits for the
response. -/
theorem InCall_ack_arrival (env : Env) {T0 d : Time} {sb : ServiceBase} {req : Message}
    {S : ScheduledEvent} {ack : Packet} {w : World}
    (h : w.InCall T0 sb req S
      [responseTimer T0 sb, ackTimer T0 sb, arrivalEvent T0 d [ack]] true [])
    (hsize : 0 < ack.size)
    (hrel : ack.header.m_relatedToMessageId = req.m_messageId)
    (hty : ack.header.m_messageType = Message.MTACK)
    (hm : Simulator.earliest w.sim.events = some (arrivalEvent T0 d [ack])) :
    ∃ w2, w.fire env = some w2 ∧
      w2.InCall T0 sb req S [responseTimer T0 sb] false [(T0 + d, Output.OnSendSuccess)] := by
  obtain ⟨W, hW, hfire⟩ : ∃ W : World,
      W = { sim := { now := T0 + d, nextUid := w.sim.nextUid,
                     events := w.sim.events.filter (fun x => x.uid ≠ 3) }
            ep := w.ep, s_messageCounter := w.s_messageCounter
            s_msgCounters := w.s_msgCounters, nSendTo := w.nSendTo, trace := w.trace } ∧
      w.fire env = UdpClientMessageEndpoint.ReceiveMessage.loop env [ack] false W :=
    ⟨_, rfl, InCall_fire_arrival env h hm⟩
  have hreq : W.ep.m_requestMessage = some req := by rw [hW]; exact h.request
  have hl : W.s_msgCounters.length = 4 := by rw [hW]; exact h.counters
  have hae : W.ep.m_ACKTimeoutEvent = some 2 := by rw [hW]; exact h.ackEvent
  have hse : W.ep.m_socketTimeoutEvent = none := by rw [hW]; exact h.socketEvent
  have hnew : W.ep.m_msgCache.IsMessageInCache ack.header = false := by
    rw [hW]
    simp only [EndpointMessageIdCache.IsMessageInCache, h.cache rfl, mapFind,
      Option.isSome_none]
  have hmemW : ∀ x, x ∈ W.sim.events ↔ x = S ∨ x = responseTimer T0 sb ∨ x = ackTimer T0 sb := by
    intro x
    rw [hW]
    simp only [List.mem_filter, h.mem, decide_eq_true_eq, List.mem_cons, List.mem_singleton,
      List.not_mem_nil, or_false]
    constructor
    · rintro ⟨hx | hx | hx | hx, hu⟩
      · exact Or.inl hx
      · exact Or.inr (Or.inl hx)
      · exact Or.inr (Or.inr hx)
      · rw [hx] at hu
        exact absurd rfl hu
    · rintro (hx | hx | hx)
      · rw [hx]
        exact ⟨Or.inl rfl, h.suid.2.2.2⟩
      · rw [hx]
        exact ⟨Or.inr (Or.inl rfl), by simp [responseTimer]⟩
      · rw [hx]
        exact ⟨Or.inr (Or.inr (Or.inl rfl)), by simp [ackTimer]⟩
  have hrun : W.sim.IsRunning W.ep.m_ACKTimeoutEvent = true := by
    rw [hae]
    simp only [Simulator.IsRunning, List.any_eq_true, decide_eq_true_eq]
    exact ⟨ackTimer T0 sb, (hmemW _).2 (Or.inr (Or.inr rfl)), rfl⟩
  obtain ⟨cs, hcs, h2⟩ := ReceiveMessage_loop_ack env W ack [] req hsize hreq hrel hty hnew hl
    hrun
  rw [UdpClientMessageEndpoint.ReceiveMessage.loop] at h2
  refine ⟨_, hfire.trans h2, ?_⟩
  have hnu : W.sim.nextUid = w.sim.nextUid := by rw [hW]
  refine ⟨h.sweep, ?_, ?_, ?_, hreq, ?_, ?_, hae, ?_, hse, ?_, hcs, ?_, ?_⟩
  · intro x
    simp only [hse, hae, Simulator.Cancel, List.mem_filter, hmemW, decide_eq_true_eq,
      List.mem_singleton]
    constructor
    · rintro ⟨hx | hx | hx, hu⟩
      · exact Or.inl hx
      · exact Or.inr hx
      · rw [hx] at hu
        exact absurd rfl hu
    · rintro (hx | hx)
      · rw [hx]
        exact ⟨Or.inl rfl, h.suid.2.2.1⟩
      · rw [hx]
        exact ⟨Or.inr (Or.inl rfl), by simp [responseTimer]⟩
  · simp only [hse, hae, Simulator.Cancel, hnu]
    exact h.suid
  · simp only [hse, hae, Simulator.Cancel, hnu]
    exact h.nextUid
  · show W.ep.m_serviceBase = sb
    rw [hW]; exact h.serviceBase
  · show W.ep.m_socketOpen = true
    rw [hW]; exact h.socketOpen
  · show W.ep.m_responseTimeoutEvent = some 1
    rw [hW]; exact h.responseEvent
  · intro hf
    cases hf
  · show World.requestAttempts (W.trace ++ _) = _
    rw [requestAttempts_append]
    rw [hW]
    simp only [h.attempts, World.requestAttempts]
    simp
  · show World.outcomes (W.trace ++ _) = _
    rw [outcomes_append]
    rw [hW]
    simp only [h.outcomes]
    simp [World.outcomes]

/-- The arrival of the ACK together with the response is the next event of a call: both are
processed by one call of `ReceiveMessage`; `OnSendSuccess` is reported and the response is
handed to `OnReceiveResponse`, at the time of the arrival; all timers are cancelled and the
call is over. -/
theorem InCall_ack_response_arrival (env : Env) {T0 d : Time} {sb : ServiceBase}
    {req : Message} {S : ScheduledEvent} {ack rsp : Packet} {w : World}
    (h : w.InCall T0 sb req S
      [responseTimer T0 sb, ackTimer T0 sb, arrivalEvent T0 d [ack, rsp]] true [])
    (hsize : 0 < ack.size)
    (hrel : ack.header.m_relatedToMessageId = req.m_messageId)
    (hty : ack.header.m_messageType = Message.MTACK)
    (hsize2 : 0 < rsp.size)
    (hrel2 : rsp.header.m_relatedToMessageId = req.m_messageId)
    (hty2 : rsp.header.m_messageType = Message.MTResponse)
    (hne : rsp.header.m_messageId ≠ ack.header.m_messageId)
    (hm : Simulator.earliest w.sim.events = some (arrivalEvent T0 d [ack, rsp])) :
    ∃ w2, w.fire env = some w2 ∧
      w2.CallOver T0 req
        [(T0 + d, Output.OnSendSuccess), (T0 + d, Output.OnReceiveResponse rsp.header)] := by
  obtain ⟨W, hW, hfire⟩ : ∃ W : World,
      W = { sim := { now := T0 + d, nextUid := w.sim.nextUid,
                     events := w.sim.events.filter (fun x => x.uid ≠ 3) }
            ep := w.ep, s_messageCounter := w.s_messageCounter
            s_msgCounters := w.s_msgCounters, nSendTo := w.nSendTo, trace := w.trace } ∧
      w.fire env = UdpClientMessageEndpoint.ReceiveMessage.loop env [ack, rsp] false W :=
    ⟨_, rfl, InCall_fire_arrival env h hm⟩
  have hreq : W.ep.m_requestMessage = some req := by rw [hW]; exact h.request
  have hl : W.s_msgCounters.length = 4 := by rw [hW]; exact h.counters
  have hae : W.ep.m_ACKTimeoutEvent = some 2 := by rw [hW]; exact h.ackEvent
  have hse : W.ep.m_socketTimeoutEvent = none := by rw [hW]; exact h.socketEvent
  have hre : W.ep.m_responseTimeoutEvent = some 1 := by rw [hW]; exact h.responseEvent
  have hids : W.ep.m_msgCache.m_ids = [] := by rw [hW]; exact h.cache rfl
  have hnew : W.ep.m_msgCache.IsMessageInCache ack.header = false := by
    simp only [EndpointMessageIdCache.IsMessageInCache, hids, mapFind, Option.isSome_none]
  have hmemW : ∀ x, x ∈ W.sim.events → x = S ∨ x.uid = 1 ∨ x.uid = 2 := by
    intro x hx
    rw [hW] at hx
    simp only [List.mem_filter, h.mem, decide_eq_true_eq, List.mem_cons, List.mem_singleton,
      List.not_mem_nil, or_false] at hx
    rcases hx with ⟨hx | hx | hx | hx, hu⟩
    · exact Or.inl hx
    · rw [hx]; exact Or.inr (Or.inl rfl)
    · rw [hx]; exact Or.inr (Or.inr rfl)
    · rw [hx] at hu
      exact absurd rfl hu
  have hackmem : ackTimer T0 sb ∈ W.sim.events := by
    rw [hW]
    refine List.mem_filter.2 ⟨(h.mem _).2 (Or.inr ?_), by simp [ackTimer]⟩
    simp
  have hrun : W.sim.IsRunning W.ep.m_ACKTimeoutEvent = true := by
    rw [hae]
    simp only [Simulator.IsRunning, List.any_eq_true, decide_eq_true_eq]
    exact ⟨ackTimer T0 sb, hackmem, rfl⟩
  obtain ⟨cs, hcs, h2⟩ := ReceiveMessage_loop_ack env W ack [rsp] req hsize hreq hrel hty hnew
    hl hrun
  obtain ⟨W2, hW2, h2b⟩ : ∃ W2 : World,
      W2 = { sim := (W.sim.Cancel W.ep.m_socketTimeoutEvent).Cancel W.ep.m_ACKTimeoutEvent
             ep := { W.ep with m_msgCache := W.ep.m_msgCache.AddMessage ack.header W.sim.now }
             s_messageCounter := W.s_messageCounter
             s_msgCounters := cs
             nSendTo := W.nSendTo
             trace := W.trace ++ [
               (W.sim.now, Output.RecordReceiveMessage ack.header ack.sender false),
               (W.sim.now, Output.OnSendSuccess)] } ∧
      UdpClientMessageEndpoint.ReceiveMessage.loop env [ack, rsp] false W =
        UdpClientMessageEndpoint.ReceiveMessage.loop env [rsp] false W2 := ⟨_, rfl, h2⟩
  have hreq2 : W2.ep.m_requestMessage = some req := by rw [hW2]; exact hreq
  have hl2 : W2.s_msgCounters.length = 4 := by rw [hW2]; exact hcs
  have ho2 : W2.ep.m_socketOpen = true := by rw [hW2, hW]; exact h.socketOpen
  have hnew2 : W2.ep.m_msgCache.IsMessageInCache rsp.header = false := by
    rw [hW2]
    simp only [EndpointMessageIdCache.IsMessageInCache, EndpointMessageIdCache.AddMessage,
      hids, mapInsert, mapFind]
    have : ¬ ack.header.m_messageId = rsp.header.m_messageId := fun e => hne e.symm
    simp [this]
  obtain ⟨cs3, ext, hcs3, h3, hout3, hatt3⟩ := ReceiveMessage_loop_response env W2 rsp req
    hsize2 hreq2 hrel2 hty2 hnew2 hl2 ho2
  refine ⟨_, hfire.trans (h2b.trans h3), ?_, ?_, ?_⟩
  · intro x hx
    have hx1 : x ∈ W.sim.events ∧ x.uid ≠ 1 ∧ x.uid ≠ 2 := by
      have hae2 : W2.ep.m_ACKTimeoutEvent = some 2 := by rw [hW2]; exact hae
      have hse2 : W2.ep.m_socketTimeoutEvent = none := by rw [hW2]; exact hse
      have hre2 : W2.ep.m_responseTimeoutEvent = some 1 := by rw [hW2]; exact hre
      have hev2 : W2.sim.events = W.sim.events.filter (fun e => e.uid ≠ 2) := by
        rw [hW2]
        simp only [hse, hae, Simulator.Cancel]
      simp only [hae2, hse2, hre2, Simulator.Cancel, List.mem_filter, decide_eq_true_eq,
        hev2] at hx
      tauto
    rcases hmemW x hx1.1 with hx2 | hx2 | hx2
    · rw [hx2]; exact h.sweep
    · exact absurd hx2 hx1.2.1
    · exact absurd hx2 hx1.2.2
  · show World.requestAttempts (W2.trace ++ ext) = _
    rw [requestAttempts_append, hatt3, hW2]
    simp only [requestAttempts_append, List.append_nil]
    rw [hW]
    simp only [h.attempts, World.requestAttempts]
    simp
  · show World.outcomes (W2.trace ++ ext) = _
    rw [outcomes_append, hout3, hW2]
    simp only [outcomes_append]
    rw [hW]
    simp only [h.outcomes]
    simp [World.outcomes, Cancel_now]

/-- A call that is over stays over: every further step of the simulator is a removal run of
the id cache. -/
theorem CallOver_fires (env : Env) {T0 : Time} {req : Message} {out : List (Time × Output)}
    (n : Nat) (w : World) (h : w.CallOver T0 req out) :
    ∃ w2, World.fires env n w = some w2 ∧ w2.CallOver T0 req out := by
  obtain ⟨w2, h2, hq, htr⟩ := Quiescent_fires env n w h.quiescent
  exact ⟨w2, h2, hq, by rw [htr]; exact h.attempts, by rw [htr]; exact h.outcomes⟩

/-- The three pending events of a call that waits for the arrival have the uids 1, 2, 3. -/
theorem pending_uids (T0 d : Time) (sb : ServiceBase) (packets : List Packet) :
    ∀ x ∈ [responseTimer T0 sb, ackTimer T0 sb, arrivalEvent T0 d packets],
      x.uid = 1 ∨ x.uid = 2 ∨ x.uid = 3 := by
  intro x hx
  simp only [List.mem_cons, List.mem_singleton, List.not_mem_nil, or_false] at hx
  rcases hx with hx | hx | hx <;> rw [hx] <;> simp [responseTimer, ackTimer, arrivalEvent]

/-- The pending event of a call that waits for the response has the uid 1. -/
theorem pending_uid_response (T0 : Time) (sb : ServiceBase) :
    ∀ x ∈ [responseTimer T0 sb], x.uid = 1 ∨ x.uid = 2 ∨ x.uid = 3 := by
  intro x hx
  simp only [List.mem_singleton] at hx
  rw [hx]
  exact Or.inl rfl

/-- One step of the simulator keeps the invariant of a call whose ACK arrives alone. -/
theorem AckOnlyInv_fire (env : Env) {T0 d : Time} {sb : ServiceBase} {req : Message}
    {ack : Packet} (w : World) (h : w.AckOnlyInv T0 d sb req ack)
    (ht : 1 ≤ req.m_messageType ∧ req.m_messageType ≤ 4)
    (hdA : @LT.lt Int _ d sb.m_ACKTimeout) (hdR : @LT.lt Int _ d sb.m_responseTimeout)
    (hsize : 0 < ack.size)
    (hrel : ack.header.m_relatedToMessageId = req.m_messageId)
    (hty : ack.header.m_messageType = Message.MTACK) :
    ∃ w2, w.fire env = some w2 ∧ w2.AckOnlyInv T0 d sb req ack := by
  rcases h with ⟨S, h⟩ | ⟨S, h⟩ | h
  · obtain ⟨m, hm, hcase⟩ := InCall_earliest h (arrivalEvent T0 d [ack]) (by simp)
    rcases hcase with ⟨hmS, _⟩ | ⟨hmP, hall⟩
    · rw [hmS] at hm
      obtain ⟨w2, hf, h2⟩ := InCall_sweep env h (pending_uids T0 d sb [ack]) hm
      exact ⟨w2, hf, Or.inl ⟨_, h2⟩⟩
    · rw [arrival_first hdA hdR hmP hall] at hm
      obtain ⟨w2, hf, h2⟩ := InCall_ack_arrival env h hsize hrel hty hm
      exact ⟨w2, hf, Or.inr (Or.inl ⟨_, h2⟩)⟩
  · obtain ⟨m, hm, hcase⟩ := InCall_earliest h (responseTimer T0 sb) (by simp)
    rcases hcase with ⟨hmS, _⟩ | ⟨hmP, _⟩
    · rw [hmS] at hm
      obtain ⟨w2, hf, h2⟩ := InCall_sweep env h (pending_uid_response T0 sb) hm
      exact ⟨w2, hf, Or.inr (Or.inl ⟨_, h2⟩)⟩
    · rw [List.mem_singleton.1 hmP] at hm
      obtain ⟨w2, hf, h2⟩ := InCall_response_timeout env h ht hm
      exact ⟨w2, hf, Or.inr (Or.inr h2)⟩
  · obtain ⟨w2, hf, h2⟩ := CallOver_fires env 1 w h
    simp only [World.fires] at hf
    cases hfire : w.fire env with
    | none => rw [hfire] at hf; cases hf
    | some w3 =>
      rw [hfire] at hf
      simp only [Option.some_bind, Option.some.injEq] at hf
      subst hf
      exact ⟨w3, rfl, Or.inr (Or.inr h2)⟩

/-- Every number of steps of the simulator keeps the invariant of a call whose ACK arrives
alone. -/
theorem AckOnlyInv_fires (env : Env) {T0 d : Time} {sb : ServiceBase} {req : Message}
    {ack : Packet}
    (ht : 1 ≤ req.m_messageType ∧ req.m_messageType ≤ 4)
    (hdA : @LT.lt Int _ d sb.m_ACKTimeout) (hdR : @LT.lt Int _ d sb.m_responseTimeout)
    (hsize : 0 < ack.size)
    (hrel : ack.header.m_relatedToMessageId = req.m_messageId)
    (hty : ack.header.m_messageType = Message.MTACK) (n : Nat) :
    ∀ (w : World), w.AckOnlyInv T0 d sb req ack →
      ∃ w2, World.fires env n w = some w2 ∧ w2.AckOnlyInv T0 d sb req ack := by
  induction n with
  | zero => exact fun w h => ⟨w, rfl, h⟩
  | succ n ih =>
    intro w h
    obtain ⟨w1, h1, hi1⟩ := AckOnlyInv_fire env w h ht hdA hdR hsize hrel hty
    obtain ⟨w2, h2, hi2⟩ := ih w1 hi1
    exact ⟨w2, by simp only [World.fires, h1, Option.some_bind, h2], hi2⟩

/-- The facts about the trace that the invariant of a call whose ACK arrives alone gives. -/
theorem AckOnlyInv_facts {T0 d : Time} {sb : ServiceBase} {req : Message} {ack : Packet}
    {w : World} (h : w.AckOnlyInv T0 d sb req ack) :
    World.requestAttempts w.trace = [(T0, req)] ∧
    (World.outcomes w.trace = [] ∨
      World.outcomes w.trace = [(T0 + d, Output.OnSendSuccess)] ∨
      World.outcomes w.trace = [(T0 + d, Output.OnSendSuccess),
        (T0 + sb.m_responseTimeout, Output.OnResponseTimeout)]) := by
  rcases h with ⟨S, h⟩ | ⟨S, h⟩ | h
  · exact ⟨h.attempts, Or.inl h.outcomes⟩
  · exact ⟨h.attempts, Or.inr (Or.inl h.outcomes)⟩
  · exact ⟨h.attempts, Or.inr (Or.inr h.outcomes)⟩

/-- One step of the simulator keeps the invariant of a call whose ACK and response arrive
together. -/
theorem AnsweredInv_fire (env : Env) {T0 d : Time} {sb : ServiceBase} {req : Message}
    {ack rsp : Packet} (w : World) (h : w.AnsweredInv T0 d sb req ack rsp)
    (hdA : @LT.lt Int _ d sb.m_ACKTimeout) (hdR : @LT.lt Int _ d sb.m_responseTimeout)
    (hsize : 0 < ack.size)
    (hrel : ack.header.m_relatedToMessageId = req.m_messageId)
    (hty : ack.header.m_messageType = Message.MTACK)
    (hsize2 : 0 < rsp.size)
    (hrel2 : rsp.header.m_relatedToMessageId = req.m_messageId)
    (hty2 : rsp.header.m_messageType = Message.MTResponse)
    (hne : rsp.header.m_messageId ≠ ack.header.m_messageId) :
    ∃ w2, w.fire env = some w2 ∧ w2.AnsweredInv T0 d sb req ack rsp := by
  rcases h with ⟨S, h⟩ | h
  · obtain ⟨m, hm, hcase⟩ := InCall_earliest h (arrivalEvent T0 d [ack, rsp]) (by simp)
    rcases hcase with ⟨hmS, _⟩ | ⟨hmP, hall⟩
    · rw [hmS] at hm
      obtain ⟨w2, hf, h2⟩ := InCall_sweep env h (pending_uids T0 d sb [ack, rsp]) hm
      exact ⟨w2, hf, Or.inl ⟨_, h2⟩⟩
    · rw [arrival_first hdA hdR hmP hall] at hm
      obtain ⟨w2, hf, h2⟩ := InCall_ack_response_arrival env h hsize hrel hty hsize2 hrel2
        hty2 hne hm
      exact ⟨w2, hf, Or.inr h2⟩
  · obtain ⟨w2, hf, h2⟩ := CallOver_fires env 1 w h
    simp only [World.fires] at hf
    cases hfire : w.fire env with
    | none => rw [hfire] at hf; cases hf
    | some w3 =>
      rw [hfire] at hf
      simp only [Option.some_bind, Option.some.injEq] at hf
      subst hf
      exact ⟨w3, rfl, Or.inr h2⟩

/-- Every number of steps of the simulator keeps the invariant of a call whose ACK and
response arrive together. -/
theorem AnsweredInv_fires (env : Env) {T0 d : Time} {sb : ServiceBase} {req : Message}
    {ack rsp : Packet}
    (hdA : @LT.lt Int _ d sb.m_ACKTimeout) (hdR : @LT.lt Int _ d sb.m_responseTimeout)
    (hsize : 0 < ack.size)
    (hrel : ack.header.m_relatedToMessageId = req.m_messageId)
    (hty : ack.header.m_messageType = Message.MTACK)
    (hsize2 : 0 < rsp.size)
    (hrel2 : rsp.header.m_relatedToMessageId = req.m_messageId)
    (hty2 : rsp.header.m_messageType = Message.MTResponse)
    (hne : rsp.header.m_messageId ≠ ack.header.m_messageId) (n : Nat) :
    ∀ (w : World), w.AnsweredInv T0 d sb req ack rsp →
      ∃ w2, World.fires env n w = some w2 ∧ w2.AnsweredInv T0 d sb req ack rsp := by
  induction n with
  | zero => exact fun w h => ⟨w, rfl, h⟩
  | succ n ih =>
    intro w h
    obtain ⟨w1, h1, hi1⟩ := AnsweredInv_fire env w h hdA hdR hsize hrel hty hsize2 hrel2 hty2
      hne
    obtain ⟨w2, h2, hi2⟩ := ih w1 hi1
    exact ⟨w2, by simp only [World.fires, h1, Option.some_bind, h2], hi2⟩

end SS
